import Mathlib

/-!
# Flash mapping table: log-structured store, page cache and mapping tree

A shallow embedding of `device/flash/new flash` (`flash.h`, `io_wrapper.h`,
`lss.c`, `page_cache.c`, `mapping_table.c`).

Conventions of the embedding.

* Machine integers are `Nat`; arithmetic that can wrap is reduced with `u64`,
  `u32`, `u16`.
* A block buffer is its 64-bit header word followed by its 64-bit payload
  words.  The header bit-fields `type:2 | level:6 | logical_address:56` and the
  fields of `lss_segment_metadata_t` are read off the words with the layout a
  little-endian LP64 compiler gives them.
* The backing file of the flash is a map from block slots (one per write
  granularity) to block buffers.  I/O that is not one aligned block is outside
  the embedding and yields `Fault.unmodelled`.
* Pointers to cache entries are indices into one heap of entry objects shared
  by the two caches; the entry's block buffer is stored inside the entry.
* `assert` is enabled (the sources never define `NDEBUG`): a failed assertion
  aborts the program, which is the result `Fault.assertion file line`.  Undefined
  behaviour (division by zero, invalid access) is a fault as well.
* The functions of the cache and of the log call each other recursively; they
  are defined by recursion on a fuel argument, one unit per call or loop
  iteration, and end in `Fault.out_of_fuel` when it is used up.
-/

namespace Flash

set_option linter.unusedTactic false
set_option linter.unreachableTactic false

/-! ## Machine integers and constants -/

def u16 (x : Nat) : Nat := x % 2 ^ 16
def u32 (x : Nat) : Nat := x % 2 ^ 32
def u64 (x : Nat) : Nat := x % 2 ^ 64

/-- Subtraction of unsigned 64-bit values, wrapping around. -/
def u64_sub (a b : Nat) : Nat := (a % 2 ^ 64 + 2 ^ 64 - b % 2 ^ 64) % 2 ^ 64

def UINT32_MAX : Nat := 2 ^ 32 - 1
def UINT64_MAX : Nat := 2 ^ 64 - 1

def MTPC_CAPACITY : Nat := 8
def FLASH_DEFAULT_BLOCK_SIZE : Nat := 4096
def FLASH_DEFAULT_WRITE_GRANULARITY : Nat := 64
def FLASH_TOTAL_SIZE : Nat := FLASH_DEFAULT_BLOCK_SIZE * 6
def FLASH_INVALID_ADDRESS : Nat := UINT64_MAX

def MT_BLOCK : Nat := 0
def DATA_BLOCK : Nat := 1
def SEG_META_BLOCK : Nat := 2

def LSS_OK : Int := 0
def LSS_ERR : Int := -1

/-- The source files of the program. -/
inductive src_file where
  | io_wrapper_h
  | lss_c
  | page_cache_c
  | mapping_table_c
  deriving DecidableEq, Repr

/-- The ways an execution stops without returning.  A failed assertion is
named by its file and line. -/
inductive Fault where
  | assertion (file : src_file) (line : Nat)
  | div_by_zero
  | bad_access
  | unmodelled
  | out_of_fuel
  deriving DecidableEq, Repr

abbrev Res (α : Type) := Except Fault α

/-- Unsigned division as the machine does it: a zero divisor traps. -/
def udiv (a b : Nat) : Res Nat := if b = 0 then .error .div_by_zero else .ok (a / b)

/-- Unsigned remainder as the machine does it: a zero divisor traps. -/
def umod (a b : Nat) : Res Nat := if b = 0 then .error .div_by_zero else .ok (a % b)

/-! ## Blocks and their headers (`flash_block_t`) -/

/-- Size in bytes of `flash_block_t` (the header word; `data[]` is flexible). -/
def sizeof_flash_block_t : Nat := 8
/-- Size in bytes of `mapping_table_entry_t`. -/
def sizeof_mapping_table_entry_t : Nat := 8
/-- Size in bytes of `lss_realloc_entry_t`. -/
def sizeof_lss_realloc_entry_t : Nat := 24
/-- Size in bytes of `lss_segment_metadata_t`. -/
def sizeof_lss_segment_metadata_t : Nat := 32

def hdr_type (h : Nat) : Nat := h % 4
def hdr_level (h : Nat) : Nat := h / 4 % 64
def hdr_logical_address (h : Nat) : Nat := h / 256 % 2 ^ 56
/-- The value of `((uint32_t *)hdr)[0]`. -/
def hdr_word32 (h : Nat) : Nat := h % 2 ^ 32
def mk_hdr (type level logical_address : Nat) : Nat :=
  type % 4 + 4 * (level % 64) + 256 * (logical_address % 2 ^ 56)

structure flash_block_t where
  hdr : Nat
  data : List Nat
  deriving DecidableEq

namespace flash_block_t
def type (b : flash_block_t) : Nat := hdr_type b.hdr
def level (b : flash_block_t) : Nat := hdr_level b.hdr
def logical_address (b : flash_block_t) : Nat := hdr_logical_address b.hdr
def set_type (b : flash_block_t) (t : Nat) : flash_block_t :=
  { b with hdr := mk_hdr t b.level b.logical_address }
def set_level (b : flash_block_t) (l : Nat) : flash_block_t :=
  { b with hdr := mk_hdr b.type l b.logical_address }
def set_logical_address (b : flash_block_t) (a : Nat) : flash_block_t :=
  { b with hdr := mk_hdr b.type b.level a }
/-- The result of `memset(b->data, 0xFF, n * 8)`. -/
def fill_ones (b : flash_block_t) (n : Nat) : flash_block_t :=
  { b with data := List.replicate n UINT64_MAX }
end flash_block_t

/-- Number of payload words of a block of `block_size` bytes. -/
def payload_words (block_size : Nat) : Nat :=
  (block_size - sizeof_flash_block_t) / sizeof_mapping_table_entry_t

/-- Reads `entries[i].physical_address` of a block. -/
def read_entry (b : flash_block_t) (i : Nat) : Res Nat :=
  match b.data.get? i with
  | some v => .ok v
  | none => .error .bad_access

/-- Writes `entries[i].physical_address = v` of a block. -/
def write_entry (b : flash_block_t) (i v : Nat) : Res flash_block_t :=
  if i < b.data.length then .ok { b with data := b.data.set i v } else .error .bad_access

/-! ## The flash simulator (`io_wrapper.h`) -/

structure flash_t where
  size_bytes : Nat
  segment_size_bytes : Nat
  write_granularity_bytes : Nat
  /-- Contents of the backing file, by block slot. -/
  mem : Nat → flash_block_t

/-- An erased block: every byte is `0xFF`. -/
def erased_block (write_granularity : Nat) : flash_block_t :=
  { hdr := UINT64_MAX, data := List.replicate (payload_words write_granularity) UINT64_MAX }

def flash_open (image : Nat → flash_block_t) (size_bytes : Nat) : flash_t :=
  { size_bytes := size_bytes
    segment_size_bytes := FLASH_DEFAULT_BLOCK_SIZE
    write_granularity_bytes := FLASH_DEFAULT_WRITE_GRANULARITY
    mem := image }

def flash_read (flash : flash_t) (addr len : Nat) : Res flash_block_t :=
  if u64 (addr + len) > flash.size_bytes then .error (.assertion .io_wrapper_h 63)
  else if len ≠ flash.write_granularity_bytes ∨ len = 0 ∨ addr % len ≠ 0 then .error .unmodelled
  else .ok (flash.mem (addr / len))

def flash_write (flash : flash_t) (addr : Nat) (buf : flash_block_t) (len : Nat) : Res flash_t :=
  if u64 (addr + len) ≥ flash.size_bytes then .error (.assertion .io_wrapper_h 83)
  else if len ≠ flash.write_granularity_bytes ∨ len = 0 ∨ addr % len ≠ 0 then .error .unmodelled
  else .ok { flash with mem := fun i => if i = addr / len then buf else flash.mem i }

/-- The file after `pwrite(fd, ones, segment_size, offset)`. -/
def write_ones (flash : flash_t) (offset : Nat) : flash_t :=
  { flash with mem := fun i =>
      if offset ≤ i * flash.write_granularity_bytes
          ∧ i * flash.write_granularity_bytes < offset + flash.segment_size_bytes
      then erased_block flash.write_granularity_bytes else flash.mem i }

def flash_erase_segment (flash : flash_t) (segment_offset : Nat) : Res (Int × flash_t) :=
  if flash.segment_size_bytes = 0 then .error .div_by_zero
  else if segment_offset ≥ flash.size_bytes ∨ segment_offset % flash.segment_size_bytes ≠ 0 then
    .ok (-1, flash)
  else if flash.write_granularity_bytes = 0
      ∨ flash.segment_size_bytes % flash.write_granularity_bytes ≠ 0 then .error .unmodelled
  else .ok (0, write_ones flash segment_offset)

def flash_erase_all_loop (flash : flash_t) : Nat → Nat → Res flash_t
  | 0, offset => if offset < flash.size_bytes then .error .out_of_fuel else .ok flash
  | n + 1, offset =>
    if offset < flash.size_bytes then
      flash_erase_all_loop (write_ones flash offset) n (u64 (offset + flash.segment_size_bytes))
    else .ok flash

def flash_erase_all (flash : flash_t) : Res (Int × flash_t) :=
  if flash.write_granularity_bytes = 0
      ∨ flash.segment_size_bytes % flash.write_granularity_bytes ≠ 0 then .error .unmodelled
  else do
    let f ← flash_erase_all_loop flash flash.size_bytes 0
    return (0, f)

def flash_get_segment_size_bytes (flash : flash_t) : Nat := flash.segment_size_bytes
def flash_get_write_granularity (flash : flash_t) : Nat := flash.write_granularity_bytes
def flash_get_size (flash : flash_t) : Nat := flash.size_bytes

/-! ## State (`flash.h`) -/

structure mtpc_entry_t where
  start_range : Nat
  end_range : Nat
  value : flash_block_t
  parent : Option Nat
  pin_count : Nat
  dirty : Bool
  lru_prev : Option Nat
  lru_next : Option Nat

structure lss_realloc_entry_t where
  old_offset : Nat
  new_offset : Nat
  block_header : Nat

structure lss_segment_metadata_t where
  type : Nat
  contains_checkpoint : Bool
  block_size : Nat
  npage_mappings : Nat
  tail_offset : Nat
  seq_num : Nat
  deriving DecidableEq, Repr

/-- The two caches of a mapping table: `mtable->page_cache` and
`mtable->lss.page_cache`. -/
inductive mtpc_ref where
  | table
  | reader
  deriving DecidableEq, Repr

/-- A cache (`struct mtpc_s`).  `data` holds the first `size` slots of the
sorted pointer array, so `size` is its length. -/
structure mtpc_t where
  capacity : Nat
  data : List Nat
  lru_head : Option Nat
  lru_tail : Option Nat
  free_list : Option Nat
  child_cache : Option mtpc_ref
  parent_cache : Option mtpc_ref

def mtpc_t.size (c : mtpc_t) : Nat := c.data.length

/-- The log (`struct lss_s`).  `realloc_list` holds the first `realloc_count`
records of the array; the cache pointer `page_cache` is `mtpc_ref.reader`. -/
structure lss_t where
  flash : flash_t
  head : Nat
  tail : Nat
  realloc_list : List lss_realloc_entry_t
  realloc_capacity : Nat
  curr_segment_metadata : lss_segment_metadata_t

def lss_t.realloc_count (l : lss_t) : Nat := l.realloc_list.length

structure mapping_table_t where
  block_size : Nat
  root : flash_block_t
  root_offset : Nat
  npage_mappings : Nat
  npage_mappings_padded : Nat
  nallocated_pages : Nat
  fanout : Nat
  page_cache : mtpc_t
  lss : lss_t
  /-- The cache of the log, `lss.page_cache`. -/
  lss_page_cache : mtpc_t
  /-- The entry objects of both arenas, by pointer. -/
  heap : Nat → mtpc_entry_t

namespace mapping_table_t
def cache (mt : mapping_table_t) : mtpc_ref → mtpc_t
  | .table => mt.page_cache
  | .reader => mt.lss_page_cache
def set_cache (mt : mapping_table_t) (c : mtpc_ref) (v : mtpc_t) : mapping_table_t :=
  match c with
  | .table => { mt with page_cache := v }
  | .reader => { mt with lss_page_cache := v }
def set_entry (mt : mapping_table_t) (e : Nat) (v : mtpc_entry_t) : mapping_table_t :=
  { mt with heap := fun i => if i = e then v else mt.heap i }
/-- The block `curr_block` of a descent: the root, or the buffer of an entry. -/
def block_of (mt : mapping_table_t) : Option Nat → flash_block_t
  | none => mt.root
  | some e => (mt.heap e).value
end mapping_table_t

/-! ## LRU list and free list (`page_cache.c`) -/

open mapping_table_t in
def lru_remove (mt : mapping_table_t) (c : mtpc_ref) (entry : Nat) : mapping_table_t :=
  let mt1 :=
    match (mt.heap entry).lru_prev with
    | some p => mt.set_entry p { mt.heap p with lru_next := (mt.heap entry).lru_next }
    | none => mt.set_cache c { mt.cache c with lru_head := (mt.heap entry).lru_next }
  let mt2 :=
    match (mt1.heap entry).lru_next with
    | some n => mt1.set_entry n { mt1.heap n with lru_prev := (mt1.heap entry).lru_prev }
    | none => mt1.set_cache c { mt1.cache c with lru_tail := (mt1.heap entry).lru_prev }
  mt2.set_entry entry { mt2.heap entry with lru_prev := none, lru_next := none }

def lru_push_head (mt : mapping_table_t) (c : mtpc_ref) (entry : Nat) : mapping_table_t :=
  let mt1 := mt.set_entry entry
    { mt.heap entry with lru_prev := none, lru_next := (mt.cache c).lru_head }
  let mt2 :=
    match (mt1.cache c).lru_head with
    | some h => mt1.set_entry h { mt1.heap h with lru_prev := some entry }
    | none => mt1
  let mt3 := mt2.set_cache c { mt2.cache c with lru_head := some entry }
  match (mt3.cache c).lru_tail with
  | some _ => mt3
  | none => mt3.set_cache c { mt3.cache c with lru_tail := some entry }

def lru_move_to_head (mt : mapping_table_t) (c : mtpc_ref) (entry : Nat) : mapping_table_t :=
  if (mt.cache c).lru_head = some entry then mt
  else lru_push_head (lru_remove mt c entry) c entry

def cache_allocate_entry (mt : mapping_table_t) (c : mtpc_ref) : Option Nat × mapping_table_t :=
  match (mt.cache c).free_list with
  | none => (none, mt)
  | some entry =>
    let mt1 := mt.set_cache c { mt.cache c with free_list := (mt.heap entry).lru_next }
    (some entry, mt1.set_entry entry
      { mt1.heap entry with lru_prev := none, lru_next := none, pin_count := 0, dirty := false })

def cache_free_entry (mt : mapping_table_t) (c : mtpc_ref) (entry : Nat) : mapping_table_t :=
  let mt1 := mt.set_entry entry
    { mt.heap entry with
      start_range := 0, end_range := 0, parent := none, pin_count := 0, dirty := false
      lru_next := (mt.cache c).free_list }
  mt1.set_cache c { mt1.cache c with free_list := some entry }

/-- The span `end_range - start_range` of an entry, as computed in 64 bits. -/
def mtpc_entry_t.span (e : mtpc_entry_t) : Nat := u64_sub e.end_range e.start_range

def entry_cmp_ptr (a b : mtpc_entry_t) : Int :=
  if a.start_range < b.start_range then -1
  else if a.start_range > b.start_range then 1
  else if a.span < b.span then -1
  else if a.span > b.span then 1
  else 0

def mtpc_unpin (mt : mapping_table_t) (entry : Option Nat) : Res (Nat × mapping_table_t) :=
  match entry with
  | none => .ok (0, mt)
  | some e =>
    if (mt.heap e).pin_count > 0 then
      .ok ((mt.heap e).pin_count - 1,
           mt.set_entry e { mt.heap e with pin_count := (mt.heap e).pin_count - 1 })
    else .error (.assertion .page_cache_c 618)

def mtpc_mark_dirty (mt : mapping_table_t) (entry : Option Nat) : mapping_table_t :=
  match entry with
  | none => mt
  | some e => mt.set_entry e { mt.heap e with dirty := true }

/-- Adds one to the pin count of an entry (`entry->pin_count++`, 16 bits). -/
def pin (mt : mapping_table_t) (e : Nat) : mapping_table_t :=
  mt.set_entry e { mt.heap e with pin_count := u16 ((mt.heap e).pin_count + 1) }

/-- The loop of `mtpc_search` over the sorted array, from the state
`(best, best_span)`. -/
def mtpc_search_loop (heap : Nat → mtpc_entry_t) (logical_address : Nat) :
    List Nat → Option Nat × Nat → Option Nat × Nat
  | [], acc => acc
  | e :: rest, (best, best_span) =>
    let entry := heap e
    if entry.end_range ≤ logical_address then
      mtpc_search_loop heap logical_address rest (best, best_span)
    else if logical_address ≥ entry.start_range ∧ logical_address < entry.end_range then
      if entry.span < best_span then mtpc_search_loop heap logical_address rest (some e, entry.span)
      else mtpc_search_loop heap logical_address rest (best, best_span)
    else mtpc_search_loop heap logical_address rest (best, best_span)

def mtpc_search (mt : mapping_table_t) (c : mtpc_ref) (logical_address : Nat) :
    Option Nat × mapping_table_t :=
  if (mt.cache c).size = 0 then (none, mt)
  else
    match (mtpc_search_loop mt.heap logical_address (mt.cache c).data (none, UINT64_MAX)).1 with
    | none => (none, mt)
    | some best => (some best, pin (lru_move_to_head mt c best) best)

/-- The loop of `mtpc_get_page_entry` over the sorted array, from the state
`(best, best_span)`. -/
def mtpc_get_page_entry_loop (heap : Nat → mtpc_entry_t) (start_range end_range : Nat) :
    List Nat → Option Nat × Nat → Option Nat × Nat
  | [], acc => acc
  | e :: rest, (best, best_span) =>
    let entry := heap e
    if entry.end_range ≤ start_range then
      mtpc_get_page_entry_loop heap start_range end_range rest (best, best_span)
    else if (start_range ≥ entry.start_range ∧ start_range < entry.end_range)
        ∧ (end_range > entry.start_range ∧ end_range ≤ entry.end_range) then
      if entry.span < best_span then
        mtpc_get_page_entry_loop heap start_range end_range rest (some e, entry.span)
      else mtpc_get_page_entry_loop heap start_range end_range rest (best, best_span)
    else mtpc_get_page_entry_loop heap start_range end_range rest (best, best_span)

def mtpc_get_page_entry (mt : mapping_table_t) (c : Option mtpc_ref)
    (start_range end_range : Nat) : Option Nat × mapping_table_t :=
  match c with
  | none => (none, mt)
  | some c =>
    if (mt.cache c).size = 0 then (none, mt)
    else
      match (mtpc_get_page_entry_loop mt.heap start_range end_range (mt.cache c).data
              (none, UINT64_MAX)).1 with
      | none => (none, mt)
      | some best => (some best, pin mt best)

/-- The search `for (i = 0; i < size; i++) if (data[i] == e) ...` for the index
of an entry in a sorted array. -/
def find_index (data : List Nat) (e : Nat) : Option Nat :=
  match data.indexOf e with
  | i => if i < data.length then some i else none

/-- The binary search of `mtpc_insert` for the sorted position of `entry`
(`assert(0 != c)` included when `strict`). -/
def sorted_position (heap : Nat → mtpc_entry_t) (data : List Nat) (entry : mtpc_entry_t)
    (strict : Bool) : Nat → Nat → Nat → Res Nat
  | 0, left, right => if left < right then .error .out_of_fuel else .ok left
  | n + 1, left, right =>
    if left < right then
      let mid := left + (right - left) / 2
      match data.get? mid with
      | none => .error .bad_access
      | some m =>
        let c := entry_cmp_ptr entry (heap m)
        if c > 0 then sorted_position heap data entry strict n (mid + 1) right
        else if strict ∧ c = 0 then .error (.assertion .page_cache_c 413)
        else sorted_position heap data entry strict n left mid
    else .ok left

/-- The array after `memmove(&data[idx + 1], &data[idx], ...); data[idx] = e`. -/
def array_insert (data : List Nat) (idx e : Nat) : List Nat :=
  data.take idx ++ e :: data.drop idx

/-- The array after `memmove(&data[idx], &data[idx + 1], ...); size--`. -/
def array_remove (data : List Nat) (idx : Nat) : List Nat := data.eraseIdx idx

def mtpc_take_entry_ownership (mt : mapping_table_t) (cache_a : mtpc_ref) (entry_a : Nat)
    (cache_b : mtpc_ref) (entry_b : Nat) : Res (Int × mapping_table_t) := do
  let mt1 := lru_remove mt cache_a entry_a
  let mt2 := lru_remove mt1 cache_b entry_b
  match find_index (mt2.cache cache_a).data entry_a, find_index (mt2.cache cache_b).data entry_b with
  | some idx_a, some idx_b =>
    let mt3 := mt2.set_cache cache_a
      { mt2.cache cache_a with data := array_remove (mt2.cache cache_a).data idx_a }
    let mt4 := mt3.set_cache cache_b
      { mt3.cache cache_b with data := array_remove (mt3.cache cache_b).data idx_b }
    let data_a := (mt4.cache cache_a).data
    let left_b ← sorted_position mt4.heap data_a (mt4.heap entry_b) false
      (data_a.length + 1) 0 data_a.length
    if data_a.length ≥ (mt4.cache cache_a).capacity then throw .bad_access
    let mt5 := mt4.set_cache cache_a
      { mt4.cache cache_a with data := array_insert data_a left_b entry_b }
    let mt6 := lru_push_head mt5 cache_a entry_b
    return (0, cache_free_entry mt6 cache_b entry_a)
  | _, _ => throw (.assertion .page_cache_c 674)

/-! ## Relocation buffer, reads and metadata (`lss.c`) -/

/-- The binary search of `lss_realloc_lookup` on `[left, right]`. -/
def lss_realloc_lookup_loop (list : List lss_realloc_entry_t) (current : Nat) :
    Nat → Int → Int → Option Nat
  | 0, _, _ => none
  | n + 1, left, right =>
    if left ≤ right then
      let mid := left + (right - left) / 2
      match list.get? mid.toNat with
      | none => none
      | some r =>
        if r.old_offset = current then some r.new_offset
        else if r.old_offset < current then lss_realloc_lookup_loop list current n (mid + 1) right
        else lss_realloc_lookup_loop list current n left (mid - 1)
    else none

/-- Returns `some new_offset` when the lookup succeeds (`true` with
`*new_offset_out` written) and `none` when it fails (`false`). -/
def lss_realloc_lookup (lss : lss_t) (old_offset : Nat) : Option Nat :=
  lss_realloc_lookup_loop lss.realloc_list old_offset (lss.realloc_count + 1) 0
    ((lss.realloc_count : Int) - 1)

def lss_read (mt : mapping_table_t) (storage_address : Nat) (len : Nat) : Res flash_block_t :=
  if mt.lss.flash.write_granularity_bytes ≠ len then .error (.assertion .lss_c 357)
  else
    let actual_address :=
      match lss_realloc_lookup mt.lss storage_address with
      | some new_addr => new_addr
      | none => storage_address
    flash_read mt.lss.flash actual_address len

def lss_get_used_space (lss : lss_t) : Nat :=
  if lss.head ≥ lss.tail then lss.head - lss.tail
  else u64 (u64 (flash_get_size lss.flash - lss.tail) + lss.head)

/-- The distance from head to tail around the device, as `lss_write` computes
it. -/
def lss_distance (lss : lss_t) : Nat :=
  if lss.head ≥ lss.tail then u64_sub (flash_get_size lss.flash) (lss.head - lss.tail)
  else lss.tail - lss.head

/-- The block image of a segment metadata record: the 32 bytes of the struct
followed by zeroes (`calloc` then `memcpy`). -/
def seg_meta_encode (m : lss_segment_metadata_t) (write_granularity : Nat) : flash_block_t :=
  { hdr := m.type % 4 + 4 * (if m.contains_checkpoint then 1 else 0) + 2 ^ 32 * (m.block_size % 2 ^ 32)
    data := ([m.npage_mappings % 2 ^ 32, m.tail_offset % 2 ^ 64, m.seq_num % 2 ^ 64]
              ++ List.replicate (payload_words write_granularity - 3) 0).take
              (payload_words write_granularity) }

/-- The record read through `(lss_segment_metadata_t *)buf`. -/
def seg_meta_decode (b : flash_block_t) : lss_segment_metadata_t :=
  { type := b.hdr % 4
    contains_checkpoint := b.hdr / 4 % 2 = 1
    block_size := b.hdr / 2 ^ 32 % 2 ^ 32
    npage_mappings := b.data.getD 0 0 % 2 ^ 32
    tail_offset := b.data.getD 1 0
    seq_num := b.data.getD 2 0 }

/-- Writes the current metadata record at `segment_offset` and moves the head
behind it.  Every error return follows a failed assertion. -/
def lss_write_segment_metadata (lss : lss_t) (segment_offset : Nat) : Res (Int × lss_t) :=
  let write_granularity := lss.flash.write_granularity_bytes
  if write_granularity = 0 then .error (.assertion .lss_c 769)
  else if segment_offset ≥ flash_get_size lss.flash then .error (.assertion .lss_c 776)
  else if segment_offset % write_granularity ≠ 0 then .error (.assertion .lss_c 782)
  else if sizeof_lss_segment_metadata_t + 4 > write_granularity then .error (.assertion .lss_c 797)
  else if (lss_realloc_lookup lss segment_offset).isSome then .error (.assertion .lss_c 804)
  else
    match flash_write lss.flash segment_offset
        (seg_meta_encode lss.curr_segment_metadata write_granularity) write_granularity with
    | .error e => .error e
    | .ok f => .ok (0, { lss with flash := f, head := u64 (segment_offset + write_granularity) })

def lss_create (image : Nat → flash_block_t) : lss_t :=
  let flash := flash_open image FLASH_TOTAL_SIZE
  { flash := flash
    head := 0
    tail := 0
    realloc_list := []
    realloc_capacity := flash.write_granularity_bytes / sizeof_lss_realloc_entry_t
    curr_segment_metadata :=
      { type := 0, contains_checkpoint := false, block_size := 0, npage_mappings := 0
        tail_offset := 0, seq_num := 0 } }

/-- The source of the bytes handed to `lss_write`: the root buffer, the block
buffer of a cache entry, or a private copy.  The pointer is read when the
bytes are written to the flash. -/
inductive buf_ptr where
  | root
  | entry (e : Nat)
  | copy (b : flash_block_t)

def mapping_table_t.deref (mt : mapping_table_t) : buf_ptr → flash_block_t
  | .root => mt.root
  | .entry e => (mt.heap e).value
  | .copy b => b

/-- Writes `entries[i].physical_address = v` in the block `curr_block` of a
descent (the root when there is no entry). -/
def write_slot (mt : mapping_table_t) (cache_entry : Option Nat) (i v : Nat) :
    Res mapping_table_t :=
  match cache_entry with
  | none => do
    let b ← write_entry mt.root i v
    return { mt with root := b }
  | some e => do
    let b ← write_entry (mt.heap e).value i v
    return mt.set_entry e { mt.heap e with value := b }

/-- The range size of a block of the given level:
`for (i = 0; i < level; i++) block_range_size /= fanout`. -/
def level_range_size (fanout : Nat) : Nat → Nat → Res Nat
  | 0, size => .ok size
  | n + 1, size => do
    let s ← udiv size fanout
    level_range_size fanout n s

/-- The walk of `mtpc_insert` from the LRU tail towards the head that stops at
the first entry with `pin_count == 0`. -/
def lru_find_unpinned (heap : Nat → mtpc_entry_t) : Nat → Option Nat → Res (Option Nat)
  | _, none => .ok none
  | 0, some _ => .error .out_of_fuel
  | n + 1, some cand =>
    if (heap cand).pin_count = 0 then .ok (some cand)
    else lru_find_unpinned heap n (heap cand).lru_prev

/-- The first loop of `lss_realloc_insert`: collapses onto a record that
mentions `old_offset`, or finds the insertion point. -/
def lss_realloc_insert_scan (block_header old_offset new_offset : Nat) :
    List lss_realloc_entry_t → Nat → Nat → Res (Option (List lss_realloc_entry_t) × Nat)
  | [], _, insert_pos => .ok (none, insert_pos)
  | r :: rest, i, insert_pos =>
    if r.old_offset = old_offset ∨ r.new_offset = old_offset then
      if block_header = r.block_header then
        .ok (some ({ r with new_offset := new_offset } :: rest), insert_pos)
      else .error (.assertion .lss_c 682)
    else do
      let (res, pos) ← lss_realloc_insert_scan block_header old_offset new_offset rest (i + 1)
        (if r.old_offset < old_offset then i + 1 else insert_pos)
      return (res.map (fun l => r :: l), pos)

/-- The second loop of `lss_realloc_insert`:
`while (insert_pos < count && list[insert_pos].old_offset < old_offset) insert_pos++`. -/
def lss_realloc_insert_pos (old_offset : Nat) : List lss_realloc_entry_t → Nat
  | [] => 0
  | r :: rest => if r.old_offset < old_offset then 1 + lss_realloc_insert_pos old_offset rest else 0

/-- The first loop of `mtpc_flush_all`: the largest level among the entries. -/
def mtpc_max_level (heap : Nat → mtpc_entry_t) : List Nat → Nat → Nat
  | [], m => m
  | e :: rest, m =>
    mtpc_max_level heap rest (if (heap e).value.level > m then (heap e).value.level else m)

/-- The test `entry->start_range == start_range && entry->end_range == end_range`. -/
def entry_is (mt : mapping_table_t) (e start_range end_range : Nat) : Bool :=
  (mt.heap e).start_range = start_range ∧ (mt.heap e).end_range = end_range

/-- The end of `mtpc_insert`, from `assert(NULL != entry)`: the slot `entry`
is set up for the range, pinned, put at its sorted position and at the LRU
head. -/
def mtpc_insert_finish (mt : mapping_table_t) (c : mtpc_ref) (start_range end_range level : Nat)
    (parent : Option Nat) (entry : Nat) : Res (Nat × mapping_table_t) := do
  let e := mt.heap entry
  let mt1 := mt.set_entry entry
    { e with
      start_range := start_range, end_range := end_range, parent := parent
      value := ((e.value.set_level level).set_type MT_BLOCK).set_logical_address start_range
      pin_count := 1, dirty := false }
  let mt2 := match parent with
    | some p => pin mt1 p
    | none => mt1
  let data := (mt2.cache c).data
  let idx ← sorted_position mt2.heap data (mt2.heap entry) true (data.length + 1) 0 data.length
  if data.length ≥ (mt2.cache c).capacity then throw .bad_access
  let mt3 := mt2.set_cache c { mt2.cache c with data := array_insert data idx entry }
  let mt4 := lru_push_head mt3 c entry
  match parent with
  | some p => if (mt4.heap p).pin_count = 0 then throw (.assertion .page_cache_c 431)
  | none => pure ()
  return (entry, mt4)

/-- The part of `mtpc_insert` that follows the eviction loop: the second
probe for the range, and otherwise the removal of the candidate `cand` from
the sorted array and its reuse. -/
def mtpc_insert_reuse (mt4 : mapping_table_t) (c : mtpc_ref) (start_range end_range level : Nat)
    (parent : Option Nat) (cand : Nat) : Res (Nat × mapping_table_t) := do
  let (spawned, mt5) := mtpc_get_page_entry mt4 (some c) start_range end_range
  match spawned with
  | some sp =>
    if entry_is mt5 sp start_range end_range then
      return (sp, lru_move_to_head (lru_push_head mt5 c cand) c sp)
  | none => pure ()
  let (_, mt6) ← mtpc_unpin mt5 spawned
  if (mt6.heap cand).pin_count ≠ 0 then throw (.assertion .page_cache_c 352)
  match find_index (mt6.cache c).data cand with
  | none => throw (.assertion .page_cache_c 366)
  | some idx =>
    let mt7 := mt6.set_cache c { mt6.cache c with data := array_remove (mt6.cache c).data idx }
    let mt8 ←
      match (mt7.heap cand).parent with
      | some p =>
        if (mt7.heap p).value.level + 1 ≠ (mt7.heap cand).value.level then
          throw (.assertion .page_cache_c 376)
        else if (mt7.heap p).pin_count = 0 then throw (.assertion .page_cache_c 377)
        else pure (mt7.set_entry p { mt7.heap p with pin_count := (mt7.heap p).pin_count - 1 })
      | none => pure mt7
    mtpc_insert_finish mt8 c start_range end_range level parent cand

/-- The probe of the paired cache in `mtpc_acquire_from_storage`: for the
cache of the table, an entry of the cache of the log with the same range is
taken over in place of `entry`; for the cache of the log, an entry of the
cache of the table with the same range is used as it is.  Returns the entry
to use and `read_from_flash`. -/
def mtpc_acquire_probe (mt1 : mapping_table_t) (c : mtpc_ref) (start_range end_range : Nat)
    (parent : Option Nat) (entry : Nat) : Res (Nat × Bool × mapping_table_t) :=
  match (mt1.cache c).parent_cache with
  | none => do
    let (child_entry, m2) := mtpc_get_page_entry mt1 (mt1.cache c).child_cache
      start_range end_range
    match child_entry, (mt1.cache c).child_cache with
    | some ce, some child =>
      if entry_is m2 ce start_range end_range then do
        let (_, m3) ← mtpc_take_entry_ownership m2 c entry child ce
        if (m3.heap ce).parent.isSome then throw (.assertion .page_cache_c 558)
        pure (ce, false, m3.set_entry ce { m3.heap ce with parent := parent })
      else do
        let (_, m3) ← mtpc_unpin m2 child_entry
        pure (entry, true, m3)
    | _, _ => do
      let (_, m3) ← mtpc_unpin m2 child_entry
      pure (entry, true, m3)
  | some pc => do
    let (parent_entry, m2) := mtpc_get_page_entry mt1 (some pc) start_range end_range
    match parent_entry with
    | some pe =>
      if entry_is m2 pe start_range end_range then pure (pe, false, m2)
      else do
        let (_, m3) ← mtpc_unpin m2 parent_entry
        pure (entry, true, m3)
    | none => pure (entry, true, m2)

/-- The part of `mtpc_acquire_from_storage` that follows `mtpc_insert`: an
entry with a non-zero level is returned as it is; otherwise the paired cache
is probed and, unless it holds the range, the block is read from the log. -/
def mtpc_acquire_fill (mt1 : mapping_table_t) (c : mtpc_ref)
    (start_range end_range storage_address : Nat) (parent : Option Nat) (entry : Nat) :
    Res (Nat × mapping_table_t) := do
  if (mt1.heap entry).value.level ≠ 0 then return (entry, mt1)
  let (entry, read_from_flash, mt2) ← mtpc_acquire_probe mt1 c start_range end_range parent entry
  let mt3 ←
    if read_from_flash then do
      let b ← lss_read mt2 storage_address mt2.block_size
      pure (mt2.set_entry entry { mt2.heap entry with value := b })
    else pure mt2
  let e := mt3.heap entry
  if hdr_word32 e.value.hdr = UINT32_MAX then throw (.assertion .page_cache_c 604)
  if e.value.type ≠ MT_BLOCK then throw (.assertion .page_cache_c 605)
  if e.value.logical_address ≠ start_range then throw (.assertion .page_cache_c 606)
  if e.dirty then throw (.assertion .page_cache_c 607)
  return (entry, mt3)

/-! ## The cache and the log (`page_cache.c`, `lss.c`) -/

mutual

def flush_entry (fuel : Nat) (mt : mapping_table_t) (_c : mtpc_ref) (entry : Nat)
    (clean_tail : Bool) : Res (Int × mapping_table_t) :=
  match fuel with
  | 0 => .error .out_of_fuel
  | n + 1 => do
    let (storage_address, mt1) ← lss_write n mt (.entry entry) mt.block_size clean_tail
    if ¬ (mt1.heap entry).dirty then return (0, mt1)
    let mt2 := mt1.set_entry entry { mt1.heap entry with dirty := false }
    let (mt3, curr_range) :=
      match (mt2.heap entry).parent with
      | some p => (mt2.set_entry p { mt2.heap p with dirty := true }, (mt2.heap p).span)
      | none => (mt2, mt2.npage_mappings_padded)
    let sub_range ← udiv curr_range mt3.fanout
    let target_index := u32 (← udiv (← umod (mt3.heap entry).start_range curr_range) sub_range)
    let mt4 ← write_slot mt3 (mt3.heap entry).parent target_index storage_address
    return (0, mt4)
termination_by structural fuel

/-- The `do ... while (0 != cand->pin_count)` loop of `mtpc_insert`, entered
with the candidate of the previous round. -/
def mtpc_insert_evict (fuel : Nat) (mt : mapping_table_t) (c : mtpc_ref) (clean_tail : Bool)
    (cand : Option Nat) : Res (Nat × mapping_table_t) :=
  match fuel with
  | 0 => .error .out_of_fuel
  | n + 1 => do
    let mt1 := match cand with
      | some cd => lru_push_head mt c cd
      | none => mt
    match ← lru_find_unpinned mt1.heap n (mt1.cache c).lru_tail with
    | none => throw (.assertion .page_cache_c 320)
    | some cd =>
      let mt2 := lru_remove mt1 c cd
      let mt3 ←
        if (mt2.heap cd).dirty then do
          let (ret, m) ← flush_entry n mt2 c cd clean_tail
          if ret ≠ 0 then throw (.assertion .page_cache_c 331)
          pure m
        else pure mt2
      if (mt3.heap cd).dirty then throw (.assertion .page_cache_c 335)
      if (mt3.heap cd).pin_count ≠ 0 then mtpc_insert_evict n mt3 c clean_tail (some cd)
      else return (cd, mt3)
termination_by structural fuel

def mtpc_insert (fuel : Nat) (mt : mapping_table_t) (c : mtpc_ref)
    (start_range end_range level : Nat) (parent : Option Nat) (clean_tail : Bool) :
    Res (Nat × mapping_table_t) :=
  match fuel with
  | 0 => .error .out_of_fuel
  | n + 1 => do
    let (found, mt1) := mtpc_get_page_entry mt (some c) start_range end_range
    match found with
    | some e =>
      if entry_is mt1 e start_range end_range then return (e, lru_move_to_head mt1 c e)
    | none => pure ()
    let (_, mt2) ← mtpc_unpin mt1 found
    match cache_allocate_entry mt2 c with
    | (some entry, mt3) => mtpc_insert_finish mt3 c start_range end_range level parent entry
    | (none, mt3) =>
      let (cand, mt4) ← mtpc_insert_evict n mt3 c clean_tail none
      mtpc_insert_reuse mt4 c start_range end_range level parent cand
termination_by structural fuel

def mtpc_acquire_from_storage (fuel : Nat) (mt : mapping_table_t) (c : mtpc_ref)
    (start_range end_range storage_address : Nat) (parent : Option Nat) (clean_tail : Bool) :
    Res (Nat × mapping_table_t) :=
  match fuel with
  | 0 => .error .out_of_fuel
  | n + 1 => do
    if storage_address = FLASH_INVALID_ADDRESS then throw (.assertion .page_cache_c 527)
    let (entry, mt1) ← mtpc_insert n mt c start_range end_range 0 parent clean_tail
    mtpc_acquire_fill mt1 c start_range end_range storage_address parent entry
termination_by structural fuel

/-- The inner loop of `mtpc_flush_all` over the array positions `i, i+1, ...`
for one level. -/
def mtpc_flush_all_level (fuel : Nat) (mt : mapping_table_t) (c : mtpc_ref) (clean_tail : Bool)
    (level i total_flushed : Nat) : Res (Nat × mapping_table_t) :=
  match fuel with
  | 0 => .error .out_of_fuel
  | n + 1 =>
    match (mt.cache c).data.get? i with
    | none => .ok (total_flushed, mt)
    | some entry =>
      if ¬ (mt.heap entry).dirty ∨ (mt.heap entry).value.level ≠ level then
        mtpc_flush_all_level n mt c clean_tail level (i + 1) total_flushed
      else do
        let (ret, mt1) ← flush_entry n mt c entry clean_tail
        if ret ≠ 0 then throw (.assertion .page_cache_c 751)
        let mt2 := mt1.set_entry entry { mt1.heap entry with dirty := false }
        mtpc_flush_all_level n mt2 c clean_tail level (i + 1) (total_flushed + 1)
termination_by structural fuel

/-- The outer loop of `mtpc_flush_all`, from `level` down to `0`. -/
def mtpc_flush_all_levels (fuel : Nat) (mt : mapping_table_t) (c : mtpc_ref) (clean_tail : Bool)
    (level total_flushed : Nat) : Res (Nat × mapping_table_t) :=
  match fuel with
  | 0 => .error .out_of_fuel
  | n + 1 => do
    let (total, mt1) ← mtpc_flush_all_level n mt c clean_tail level 0 total_flushed
    if level = 0 then return (total, mt1)
    else mtpc_flush_all_levels n mt1 c clean_tail (level - 1) total
termination_by structural fuel

def mtpc_flush_all (fuel : Nat) (mt : mapping_table_t) (c : mtpc_ref) (clean_tail : Bool) :
    Res (Int × mapping_table_t) :=
  match fuel with
  | 0 => .error .out_of_fuel
  | n + 1 => do
    let max_level := mtpc_max_level mt.heap (mt.cache c).data 0
    let (total, mt1) ← mtpc_flush_all_levels n mt c clean_tail max_level 0
    if (mt1.cache c).data.any (fun e => (mt1.heap e).dirty) then throw (.assertion .page_cache_c 771)
    return ((total : Int), mt1)
termination_by structural fuel

/-- The descent shared by `is_mt_block_alive` (on the cache of the log, for
`apply = none`) and `apply_reallocate` (on the cache of the table, for
`apply = some (old, new)`), from the page `cache_entry` (`none`: the root). -/
def descend_to_parent (fuel : Nat) (mt : mapping_table_t) (block_header block_address : Nat)
    (apply : Option (Nat × Nat)) (block_range_size : Nat)
    (cache_entry : Option Nat) (curr_start_range curr_range_size : Nat) :
    Res (Bool × mapping_table_t) :=
  match fuel with
  | 0 => .error .out_of_fuel
  | n + 1 => do
    let block_start_range := hdr_logical_address block_header
    let sub_range_size ← udiv curr_range_size mt.fanout
    let target_index := u32 (← udiv (← umod block_start_range curr_range_size) sub_range_size)
    let slot ← read_entry (mt.block_of cache_entry) target_index
    if block_range_size = sub_range_size then
      match apply with
      | none =>
        if (mt.block_of cache_entry).level + 1 ≠ hdr_level block_header then
          throw (.assertion .lss_c 526)
        let (_, mt1) ← mtpc_unpin mt cache_entry
        let mp_address :=
          match lss_realloc_lookup mt1.lss slot with
          | some new_addr => new_addr
          | none => slot
        return (block_address = mp_address, mt1)
      | some (old_block_address, new_block_address) =>
        let mt1 ←
          if slot = old_block_address then do
            let m ← write_slot mt cache_entry target_index new_block_address
            pure (mtpc_mark_dirty m cache_entry)
          else pure mt
        let (_, mt2) ← mtpc_unpin mt1 cache_entry
        return (false, mt2)
    else do
      if slot = FLASH_INVALID_ADDRESS then
        throw (.assertion .lss_c (if apply.isNone then 538 else 622))
      let new_entry_start_range := u64 (curr_start_range + u64 (target_index * sub_range_size))
      let (new_cache_entry, mt1) ←
        match apply with
        | none =>
          (mtpc_acquire_from_storage n mt .reader new_entry_start_range
            (u64 (new_entry_start_range + sub_range_size)) slot none false)
        | some _ =>
          (mtpc_acquire_from_storage n mt .table new_entry_start_range
            (u64 (new_entry_start_range + sub_range_size)) slot cache_entry false)
      if ¬ ((mt1.block_of cache_entry).level + 1 < hdr_level block_header) then
        throw (.assertion .lss_c (if apply.isNone then 549 else 633))
      if (mt1.block_of cache_entry).level + 1 ≠ (mt1.heap new_cache_entry).value.level then
        throw (.assertion .lss_c (if apply.isNone then 550 else 634))
      let (_, mt2) ← mtpc_unpin mt1 cache_entry
      (descend_to_parent n mt2 block_header block_address apply block_range_size
        (some new_cache_entry) new_entry_start_range sub_range_size)
termination_by structural fuel

/-- The common start of `is_mt_block_alive` and `apply_reallocate`: the range
of the parent page, the probe of the cache of the table, and the descent. -/
def locate_parent (fuel : Nat) (mt : mapping_table_t) (block_header block_address : Nat)
    (apply : Option (Nat × Nat)) : Res (Bool × mapping_table_t) :=
  match fuel with
  | 0 => .error .out_of_fuel
  | n + 1 => do
    let block_start_range := hdr_logical_address block_header
    let block_range_size ← level_range_size mt.fanout (hdr_level block_header)
      mt.npage_mappings_padded
    let parent_range_size := u64 (block_range_size * mt.fanout)
    let parent_start_range := u64 ((← udiv block_start_range parent_range_size) * parent_range_size)
    let parent_end_range := u64 (parent_start_range + parent_range_size)
    let (cache_entry, mt1) := mtpc_get_page_entry mt (some .table) parent_start_range
      parent_end_range
    match cache_entry with
    | none =>
      (descend_to_parent n mt1 block_header block_address apply block_range_size none 0
        mt1.npage_mappings_padded)
    | some e =>
      (descend_to_parent n mt1 block_header block_address apply block_range_size (some e)
        (mt1.heap e).start_range (mt1.heap e).span)
termination_by structural fuel

def is_mt_block_alive (fuel : Nat) (mt : mapping_table_t) (block_address block_header : Nat) :
    Res (Bool × mapping_table_t) :=
  match fuel with
  | 0 => .error .out_of_fuel
  | n + 1 =>
    if hdr_word32 block_header = UINT32_MAX ∨ hdr_type block_header = SEG_META_BLOCK
        ∨ (hdr_type block_header = MT_BLOCK ∧ hdr_level block_header = 0) then
      .ok (false, mt)
    else locate_parent n mt block_header block_address none
termination_by structural fuel

def apply_reallocate (fuel : Nat) (mt : mapping_table_t)
    (block_header old_block_address new_block_address : Nat) : Res (Int × mapping_table_t) :=
  match fuel with
  | 0 => .error .out_of_fuel
  | n + 1 => do
    let (_, mt1) ← locate_parent n mt block_header old_block_address
      (some (old_block_address, new_block_address))
    return (0, mt1)
termination_by structural fuel

/-- The loop of `lss_realloc_evict` from `evict_index`. -/
def lss_realloc_evict_loop (fuel : Nat) (mt : mapping_table_t) (evict_index : Nat) :
    Res mapping_table_t :=
  match fuel with
  | 0 => .error .out_of_fuel
  | n + 1 =>
    match mt.lss.realloc_list.get? evict_index with
    | none => .ok mt
    | some victim => do
      let (ret, mt1) ← apply_reallocate n mt victim.block_header victim.old_offset victim.new_offset
      if ret ≠ 0 then throw (.assertion .lss_c 661)
      lss_realloc_evict_loop n mt1 (evict_index + 1)
termination_by structural fuel

def lss_realloc_evict (fuel : Nat) (mt : mapping_table_t) : Res (Int × mapping_table_t) :=
  match fuel with
  | 0 => .error .out_of_fuel
  | n + 1 =>
    if mt.lss.realloc_count = 0 then .ok (0, mt)
    else do
      let mt1 ← lss_realloc_evict_loop n mt 0
      return (0, { mt1 with lss := { mt1.lss with realloc_list := [] } })
termination_by structural fuel

def lss_realloc_insert (fuel : Nat) (mt : mapping_table_t)
    (block_header old_offset new_offset : Nat) : Res (Int × mapping_table_t) :=
  match fuel with
  | 0 => .error .out_of_fuel
  | n + 1 => do
    match ← lss_realloc_insert_scan block_header old_offset new_offset mt.lss.realloc_list 0 0 with
    | (some list, _) => return (0, { mt with lss := { mt.lss with realloc_list := list } })
    | (none, pos) =>
      let (mt1, insert_pos) ←
        if mt.lss.realloc_count ≥ mt.lss.realloc_capacity then do
          let (ret, m) ← lss_realloc_evict n mt
          if ret ≠ 0 then throw (.assertion .lss_c 699)
          pure (m, lss_realloc_insert_pos old_offset m.lss.realloc_list)
        else pure (mt, pos)
      if mt1.lss.realloc_count ≥ mt1.lss.realloc_capacity then throw .bad_access
      let list := mt1.lss.realloc_list
      let record : lss_realloc_entry_t :=
        { old_offset := old_offset, new_offset := new_offset, block_header := block_header }
      return (0, { mt1 with lss := { mt1.lss with
        realloc_list := list.take insert_pos ++ record :: list.drop insert_pos } })
termination_by structural fuel

/-- The loop of `is_mt_segment_fully_dead` over the pages `i, i+1, ...` of the
segment read into `block_buf`; returns `any_alive`. -/
def is_mt_segment_fully_dead_loop (fuel : Nat) (mt : mapping_table_t)
    (block_buf : Nat → flash_block_t) (block_address block_hdr page_size n_pages i : Nat) :
    Res (Bool × mapping_table_t) :=
  match fuel with
  | 0 => .error .out_of_fuel
  | n + 1 =>
    if i < n_pages then
      let page_offset := u64 (block_address + u32 (i * page_size))
      if hdr_word32 (block_buf (page_offset / page_size)).hdr = UINT32_MAX then
        is_mt_segment_fully_dead_loop n mt block_buf block_address block_hdr page_size n_pages
          (i + 1)
      else do
        let (alive, mt1) ← is_mt_block_alive n mt page_offset block_hdr
        if alive then return (true, mt1)
        else
          (is_mt_segment_fully_dead_loop n mt1 block_buf block_address block_hdr page_size
            n_pages (i + 1))
    else .ok (false, mt)
termination_by structural fuel

def is_mt_segment_fully_dead (fuel : Nat) (mt : mapping_table_t) (block_address : Nat) :
    Res (Bool × mapping_table_t) :=
  match fuel with
  | 0 => .error .out_of_fuel
  | n + 1 =>
    let flash := mt.lss.flash
    let flash_block_size := flash.segment_size_bytes
    if flash_block_size = 0 then .ok (false, mt)
    else if u64 (block_address + flash_block_size) > flash.size_bytes then .error (.assertion .io_wrapper_h 63)
    else if flash.write_granularity_bytes = 0 then .error .div_by_zero
    else if block_address % flash.write_granularity_bytes ≠ 0 then .error .unmodelled
    else do
      let page_size := u32 flash.write_granularity_bytes
      let n_pages_in_block := u32 (flash_block_size / page_size)
      let (any_alive, mt1) ← is_mt_segment_fully_dead_loop n mt flash.mem block_address
        (flash.mem (block_address / page_size)).hdr page_size n_pages_in_block 0
      return (¬ any_alive, mt1)
termination_by structural fuel

/-- The loop of `lss_debug_analyze` over the blocks `i, i+1, ...` of the
device (the counters it prints are left out). -/
def lss_debug_analyze_loop (fuel : Nat) (mt : mapping_table_t) (block_size n_blocks i : Nat) :
    Res mapping_table_t :=
  match fuel with
  | 0 => .error .out_of_fuel
  | n + 1 =>
    if i < n_blocks then do
      let block_offset := u64 (i * block_size)
      let buf ← flash_read mt.lss.flash block_offset block_size
      if buf.level > 10 ∨ buf.logical_address = 0 then
        lss_debug_analyze_loop n mt block_size n_blocks (i + 1)
      else do
        let (_, mt1) ← is_mt_block_alive n mt block_offset buf.hdr
        lss_debug_analyze_loop n mt1 block_size n_blocks (i + 1)
    else .ok mt
termination_by structural fuel

def lss_debug_analyze (fuel : Nat) (mt : mapping_table_t) : Res (Int × mapping_table_t) :=
  match fuel with
  | 0 => .error .out_of_fuel
  | n + 1 => do
    let flash_size := flash_get_size mt.lss.flash
    let block_size := mt.lss.flash.write_granularity_bytes
    let n_blocks ← udiv flash_size block_size
    let mt1 ← lss_debug_analyze_loop n mt block_size n_blocks 0
    return (LSS_OK, mt1)
termination_by structural fuel

def lss_clean_tail_block (fuel : Nat) (mt : mapping_table_t) (tail_offset : Nat) :
    Res (Int × mapping_table_t) :=
  match fuel with
  | 0 => .error .out_of_fuel
  | n + 1 =>
    let block_size := mt.lss.flash.write_granularity_bytes
    if block_size = 0 then .ok (LSS_ERR, mt)
    else do
      let block_buf ← flash_read mt.lss.flash tail_offset block_size
      let (alive, mt1) ← is_mt_block_alive n mt tail_offset block_buf.hdr
      let mt2 ←
        if alive then do
          let (new_address, m1) ← lss_write n mt1 (.copy block_buf) block_size false
          let (ret, m2) ← lss_realloc_insert n m1 block_buf.hdr tail_offset new_address
          if ret ≠ 0 then throw (.assertion .lss_c 447)
          pure m2
        else pure mt1
      let flash_size := flash_get_size mt2.lss.flash
      let new_tail := u64 (tail_offset + block_size)
      let new_tail := if new_tail ≥ flash_size then 0 else new_tail
      return (LSS_OK, { mt2 with lss := { mt2.lss with tail := new_tail } })
termination_by structural fuel

/-- The tail-cleaning loop `do ... while (distance <= threshold)` of
`lss_write`, entered with the number of rounds done so far. -/
def lss_write_clean (fuel : Nat) (mt : mapping_table_t) (tries : Nat) : Res mapping_table_t :=
  match fuel with
  | 0 => .error .out_of_fuel
  | n + 1 => do
    let (_, mt1) ← lss_clean_tail_block n mt mt.lss.tail
    let distance := lss_distance mt1.lss
    let tries := tries + 1
    let mt2 ←
      if tries > 10 then do
        let (_, m) ← lss_debug_analyze n mt1
        pure m
      else pure mt1
    if distance ≤ 2 * mt.lss.flash.segment_size_bytes then lss_write_clean n mt2 tries
    else return mt2
termination_by structural fuel

/-- The segment transition of `lss_write`: moves the head to the next segment,
erases it, writes its metadata and the checkpoint. -/
def lss_write_rotate (fuel : Nat) (mt : mapping_table_t) : Res mapping_table_t :=
  match fuel with
  | 0 => .error .out_of_fuel
  | n + 1 => do
    let flash_size := flash_get_size mt.lss.flash
    let segment_size := mt.lss.flash.segment_size_bytes
    let next_seg := u32 (← umod (mt.lss.head / segment_size + 1) (flash_size / segment_size))
    let next_seg_offset := u64 (next_seg * segment_size)
    let mt1 := { mt with lss := { mt.lss with head := next_seg_offset } }
    let (dead, mt2) ← is_mt_segment_fully_dead n mt1 next_seg_offset
    if ¬ dead then throw (.assertion .lss_c 292)
    let (_, flash) ← flash_erase_segment mt2.lss.flash next_seg_offset
    let seg_meta := { mt2.lss.curr_segment_metadata with
      contains_checkpoint := true
      block_size := mt2.block_size
      npage_mappings := mt2.npage_mappings
      tail_offset := mt2.lss.tail
      seq_num := u64 (mt2.lss.curr_segment_metadata.seq_num + 1) }
    let (_, lss) ← lss_write_segment_metadata
      { mt2.lss with flash := flash, curr_segment_metadata := seg_meta } next_seg_offset
    let mt3 := { mt2 with lss := lss }
    let (_, mt4) ← lss_realloc_evict n mt3
    let (_, mt5) ← mtpc_flush_all n mt4 .table false
    let (root_offset, mt6) ← lss_write n mt5 .root mt5.block_size false
    return { mt6 with root_offset := root_offset }
termination_by structural fuel

/-- Appends `len` bytes at the head of the log and returns their address.
Every `return LSS_ERR` of the source follows a failed assertion, so the
function either returns the address or stops with a fault. -/
def lss_write (fuel : Nat) (mt : mapping_table_t) (data : buf_ptr) (len : Nat)
    (clean_tail : Bool) : Res (Nat × mapping_table_t) :=
  match fuel with
  | 0 => .error .out_of_fuel
  | n + 1 => do
    if len = 0 then throw (.assertion .lss_c 236)
    let segment_size := mt.lss.flash.segment_size_bytes
    let used_space := lss_get_used_space mt.lss
    let distance := lss_distance mt.lss
    let mt1 ←
      if used_space > 1 * segment_size then
        if clean_tail then lss_write_clean n mt 0
        else if u64 (len + segment_size) > distance then throw (.assertion .lss_c 275)
        else pure mt
      else pure mt
    let mt2 ←
      if (← udiv mt1.lss.head segment_size) ≠ (← udiv (u64 (mt1.lss.head + len)) segment_size) then
        lss_write_rotate n mt1
      else pure mt1
    let mt3 ←
      if (lss_realloc_lookup mt2.lss mt2.lss.head).isSome then do
        let (ret, m) ← lss_realloc_evict n mt2
        if ret ≠ 0 then throw (.assertion .lss_c 332)
        pure m
      else pure mt2
    let flash ← flash_write mt3.lss.flash mt3.lss.head (mt3.deref data) len
    return (mt3.lss.head,
      { mt3 with lss := { mt3.lss with flash := flash, head := u64 (mt3.lss.head + len) } })
termination_by structural fuel
end

/-! ## Recovery (`lss.c`) -/

def lss_init (fuel : Nat) (mt : mapping_table_t) : Res (Int × mapping_table_t) := do
  let (_, flash) ← flash_erase_all mt.lss.flash
  let seg_meta := { mt.lss.curr_segment_metadata with
    seq_num := 0
    type := SEG_META_BLOCK
    contains_checkpoint := true
    block_size := mt.block_size
    npage_mappings := mt.npage_mappings
    tail_offset := 0 }
  let (_, lss) ← lss_write_segment_metadata
    { mt.lss with flash := flash, head := 0, tail := 0, curr_segment_metadata := seg_meta } 0
  let (root_offset, mt1) ← lss_write fuel { mt with lss := lss } .root mt.block_size false
  return (LSS_OK, { mt1 with root_offset := root_offset })

/-- The state of the first loop of `lss_load_root_and_seg_meta`. -/
structure checkpoint_scan where
  latest_seq : Nat
  latest_seg_offset : Nat
  curr_segment_metadata : lss_segment_metadata_t
  deriving DecidableEq

/-- Step 1 of `lss_load_root_and_seg_meta`: the loop over the segments
`i, i+1, ..., n_segments - 1`, given as the list of their indices. -/
def lss_load_find_checkpoint (flash : flash_t) :
    List Nat → checkpoint_scan → Res checkpoint_scan
  | [], st => .ok st
  | i :: rest, st => do
    let seg_offset := u64 (i * flash.segment_size_bytes)
    let buf ← flash_read flash seg_offset flash.write_granularity_bytes
    let meta := seg_meta_decode buf
    if meta.type ≠ SEG_META_BLOCK then
      if hdr_word32 buf.hdr ≠ UINT32_MAX then throw (.assertion .lss_c 142)
      else lss_load_find_checkpoint flash rest st
    else if meta.contains_checkpoint ∧ meta.seq_num ≥ st.latest_seq then
      lss_load_find_checkpoint flash rest
        { latest_seq := meta.seq_num, latest_seg_offset := seg_offset
          curr_segment_metadata := meta }
    else lss_load_find_checkpoint flash rest st

/-- Step 2 of `lss_load_root_and_seg_meta`: the loop
`for (off = ...; off < seg_end; off += write_granularity)` from `off`, carrying
`(root_offset, *root_out)`. -/
def lss_load_find_root (flash : flash_t) (seg_end : Nat) :
    Nat → Nat → Nat × flash_block_t → Res (Nat × flash_block_t)
  | 0, off, acc => if off < seg_end then .error .out_of_fuel else .ok acc
  | n + 1, off, acc =>
    if off < seg_end then do
      let buf ← flash_read flash off flash.write_granularity_bytes
      if hdr_word32 buf.hdr = UINT32_MAX then
        lss_load_find_root flash seg_end n (u64 (off + flash.write_granularity_bytes)) acc
      else if buf.type = MT_BLOCK ∧ buf.level = 0 then
        lss_load_find_root flash seg_end n (u64 (off + flash.write_granularity_bytes)) (off, buf)
      else lss_load_find_root flash seg_end n (u64 (off + flash.write_granularity_bytes)) acc
    else .ok acc

/-- The outcome of `lss_load_root_and_seg_meta`: the return code, the log, and
the contents of `*root_out` and `*root_offset_out`. -/
structure load_result where
  ret : Int
  lss : lss_t
  root_out : flash_block_t
  root_offset_out : Nat

def lss_load_root_and_seg_meta (lss : lss_t) (root_out : flash_block_t) (root_offset_out : Nat) :
    Res load_result := do
  let segment_size := lss.flash.segment_size_bytes
  let write_granularity := lss.flash.write_granularity_bytes
  let flash_size := flash_get_size lss.flash
  let n_segments ← udiv flash_size segment_size
  let st ← lss_load_find_checkpoint lss.flash (List.range n_segments)
    { latest_seq := 0, latest_seg_offset := FLASH_INVALID_ADDRESS
      curr_segment_metadata := lss.curr_segment_metadata }
  if st.latest_seg_offset = FLASH_INVALID_ADDRESS then throw (.assertion .lss_c 159)
  let lss1 := { lss with curr_segment_metadata := st.curr_segment_metadata }
  let seg_end := u64 (st.latest_seg_offset + segment_size)
  if write_granularity ≠ lss1.curr_segment_metadata.block_size then throw (.assertion .lss_c 177)
  let (root_offset, root) ← lss_load_find_root lss.flash seg_end segment_size
    (u64 (st.latest_seg_offset + write_granularity)) (FLASH_INVALID_ADDRESS, root_out)
  let root_offset_out := if root_offset = FLASH_INVALID_ADDRESS then root_offset_out else root_offset
  if root_offset = FLASH_INVALID_ADDRESS then
    return { ret := LSS_ERR, lss := lss1, root_out := root, root_offset_out := root_offset_out }
  return { ret := LSS_OK
           lss := { lss1 with head := u64 (root_offset + write_granularity)
                              tail := lss1.curr_segment_metadata.tail_offset }
           root_out := root, root_offset_out := root_offset_out }

/-! ## The mapping table (`mapping_table.c`) -/

/-- The loop `while (capacity < total_entries) { capacity *= fanout; height++; }`. -/
def max_tree_height_loop (total_entries fanout : Nat) : Nat → Nat → Nat → Res Nat
  | 0, capacity, height => if capacity < total_entries then .error .out_of_fuel else .ok height
  | n + 1, capacity, height =>
    if capacity < total_entries then
      max_tree_height_loop total_entries fanout n (u64 (capacity * fanout)) (height + 1)
    else .ok height

def max_tree_height (fuel : Nat) (total_entries fanout : Nat) : Res Nat :=
  if total_entries ≤ fanout then .ok 2
  else max_tree_height_loop total_entries fanout fuel 1 1

/-- The loop `while (npage_mappings > padded) padded *= fanout` of
`mapping_table_init`, in 32 bits. -/
def padded_loop (npage_mappings fanout : Nat) : Nat → Nat → Res Nat
  | 0, padded => if npage_mappings > padded then .error .out_of_fuel else .ok padded
  | n + 1, padded =>
    if npage_mappings > padded then padded_loop npage_mappings fanout n (u32 (padded * fanout))
    else .ok padded

/-- The pointer to slot `i` of the entry pool of a cache. -/
def entry_ptr (c : mtpc_ref) (i : Nat) : Nat :=
  match c with
  | .table => 2 * i
  | .reader => 2 * i + 1

/-- The slot of the entry pool of cache `c` a pointer refers to, if any. -/
def pool_slot (c : mtpc_ref) (capacity p : Nat) : Option Nat :=
  if p % 2 = (match c with | .table => 0 | .reader => 1) ∧ p / 2 < capacity then some (p / 2)
  else none

/-- The cache built by `mtpc_create` and the heap with its entry pool: every
block buffer has header `0` (MT, level 0, start 0), slot `i` links to slot
`i - 1`, and the free list starts at the last slot.  Memory that `malloc`
leaves uninitialised reads as zero. -/
def mtpc_create (heap : Nat → mtpc_entry_t) (c : mtpc_ref) (capacity block_size : Nat)
    (parent : Option mtpc_ref) : mtpc_t × (Nat → mtpc_entry_t) :=
  ({ capacity := capacity, data := [], lru_head := none, lru_tail := none
     free_list := if capacity = 0 then none else some (entry_ptr c (capacity - 1))
     child_cache := none, parent_cache := parent },
   fun p =>
     match pool_slot c capacity p with
     | some i =>
       { start_range := 0, end_range := 0
         value := { hdr := 0, data := List.replicate (payload_words block_size) 0 }
         parent := none, pin_count := 0, dirty := false, lru_prev := none
         lru_next := if i = 0 then none else some (entry_ptr c (i - 1)) }
     | none => heap p)

/-- The memory of an entry object that was never allocated. -/
def null_entry : mtpc_entry_t :=
  { start_range := 0, end_range := 0, value := { hdr := 0, data := [] }, parent := none
    pin_count := 0, dirty := false, lru_prev := none, lru_next := none }

/-- The table structure `mapping_table_init` has filled in when it turns to the
log: the geometry, the two empty caches (the cache of the table gets what the
capacity leaves after the root and the cache of the log), the root buffer
with header `MT, 0, 0`, and the log as `lss_create` leaves it. -/
def init_shell (image : Nat → flash_block_t)
    (npage_mappings block_size page_cache_capacity fanout padded lss_cache_capacity : Nat) :
    mapping_table_t :=
  let (page_cache, heap1) := mtpc_create (fun _ => null_entry) .table
    (u32 (page_cache_capacity + 2 ^ 32 - 1 + 2 ^ 32 - u32 lss_cache_capacity)) block_size none
  let (lss_page_cache, heap2) := mtpc_create heap1 .reader (u32 lss_cache_capacity) block_size
    (some .table)
  let root : flash_block_t :=
    { hdr := mk_hdr MT_BLOCK 0 0, data := List.replicate (payload_words block_size) 0 }
  { block_size := block_size
    root := root
    root_offset := 0
    npage_mappings := npage_mappings
    npage_mappings_padded := padded
    nallocated_pages := 0
    fanout := fanout
    page_cache := { page_cache with child_cache := some .reader }
    lss := lss_create image
    lss_page_cache := lss_page_cache
    heap := heap2 }

/-- The end of `mapping_table_init`, from `if (create)`: a new table gets an
all-ones root and a formatted log; an existing one gets the root and the
segment metadata that recovery finds on the device. -/
def init_open (fuel : Nat) (mt : mapping_table_t) (npage_mappings block_size : Nat)
    (create : Bool) : Res (Option mapping_table_t) :=
  if create then do
    let mt1 := { mt with root := mt.root.fill_ones (payload_words block_size) }
    let (ret, mt2) ← lss_init fuel mt1
    if ret ≠ 0 then throw (.assertion .mapping_table_c 99)
    return some mt2
  else do
    let r ← lss_load_root_and_seg_meta mt.lss mt.root FLASH_INVALID_ADDRESS
    if r.ret ≠ 0 then throw (.assertion .mapping_table_c 110)
    if block_size ≠ r.lss.curr_segment_metadata.block_size then throw (.assertion .mapping_table_c 115)
    if npage_mappings ≠ r.lss.curr_segment_metadata.npage_mappings then throw (.assertion .mapping_table_c 116)
    return some { mt with lss := r.lss, root := r.root_out }

/-- Opens the table on the device whose backing file holds `image`.  The
result `none` is the `NULL` returned without a failed assertion. -/
def mapping_table_init (fuel : Nat) (image : Nat → flash_block_t)
    (npage_mappings block_size page_cache_capacity : Nat) (create : Bool) :
    Res (Option mapping_table_t) :=
  if block_size < 16 then .ok none
  else do
    let fanout := u32 ((block_size - sizeof_flash_block_t) / sizeof_mapping_table_entry_t)
    let padded ← padded_loop npage_mappings fanout fuel 1
    let lss_cache_capacity ← max_tree_height fuel padded fanout
    init_open fuel
      (init_shell image npage_mappings block_size page_cache_capacity fanout padded
        lss_cache_capacity)
      npage_mappings block_size create

/-- Closes the table and returns the contents of the backing file. -/
def mapping_table_destroy (fuel : Nat) (mt : mapping_table_t) : Res (Nat → flash_block_t) := do
  let (_, mt1) ← lss_realloc_evict fuel mt
  let (_, mt2) ← mtpc_flush_all fuel mt1 .table false
  let (_, mt3) ← lss_write fuel mt2 .root mt2.block_size false
  return mt3.lss.flash.mem

/-- The `while (true)` loop of `mapping_table_update_physical_address` once
`curr_block` is set: `cache_entry = none` stands for the root. -/
def mapping_table_update_loop (logical_address physical_address : Nat) (clean_tail : Bool) :
    Nat → mapping_table_t → Option Nat → Nat → Nat → Res (Int × mapping_table_t)
  | 0, _, _, _, _ => .error .out_of_fuel
  | n + 1, mt, cache_entry, curr_range, curr_range_start => do
    let sub_range ← udiv curr_range mt.fanout
    let target_index := u32 (← udiv (← umod logical_address curr_range) sub_range)
    if sub_range = 1 then
      let mt1 ← write_slot mt cache_entry target_index physical_address
      let (_, mt2) ← mtpc_unpin (mtpc_mark_dirty mt1 cache_entry) cache_entry
      return (0, mt2)
    else
      let new_entry_start_range := u64 (curr_range_start + u64 (target_index * sub_range))
      let slot ← read_entry (mt.block_of cache_entry) target_index
      let (new_cache_entry, mt1) ←
        if slot = FLASH_INVALID_ADDRESS then do
          let (e, m) ← mtpc_insert n mt .table new_entry_start_range
            (u64 (new_entry_start_range + sub_range)) ((mt.block_of cache_entry).level + 1)
            cache_entry clean_tail
          pure (e, m.set_entry e { m.heap e with
            value := (m.heap e).value.fill_ones (payload_words m.block_size) })
        else do
          let (e, m) ← mtpc_acquire_from_storage n mt .table new_entry_start_range
            (u64 (new_entry_start_range + sub_range)) slot cache_entry clean_tail
          if 1 + (m.block_of cache_entry).level ≠ (m.heap e).value.level then throw (.assertion .mapping_table_c 261)
          pure (e, m)
      let (_, mt2) ← mtpc_unpin mt1 cache_entry
      mapping_table_update_loop logical_address physical_address clean_tail n mt2
        (some new_cache_entry) sub_range new_entry_start_range

def mapping_table_update_physical_address (fuel : Nat) (mt : mapping_table_t)
    (logical_address physical_address : Nat) (clean_tail : Bool) :
    Res (Int × mapping_table_t) :=
  if logical_address ≥ mt.npage_mappings then .ok (-1, mt)
  else
    match mtpc_search mt .table logical_address with
    | (none, mt1) =>
      mapping_table_update_loop logical_address physical_address clean_tail fuel mt1 none
        mt1.npage_mappings_padded 0
    | (some e, mt1) =>
      mapping_table_update_loop logical_address physical_address clean_tail fuel mt1 (some e)
        (mt1.heap e).span (mt1.heap e).start_range

/-- The `while (true)` loop of `mapping_table_get_physical_address` once
`curr_block` is set; `out` is the content of `physical_address[0]`. -/
def mapping_table_get_loop (logical_address : Nat) (clean_tail : Bool) (out : Nat) :
    Nat → mapping_table_t → Option Nat → Nat → Nat → Res (Int × Nat × mapping_table_t)
  | 0, _, _, _, _ => .error .out_of_fuel
  | n + 1, mt, cache_entry, curr_range, curr_range_start => do
    let sub_range ← udiv curr_range mt.fanout
    let target_index := u32 (← udiv (← umod logical_address curr_range) sub_range)
    let slot ← read_entry (mt.block_of cache_entry) target_index
    if sub_range = 1 then
      let (_, mt1) ← mtpc_unpin mt cache_entry
      if slot = FLASH_INVALID_ADDRESS then return (-1, slot, mt1)
      else return (0, slot, mt1)
    else if slot = FLASH_INVALID_ADDRESS then
      let (_, mt1) ← mtpc_unpin mt cache_entry
      return (-1, out, mt1)
    else
      let new_entry_start_range := u64 (curr_range_start + u64 (target_index * sub_range))
      let (new_cache_entry, mt1) ← mtpc_acquire_from_storage n mt .table new_entry_start_range
        (u64 (new_entry_start_range + sub_range)) slot cache_entry clean_tail
      if 1 + (mt1.block_of cache_entry).level ≠ (mt1.heap new_cache_entry).value.level then
        throw (.assertion .mapping_table_c 348)
      let (_, mt2) ← mtpc_unpin mt1 cache_entry
      mapping_table_get_loop logical_address clean_tail out n mt2 (some new_cache_entry) sub_range
        new_entry_start_range

/-- Returns the return code, the content of `physical_address[0]` afterwards
(`out` before the call) and the new state. -/
def mapping_table_get_physical_address (fuel : Nat) (mt : mapping_table_t)
    (logical_address : Nat) (clean_tail : Bool) (out : Nat) :
    Res (Int × Nat × mapping_table_t) :=
  if logical_address ≥ mt.npage_mappings then .ok (-1, out, mt)
  else
    match mtpc_search mt .table logical_address with
    | (none, mt1) =>
      mapping_table_get_loop logical_address clean_tail out fuel mt1 none
        mt1.npage_mappings_padded 0
    | (some e, mt1) =>
      mapping_table_get_loop logical_address clean_tail out fuel mt1 (some e)
        (mt1.heap e).span (mt1.heap e).start_range

/-! ## Concrete tables -/

/-- A device whose backing file holds only erased blocks. -/
def erased_image : Nat → flash_block_t := fun _ => erased_block FLASH_DEFAULT_WRITE_GRANULARITY

/-- A table state with empty caches and an empty log, used where an
initialisation fails. -/
def blank_table : mapping_table_t :=
  { block_size := 0, root := { hdr := 0, data := [] }, root_offset := 0, npage_mappings := 0
    npage_mappings_padded := 0, nallocated_pages := 0, fanout := 0
    page_cache := (mtpc_create (fun _ => null_entry) .table 0 0 none).1
    lss := lss_create erased_image
    lss_page_cache := (mtpc_create (fun _ => null_entry) .reader 0 0 none).1
    heap := fun _ => null_entry }

/-- The table `mapping_table_init(name, npage_mappings, 64, 10, true)` of the
test driver, on an erased device. -/
def fresh_table (npage_mappings : Nat) : mapping_table_t :=
  match mapping_table_init 8 erased_image npage_mappings 64 10 true with
  | .ok (some mt) => mt
  | _ => blank_table

instance instDecidableEqExcept {ε α : Type} [DecidableEq ε] [DecidableEq α] :
    DecidableEq (Except ε α) := fun a b =>
  match a, b with
  | .ok x, .ok y =>
    if h : x = y then isTrue (by rw [h]) else isFalse (by intro e; cases e; exact h rfl)
  | .error x, .error y =>
    if h : x = y then isTrue (by rw [h]) else isFalse (by intro e; cases e; exact h rfl)
  | .ok _, .error _ => isFalse (by intro e; cases e)
  | .error _, .ok _ => isFalse (by intro e; cases e)

/-- The value a call returns, without the state it leaves. -/
def outcome {α : Type} (r : Res (α × mapping_table_t)) : Res α := r.map Prod.fst

/-- The state a call leaves (`blank_table` when it stops with a fault). -/
def state_after {α : Type} (r : Res (α × mapping_table_t)) : mapping_table_t :=
  match r with
  | .ok (_, mt) => mt
  | .error _ => blank_table

/-- The return code and the output word of a lookup, without the state. -/
def lookup_outcome (r : Res (Int × Nat × mapping_table_t)) : Res (Int × Nat) :=
  r.map (fun x => (x.1, x.2.1))

/-- The state a lookup leaves (`blank_table` when it stops with a fault). -/
def state_after_lookup (r : Res (Int × Nat × mapping_table_t)) : mapping_table_t :=
  match r with
  | .ok (_, _, mt) => mt
  | .error _ => blank_table

/-- A block of payload used in examples: an MT page of level 1 for the range
starting at 49 whose slots hold `1 .. 7`. -/
def sample_block : flash_block_t := { hdr := mk_hdr MT_BLOCK 1 49, data := [1, 2, 3, 4, 5, 6, 7] }

/-- The first block of a segment is a SEG_META record with
`contains_checkpoint` set. -/
def is_checkpoint (b : flash_block_t) : Bool :=
  decide ((seg_meta_decode b).type = SEG_META_BLOCK) && (seg_meta_decode b).contains_checkpoint


/-- A non-erased block whose kind is MT and whose level is 0. -/
def is_root_block (b : flash_block_t) : Bool :=
  decide (hdr_word32 b.hdr ≠ UINT32_MAX) && decide (b.type = MT_BLOCK) && decide (b.level = 0)


/-- The state in which `lss_load_root_and_seg_meta` enters its first loop. -/
def scan_start (lss : lss_t) : checkpoint_scan :=
  { latest_seq := 0, latest_seg_offset := FLASH_INVALID_ADDRESS
    curr_segment_metadata := lss.curr_segment_metadata }


/-- What the first loop of recovery has established after the segments
`seen`: nothing adopted and no checkpoint among them, or the adopted segment
`b` is a checkpoint of maximal `seq_num` among them. -/
def scan_inv (image : Nat → flash_block_t) (seen : List Nat) (st : checkpoint_scan) : Prop :=
  (st.latest_seg_offset = FLASH_INVALID_ADDRESS ∧ st.latest_seq = 0
      ∧ ∀ i ∈ seen, is_checkpoint (image (i * 64)) = false)
    ∨ ∃ b ∈ seen, b < 6 ∧ is_checkpoint (image (b * 64)) = true
        ∧ st = { latest_seq := (seg_meta_decode (image (b * 64))).seq_num
                 latest_seg_offset := b * 4096
                 curr_segment_metadata := seg_meta_decode (image (b * 64)) }
        ∧ ∀ i ∈ seen, is_checkpoint (image (i * 64)) = true →
            (seg_meta_decode (image (i * 64))).seq_num
              ≤ (seg_meta_decode (image (b * 64))).seq_num


/-- The fault a call stops with, if it does. -/
def fault_of {α : Type} (r : Res α) : Option Fault :=
  match r with
  | .ok _ => none
  | .error e => some e


/-- The device image a fresh 64-entry table leaves: a checkpointed SEG_META
and the root in segment 0, every other block erased. -/
def fresh_image : Nat → flash_block_t := (fresh_table 64).lss.flash.mem


/-- The image `fresh_image` with a block of zero bytes at the start of
segment 1. -/
def stray_image : Nat → flash_block_t := fun i =>
  if i = 64 then { hdr := 0, data := List.replicate 7 0 } else fresh_image i

/-- The state in which the first loop of recovery ends on `fresh_image`. -/
def fresh_scan : checkpoint_scan :=
  { latest_seq := 0, latest_seg_offset := 0
    curr_segment_metadata := seg_meta_decode (fresh_image 0) }

/-- The fixed part of a cache: its capacity and its links to the paired cache. -/
def mtpc_t.shape (c : mtpc_t) : Nat × Option mtpc_ref × Option mtpc_ref :=
  (c.capacity, c.child_cache, c.parent_cache)


/-- The geometry of a table: fanout, block size, the two page counts and the
fixed part of both caches. -/
def cfg (mt : mapping_table_t) :
    Nat × Nat × Nat × Nat × (Nat × Option mtpc_ref × Option mtpc_ref)
      × (Nat × Option mtpc_ref × Option mtpc_ref) :=
  (mt.fanout, mt.block_size, mt.npage_mappings, mt.npage_mappings_padded,
    mt.page_cache.shape, mt.lss_page_cache.shape)


/-- The computation `x` ends normally with the result `r`. -/
def returns {α : Type} (x : Res α) (r : α) : Prop := x = .ok r


/-- The expression `x` has the value `r`. -/
def yields {α : Type} (x r : α) : Prop := x = r


/-- No function of the cache and of the log changes the geometry of the table
(statement for the fuel `n`). -/
structure cfg_frame (n : Nat) : Prop where
  flush_entry : ∀ (mt : mapping_table_t) (c : mtpc_ref) (entry : Nat) (ct : Bool) (r : Int × mapping_table_t),
    flush_entry n mt c entry ct = .ok r → cfg r.2 = cfg mt
  mtpc_insert_evict : ∀ (mt : mapping_table_t) (c : mtpc_ref) (ct : Bool) (cand : Option Nat) (r : Nat × mapping_table_t),
    mtpc_insert_evict n mt c ct cand = .ok r → cfg r.2 = cfg mt
  mtpc_insert : ∀ (mt : mapping_table_t) (c : mtpc_ref) (s e level : Nat) (parent : Option Nat) (ct : Bool) (r : Nat × mapping_table_t),
    mtpc_insert n mt c s e level parent ct = .ok r → cfg r.2 = cfg mt
  mtpc_acquire_from_storage : ∀ (mt : mapping_table_t) (c : mtpc_ref) (s e sa : Nat) (parent : Option Nat) (ct : Bool) (r : Nat × mapping_table_t),
    mtpc_acquire_from_storage n mt c s e sa parent ct = .ok r → cfg r.2 = cfg mt
  mtpc_flush_all_level : ∀ (mt : mapping_table_t) (c : mtpc_ref) (ct : Bool) (level i total : Nat) (r : Nat × mapping_table_t),
    mtpc_flush_all_level n mt c ct level i total = .ok r → cfg r.2 = cfg mt
  mtpc_flush_all_levels : ∀ (mt : mapping_table_t) (c : mtpc_ref) (ct : Bool) (level total : Nat) (r : Nat × mapping_table_t),
    mtpc_flush_all_levels n mt c ct level total = .ok r → cfg r.2 = cfg mt
  mtpc_flush_all : ∀ (mt : mapping_table_t) (c : mtpc_ref) (ct : Bool) (r : Int × mapping_table_t),
    mtpc_flush_all n mt c ct = .ok r → cfg r.2 = cfg mt
  descend_to_parent : ∀ (mt : mapping_table_t) (bh ba : Nat) (ap : Option (Nat × Nat)) (brs : Nat) (ce : Option Nat) (csr crs : Nat) (r : Bool × mapping_table_t),
    descend_to_parent n mt bh ba ap brs ce csr crs = .ok r → cfg r.2 = cfg mt
  locate_parent : ∀ (mt : mapping_table_t) (bh ba : Nat) (ap : Option (Nat × Nat)) (r : Bool × mapping_table_t),
    locate_parent n mt bh ba ap = .ok r → cfg r.2 = cfg mt
  is_mt_block_alive : ∀ (mt : mapping_table_t) (ba bh : Nat) (r : Bool × mapping_table_t),
    is_mt_block_alive n mt ba bh = .ok r → cfg r.2 = cfg mt
  apply_reallocate : ∀ (mt : mapping_table_t) (bh old new : Nat) (r : Int × mapping_table_t),
    apply_reallocate n mt bh old new = .ok r → cfg r.2 = cfg mt
  lss_realloc_evict_loop : ∀ (mt : mapping_table_t) (idx : Nat) (r : mapping_table_t),
    lss_realloc_evict_loop n mt idx = .ok r → cfg r = cfg mt
  lss_realloc_evict : ∀ (mt : mapping_table_t)  (r : Int × mapping_table_t),
    lss_realloc_evict n mt = .ok r → cfg r.2 = cfg mt
  lss_realloc_insert : ∀ (mt : mapping_table_t) (bh old new : Nat) (r : Int × mapping_table_t),
    lss_realloc_insert n mt bh old new = .ok r → cfg r.2 = cfg mt
  is_mt_segment_fully_dead_loop : ∀ (mt : mapping_table_t) (buf : Nat → flash_block_t) (ba bhdr ps np i : Nat) (r : Bool × mapping_table_t),
    is_mt_segment_fully_dead_loop n mt buf ba bhdr ps np i = .ok r → cfg r.2 = cfg mt
  is_mt_segment_fully_dead : ∀ (mt : mapping_table_t) (ba : Nat) (r : Bool × mapping_table_t),
    is_mt_segment_fully_dead n mt ba = .ok r → cfg r.2 = cfg mt
  lss_debug_analyze_loop : ∀ (mt : mapping_table_t) (bs nb i : Nat) (r : mapping_table_t),
    lss_debug_analyze_loop n mt bs nb i = .ok r → cfg r = cfg mt
  lss_debug_analyze : ∀ (mt : mapping_table_t)  (r : Int × mapping_table_t),
    lss_debug_analyze n mt = .ok r → cfg r.2 = cfg mt
  lss_clean_tail_block : ∀ (mt : mapping_table_t) (tail : Nat) (r : Int × mapping_table_t),
    lss_clean_tail_block n mt tail = .ok r → cfg r.2 = cfg mt
  lss_write_clean : ∀ (mt : mapping_table_t) (tries : Nat) (r : mapping_table_t),
    lss_write_clean n mt tries = .ok r → cfg r = cfg mt
  lss_write_rotate : ∀ (mt : mapping_table_t)  (r : mapping_table_t),
    lss_write_rotate n mt = .ok r → cfg r = cfg mt
  lss_write : ∀ (mt : mapping_table_t) (data : buf_ptr) (len : Nat) (ct : Bool) (r : Nat × mapping_table_t),
    lss_write n mt data len ct = .ok r → cfg r.2 = cfg mt

/-- The range of a cache entry contains the logical address. -/
def mtpc_entry_t.covers (e : mtpc_entry_t) (L : Nat) : Prop :=
  e.start_range ≤ L ∧ L < e.end_range

instance (e : mtpc_entry_t) (L : Nat) : Decidable (e.covers L) := by
  unfold mtpc_entry_t.covers; infer_instance


/-- The range `(start_range, end_range)` of an entry. -/
def mtpc_entry_t.range (e : mtpc_entry_t) : Nat × Nat := (e.start_range, e.end_range)


/-- The sorted array of the cache of the table and the range of every entry
object. -/
def rng (mt : mapping_table_t) : List Nat × (Nat → Nat × Nat) :=
  (mt.page_cache.data, fun i => (mt.heap i).range)


/-- The entry `x` is resident in the cache of the table with the range
`[s, e)`. -/
def holds (mt : mapping_table_t) (x s e : Nat) : Prop :=
  x ∈ (rng mt).1 ∧ (rng mt).2 x = (s, e)


/-- The entry `x` is resident in the cache of the table, with the range
`[s, e)` or with the range of a freed entry. -/
def lodged (mt : mapping_table_t) (x s e : Nat) : Prop :=
  x ∈ (rng mt).1 ∧ ((rng mt).2 x = (s, e) ∨ (rng mt).2 x = (0, 0))


/-- The part of the geometry that the descent relies on. -/
def geometry_ok (mt : mapping_table_t) : Prop :=
  2 ≤ mt.fanout ∧ mt.fanout < 2 ^ 32
    ∧ (∃ h < 64, mt.npage_mappings_padded = mt.fanout ^ h) ∧ mt.npage_mappings_padded < 2 ^ 64
    ∧ mt.page_cache.parent_cache = none ∧ mt.npage_mappings ≤ mt.npage_mappings_padded

instance (mt : mapping_table_t) : Decidable (geometry_ok mt) := by
  unfold geometry_ok; infer_instance


/-- The fields of an entry other than its LRU links. -/
def mtpc_entry_t.core (e : mtpc_entry_t) :
    Nat × Nat × flash_block_t × Option Nat × Nat × Bool :=
  (e.start_range, e.end_range, e.value, e.parent, e.pin_count, e.dirty)


/-- The fields other than the LRU links of every entry object. -/
def cores (mt : mapping_table_t) : Nat → Nat × Nat × flash_block_t × Option Nat × Nat × Bool :=
  fun i => (mt.heap i).core


/-- The range of the entry is a page of the tree: `fanout ^ (j + 1)` addresses
from a multiple of that size, below `2 ^ 64`. -/
def page_aligned (f : Nat) (e : mtpc_entry_t) : Prop :=
  ∃ j < 64, e.end_range = e.start_range + f ^ (j + 1) ∧ e.start_range % f ^ (j + 1) = 0
    ∧ e.end_range < 2 ^ 64

instance (f : Nat) (e : mtpc_entry_t) : Decidable (page_aligned f e) := by
  unfold page_aligned; infer_instance


/-- The state of the cache of the table that the descent relies on: every
resident entry is a page of the tree, no two resident entries have the same
range, and no pin count is about to wrap. -/
def table_cache_ok (mt : mapping_table_t) : Prop :=
  (∀ x ∈ mt.page_cache.data, page_aligned mt.fanout (mt.heap x))
    ∧ (∀ x ∈ mt.page_cache.data, ∀ y ∈ mt.page_cache.data,
        (mt.heap x).range = (mt.heap y).range → x = y)
    ∧ (∀ x ∈ mt.page_cache.data, (mt.heap x).pin_count + 1 < 2 ^ 16)

instance (mt : mapping_table_t) : Decidable (table_cache_ok mt) := by
  unfold table_cache_ok; infer_instance

/-- The relocation buffer is sorted strictly by `old_offset`. -/
def sorted_by_old (l : List lss_realloc_entry_t) : Prop :=
  l.Pairwise (fun a b => a.old_offset < b.old_offset)


/-- The relocation buffer has a free slot, is sorted strictly by `old_offset`
and holds no record with the offset `t` on either side. -/
def quiet (t : Nat) (lss : lss_t) : Prop :=
  lss.realloc_list.length < lss.realloc_capacity ∧ sorted_by_old lss.realloc_list
    ∧ ∀ r ∈ lss.realloc_list, r.old_offset ≠ t ∧ r.new_offset ≠ t


/-- With cleaning disabled, no function of the cache and of the log adds a record
to the relocation buffer: a buffer that is sorted, has room and does not
mention `t` stays so (statement for the fuel `n`). -/
structure quiet_frame (t : Nat) (n : Nat) : Prop where
  flush_entry : ∀ (mt : mapping_table_t) (c : mtpc_ref) (entry : Nat) (ct : Bool) (r : Int × mapping_table_t),
    flush_entry n mt c entry ct = .ok r → ct = false → quiet t mt.lss → quiet t r.2.lss
  mtpc_insert_evict : ∀ (mt : mapping_table_t) (c : mtpc_ref) (ct : Bool) (cand : Option Nat) (r : Nat × mapping_table_t),
    mtpc_insert_evict n mt c ct cand = .ok r → ct = false → quiet t mt.lss → quiet t r.2.lss
  mtpc_insert : ∀ (mt : mapping_table_t) (c : mtpc_ref) (s e level : Nat) (parent : Option Nat) (ct : Bool) (r : Nat × mapping_table_t),
    mtpc_insert n mt c s e level parent ct = .ok r → ct = false → quiet t mt.lss → quiet t r.2.lss
  mtpc_acquire_from_storage : ∀ (mt : mapping_table_t) (c : mtpc_ref) (s e sa : Nat) (parent : Option Nat) (ct : Bool) (r : Nat × mapping_table_t),
    mtpc_acquire_from_storage n mt c s e sa parent ct = .ok r → ct = false → quiet t mt.lss → quiet t r.2.lss
  mtpc_flush_all_level : ∀ (mt : mapping_table_t) (c : mtpc_ref) (ct : Bool) (level i total : Nat) (r : Nat × mapping_table_t),
    mtpc_flush_all_level n mt c ct level i total = .ok r → ct = false → quiet t mt.lss → quiet t r.2.lss
  mtpc_flush_all_levels : ∀ (mt : mapping_table_t) (c : mtpc_ref) (ct : Bool) (level total : Nat) (r : Nat × mapping_table_t),
    mtpc_flush_all_levels n mt c ct level total = .ok r → ct = false → quiet t mt.lss → quiet t r.2.lss
  mtpc_flush_all : ∀ (mt : mapping_table_t) (c : mtpc_ref) (ct : Bool) (r : Int × mapping_table_t),
    mtpc_flush_all n mt c ct = .ok r → ct = false → quiet t mt.lss → quiet t r.2.lss
  descend_to_parent : ∀ (mt : mapping_table_t) (bh ba : Nat) (ap : Option (Nat × Nat)) (brs : Nat) (ce : Option Nat) (csr crs : Nat) (r : Bool × mapping_table_t),
    descend_to_parent n mt bh ba ap brs ce csr crs = .ok r → quiet t mt.lss → quiet t r.2.lss
  locate_parent : ∀ (mt : mapping_table_t) (bh ba : Nat) (ap : Option (Nat × Nat)) (r : Bool × mapping_table_t),
    locate_parent n mt bh ba ap = .ok r → quiet t mt.lss → quiet t r.2.lss
  is_mt_block_alive : ∀ (mt : mapping_table_t) (ba bh : Nat) (r : Bool × mapping_table_t),
    is_mt_block_alive n mt ba bh = .ok r → quiet t mt.lss → quiet t r.2.lss
  apply_reallocate : ∀ (mt : mapping_table_t) (bh old new : Nat) (r : Int × mapping_table_t),
    apply_reallocate n mt bh old new = .ok r → quiet t mt.lss → quiet t r.2.lss
  lss_realloc_evict_loop : ∀ (mt : mapping_table_t) (idx : Nat) (r : mapping_table_t),
    lss_realloc_evict_loop n mt idx = .ok r → quiet t mt.lss → quiet t r.lss
  lss_realloc_evict : ∀ (mt : mapping_table_t)  (r : Int × mapping_table_t),
    lss_realloc_evict n mt = .ok r → quiet t mt.lss → quiet t r.2.lss
  lss_realloc_insert : ∀ (mt : mapping_table_t) (bh old new : Nat) (r : Int × mapping_table_t),
    lss_realloc_insert n mt bh old new = .ok r → True
  is_mt_segment_fully_dead_loop : ∀ (mt : mapping_table_t) (buf : Nat → flash_block_t) (ba bhdr ps np i : Nat) (r : Bool × mapping_table_t),
    is_mt_segment_fully_dead_loop n mt buf ba bhdr ps np i = .ok r → quiet t mt.lss → quiet t r.2.lss
  is_mt_segment_fully_dead : ∀ (mt : mapping_table_t) (ba : Nat) (r : Bool × mapping_table_t),
    is_mt_segment_fully_dead n mt ba = .ok r → quiet t mt.lss → quiet t r.2.lss
  lss_debug_analyze_loop : ∀ (mt : mapping_table_t) (bs nb i : Nat) (r : mapping_table_t),
    lss_debug_analyze_loop n mt bs nb i = .ok r → quiet t mt.lss → quiet t r.lss
  lss_debug_analyze : ∀ (mt : mapping_table_t)  (r : Int × mapping_table_t),
    lss_debug_analyze n mt = .ok r → quiet t mt.lss → quiet t r.2.lss
  lss_clean_tail_block : ∀ (mt : mapping_table_t) (tail : Nat) (r : Int × mapping_table_t),
    lss_clean_tail_block n mt tail = .ok r → True
  lss_write_clean : ∀ (mt : mapping_table_t) (tries : Nat) (r : mapping_table_t),
    lss_write_clean n mt tries = .ok r → True
  lss_write_rotate : ∀ (mt : mapping_table_t)  (r : mapping_table_t),
    lss_write_rotate n mt = .ok r → quiet t mt.lss → quiet t r.lss
  lss_write : ∀ (mt : mapping_table_t) (data : buf_ptr) (len : Nat) (ct : Bool) (r : Nat × mapping_table_t),
    lss_write n mt data len ct = .ok r → ct = false → quiet t mt.lss → quiet t r.2.lss

instance (t : Nat) (lss : lss_t) : Decidable (quiet t lss) := by
  unfold quiet sorted_by_old; infer_instance


/-- Applies a list of updates `(logical, physical)` with tail cleaning enabled
and returns the last state (`blank_table` after a fault). -/
def run_updates (fuel : Nat) (mt : mapping_table_t) : List (Nat × Nat) → mapping_table_t
  | [] => mt
  | (l, p) :: rest =>
    run_updates fuel (state_after (mapping_table_update_physical_address fuel mt l p true)) rest


/-- The 64-entry table after five updates that fill the cache of the table
and evict the leaf page of address 0 to the log (at offset 128), with the
tail of the log set to that page. -/
def cleaning_table : mapping_table_t :=
  let mt := run_updates 12 (fresh_table 64) [(0, 1), (7, 2), (14, 3), (21, 4), (28, 5)]
  { mt with lss := { mt.lss with tail := 128 } }


/-- The leaf page of address 0 as the eviction wrote it. -/
def evicted_leaf : flash_block_t :=
  { hdr := mk_hdr MT_BLOCK 2 0
    data := [1, UINT64_MAX, UINT64_MAX, UINT64_MAX, UINT64_MAX, UINT64_MAX, UINT64_MAX] }

/-- The fanout `mapping_table_init` derives from the block size. -/
def fanout_of (block_size : Nat) : Nat :=
  u32 ((block_size - sizeof_flash_block_t) / sizeof_mapping_table_entry_t)


/-- The fanout and the padded size of the table an initialisation returns. -/
def padding_of (r : Res (Option mapping_table_t)) : Res (Option (Nat × Nat)) :=
  r.map (Option.map (fun mt => (mt.fanout, mt.npage_mappings_padded)))

/-- The table `cleaning_table` after its tail block, which is alive, has been
cleaned: the relocation buffer holds one record. -/
def relocated_table : mapping_table_t :=
  state_after (lss_clean_tail_block 12 cleaning_table 128)

/-- The state in which `mtpc_insert` takes the candidate out of the sorted
array: the state after the second probe for the range and the unpin of the
entry it found.  The result is `none` when the probe finds the range itself,
in which case the candidate is put back and nothing is evicted. -/
def state_at_removal (mt4 : mapping_table_t) (c : mtpc_ref) (start_range end_range : Nat) :
    Res (Option mapping_table_t) :=
  match mtpc_get_page_entry mt4 (some c) start_range end_range with
  | (some sp, mt5) =>
    if entry_is mt5 sp start_range end_range then .ok none
    else (mtpc_unpin mt5 (some sp)).map (fun r => some r.2)
  | (none, mt5) => .ok (some mt5)


/-- The sorted arrays of the two caches. -/
def arrays (mt : mapping_table_t) : List Nat × List Nat :=
  (mt.page_cache.data, mt.lss_page_cache.data)


/-- The 64-entry table after five updates: the cache of the table is full
(the level-1 page and four dirty leaf pages) and has no free slot. -/
def full_table : mapping_table_t :=
  run_updates 12 (fresh_table 64) [(0, 1), (7, 2), (14, 3), (21, 4), (28, 5)]

/-- The entries `l`, in this order, are linked into a doubly linked list by
`lru_prev` and `lru_next`: the first one has `lru_prev = prev`, each one has
the next one as `lru_next`, the last one has `lru_next = NULL`, and `last` is
the last entry (`prev` when there is none). -/
def dll (heap : Nat → mtpc_entry_t) : Option Nat → List Nat → Option Nat → Prop
  | prev, [], last => last = prev
  | prev, x :: xs, last =>
    (heap x).lru_prev = prev ∧ (heap x).lru_next = xs.head? ∧ dll heap (some x) xs last

instance dll_decidable (heap : Nat → mtpc_entry_t) :
    ∀ (prev : Option Nat) (l : List Nat) (last : Option Nat), Decidable (dll heap prev l last)
  | prev, [], last => by unfold dll; infer_instance
  | prev, x :: xs, last => by
    unfold dll
    have := dll_decidable heap (some x) xs last
    infer_instance


/-- The LRU list of cache `c`, walked from `lru_head` along `lru_next`, is
`l`: it ends at `lru_tail`, the back links agree, and no entry occurs twice. -/
def lru_is (mt : mapping_table_t) (c : mtpc_ref) (l : List Nat) : Prop :=
  (mt.cache c).lru_head = l.head? ∧ dll mt.heap none l (mt.cache c).lru_tail ∧ l.Nodup

instance (mt : mapping_table_t) (c : mtpc_ref) (l : List Nat) : Decidable (lru_is mt c l) := by
  unfold lru_is; infer_instance


/-- The heap after `lru_remove` has unlinked `x`. -/
def unlink (heap : Nat → mtpc_entry_t) (x : Nat) : Nat → mtpc_entry_t := fun y =>
  if y = x then { heap x with lru_prev := none, lru_next := none }
  else if some y = (heap x).lru_next then { heap y with lru_prev := (heap x).lru_prev }
  else if some y = (heap x).lru_prev then { heap y with lru_next := (heap x).lru_next }
  else heap y


/-- The last entry of a list, or `p` when the list is empty. -/
def last_or : List Nat → Option Nat → Option Nat
  | [], p => p
  | x :: xs, _ => last_or xs (some x)


/-- The heap after `lru_push_head` has linked `x` in front of `head`. -/
def link_front (heap : Nat → mtpc_entry_t) (head : Option Nat) (x : Nat) :
    Nat → mtpc_entry_t := fun y =>
  if some y = head then { heap y with lru_prev := some x }
  else if y = x then { heap x with lru_prev := none, lru_next := head }
  else heap y

/-- The range of the entry contains `[s, e)`, as `mtpc_get_page_entry` tests
it. -/
def mtpc_entry_t.contains (en : mtpc_entry_t) (s e : Nat) : Prop :=
  (s ≥ en.start_range ∧ s < en.end_range) ∧ (e > en.start_range ∧ e ≤ en.end_range)

instance (en : mtpc_entry_t) (s e : Nat) : Decidable (en.contains s e) := by
  unfold mtpc_entry_t.contains; infer_instance


/-- The block buffers of all entry objects. -/
def vals (mt : mapping_table_t) : Nat → flash_block_t := fun y => (mt.heap y).value

/-- The table `mapping_table_init(name, 343, 64, 9, true)` on an erased
device: three levels below the root, four slots in the cache of the table. -/
def table_343 : mapping_table_t :=
  match mapping_table_init 8 erased_image 343 64 9 true with
  | .ok (some mt) => mt
  | _ => blank_table


/-- The updates `(50 i mod 343, i + 1)` for `i < n`. -/
def strided_updates (n : Nat) : List (Nat × Nat) :=
  (List.range n).map (fun i => (50 * i % 343, i + 1))


/-- The state of `table_343` after the first 51 of these updates, all with
tail cleaning: the cache of the table is full and two relocations are
pending. -/
def spawn_table : mapping_table_t := run_updates 200 table_343 (strided_updates 51)


/-- What `mtpc_insert` returns, as far as the entry is concerned: the entry,
its range, pin count and dirty flag, the level in its header, and whether it
is in the sorted array. -/
def insert_report (c : mtpc_ref) (r : Res (Nat × mapping_table_t)) :
    Option (Nat × (Nat × Nat) × Nat × Bool × Nat × Bool) :=
  match r with
  | .ok (e, m) =>
    some (e, (m.heap e).range, (m.heap e).pin_count, (m.heap e).dirty, (m.heap e).value.level,
      decide (e ∈ (m.cache c).data))
  | .error _ => none


/-- The entry has just been set up by `mtpc_insert` for the range `[s, e)`:
it is clean, its header says `MT`, the level and the start of the range, and
its pin count is `pins`. -/
def fresh_entry (en : mtpc_entry_t) (s e level pins : Nat) : Prop :=
  en.range = (s, e) ∧ en.dirty = false ∧ en.value.type = MT_BLOCK
    ∧ en.value.level = level % 64 ∧ en.value.logical_address = s % 2 ^ 56
    ∧ en.pin_count = pins

instance (en : mtpc_entry_t) (s e level pins : Nat) : Decidable (fresh_entry en s e level pins) := by
  unfold fresh_entry; infer_instance


/-- The entry `x` of the state `m` is what a probe of cache `c` for `[s, e)`
finds there, and `x'` is this entry pinned once more: the same range, block
buffer, dirty flag and parent, and the pin count raised by one (in 16
bits). -/
def found_entry (m : mapping_table_t) (c : mtpc_ref) (s e x : Nat) (x' : mtpc_entry_t) : Prop :=
  (mtpc_get_page_entry m (some c) s e).1 = some x ∧ x ∈ (m.cache c).data
    ∧ (m.heap x).range = (s, e) ∧ x'.range = (s, e) ∧ x'.value = (m.heap x).value
    ∧ x'.dirty = (m.heap x).dirty ∧ x'.parent = (m.heap x).parent
    ∧ x'.pin_count = u16 ((m.heap x).pin_count + 1)

/-- A sequence of updates, all with the given `clean_tail`. -/
def run_updates_with (fuel : Nat) (clean_tail : Bool) (mt : mapping_table_t) :
    List (Nat × Nat) → mapping_table_t
  | [] => mt
  | (l, p) :: rest =>
    run_updates_with fuel clean_tail
      (state_after (mapping_table_update_physical_address fuel mt l p clean_tail)) rest


/-- The table `mapping_table_init(name, 343, 64, 8, true)` on an erased
device after the 122 updates `(57 i mod 343, i + 1)`, none of them cleaning
the tail: the head of the log is one block before the end of the fourth
segment and the tail is at 0. -/
def long_log_table : mapping_table_t :=
  match mapping_table_init 8 erased_image 343 64 8 true with
  | .ok (some mt) =>
    run_updates_with 200 false mt ((List.range 122).map (fun i => (57 * i % 343, i + 1)))
  | _ => blank_table


/-- The log before and after a write of one block with tail cleaning: the
sizes of a segment and of the device; head, tail and used space before; the
address returned, and head, tail, used space and free distance after. -/
def clean_write_report (fuel : Nat) (mt : mapping_table_t) :
    Option ((Nat × Nat) × (Nat × Nat × Nat) × Nat × Nat × Nat × Nat × Nat) :=
  match lss_write fuel mt .root mt.lss.flash.write_granularity_bytes true with
  | .ok (a, m) =>
    some ((mt.lss.flash.segment_size_bytes, flash_get_size mt.lss.flash),
      (mt.lss.head, mt.lss.tail, lss_get_used_space mt.lss),
      a, m.lss.head, m.lss.tail, lss_get_used_space m.lss, lss_distance m.lss)
  | .error _ => none


/-- One round of the cleaning loop of `lss_write` that ends the loop: the
round cleans the block at the tail of `m0` and leaves `m1`, with more than
two segments between head and tail; `m` is `m1`, or what the analysis of the
log printed after ten rounds leaves of it. -/
def last_clean_round (m : mapping_table_t) : Prop :=
  ∃ k m0 m1 a, lss_clean_tail_block k m0 m0.lss.tail = .ok (a, m1)
    ∧ 2 * m0.lss.flash.segment_size_bytes < lss_distance m1.lss
    ∧ (m1.lss.tail ≤ m1.lss.head → m1.lss.head - m1.lss.tail < 2 ^ 64 →
        flash_get_size m1.lss.flash < 2 ^ 64 →
        m1.lss.head - m1.lss.tail ≤ flash_get_size m1.lss.flash →
        lss_get_used_space m1.lss + 2 * m0.lss.flash.segment_size_bytes
          < flash_get_size m1.lss.flash)
    ∧ (m = m1 ∨ ∃ b, lss_debug_analyze k m1 = .ok (b, m))

/-- The sum of the pin counts of the resident entries of the cache of the
table and of the cache of the log. -/
def pin_sum (mt : mapping_table_t) : Nat :=
  ((mt.page_cache.data ++ mt.lss_page_cache.data).map (fun x => (mt.heap x).pin_count)).sum


/-- Every resident entry is pinned once for each resident entry that names it
as its parent, and not otherwise. -/
def pinned_by_children (mt : mapping_table_t) : Prop :=
  ∀ x ∈ mt.page_cache.data ++ mt.lss_page_cache.data,
    (mt.heap x).pin_count
      = ((mt.page_cache.data ++ mt.lss_page_cache.data).filter
          (fun y => decide ((mt.heap y).parent = some x))).length

instance (mt : mapping_table_t) : Decidable (pinned_by_children mt) := by
  unfold pinned_by_children; infer_instance


/-- The fresh 64-entry table after `update(0, 1)`. -/
def table_after_one_update : mapping_table_t :=
  state_after (mapping_table_update_physical_address 12 (fresh_table 64) 0 1 true)


/-- The resident entries of the cache of the table with their ranges, pin
counts and parents. -/
def pins_of (mt : mapping_table_t) : List (Nat × (Nat × Nat) × Nat × Option Nat) :=
  mt.page_cache.data.map (fun x => (x, (mt.heap x).range, (mt.heap x).pin_count, (mt.heap x).parent))

/-- The ranges of the resident entries of a cache, in the order of its sorted
array. -/
def ranges (mt : mapping_table_t) (c : mtpc_ref) : List (Nat × Nat) :=
  (mt.cache c).data.map (fun x => (mt.heap x).range)


/-- No two resident entries of the cache have the same range. -/
def distinct_ranges (mt : mapping_table_t) (c : mtpc_ref) : Prop := (ranges mt c).Nodup

instance (mt : mapping_table_t) (c : mtpc_ref) : Decidable (distinct_ranges mt c) := by
  unfold distinct_ranges; infer_instance


/-- No two resident entries, of one cache or across the two caches, have the
same range. -/
def pair_distinct (mt : mapping_table_t) : Prop :=
  (ranges mt .table ++ ranges mt .reader).Nodup

instance (mt : mapping_table_t) : Decidable (pair_distinct mt) := by
  unfold pair_distinct; infer_instance


/-- The ranges of the resident entries of the cache end below `UINT64_MAX`. -/
def ends_bounded (mt : mapping_table_t) (c : mtpc_ref) : Prop :=
  ∀ y ∈ (mt.cache c).data, (mt.heap y).end_range < UINT64_MAX

instance (mt : mapping_table_t) (c : mtpc_ref) : Decidable (ends_bounded mt c) := by
  unfold ends_bounded; infer_instance


/-- The state in which `mtpc_insert` goes on after the first probe has not
found the range: the probe is unpinned and a slot is taken from the free
list, if there is one. -/
def state_at_eviction (mt : mapping_table_t) (c : mtpc_ref) (s e : Nat) : Res mapping_table_t := do
  let (found, mt1) := mtpc_get_page_entry mt (some c) s e
  let (_, mt2) ← mtpc_unpin mt1 found
  return (cache_allocate_entry mt2 c).2


/-- The state a computation returns (`blank_table` when it stops with a
fault). -/
def state_of (r : Res mapping_table_t) : mapping_table_t :=
  match r with
  | .ok mt => mt
  | .error _ => blank_table


/-- The state that the eviction loop of `mtpc_insert` returns for a call in
the state `mt` (`blank_table` when the call does not get there). -/
def state_after_eviction (fuel : Nat) (mt : mapping_table_t) (c : mtpc_ref) (s e : Nat)
    (clean_tail : Bool) : mapping_table_t :=
  state_after (mtpc_insert_evict fuel (state_of (state_at_eviction mt c s e)) c clean_tail none)


/-- The head of the free list of the cache is not in its sorted array. -/
def free_slot_spare (mt : mapping_table_t) (c : mtpc_ref) : Prop :=
  ∀ en ∈ (mt.cache c).free_list, en ∉ (mt.cache c).data

instance (mt : mapping_table_t) (c : mtpc_ref) : Decidable (free_slot_spare mt c) := by
  unfold free_slot_spare; infer_instance


/-- The fresh 64-entry table after `update(0, 1)` and a flush of the cache of
the table: the pages `[0, 7)` and `[0, 49)` are resident there and clean. -/
def flushed_table : mapping_table_t :=
  state_after (mtpc_flush_all 20 table_after_one_update .table true)


/-- What a cache operation returns, for the ranges: the entry, and the ranges
resident in the cache of the table and in the cache of the log. -/
def ranges_report (r : Res (Nat × mapping_table_t)) :
    Option (Nat × List (Nat × Nat) × List (Nat × Nat)) :=
  match r with
  | .ok (x, m) => some (x, ranges m .table, ranges m .reader)
  | .error _ => none

/-- The table `table_343` after the first 126 of the strided updates, none of
them cleaning the tail: the head of the log is at 17024, the tail at 0, so
that 7552 bytes separate the head from the tail. -/
def crowded_table : mapping_table_t := run_updates_with 200 false table_343 (strided_updates 126)


/-- The number of tail blocks that `lss_clean_tail_block` has to clean, one
per round, before more than two segments lie between head and tail (`none`
when a round fails or `rounds_left` rounds do not suffice). -/
def cleaning_rounds (fuel : Nat) : Nat → mapping_table_t → Nat → Option Nat
  | 0, _, _ => none
  | rounds_left + 1, mt, done =>
    match lss_clean_tail_block fuel mt mt.lss.tail with
    | .error _ => none
    | .ok (_, m) =>
      if lss_distance m.lss ≤ 2 * mt.lss.flash.segment_size_bytes then
        cleaning_rounds fuel rounds_left m (done + 1)
      else some (done + 1)

/-- One step of the descent of `mapping_table_update_physical_address` and
`mapping_table_get_physical_address` in the page with the range
`[curr_range_start, curr_range_start + curr_range)`: the size of a child
range, the index of the child slot for `logical_address`, and the start of
the range of that child. -/
def descent_step (fanout logical_address curr_range curr_range_start : Nat) :
    Res (Nat × Nat × Nat) := do
  let sub_range ← udiv curr_range fanout
  let target_index := u32 (← udiv (← umod logical_address curr_range) sub_range)
  return (sub_range, target_index, u64 (curr_range_start + u64 (target_index * sub_range)))

/-- The index of the slot of the parent page that `flush_entry` writes:
`(start_range % curr_range) / (curr_range / fanout)` in 32 bits. -/
def flush_slot_index (fanout start_range curr_range : Nat) : Res Nat := do
  let sub_range ← udiv curr_range fanout
  return u32 (← udiv (← umod start_range curr_range) sub_range)


/-- What a flush of `entry` leaves, next to what the write inside it
returns.  Before the flush: the dirty flag of the entry, its parent, its
range, the range of the parent `p`, the index of the slot of the parent for
the entry, and the content of that slot.  After: the return code, the address
returned by `lss_write`, the dirty flags of the entry and of the parent, and
the content of the slot.  Flags are given as 0 or 1. -/
def flush_report (fuel : Nat) (mt : mapping_table_t) (c : mtpc_ref) (entry p : Nat)
    (clean_tail : Bool) : Option (List Nat × List Nat) :=
  match flush_slot_index mt.fanout (mt.heap entry).start_range (mt.heap p).span,
      flush_entry (fuel + 1) mt c entry clean_tail,
      lss_write fuel mt (.entry entry) mt.block_size clean_tail with
  | .ok idx, .ok (rc, m), .ok (a, _) =>
    some ([if (mt.heap entry).dirty then 1 else 0, ((mt.heap entry).parent.map (· + 1)).getD 0,
        (mt.heap entry).start_range, (mt.heap entry).end_range, (mt.heap p).start_range,
        (mt.heap p).end_range, idx, (mt.heap p).value.data.getD idx 0],
      [rc.natAbs, a, if (m.heap entry).dirty then 1 else 0, if (m.heap p).dirty then 1 else 0,
        (m.heap p).value.data.getD idx 0])
  | _, _, _ => none

/-- The part of `mtpc_insert` from `assert(0 == cand->pin_count)` on, in the
state `m6` in which the candidate is taken out of the sorted array: the
candidate is removed from the array, it gives up its pin on its parent, and
the slot is set up for the new range. -/
def insert_replace (m6 : mapping_table_t) (c : mtpc_ref) (start_range end_range level : Nat)
    (parent : Option Nat) (cand : Nat) : Res (Nat × mapping_table_t) := do
  if (m6.heap cand).pin_count ≠ 0 then throw (.assertion .page_cache_c 352)
  match find_index (m6.cache c).data cand with
  | none => throw (.assertion .page_cache_c 366)
  | some idx =>
    let mt7 := m6.set_cache c { m6.cache c with data := array_remove (m6.cache c).data idx }
    let mt8 ←
      match (mt7.heap cand).parent with
      | some p =>
        if (mt7.heap p).value.level + 1 ≠ (mt7.heap cand).value.level then
          throw (.assertion .page_cache_c 376)
        else if (mt7.heap p).pin_count = 0 then throw (.assertion .page_cache_c 377)
        else pure (mt7.set_entry p { mt7.heap p with pin_count := (mt7.heap p).pin_count - 1 })
      | none => pure mt7
    mtpc_insert_finish mt8 c start_range end_range level parent cand


/-- The pin counts of the entries `0 .. n-1` of the heap. -/
def pin_counts (mt : mapping_table_t) (n : Nat) : List Nat :=
  (List.range n).map (fun x => (mt.heap x).pin_count)


/-- What an insertion does to the pins: whether the range was resident
before, the sorted array and the pin counts of the nine slots before, the
entry the insertion returns with its parent before the call, and the sorted
array and the pin counts after. -/
def insert_pins (fuel : Nat) (mt : mapping_table_t) (c : mtpc_ref) (s e level p : Nat)
    (ct : Bool) : Option (List Nat) :=
  match mtpc_insert fuel mt c s e level (some p) ct with
  | .ok (en, m) =>
    some ([if (ranges mt c).contains (s, e) then 1 else 0, (mt.heap p).pin_count,
        (m.heap p).pin_count, en, ((mt.heap en).parent).getD 99, (m.heap en).pin_count,
        ((m.heap en).parent).getD 99] ++ pin_counts mt 9 ++ pin_counts m 9)
  | .error _ => none


/-- The state in a result of `state_at_removal` (`blank_table` when there is
none). -/
def removal_state (x : Res (Option mapping_table_t)) : mapping_table_t :=
  match x with
  | .ok (some m) => m
  | _ => blank_table


/-- The result of `state_at_removal` is a state: the candidate is removed. -/
def reaches_removal (x : Res (Option mapping_table_t)) : Bool :=
  match x with
  | .ok (some _) => true
  | _ => false

/-- The entry of the list `l` (the LRU list from the head to the tail) that
is nearest to the tail among those with `pin_count = 0`. -/
def nearest_tail_unpinned (heap : Nat → mtpc_entry_t) (l : List Nat) : Option Nat :=
  l.reverse.find? (fun x => decide ((heap x).pin_count = 0))


/-- The table `mapping_table_init(name, 64, 64, 6, true)` on an erased
device: the cache of the table has one slot. -/
def one_slot_table : mapping_table_t :=
  match mapping_table_init 8 erased_image 64 64 6 true with
  | .ok (some mt) => mt
  | _ => blank_table


/-- The table `one_slot_table` after `mtpc_insert` of the level-1 page
`[0, 49)`, as the first update does it: the page is resident and pinned by the
caller. -/
def one_slot_pinned : mapping_table_t :=
  state_after (mtpc_insert 20 one_slot_table .table 0 49 1 none true)

/-- The sorted array `data` is in the order of `entry_cmp_ptr`: no entry
compares greater than a later one. -/
def entry_sorted (heap : Nat → mtpc_entry_t) (data : List Nat) : Prop :=
  data.Pairwise (fun x y => entry_cmp_ptr (heap x) (heap y) ≤ 0)

instance (heap : Nat → mtpc_entry_t) (data : List Nat) : Decidable (entry_sorted heap data) := by
  unfold entry_sorted; infer_instance


/-- The conditions under which `mtpc_take_entry_ownership` is called: two
different caches, `entry_a` in the sorted array of `cache_a` and `entry_b` in
that of `cache_b`, two different entry objects, no entry twice in a sorted
array, and `cache_a` within its capacity. -/
def ownership_pre (mt : mapping_table_t) (ca : mtpc_ref) (ea : Nat) (cb : mtpc_ref) (eb : Nat) :
    Prop :=
  ca ≠ cb ∧ ea ≠ eb ∧ ea ∈ (mt.cache ca).data ∧ eb ∈ (mt.cache cb).data
    ∧ (mt.cache ca).data.Nodup ∧ (mt.cache cb).data.Nodup
    ∧ (mt.cache ca).data.length ≤ (mt.cache ca).capacity

instance (mt : mapping_table_t) (ca : mtpc_ref) (ea : Nat) (cb : mtpc_ref) (eb : Nat) :
    Decidable (ownership_pre mt ca ea cb eb) := by
  unfold ownership_pre; infer_instance


/-- The table `full_table` after `mtpc_insert` of the page `[7, 14)` on the
cache of the log: that cache holds the page in its entry 7, and the cache of
the table holds the same range in its entry 4. -/
def shared_range_table : mapping_table_t :=
  state_after (mtpc_insert 20 full_table .reader 7 14 2 none true)

/-- The linear scan of the relocation buffer for the record whose
`old_offset` is `x`: its `new_offset`, or `none` when there is no such
record. -/
def linear_lookup (list : List lss_realloc_entry_t) (x : Nat) : Option Nat :=
  (list.find? (fun r => decide (r.old_offset = x))).map (fun r => r.new_offset)

instance (l : List lss_realloc_entry_t) : Decidable (sorted_by_old l) := by
  unfold sorted_by_old; infer_instance

/-- The end of `lss_write`, from the lookup of the head in the relocation
buffer: the buffer is drained if it has a record for the head, the bytes are
written at the head, and the head moves behind them. -/
def lss_write_append (n : Nat) (mt2 : mapping_table_t) (data : buf_ptr) (len : Nat) :
    Res (Nat × mapping_table_t) := do
  let mt3 ←
    if (lss_realloc_lookup mt2.lss mt2.lss.head).isSome then do
      let (ret, m) ← lss_realloc_evict n mt2
      if ret ≠ 0 then throw (.assertion .lss_c 332)
      pure m
    else pure mt2
  let flash ← flash_write mt3.lss.flash mt3.lss.head (mt3.deref data) len
  return (mt3.lss.head,
    { mt3 with lss := { mt3.lss with flash := flash, head := u64 (mt3.lss.head + len) } })


/-- What a write of one block does to the log: the head before, the end of
the write, the end of the segment of the head; then the address returned, the
head after, the sequence numbers of the metadata record before and after, and
the kind of the first block of the segment of the new head before and after
(3 for an erased block, 2 for a SEG_META). -/
def rotation_report (fuel : Nat) (mt : mapping_table_t) (clean_tail : Bool) : Option (List Nat) :=
  match lss_write fuel mt .root mt.lss.flash.write_granularity_bytes clean_tail with
  | .ok (a, m) =>
    some [mt.lss.head, mt.lss.head + mt.lss.flash.write_granularity_bytes,
      (mt.lss.head / mt.lss.flash.segment_size_bytes + 1) * mt.lss.flash.segment_size_bytes,
      a, m.lss.head, mt.lss.curr_segment_metadata.seq_num, m.lss.curr_segment_metadata.seq_num,
      hdr_type (mt.lss.flash.mem (m.lss.head / mt.lss.flash.segment_size_bytes
        * mt.lss.flash.segment_size_bytes / mt.lss.flash.write_granularity_bytes)).hdr,
      hdr_type (m.lss.flash.mem (m.lss.head / mt.lss.flash.segment_size_bytes
        * mt.lss.flash.segment_size_bytes / mt.lss.flash.write_granularity_bytes)).hdr]
  | .error _ => none

/-- The header makes `is_mt_block_alive` return `false` at once: its first
32-bit word is all-ones, or its kind is SEG_META, or it is an MT block of
level 0. -/
def dead_by_header (block_header : Nat) : Prop :=
  hdr_word32 block_header = UINT32_MAX ∨ hdr_type block_header = SEG_META_BLOCK
    ∨ (hdr_type block_header = MT_BLOCK ∧ hdr_level block_header = 0)

instance (block_header : Nat) : Decidable (dead_by_header block_header) := by
  unfold dead_by_header; infer_instance

/-- The address a stored child address stands for: its `new_offset` when the
relocation buffer has a record for it, the address itself otherwise. -/
def relocated (lss : lss_t) (slot : Nat) : Nat :=
  match lss_realloc_lookup lss slot with
  | some new_addr => new_addr
  | none => slot


/-- The index of the child slot that covers `start_range` in a page of range
size `R` whose children have the range size `sub`. -/
def covering_slot (start_range R sub : Nat) : Nat := u32 (start_range % R / sub)


/-- The range of the page one level above a block with the header
`block_header`, whose range size is `block_range_size`, as `is_mt_block_alive`
and `apply_reallocate` compute it. -/
def parent_range (mt : mapping_table_t) (block_header block_range_size : Nat) : Nat × Nat :=
  let parent_range_size := u64 (block_range_size * mt.fanout)
  let parent_start_range :=
    u64 (hdr_logical_address block_header / parent_range_size * parent_range_size)
  (parent_start_range, u64 (parent_start_range + parent_range_size))


/-- The range size of the page a descent starts from: the padded size for the
root, the span of the entry otherwise. -/
def page_span (mt : mapping_table_t) : Option Nat → Nat
  | none => mt.npage_mappings_padded
  | some e => (mt.heap e).span


/-- The start of the range of the page a descent starts from. -/
def page_start (mt : mapping_table_t) : Option Nat → Nat
  | none => 0
  | some e => (mt.heap e).start_range

/-- What a drain of the relocation buffer does to the page held by the entry
`e`: the records `(old_offset, new_offset, level, start_range)` of the buffer;
the range and the child slots of the page and the head of the log before; and
the same after, followed by the number of records left. -/
def drain_report (fuel : Nat) (mt : mapping_table_t) (e : Nat) :
    Option (List Nat × List Nat × List Nat) :=
  match lss_realloc_evict fuel mt with
  | .ok (_, m) =>
    some ((mt.lss.realloc_list.map (fun r =>
          [r.old_offset, r.new_offset, hdr_level r.block_header,
            hdr_logical_address r.block_header])).flatten,
      [(mt.heap e).start_range, (mt.heap e).end_range] ++ (mt.heap e).value.data ++ [mt.lss.head],
      [(m.heap e).start_range, (m.heap e).end_range] ++ (m.heap e).value.data
        ++ [m.lss.head, m.lss.realloc_count])
  | .error _ => none


/-- The state after `entries[i].physical_address = v` in the page of a
descent, marked dirty when it is a cache entry. -/
def slot_rewritten (mt : mapping_table_t) (ce : Option Nat) (i v : Nat) : mapping_table_t :=
  match ce with
  | none => { mt with root := { mt.root with data := mt.root.data.set i v } }
  | some e =>
    mt.set_entry e
      { mt.heap e with
        value := { (mt.heap e).value with data := (mt.heap e).value.data.set i v }
        dirty := true }

/-- The sizes of a flash device. -/
def geo (f : flash_t) : Nat × Nat × Nat :=
  (f.size_bytes, f.segment_size_bytes, f.write_granularity_bytes)


/-- The capacity of the relocation buffer and the sizes of the device of a
log. -/
def ldev (l : lss_t) : Nat × Nat × Nat × Nat := (l.realloc_capacity, geo l.flash)


/-- The capacity of the relocation buffer and the sizes of the device of a
table. -/
def dev (mt : mapping_table_t) : Nat × Nat × Nat × Nat := ldev mt.lss


/-- No function of the cache and of the log changes the sizes of the device or
the capacity of the relocation buffer (statement for the fuel `n`). -/
structure dev_frame (n : Nat) : Prop where
  flush_entry : ∀ (mt : mapping_table_t) (c : mtpc_ref) (entry : Nat) (ct : Bool) (r : Int × mapping_table_t),
    flush_entry n mt c entry ct = .ok r → dev r.2 = dev mt
  mtpc_insert_evict : ∀ (mt : mapping_table_t) (c : mtpc_ref) (ct : Bool) (cand : Option Nat) (r : Nat × mapping_table_t),
    mtpc_insert_evict n mt c ct cand = .ok r → dev r.2 = dev mt
  mtpc_insert : ∀ (mt : mapping_table_t) (c : mtpc_ref) (s e level : Nat) (parent : Option Nat) (ct : Bool) (r : Nat × mapping_table_t),
    mtpc_insert n mt c s e level parent ct = .ok r → dev r.2 = dev mt
  mtpc_acquire_from_storage : ∀ (mt : mapping_table_t) (c : mtpc_ref) (s e sa : Nat) (parent : Option Nat) (ct : Bool) (r : Nat × mapping_table_t),
    mtpc_acquire_from_storage n mt c s e sa parent ct = .ok r → dev r.2 = dev mt
  mtpc_flush_all_level : ∀ (mt : mapping_table_t) (c : mtpc_ref) (ct : Bool) (level i total : Nat) (r : Nat × mapping_table_t),
    mtpc_flush_all_level n mt c ct level i total = .ok r → dev r.2 = dev mt
  mtpc_flush_all_levels : ∀ (mt : mapping_table_t) (c : mtpc_ref) (ct : Bool) (level total : Nat) (r : Nat × mapping_table_t),
    mtpc_flush_all_levels n mt c ct level total = .ok r → dev r.2 = dev mt
  mtpc_flush_all : ∀ (mt : mapping_table_t) (c : mtpc_ref) (ct : Bool) (r : Int × mapping_table_t),
    mtpc_flush_all n mt c ct = .ok r → dev r.2 = dev mt
  descend_to_parent : ∀ (mt : mapping_table_t) (bh ba : Nat) (ap : Option (Nat × Nat)) (brs : Nat) (ce : Option Nat) (csr crs : Nat) (r : Bool × mapping_table_t),
    descend_to_parent n mt bh ba ap brs ce csr crs = .ok r → dev r.2 = dev mt
  locate_parent : ∀ (mt : mapping_table_t) (bh ba : Nat) (ap : Option (Nat × Nat)) (r : Bool × mapping_table_t),
    locate_parent n mt bh ba ap = .ok r → dev r.2 = dev mt
  is_mt_block_alive : ∀ (mt : mapping_table_t) (ba bh : Nat) (r : Bool × mapping_table_t),
    is_mt_block_alive n mt ba bh = .ok r → dev r.2 = dev mt
  apply_reallocate : ∀ (mt : mapping_table_t) (bh old new : Nat) (r : Int × mapping_table_t),
    apply_reallocate n mt bh old new = .ok r → dev r.2 = dev mt
  lss_realloc_evict_loop : ∀ (mt : mapping_table_t) (idx : Nat) (r : mapping_table_t),
    lss_realloc_evict_loop n mt idx = .ok r → dev r = dev mt
  lss_realloc_evict : ∀ (mt : mapping_table_t)  (r : Int × mapping_table_t),
    lss_realloc_evict n mt = .ok r → dev r.2 = dev mt
  lss_realloc_insert : ∀ (mt : mapping_table_t) (bh old new : Nat) (r : Int × mapping_table_t),
    lss_realloc_insert n mt bh old new = .ok r → dev r.2 = dev mt
  is_mt_segment_fully_dead_loop : ∀ (mt : mapping_table_t) (buf : Nat → flash_block_t) (ba bhdr ps np i : Nat) (r : Bool × mapping_table_t),
    is_mt_segment_fully_dead_loop n mt buf ba bhdr ps np i = .ok r → dev r.2 = dev mt
  is_mt_segment_fully_dead : ∀ (mt : mapping_table_t) (ba : Nat) (r : Bool × mapping_table_t),
    is_mt_segment_fully_dead n mt ba = .ok r → dev r.2 = dev mt
  lss_debug_analyze_loop : ∀ (mt : mapping_table_t) (bs nb i : Nat) (r : mapping_table_t),
    lss_debug_analyze_loop n mt bs nb i = .ok r → dev r = dev mt
  lss_debug_analyze : ∀ (mt : mapping_table_t)  (r : Int × mapping_table_t),
    lss_debug_analyze n mt = .ok r → dev r.2 = dev mt
  lss_clean_tail_block : ∀ (mt : mapping_table_t) (tail : Nat) (r : Int × mapping_table_t),
    lss_clean_tail_block n mt tail = .ok r → dev r.2 = dev mt
  lss_write_clean : ∀ (mt : mapping_table_t) (tries : Nat) (r : mapping_table_t),
    lss_write_clean n mt tries = .ok r → dev r = dev mt
  lss_write_rotate : ∀ (mt : mapping_table_t)  (r : mapping_table_t),
    lss_write_rotate n mt = .ok r → dev r = dev mt
  lss_write : ∀ (mt : mapping_table_t) (data : buf_ptr) (len : Nat) (ct : Bool) (r : Nat × mapping_table_t),
    lss_write n mt data len ct = .ok r → dev r.2 = dev mt

/-- A run of updates without tail cleaning in which every update must return
`MAPPING_TABLE_OK`; `none` as soon as one does not. -/
def run_updates_checked (fuel : Nat) (mt : mapping_table_t) :
    List (Nat × Nat) → Option mapping_table_t
  | [] => some mt
  | (l, p) :: rest =>
    match mapping_table_update_physical_address fuel mt l p false with
    | .ok (0, m) => run_updates_checked fuel m rest
    | _ => none


/-- The line of the `assert` at which recovery from the device stops (0 when
it returns or stops otherwise). -/
def recovery_stop (lss : lss_t) : Nat :=
  match lss_load_root_and_seg_meta lss (erased_block lss.flash.write_granularity_bytes) 0 with
  | .error (.assertion .lss_c line) => line
  | _ => 0


/-- The log of a table: the head, the index of its segment, its offset in the
segment, the sequence number of the metadata record in memory; then for each
of the six segments the kind of its first block (2 for a SEG_META, 0 for a
page of the table, 3 for an erased block) and the sequence number read from
it as a `lss_segment_metadata_t`. -/
def log_report (mt : mapping_table_t) : List Nat :=
  [mt.lss.head, mt.lss.head / mt.lss.flash.segment_size_bytes,
    mt.lss.head % mt.lss.flash.segment_size_bytes, mt.lss.curr_segment_metadata.seq_num]
  ++ ((List.range 6).map (fun i =>
      let b := mt.lss.flash.mem (i * mt.lss.flash.segment_size_bytes
        / mt.lss.flash.write_granularity_bytes)
      [hdr_type b.hdr, (seg_meta_decode b).seq_num])).flatten


/-- The call `lss_write(mt, root, block_size, false, &addr)` made `k` times
in a row; `none` as soon as one call does not return. -/
def write_root_blocks (fuel : Nat) : Nat → mapping_table_t → Option mapping_table_t
  | 0, mt => some mt
  | k + 1, mt =>
    match lss_write fuel mt .root mt.block_size false with
    | .ok (_, m) => write_root_blocks fuel k m
    | .error _ => none


/-- The run from `mapping_table_init(name, 2401, 64, 67, true)` on an erased
device: the 27 updates `(350·j mod 2401, j + 1)`, then 61 writes of one block
to the log, then a 62nd and a 63rd.  The result has the number of pages in the
cache of the table after the updates, the log after the updates, after the
61 writes, after the 62nd write and after the 63rd write, and the line at
which recovery from the last device stops. -/
def segment_start_report (fuel : Nat) :
    Option (Nat × List Nat × List Nat × List Nat × List Nat × Nat) :=
  match mapping_table_init 8 erased_image 2401 64 67 true with
  | .ok (some mt) =>
    match run_updates_checked fuel mt ((List.range 27).map (fun j => (350 * j % 2401, j + 1))) with
    | some m1 =>
      match write_root_blocks fuel 61 m1 with
      | some m2 =>
        match write_root_blocks fuel 1 m2 with
        | some m3 =>
          match write_root_blocks fuel 1 m3 with
          | some m4 =>
            some (m1.page_cache.data.length, log_report m1, log_report m2, log_report m3,
              log_report m4, recovery_stop m4.lss)
          | none => none
        | none => none
      | none => none
    | none => none
  | _ => none

/-! ## Theorems -/

theorem fresh_table_64_init :
    mapping_table_init 8 erased_image 64 64 10 true = .ok (some (fresh_table 64)) := by
  have h : (mapping_table_init 8 erased_image 64 64 10 true).toOption.join.isSome = true := by
    decide!
  unfold fresh_table
  generalize mapping_table_init 8 erased_image 64 64 10 true = r at h ⊢
  cases r with
  | error e => simp [Except.toOption] at h
  | ok o =>
    cases o with
    | none => simp [Except.toOption] at h
    | some mt => rfl

theorem ok_of_outcome {α : Type} (r : Res (α × mapping_table_t)) (v : α)
    (h : outcome r = .ok v) : r = .ok (v, state_after r) := by
  cases r with
  | error e => simp [outcome, Except.map] at h
  | ok x =>
    obtain ⟨x1, x2⟩ := x
    simp only [outcome, Except.map, Except.ok.injEq] at h
    subst h
    rfl

theorem ok_of_lookup_outcome (r : Res (Int × Nat × mapping_table_t)) (rc : Int) (o : Nat)
    (h : lookup_outcome r = .ok (rc, o)) : r = .ok (rc, o, state_after_lookup r) := by
  cases r with
  | error e => simp [lookup_outcome, Except.map] at h
  | ok x =>
    obtain ⟨x1, x2, x3⟩ := x
    simp only [lookup_outcome, Except.map, Except.ok.injEq, Prod.mk.injEq] at h
    obtain ⟨h1, h2⟩ := h
    subst h1 h2
    rfl

/-- C4: for a logical address at or beyond `npage_mappings`, both
`mapping_table_update_physical_address` and `mapping_table_get_physical_address`
return `-1`, and the whole table state (root page, both caches with their
entries, pin counts, dirty flags and LRU links, and the log with head, tail
and relocation buffer) as well as the output word are unchanged. -/
theorem out_of_range_no_effect (fuel : Nat) (mt : mapping_table_t)
    (logical_address physical_address out : Nat) (clean_tail : Bool)
    (h : logical_address ≥ mt.npage_mappings) :
    mapping_table_update_physical_address fuel mt logical_address physical_address clean_tail
        = .ok (-1, mt)
      ∧ mapping_table_get_physical_address fuel mt logical_address clean_tail out
        = .ok (-1, out, mt) := by
  simp [mapping_table_update_physical_address, mapping_table_get_physical_address, h]

theorem out_of_range_no_effect_witness :
    999999 ≥ (fresh_table 64).npage_mappings
      ∧ mapping_table_update_physical_address 8 (fresh_table 64) 999999 5555 true
          = .ok (-1, fresh_table 64)
      ∧ mapping_table_get_physical_address 8 (fresh_table 64) 999999 true 0
          = .ok (-1, 0, fresh_table 64) :=
  ⟨by decide!, out_of_range_no_effect 8 (fresh_table 64) 999999 5555 0 true (by decide!)⟩

theorem lss_realloc_lookup_nil (lss : lss_t) (x : Nat) (h : lss.realloc_list = []) :
    lss_realloc_lookup lss x = none := by
  simp [lss_realloc_lookup, lss_t.realloc_count, h, lss_realloc_lookup_loop]

theorem lss_realloc_evict_list (fuel : Nat) (mt : mapping_table_t) (r : Int × mapping_table_t)
    (h : lss_realloc_evict fuel mt = .ok r) :
    r.1 = 0 ∧ r.2.lss.realloc_list = [] := by
  cases fuel with
  | zero => simp [lss_realloc_evict] at h
  | succ n =>
    rw [lss_realloc_evict] at h
    simp only [bind, Except.bind, pure, Except.pure] at h
    repeat' split at h
    all_goals simp at h
    · rename_i hc
      subst h
      simp [lss_t.realloc_count] at hc
      simp [hc]
    · subst h
      simp

/-- The last step of `lss_write`: with no relocation record for the head, the
bytes are written at the head and read back from there. -/
theorem lss_write_tail (X : mapping_table_t) (data : buf_ptr) (len : Nat) (v : flash_t) (a : Nat)
    (mt' : mapping_table_t) (hl : lss_realloc_lookup X.lss X.lss.head = none)
    (hw : flash_write X.lss.flash X.lss.head (X.deref data) len = .ok v)
    (h : (X.lss.head, { X with lss := { X.lss with flash := v, head := u64 (X.lss.head + len) } })
          = (a, mt')) :
    mt'.lss.flash.mem (a / len) = mt'.deref data
      ∧ mt'.lss.head = u64 (a + len)
      ∧ lss_realloc_lookup mt'.lss a = none
      ∧ lss_read mt' a len = .ok (mt'.deref data) := by
  simp only [Prod.mk.injEq] at h
  obtain ⟨h1, h2⟩ := h
  subst h1 h2
  unfold flash_write at hw
  split at hw
  · simp at hw
  · split at hw
    · simp at hw
    · rename_i hsz hal
      simp only [Except.ok.injEq] at hw
      subst hw
      have hd : ∀ Y : mapping_table_t, Y.heap = X.heap → Y.root = X.root →
          Y.deref data = X.deref data := by
        intro Y hh hr
        cases data <;> simp [mapping_table_t.deref, hh, hr]
      have hl' : ∀ l : lss_t, l.realloc_list = X.lss.realloc_list →
          lss_realloc_lookup l X.lss.head = none := by
        intro l hlist
        rw [← hl]
        simp [lss_realloc_lookup, lss_t.realloc_count, hlist]
      refine ⟨?_, rfl, hl' _ rfl, ?_⟩
      · simp [hd]
      · simp only [not_or, not_not, ne_eq] at hal
        obtain ⟨hlen, hne, hmod⟩ := hal
        subst hlen
        have h1 : ¬ X.lss.flash.size_bytes
            < u64 (X.lss.head + X.lss.flash.write_granularity_bytes) := by omega
        simp [lss_read, hl', flash_read, hd, h1, hne, hmod]

/-- C7: whenever `lss_write` succeeds and returns the address `a`, the device
holds the payload at `a` (the block slot `a / len`; the payload is the buffer
the pointer `data` designates, for `buf_ptr.copy p` the bytes `p` themselves),
the new head is `a + len` (in 64-bit arithmetic), no relocation record with
`old_offset = a` is pending, and an immediately following `lss_read` of `a`
returns the payload.  This holds from every log state. -/
theorem lss_write_then_read (fuel : Nat) (mt : mapping_table_t) (data : buf_ptr) (len : Nat)
    (clean_tail : Bool) (a : Nat) (mt' : mapping_table_t)
    (h : lss_write fuel mt data len clean_tail = .ok (a, mt')) :
    mt'.lss.flash.mem (a / len) = mt'.deref data
      ∧ mt'.lss.head = u64 (a + len)
      ∧ lss_realloc_lookup mt'.lss a = none
      ∧ lss_read mt' a len = .ok (mt'.deref data) := by
  cases fuel with
  | zero => simp [lss_write] at h
  | succ n =>
    rw [lss_write] at h
    simp only [bind, Except.bind, pure, Except.pure] at h
    repeat' split at h
    all_goals try (simp at h; done)
    all_goals first
      | (rename_i hev _ _ _ hw
         simp only [Except.ok.injEq] at h
         exact lss_write_tail _ data len _ a mt'
           (lss_realloc_lookup_nil _ _ (lss_realloc_evict_list _ _ _ hev).2) hw h)
      | (rename_i hl _ _ hw
         simp only [Except.ok.injEq] at h
         exact lss_write_tail _ data len _ a mt' (by simpa using hl) hw h)

theorem lss_write_then_read_witness :
    lss_write 8 (fresh_table 64) (.copy sample_block) 64 true
        = .ok (128, state_after (lss_write 8 (fresh_table 64) (.copy sample_block) 64 true))
      ∧ (state_after (lss_write 8 (fresh_table 64) (.copy sample_block) 64 true)).lss.flash.mem
          (128 / 64) = sample_block
      ∧ (state_after (lss_write 8 (fresh_table 64) (.copy sample_block) 64 true)).lss.head
          = u64 (128 + 64)
      ∧ lss_realloc_lookup
          (state_after (lss_write 8 (fresh_table 64) (.copy sample_block) 64 true)).lss 128 = none
      ∧ lss_read (state_after (lss_write 8 (fresh_table 64) (.copy sample_block) 64 true)) 128 64
          = .ok sample_block :=
  ⟨ok_of_outcome _ _ (by decide!),
   lss_write_then_read 8 (fresh_table 64) (.copy sample_block) 64 true 128 _
     (ok_of_outcome _ _ (by decide!))⟩

theorem get_loop_codes (logical_address : Nat) (clean_tail : Bool) (out : Nat) :
    ∀ (fuel : Nat) (mt : mapping_table_t) (ce : Option Nat) (R S : Nat) (rc : Int) (o : Nat)
      (mt' : mapping_table_t),
      mapping_table_get_loop logical_address clean_tail out fuel mt ce R S = .ok (rc, o, mt') →
      (rc = 0 ∧ o ≠ FLASH_INVALID_ADDRESS)
        ∨ (rc = -1 ∧ (o = out ∨ o = FLASH_INVALID_ADDRESS)) := by
  intro fuel
  induction fuel with
  | zero => intro mt ce R S rc o mt' h; simp [mapping_table_get_loop] at h
  | succ n ih =>
    intro mt ce R S rc o mt' h
    rw [mapping_table_get_loop] at h
    simp only [bind, Except.bind, pure, Except.pure] at h
    repeat' split at h
    all_goals first
      | (exact (ih _ _ _ _ _ _ _ h))
      | (simp at h; done)
      | (simp at h; obtain ⟨h1, h2, h3⟩ := h; subst h1 h2; simp_all)

/-- C6 (counterexample): on the fresh 64-entry table the lookup of the
unmapped in-range address 63 and the lookup of the out-of-range address 999999
produce the same result, return code `-1` with the output word untouched. -/
theorem absent_equals_out_of_range :
    63 < (fresh_table 64).npage_mappings ∧ 999999 ≥ (fresh_table 64).npage_mappings
      ∧ lookup_outcome (mapping_table_get_physical_address 8 (fresh_table 64) 63 true 0)
          = .ok (-1, 0)
      ∧ lookup_outcome (mapping_table_get_physical_address 8 (fresh_table 64) 999999 true 0)
          = .ok (-1, 0) := by
  decide!

/-- C6 (amended): a lookup that returns has one of two return codes.  It
returns `0` with a stored address other than all-ones in the output word, or
it returns `-1`, leaving the output word untouched or holding all-ones (the
unmapped slot read at the leaf).  An out-of-range address yields `-1` with the
output untouched, a result an unmapped in-range address yields as well: Absent
differs from a found mapping, not from OutOfRange. -/
theorem lookup_return_values (fuel : Nat) (mt : mapping_table_t) (logical_address : Nat)
    (clean_tail : Bool) (out : Nat) (rc : Int) (o : Nat) (mt' : mapping_table_t)
    (h : mapping_table_get_physical_address fuel mt logical_address clean_tail out
          = .ok (rc, o, mt')) :
    ((rc = 0 ∧ o ≠ FLASH_INVALID_ADDRESS) ∨ (rc = -1 ∧ (o = out ∨ o = FLASH_INVALID_ADDRESS)))
      ∧ (logical_address ≥ mt.npage_mappings → rc = -1 ∧ o = out) := by
  unfold mapping_table_get_physical_address at h
  split at h
  · simp only [Except.ok.injEq, Prod.mk.injEq] at h
    obtain ⟨h1, h2, _⟩ := h
    subst h1 h2
    simp
  · rename_i hlt
    refine ⟨?_, fun hge => absurd hge hlt⟩
    split at h <;> exact get_loop_codes _ _ _ _ _ _ _ _ _ _ _ h

theorem lookup_return_values_witness :
    mapping_table_get_physical_address 8 (fresh_table 64) 63 true 0
        = .ok (-1, 0, state_after_lookup
            (mapping_table_get_physical_address 8 (fresh_table 64) 63 true 0))
      ∧ ((((-1 : Int) = 0 ∧ (0 : Nat) ≠ FLASH_INVALID_ADDRESS)
          ∨ ((-1 : Int) = -1 ∧ ((0 : Nat) = 0 ∨ (0 : Nat) = FLASH_INVALID_ADDRESS)))
        ∧ (63 ≥ (fresh_table 64).npage_mappings → (-1 : Int) = -1 ∧ (0 : Nat) = 0)) :=
  ⟨ok_of_lookup_outcome _ _ _ (by decide!),
   lookup_return_values 8 (fresh_table 64) 63 true 0 (-1) 0 _
     (ok_of_lookup_outcome _ _ _ (by decide!))⟩

/-! ### Recovery -/

theorem flash_read_segment_start (image : Nat → flash_block_t) (i : Nat) (hi : i < 6) :
    flash_read (flash_open image FLASH_TOTAL_SIZE)
        (u64 (i * (flash_open image FLASH_TOTAL_SIZE).segment_size_bytes))
        (flash_open image FLASH_TOTAL_SIZE).write_granularity_bytes = .ok (image (i * 64)) := by
  have h1 : u64 (i * 4096) = i * 4096 := by unfold u64; omega
  have h2 : u64 (i * 4096 + 64) = i * 4096 + 64 := by unfold u64; omega
  simp only [flash_open, FLASH_DEFAULT_BLOCK_SIZE, FLASH_DEFAULT_WRITE_GRANULARITY,
    FLASH_TOTAL_SIZE, flash_read, h1, h2]
  have h3 : ¬ (i * 4096 + 64 > 4096 * 6) := by omega
  have h4 : i * 4096 % 64 = 0 := by omega
  have h5 : i * 4096 / 64 = i * 64 := by omega
  simp [h3, h4, h5]

theorem find_checkpoint_inv (image : Nat → flash_block_t) :
    ∀ (l seen : List Nat) (st st' : checkpoint_scan), (∀ i ∈ l, i < 6) →
      lss_load_find_checkpoint (flash_open image FLASH_TOTAL_SIZE) l st = .ok st' →
      scan_inv image seen st → scan_inv image (seen ++ l) st' := by
  intro l
  induction l with
  | nil =>
    intro seen st st' _ h hinv
    simp only [lss_load_find_checkpoint, Except.ok.injEq] at h
    subst h
    simpa using hinv
  | cons i rest ih =>
    intro seen st st' hl h hinv
    have hi : i < 6 := hl i (List.mem_cons_self _ _)
    have hrest : ∀ j ∈ rest, j < 6 := fun j hj => hl j (List.mem_cons_of_mem _ hj)
    rw [lss_load_find_checkpoint] at h
    simp only [bind, Except.bind, flash_read_segment_start image i hi] at h
    have happ : seen ++ i :: rest = (seen ++ [i]) ++ rest := by simp
    rw [happ]
    split at h
    · split at h
      · simp [throw, throwThe, MonadExceptOf.throw] at h
      · rename_i hty _
        refine ih (seen ++ [i]) st st' hrest h ?_
        have hnc : is_checkpoint (image (i * 64)) = false := by
          simp [is_checkpoint, hty]
        rcases hinv with ⟨h1, h2, h3⟩ | ⟨b, hb, hb6, hbc, hst, hmax⟩
        · left
          refine ⟨h1, h2, ?_⟩
          intro j hj
          simp only [List.mem_append, List.mem_singleton] at hj
          rcases hj with hj | hj
          · exact h3 j hj
          · subst hj; exact hnc
        · right
          refine ⟨b, by simp [hb], hb6, hbc, hst, ?_⟩
          intro j hj hjc
          simp only [List.mem_append, List.mem_singleton] at hj
          rcases hj with hj | hj
          · exact hmax j hj hjc
          · subst hj; rw [hnc] at hjc; cases hjc
    · rename_i hty
      simp only [ne_eq, not_not] at hty
      split at h
      · rename_i hc
        refine ih (seen ++ [i]) _ st' hrest h ?_
        right
        have hic : is_checkpoint (image (i * 64)) = true := by
          simp [is_checkpoint, hty, hc.1]
        have h1 : u64 (i * (flash_open image FLASH_TOTAL_SIZE).segment_size_bytes) = i * 4096 := by
          simp only [flash_open, FLASH_DEFAULT_BLOCK_SIZE]; unfold u64; omega
        refine ⟨i, by simp, hi, hic, by rw [h1], ?_⟩
        intro j hj hjc
        simp only [List.mem_append, List.mem_singleton] at hj
        rcases hj with hj | hj
        · rcases hinv with ⟨_, _, h3⟩ | ⟨b, hb, _, _, hst, hmax⟩
          · rw [h3 j hj] at hjc; cases hjc
          · have := hmax j hj hjc
            have hseq : st.latest_seq = (seg_meta_decode (image (b * 64))).seq_num := by
              rw [hst]
            have := hc.2
            omega
        · subst hj; exact le_refl _
      · rename_i hc
        refine ih (seen ++ [i]) st st' hrest h ?_
        rcases hinv with ⟨h1, h2, h3⟩ | ⟨b, hb, hb6, hbc, hst, hmax⟩
        · left
          refine ⟨h1, h2, ?_⟩
          intro j hj
          simp only [List.mem_append, List.mem_singleton] at hj
          rcases hj with hj | hj
          · exact h3 j hj
          · subst hj
            simp only [not_and, not_le] at hc
            simp only [is_checkpoint, hty, decide_True, Bool.true_and]
            by_contra hcc
            simp only [Bool.not_eq_false] at hcc
            have := hc hcc
            omega
        · right
          refine ⟨b, by simp [hb], hb6, hbc, hst, ?_⟩
          intro j hj hjc
          simp only [List.mem_append, List.mem_singleton] at hj
          rcases hj with hj | hj
          · exact hmax j hj hjc
          · subst hj
            simp only [not_and, not_le] at hc
            have hcc : (seg_meta_decode (image (j * 64))).contains_checkpoint = true := by
              simp only [is_checkpoint, Bool.and_eq_true] at hjc
              exact hjc.2
            have := hc hcc
            have hseq : st.latest_seq = (seg_meta_decode (image (b * 64))).seq_num := by
              rw [hst]
            omega

theorem find_checkpoint_total (image : Nat → flash_block_t) :
    ∀ (l : List Nat) (st : checkpoint_scan), (∀ i ∈ l, i < 6) →
      (∀ i ∈ l, hdr_type (image (i * 64)).hdr = SEG_META_BLOCK
          ∨ hdr_word32 (image (i * 64)).hdr = UINT32_MAX) →
      ∃ st', lss_load_find_checkpoint (flash_open image FLASH_TOTAL_SIZE) l st = .ok st' := by
  intro l
  induction l with
  | nil => intro st _ _; exact ⟨st, rfl⟩
  | cons i rest ih =>
    intro st hl hfirst
    have hi : i < 6 := hl i (List.mem_cons_self _ _)
    have hrest : ∀ j ∈ rest, j < 6 := fun j hj => hl j (List.mem_cons_of_mem _ hj)
    have hfrest : ∀ j ∈ rest, hdr_type (image (j * 64)).hdr = SEG_META_BLOCK
        ∨ hdr_word32 (image (j * 64)).hdr = UINT32_MAX :=
      fun j hj => hfirst j (List.mem_cons_of_mem _ hj)
    rw [lss_load_find_checkpoint]
    simp only [bind, Except.bind, flash_read_segment_start image i hi]
    split
    · rename_i hty
      split
      · rename_i hw
        rcases hfirst i (List.mem_cons_self _ _) with h | h
        · exact absurd h hty
        · exact absurd h hw
      · exact ih st hrest hfrest
    · split
      · exact ih _ hrest hfrest
      · exact ih st hrest hfrest

/-- The block slot `j` of the segment at `so` is read by the second loop of
recovery. -/
theorem flash_read_segment_block (image : Nat → flash_block_t) (b j : Nat) (hb : b < 6)
    (hj : j < 64) :
    flash_read (flash_open image FLASH_TOTAL_SIZE) (b * 4096 + j * 64)
        (flash_open image FLASH_TOTAL_SIZE).write_granularity_bytes
      = .ok (image (b * 64 + j)) := by
  have h2 : u64 (b * 4096 + j * 64 + 64) = b * 4096 + j * 64 + 64 := by unfold u64; omega
  simp only [flash_open, FLASH_DEFAULT_BLOCK_SIZE, FLASH_DEFAULT_WRITE_GRANULARITY,
    FLASH_TOTAL_SIZE, flash_read, h2]
  have h3 : ¬ (b * 4096 + j * 64 + 64 > 4096 * 6) := by omega
  have h4 : (b * 4096 + j * 64) % 64 = 0 := by omega
  have h5 : (b * 4096 + j * 64) / 64 = b * 64 + j := by omega
  simp [h3, h4, h5]

/-- The second loop of recovery from block `j0` of segment `b`: it keeps the
last root block at or after `j0`, or its starting value when there is none. -/
theorem find_root_spec (image : Nat → flash_block_t) (b : Nat) (hb : b < 6) :
    ∀ (m j0 fuel : Nat) (acc : Nat × flash_block_t), j0 + m = 64 → m ≤ fuel →
      ∃ final, lss_load_find_root (flash_open image FLASH_TOTAL_SIZE) (b * 4096 + 4096) fuel
          (b * 4096 + j0 * 64) acc = .ok final
        ∧ (((∀ j, j0 ≤ j → j < 64 → is_root_block (image (b * 64 + j)) = false) ∧ final = acc)
          ∨ ∃ j, j0 ≤ j ∧ j < 64 ∧ is_root_block (image (b * 64 + j)) = true
              ∧ (∀ k, j < k → k < 64 → is_root_block (image (b * 64 + k)) = false)
              ∧ final = (b * 4096 + j * 64, image (b * 64 + j))) := by
  intro m
  induction m with
  | zero =>
    intro j0 fuel acc hj0 _
    have : j0 = 64 := by omega
    subst this
    refine ⟨acc, ?_, Or.inl ⟨fun j h1 h2 => by omega, rfl⟩⟩
    cases fuel <;> simp [lss_load_find_root]
  | succ m ih =>
    intro j0 fuel acc hj0 hfuel
    obtain ⟨n, rfl⟩ : ∃ n, fuel = n + 1 := ⟨fuel - 1, by omega⟩
    have hj : j0 < 64 := by omega
    have hlt : b * 4096 + j0 * 64 < b * 4096 + 4096 := by omega
    have hnext : u64 (b * 4096 + j0 * 64
        + (flash_open image FLASH_TOTAL_SIZE).write_granularity_bytes)
        = b * 4096 + (j0 + 1) * 64 := by
      simp only [flash_open, FLASH_DEFAULT_WRITE_GRANULARITY]; unfold u64; omega
    rw [lss_load_find_root]
    simp only [hlt, if_true, bind, Except.bind, flash_read_segment_block image b j0 hb hj, hnext]
    have hstep : ∀ acc' : Nat × flash_block_t,
        (is_root_block (image (b * 64 + j0)) = false ∧ acc' = acc)
          ∨ (is_root_block (image (b * 64 + j0)) = true
              ∧ acc' = (b * 4096 + j0 * 64, image (b * 64 + j0))) →
        ∃ final, lss_load_find_root (flash_open image FLASH_TOTAL_SIZE) (b * 4096 + 4096) n
            (b * 4096 + (j0 + 1) * 64) acc' = .ok final
          ∧ (((∀ j, j0 ≤ j → j < 64 → is_root_block (image (b * 64 + j)) = false) ∧ final = acc)
            ∨ ∃ j, j0 ≤ j ∧ j < 64 ∧ is_root_block (image (b * 64 + j)) = true
                ∧ (∀ k, j < k → k < 64 → is_root_block (image (b * 64 + k)) = false)
                ∧ final = (b * 4096 + j * 64, image (b * 64 + j))) := by
      intro acc' hacc
      obtain ⟨final, hrun, hfinal⟩ := ih (j0 + 1) n acc' (by omega) (by omega)
      refine ⟨final, hrun, ?_⟩
      rcases hfinal with ⟨hnone, hfe⟩ | ⟨j, hj1, hj2, hj3, hj4, hj5⟩
      · rcases hacc with ⟨hr, ha⟩ | ⟨hr, ha⟩
        · left
          refine ⟨?_, by rw [hfe, ha]⟩
          intro j h1 h2
          by_cases hjj : j = j0
          · subst hjj; exact hr
          · exact hnone j (by omega) h2
        · right
          exact ⟨j0, le_refl _, hj, hr, fun k h1 h2 => hnone k (by omega) h2, by rw [hfe, ha]⟩
      · right
        exact ⟨j, by omega, hj2, hj3, hj4, hj5⟩
    split
    · rename_i hw
      exact hstep acc (Or.inl ⟨by simp [is_root_block, hw], rfl⟩)
    · rename_i hw
      split
      · rename_i hr
        exact hstep _ (Or.inr ⟨by simp [is_root_block, hw, hr.1, hr.2], rfl⟩)
      · rename_i hr
        refine hstep acc (Or.inl ⟨?_, rfl⟩)
        simp only [is_root_block, Bool.and_eq_false_iff, decide_eq_false_iff_not, Bool.and_eq_true,
          decide_eq_true_eq, not_and]
        simp only [not_and] at hr
        by_cases h1 : (image (b * 64 + j0)).type = MT_BLOCK
        · right; exact hr h1
        · left; right; exact h1

theorem load_unfold (lss : lss_t) (root_out : flash_block_t)
    (root_offset_out : Nat) (st : checkpoint_scan)
    (hsize : lss.flash.size_bytes = 24576) (hseg : lss.flash.segment_size_bytes = 4096)
    (hwg : lss.flash.write_granularity_bytes = 64)
    (hscan : lss_load_find_checkpoint lss.flash (List.range 6) (scan_start lss) = .ok st) :
    lss_load_root_and_seg_meta lss root_out root_offset_out =
      if st.latest_seg_offset = FLASH_INVALID_ADDRESS then .error (.assertion .lss_c 159)
      else if 64 ≠ st.curr_segment_metadata.block_size then .error (.assertion .lss_c 177)
      else
        match lss_load_find_root lss.flash
            (u64 (st.latest_seg_offset + 4096)) 4096 (u64 (st.latest_seg_offset + 64))
            (FLASH_INVALID_ADDRESS, root_out) with
        | .error e => .error e
        | .ok (root_offset, root) =>
          if root_offset = FLASH_INVALID_ADDRESS then
            .ok { ret := LSS_ERR
                  lss := { lss with curr_segment_metadata := st.curr_segment_metadata }
                  root_out := root, root_offset_out := root_offset_out }
          else
            .ok { ret := LSS_OK
                  lss := { lss with
                    curr_segment_metadata := st.curr_segment_metadata
                    head := u64 (root_offset + 64)
                    tail := st.curr_segment_metadata.tail_offset }
                  root_out := root, root_offset_out := root_offset } := by
  have hn : udiv (flash_get_size lss.flash) lss.flash.segment_size_bytes = .ok 6 := by
    rw [flash_get_size, hsize, hseg]; decide
  have hscan' : lss_load_find_checkpoint lss.flash (List.range 6)
      { latest_seq := 0, latest_seg_offset := FLASH_INVALID_ADDRESS
        curr_segment_metadata := lss.curr_segment_metadata } = .ok st := hscan
  unfold lss_load_root_and_seg_meta
  simp only [bind, Except.bind, hn, hscan', pure, Except.pure]
  generalize hfr : lss_load_find_root lss.flash (u64 (st.latest_seg_offset + lss.flash.segment_size_bytes))
    lss.flash.segment_size_bytes (u64 (st.latest_seg_offset + lss.flash.write_granularity_bytes))
            (FLASH_INVALID_ADDRESS, root_out) = fr
  rw [hseg, hwg] at hfr
  rw [hfr]
  by_cases h1 : st.latest_seg_offset = FLASH_INVALID_ADDRESS
  · simp [h1, throw, throwThe, MonadExceptOf.throw]
  · by_cases h2 : 64 = st.curr_segment_metadata.block_size
    · simp only [h1, h2, hwg, if_false, ne_eq, not_true_eq_false]
      cases fr with
      | error e => simp
      | ok x =>
        obtain ⟨ro, rt⟩ := x
        by_cases h3 : ro = FLASH_INVALID_ADDRESS <;> simp [h3]
    · simp [h1, h2, hwg, throw, throwThe, MonadExceptOf.throw]

theorem scan_inv_start (image : Nat → flash_block_t) (lss : lss_t) :
    scan_inv image [] (scan_start lss) := by
  left
  exact ⟨rfl, rfl, fun _ hi => by simp at hi⟩

theorem range_lt_six : ∀ i ∈ List.range 6, i < 6 := fun _ hi => List.mem_range.mp hi

/-- C9 (counterexample): on the image `stray_image`, segment 0 starts with a
checkpointed SEG_META (the only one, hence of maximal `seq_num`), yet recovery
adopts nothing: it stops at the assertion of line 142 on the first block of
segment 1, which is neither a SEG_META nor erased. -/
theorem recovery_stops_on_stray_block :
    is_checkpoint (stray_image (0 * 64)) = true
      ∧ fault_of (lss_load_root_and_seg_meta (lss_create stray_image) (fresh_table 64).root
          FLASH_INVALID_ADDRESS) = some (.assertion .lss_c 142) := by
  decide!

/-- C9 (amended): for every device image in which the first block of every
segment is a SEG_META record or has an all-ones first word (what the
assertion of the scan demands), `lss_load_root_and_seg_meta` stops with the
failure of line 159 when no segment starts with a checkpointed SEG_META;
otherwise its first loop adopts a segment `b` that starts with a checkpointed
SEG_META whose `seq_num` is maximal among all such segments, and whenever the
function returns, `curr_segment_metadata` is exactly the record of `b`. -/
theorem recovery_adopts_latest_checkpoint (image : Nat → flash_block_t)
    (root_out : flash_block_t) (root_offset_out : Nat)
    (hfirst : ∀ i, i < 6 → hdr_type (image (i * 64)).hdr = SEG_META_BLOCK
        ∨ hdr_word32 (image (i * 64)).hdr = UINT32_MAX) :
    ((∀ i, i < 6 → is_checkpoint (image (i * 64)) = false) →
        lss_load_root_and_seg_meta (lss_create image) root_out root_offset_out
          = .error (.assertion .lss_c 159))
      ∧ ((∃ i, i < 6 ∧ is_checkpoint (image (i * 64)) = true) →
          ∃ b, b < 6 ∧ is_checkpoint (image (b * 64)) = true
            ∧ (∀ i, i < 6 → is_checkpoint (image (i * 64)) = true →
                (seg_meta_decode (image (i * 64))).seq_num
                  ≤ (seg_meta_decode (image (b * 64))).seq_num)
            ∧ lss_load_find_checkpoint (lss_create image).flash (List.range 6)
                (scan_start (lss_create image))
                = .ok { latest_seq := (seg_meta_decode (image (b * 64))).seq_num
                        latest_seg_offset := b * 4096
                        curr_segment_metadata := seg_meta_decode (image (b * 64)) }
            ∧ ∀ r, lss_load_root_and_seg_meta (lss_create image) root_out root_offset_out = .ok r →
                r.lss.curr_segment_metadata = seg_meta_decode (image (b * 64))) := by
  obtain ⟨st, hst⟩ := find_checkpoint_total image (List.range 6) (scan_start (lss_create image))
    range_lt_six (fun i hi => hfirst i (List.mem_range.mp hi))
  have hinv := find_checkpoint_inv image (List.range 6) [] _ st range_lt_six hst
    (scan_inv_start image _)
  simp only [List.nil_append] at hinv
  have hun := load_unfold (lss_create image) root_out root_offset_out st rfl rfl rfl hst
  constructor
  · intro hnone
    rcases hinv with ⟨h1, _, _⟩ | ⟨b, hb, _, hbc, _, _⟩
    · rw [hun, if_pos h1]
    · rw [hnone b (List.mem_range.mp hb)] at hbc; cases hbc
  · rintro ⟨i, hi, hic⟩
    rcases hinv with ⟨_, _, h3⟩ | ⟨b, hb, hb6, hbc, hstb, hmax⟩
    · rw [h3 i (List.mem_range.mpr hi)] at hic; cases hic
    · refine ⟨b, hb6, hbc, fun j hj hjc => hmax j (List.mem_range.mpr hj) hjc, ?_, ?_⟩
      · rw [← hstb]; exact hst
      · intro r hr
        rw [hun] at hr
        have hcs : st.curr_segment_metadata = seg_meta_decode (image (b * 64)) := by rw [hstb]
        rw [← hcs]
        split at hr
        · cases hr
        · split at hr
          · cases hr
          · split at hr
            · cases hr
            · split at hr <;>
                (simp only [Except.ok.injEq] at hr; subst hr; rfl)

theorem recovery_adopts_latest_checkpoint_witness :
    (∀ i, i < 6 → hdr_type (fresh_image (i * 64)).hdr = SEG_META_BLOCK
        ∨ hdr_word32 (fresh_image (i * 64)).hdr = UINT32_MAX)
      ∧ (∃ i, i < 6 ∧ is_checkpoint (fresh_image (i * 64)) = true)
      ∧ ∃ b, b < 6 ∧ is_checkpoint (fresh_image (b * 64)) = true
            ∧ (∀ i, i < 6 → is_checkpoint (fresh_image (i * 64)) = true →
                (seg_meta_decode (fresh_image (i * 64))).seq_num
                  ≤ (seg_meta_decode (fresh_image (b * 64))).seq_num)
            ∧ lss_load_find_checkpoint (lss_create fresh_image).flash (List.range 6)
                (scan_start (lss_create fresh_image))
                = .ok { latest_seq := (seg_meta_decode (fresh_image (b * 64))).seq_num
                        latest_seg_offset := b * 4096
                        curr_segment_metadata := seg_meta_decode (fresh_image (b * 64)) }
            ∧ ∀ r, lss_load_root_and_seg_meta (lss_create fresh_image) (fresh_table 64).root
                  FLASH_INVALID_ADDRESS = .ok r →
                r.lss.curr_segment_metadata = seg_meta_decode (fresh_image (b * 64)) :=
  ⟨by decide!, ⟨0, by decide!⟩,
   (recovery_adopts_latest_checkpoint fresh_image (fresh_table 64).root FLASH_INVALID_ADDRESS
      (by decide!)).2 ⟨0, by decide!⟩⟩

/-- C10: let recovery have selected a segment (its first loop ends in `st`
with a valid `latest_seg_offset`) whose SEG_META records the write granularity
as block size.  If the segment holds a non-erased block of kind MT and level
0, `lss_load_root_and_seg_meta` returns `LSS_OK` with the last (highest-offset)
such block `j` as root: its bytes are copied to `root_out`, its offset is
stored in `root_offset_out`, `head` is that offset plus the write granularity
and `tail` is the `tail_offset` recorded in the SEG_META of the segment.  If
the segment holds no such block it fails with `LSS_ERR`, leaving `root_out`
and `root_offset_out` as they were. -/
theorem recovery_finds_last_root (image : Nat → flash_block_t) (root_out : flash_block_t)
    (root_offset_out : Nat) (st : checkpoint_scan)
    (hscan : lss_load_find_checkpoint (lss_create image).flash (List.range 6)
      (scan_start (lss_create image)) = .ok st)
    (hsel : st.latest_seg_offset ≠ FLASH_INVALID_ADDRESS)
    (hbs : st.curr_segment_metadata.block_size = 64) :
    ((∃ j, j < 64 ∧ is_root_block (image (st.latest_seg_offset / 64 + j)) = true) →
        ∃ j r, j < 64 ∧ is_root_block (image (st.latest_seg_offset / 64 + j)) = true
          ∧ (∀ k, j < k → k < 64 →
              is_root_block (image (st.latest_seg_offset / 64 + k)) = false)
          ∧ lss_load_root_and_seg_meta (lss_create image) root_out root_offset_out = .ok r
          ∧ r.ret = LSS_OK
          ∧ r.root_out = image (st.latest_seg_offset / 64 + j)
          ∧ r.root_offset_out = st.latest_seg_offset + j * 64
          ∧ r.lss.head = st.latest_seg_offset + j * 64 + 64
          ∧ r.lss.tail = st.curr_segment_metadata.tail_offset
          ∧ r.lss.curr_segment_metadata = st.curr_segment_metadata)
      ∧ ((∀ j, j < 64 → is_root_block (image (st.latest_seg_offset / 64 + j)) = false) →
          ∃ r, lss_load_root_and_seg_meta (lss_create image) root_out root_offset_out = .ok r
            ∧ r.ret = LSS_ERR ∧ r.root_out = root_out ∧ r.root_offset_out = root_offset_out) := by
  have hinv := find_checkpoint_inv image (List.range 6) [] _ st range_lt_six hscan
    (scan_inv_start image _)
  simp only [List.nil_append] at hinv
  rcases hinv with ⟨h1, _, _⟩ | ⟨b, _, hb6, hbc, hstb, _⟩
  · exact absurd h1 hsel
  have hso : st.latest_seg_offset = b * 4096 := by rw [hstb]
  have hdiv : st.latest_seg_offset / 64 = b * 64 := by rw [hso]; omega
  have hun := load_unfold (lss_create image) root_out root_offset_out st rfl rfl rfl hscan
  rw [if_neg hsel, if_neg (by rw [hbs]; simp)] at hun
  have hu1 : u64 (st.latest_seg_offset + 4096) = b * 4096 + 4096 := by
    rw [hso]; unfold u64; omega
  have hu2 : u64 (st.latest_seg_offset + 64) = b * 4096 + 1 * 64 := by
    rw [hso]; unfold u64; omega
  rw [hu1, hu2] at hun
  obtain ⟨final, hrun, hfinal⟩ := find_root_spec image b hb6 63 1 4096
    (FLASH_INVALID_ADDRESS, root_out) (by omega) (by omega)
  have hrun' : lss_load_find_root (lss_create image).flash (b * 4096 + 4096) 4096
      (b * 4096 + 1 * 64) (FLASH_INVALID_ADDRESS, root_out) = .ok final := hrun
  rw [hrun'] at hun
  -- the first block of the segment is the SEG_META record, not a root
  have hfirst : is_root_block (image (b * 64 + 0)) = false := by
    have hty : (seg_meta_decode (image (b * 64))).type = SEG_META_BLOCK := by
      simp only [is_checkpoint, Bool.and_eq_true, decide_eq_true_eq] at hbc
      exact hbc.1
    have hty' : (image (b * 64)).type = 2 := hty
    simp [is_root_block, hty', MT_BLOCK]
  rw [hdiv]
  rcases hfinal with ⟨hnone, hfe⟩ | ⟨j, hj1, hj2, hj3, hj4, hj5⟩
  · subst hfe
    simp only [if_true] at hun
    constructor
    · rintro ⟨j, hj, hjr⟩
      by_cases hj0 : j = 0
      · subst hj0; rw [hfirst] at hjr; cases hjr
      · rw [hnone j (by omega) hj] at hjr; cases hjr
    · intro _
      exact ⟨_, hun, rfl, rfl, rfl⟩
  · subst hj5
    have hne : ¬ (b * 4096 + j * 64 = FLASH_INVALID_ADDRESS) := by
      simp only [FLASH_INVALID_ADDRESS, UINT64_MAX]; omega
    simp only [hne, if_false] at hun
    constructor
    · intro _
      refine ⟨j, _, hj2, hj3, hj4, hun, rfl, rfl, by rw [hso], ?_, rfl, rfl⟩
      show u64 (b * 4096 + j * 64 + 64) = st.latest_seg_offset + j * 64 + 64
      rw [hso]; unfold u64; omega
    · intro hnone
      rw [hnone j hj2] at hj3; cases hj3

theorem recovery_finds_last_root_witness :
    lss_load_find_checkpoint (lss_create fresh_image).flash (List.range 6)
        (scan_start (lss_create fresh_image)) = .ok fresh_scan
      ∧ fresh_scan.latest_seg_offset ≠ FLASH_INVALID_ADDRESS
      ∧ fresh_scan.curr_segment_metadata.block_size = 64
      ∧ (∃ j, j < 64 ∧ is_root_block (fresh_image (fresh_scan.latest_seg_offset / 64 + j)) = true)
      ∧ ∃ j r, j < 64 ∧ is_root_block (fresh_image (fresh_scan.latest_seg_offset / 64 + j)) = true
          ∧ (∀ k, j < k → k < 64 →
              is_root_block (fresh_image (fresh_scan.latest_seg_offset / 64 + k)) = false)
          ∧ lss_load_root_and_seg_meta (lss_create fresh_image) (fresh_table 64).root
              FLASH_INVALID_ADDRESS = .ok r
          ∧ r.ret = LSS_OK
          ∧ r.root_out = fresh_image (fresh_scan.latest_seg_offset / 64 + j)
          ∧ r.root_offset_out = fresh_scan.latest_seg_offset + j * 64
          ∧ r.lss.head = fresh_scan.latest_seg_offset + j * 64 + 64
          ∧ r.lss.tail = fresh_scan.curr_segment_metadata.tail_offset
          ∧ r.lss.curr_segment_metadata = fresh_scan.curr_segment_metadata :=
  have hscan : lss_load_find_checkpoint (lss_create fresh_image).flash (List.range 6)
      (scan_start (lss_create fresh_image)) = .ok fresh_scan := by
    decide!
  ⟨hscan, by decide!, by decide!, ⟨1, by decide!⟩,
   (recovery_finds_last_root fresh_image (fresh_table 64).root FLASH_INVALID_ADDRESS fresh_scan
      hscan (by decide!) (by decide!)).1 ⟨1, by decide!⟩⟩

/-- C3 (failing input): the table created with `npage_mappings = 1` has a
padded size of 1, so the descent computes `sub_range = 1 / 7 = 0` and divides
by it: the lookup of the never-updated address 0 stops with a division by zero
instead of reporting absent. -/
theorem lookup_single_entry_table_traps :
    (mapping_table_init 8 erased_image 1 64 10 true).toOption.join.isSome = true
      ∧ 0 < (fresh_table 1).npage_mappings
      ∧ (fresh_table 1).npage_mappings_padded = 1
      ∧ fault_of (mapping_table_get_physical_address 8 (fresh_table 1) 0 true 0)
          = some .div_by_zero
      ∧ fault_of (mapping_table_update_physical_address 8 (fresh_table 1) 0 5555 true)
          = some .div_by_zero := by
  decide!

theorem cfg_set_entry (mt : mapping_table_t) (e : Nat) (v : mtpc_entry_t) :
    cfg (mt.set_entry e v) = cfg mt := rfl

theorem cfg_set_cache_data (mt : mapping_table_t) (c : mtpc_ref) (d : List Nat) :
    cfg (mt.set_cache c { mt.cache c with data := d }) = cfg mt := by cases c <;> rfl

theorem cfg_set_cache_head (mt : mapping_table_t) (c : mtpc_ref) (d : Option Nat) :
    cfg (mt.set_cache c { mt.cache c with lru_head := d }) = cfg mt := by cases c <;> rfl

theorem cfg_set_cache_tail (mt : mapping_table_t) (c : mtpc_ref) (d : Option Nat) :
    cfg (mt.set_cache c { mt.cache c with lru_tail := d }) = cfg mt := by cases c <;> rfl

theorem cfg_set_cache_free (mt : mapping_table_t) (c : mtpc_ref) (d : Option Nat) :
    cfg (mt.set_cache c { mt.cache c with free_list := d }) = cfg mt := by cases c <;> rfl

theorem cfg_lru_remove (mt : mapping_table_t) (c : mtpc_ref) (e : Nat) :
    cfg (lru_remove mt c e) = cfg mt := by
  unfold lru_remove
  simp only
  repeat' split
  all_goals simp only [cfg_set_entry, cfg_set_cache_data, cfg_set_cache_head, cfg_set_cache_tail,
    cfg_set_cache_free]

theorem cfg_lru_push_head (mt : mapping_table_t) (c : mtpc_ref) (e : Nat) :
    cfg (lru_push_head mt c e) = cfg mt := by
  unfold lru_push_head
  simp only
  repeat' split
  all_goals simp only [cfg_set_entry, cfg_set_cache_data, cfg_set_cache_head, cfg_set_cache_tail,
    cfg_set_cache_free]

theorem cfg_lru_move_to_head (mt : mapping_table_t) (c : mtpc_ref) (e : Nat) :
    cfg (lru_move_to_head mt c e) = cfg mt := by
  unfold lru_move_to_head
  split
  · rfl
  · rw [cfg_lru_push_head, cfg_lru_remove]

theorem cfg_pin (mt : mapping_table_t) (e : Nat) : cfg (pin mt e) = cfg mt := rfl

theorem cfg_mark_dirty (mt : mapping_table_t) (e : Option Nat) :
    cfg (mtpc_mark_dirty mt e) = cfg mt := by cases e <;> rfl

theorem cfg_cache_free_entry (mt : mapping_table_t) (c : mtpc_ref) (e : Nat) :
    cfg (cache_free_entry mt c e) = cfg mt := by
  unfold cache_free_entry
  simp only [cfg_set_entry, cfg_set_cache_data, cfg_set_cache_head, cfg_set_cache_tail,
    cfg_set_cache_free]

theorem cfg_cache_allocate_entry (mt : mapping_table_t) (c : mtpc_ref) :
    cfg (cache_allocate_entry mt c).2 = cfg mt := by
  unfold cache_allocate_entry
  split <;> simp only [cfg_set_entry, cfg_set_cache_data, cfg_set_cache_head, cfg_set_cache_tail,
    cfg_set_cache_free]

theorem cfg_get_page_entry (mt : mapping_table_t) (c : Option mtpc_ref) (s e : Nat) :
    cfg (mtpc_get_page_entry mt c s e).2 = cfg mt := by
  unfold mtpc_get_page_entry
  repeat' split
  all_goals simp only [cfg_pin]

theorem cfg_search (mt : mapping_table_t) (c : mtpc_ref) (l : Nat) :
    cfg (mtpc_search mt c l).2 = cfg mt := by
  unfold mtpc_search
  repeat' split
  all_goals simp only [cfg_pin, cfg_lru_move_to_head]

theorem keep_val {α : Type} {x r : α} {q : Prop} (h : x = r → q) : (x = r) = (yields x r ∧ q) :=
  propext ⟨fun hp => ⟨hp, h hp⟩, fun hq => hq.1⟩

theorem kr_cache_allocate_entry (mt : mapping_table_t) (c : mtpc_ref)
    (r : Option Nat × mapping_table_t) :
    (cache_allocate_entry mt c = r)
      = (yields (cache_allocate_entry mt c) r ∧ cfg r.2 = cfg mt) :=
  keep_val (fun h => by rw [← h, cfg_cache_allocate_entry])

theorem keep_intro {α : Type} {x : Res α} {r : α} {q : Prop} (h : x = .ok r → q) :
    (x = .ok r) = (returns x r ∧ q) :=
  propext ⟨fun hp => ⟨hp, h hp⟩, fun hq => hq.1⟩

theorem cfg_with_lss (mt : mapping_table_t) (l : lss_t) : cfg { mt with lss := l } = cfg mt := rfl

theorem cfg_with_root (mt : mapping_table_t) (b : flash_block_t) :
    cfg { mt with root := b } = cfg mt := rfl

theorem cfg_with_root_offset (mt : mapping_table_t) (o : Nat) :
    cfg { mt with root_offset := o } = cfg mt := rfl

theorem kr_unpin (mt : mapping_table_t) (e : Option Nat) (r : Nat × mapping_table_t) :
    (mtpc_unpin mt e = .ok r) = (returns (mtpc_unpin mt e) r ∧ cfg r.2 = cfg mt) := by
  apply keep_intro
  intro h
  unfold mtpc_unpin at h
  repeat' split at h
  all_goals try cases h
  all_goals simp only [cfg_set_entry]

theorem kr_write_slot (mt : mapping_table_t) (ce : Option Nat) (i v : Nat) (r : mapping_table_t) :
    (write_slot mt ce i v = .ok r) = (returns (write_slot mt ce i v) r ∧ cfg r = cfg mt) := by
  apply keep_intro
  intro h
  unfold write_slot at h
  simp only [bind, Except.bind, pure, Except.pure] at h
  repeat' split at h
  all_goals try cases h
  all_goals simp only [cfg_set_entry, cfg_with_root]

theorem kr_take_entry_ownership (mt : mapping_table_t) (ca : mtpc_ref) (ea : Nat) (cb : mtpc_ref)
    (eb : Nat) (r : Int × mapping_table_t) :
    (mtpc_take_entry_ownership mt ca ea cb eb = .ok r)
      = (returns (mtpc_take_entry_ownership mt ca ea cb eb) r ∧ cfg r.2 = cfg mt) := by
  apply keep_intro
  intro h
  unfold mtpc_take_entry_ownership at h
  simp only [bind, Except.bind, pure, Except.pure] at h
  repeat' split at h
  all_goals try cases h
  all_goals simp only [cfg_cache_free_entry, cfg_lru_push_head, cfg_set_cache_data, cfg_set_cache_head, cfg_set_cache_tail,
    cfg_set_cache_free, cfg_lru_remove]

theorem kr_insert_finish (mt : mapping_table_t) (c : mtpc_ref) (s e l : Nat) (p : Option Nat)
    (en : Nat) (r : Nat × mapping_table_t) :
    (mtpc_insert_finish mt c s e l p en = .ok r)
      = (returns (mtpc_insert_finish mt c s e l p en) r ∧ cfg r.2 = cfg mt) := by
  apply keep_intro
  intro h
  unfold mtpc_insert_finish at h
  simp only [bind, Except.bind, pure, Except.pure] at h
  repeat' split at h
  all_goals try cases h
  all_goals simp only [cfg_lru_push_head, cfg_set_cache_data, cfg_set_cache_head, cfg_set_cache_tail,
    cfg_set_cache_free, cfg_pin, cfg_set_entry]

theorem kr_insert_reuse (mt : mapping_table_t) (c : mtpc_ref) (s e l : Nat) (p : Option Nat)
    (cand : Nat) (r : Nat × mapping_table_t) :
    (mtpc_insert_reuse mt c s e l p cand = .ok r)
      = (returns (mtpc_insert_reuse mt c s e l p cand) r ∧ cfg r.2 = cfg mt) := by
  apply keep_intro
  intro h
  unfold mtpc_insert_reuse at h
  simp only [bind, Except.bind, pure, Except.pure] at h
  repeat' split at h
  all_goals try cases h
  all_goals try simp only [kr_unpin, kr_insert_finish] at *
  all_goals simp_all only [cfg_set_entry, cfg_set_cache_data, cfg_set_cache_head, cfg_set_cache_tail,
    cfg_set_cache_free, cfg_lru_remove, cfg_lru_push_head, cfg_lru_move_to_head, cfg_pin,
    cfg_mark_dirty, cfg_cache_free_entry, cfg_cache_allocate_entry, cfg_get_page_entry, cfg_search,
    cfg_with_lss, cfg_with_root, cfg_with_root_offset]

theorem kr_acquire_probe (mt : mapping_table_t) (c : mtpc_ref) (s e : Nat) (p : Option Nat)
    (en : Nat) (r : Nat × Bool × mapping_table_t) :
    (mtpc_acquire_probe mt c s e p en = .ok r)
      = (returns (mtpc_acquire_probe mt c s e p en) r ∧ cfg r.2.2 = cfg mt) := by
  apply keep_intro
  intro h
  unfold mtpc_acquire_probe at h
  simp only [bind, Except.bind, pure, Except.pure] at h
  repeat' split at h
  all_goals try cases h
  all_goals try simp only [kr_unpin, kr_take_entry_ownership] at *
  all_goals simp_all only [cfg_set_entry, cfg_set_cache_data, cfg_set_cache_head, cfg_set_cache_tail, cfg_set_cache_free, cfg_lru_remove, cfg_lru_push_head, cfg_lru_move_to_head, cfg_pin,
    cfg_mark_dirty, cfg_cache_free_entry, cfg_cache_allocate_entry, cfg_get_page_entry, cfg_search,
    cfg_with_lss, cfg_with_root, cfg_with_root_offset]

theorem kr_acquire_fill (mt : mapping_table_t) (c : mtpc_ref) (s e sa : Nat) (p : Option Nat)
    (en : Nat) (r : Nat × mapping_table_t) :
    (mtpc_acquire_fill mt c s e sa p en = .ok r)
      = (returns (mtpc_acquire_fill mt c s e sa p en) r ∧ cfg r.2 = cfg mt) := by
  apply keep_intro
  intro h
  unfold mtpc_acquire_fill at h
  simp only [bind, Except.bind, pure, Except.pure] at h
  repeat' split at h
  all_goals try cases h
  all_goals try simp only [kr_acquire_probe] at *
  all_goals simp_all only [cfg_set_entry, cfg_set_cache_data, cfg_set_cache_head, cfg_set_cache_tail, cfg_set_cache_free, cfg_lru_remove, cfg_lru_push_head, cfg_lru_move_to_head, cfg_pin,
    cfg_mark_dirty, cfg_cache_free_entry, cfg_cache_allocate_entry, cfg_get_page_entry, cfg_search,
    cfg_with_lss, cfg_with_root, cfg_with_root_offset]

theorem cfg_kr_flush_entry (n : Nat) (ih : cfg_frame n) (mt : mapping_table_t) (c : mtpc_ref) (entry : Nat) (ct : Bool)
    (r : Int × mapping_table_t) :
    (flush_entry n mt c entry ct = .ok r) = (returns (flush_entry n mt c entry ct) r ∧ cfg r.2 = cfg mt) :=
  keep_intro (ih.flush_entry mt c entry ct r)

theorem cfg_kr_mtpc_insert_evict (n : Nat) (ih : cfg_frame n) (mt : mapping_table_t) (c : mtpc_ref) (ct : Bool) (cand : Option Nat)
    (r : Nat × mapping_table_t) :
    (mtpc_insert_evict n mt c ct cand = .ok r) = (returns (mtpc_insert_evict n mt c ct cand) r ∧ cfg r.2 = cfg mt) :=
  keep_intro (ih.mtpc_insert_evict mt c ct cand r)

theorem cfg_kr_mtpc_insert (n : Nat) (ih : cfg_frame n) (mt : mapping_table_t) (c : mtpc_ref) (s e level : Nat) (parent : Option Nat) (ct : Bool)
    (r : Nat × mapping_table_t) :
    (mtpc_insert n mt c s e level parent ct = .ok r) = (returns (mtpc_insert n mt c s e level parent ct) r ∧ cfg r.2 = cfg mt) :=
  keep_intro (ih.mtpc_insert mt c s e level parent ct r)

theorem cfg_kr_mtpc_acquire_from_storage (n : Nat) (ih : cfg_frame n) (mt : mapping_table_t) (c : mtpc_ref) (s e sa : Nat) (parent : Option Nat) (ct : Bool)
    (r : Nat × mapping_table_t) :
    (mtpc_acquire_from_storage n mt c s e sa parent ct = .ok r) = (returns (mtpc_acquire_from_storage n mt c s e sa parent ct) r ∧ cfg r.2 = cfg mt) :=
  keep_intro (ih.mtpc_acquire_from_storage mt c s e sa parent ct r)

theorem cfg_kr_mtpc_flush_all_level (n : Nat) (ih : cfg_frame n) (mt : mapping_table_t) (c : mtpc_ref) (ct : Bool) (level i total : Nat)
    (r : Nat × mapping_table_t) :
    (mtpc_flush_all_level n mt c ct level i total = .ok r) = (returns (mtpc_flush_all_level n mt c ct level i total) r ∧ cfg r.2 = cfg mt) :=
  keep_intro (ih.mtpc_flush_all_level mt c ct level i total r)

theorem cfg_kr_mtpc_flush_all_levels (n : Nat) (ih : cfg_frame n) (mt : mapping_table_t) (c : mtpc_ref) (ct : Bool) (level total : Nat)
    (r : Nat × mapping_table_t) :
    (mtpc_flush_all_levels n mt c ct level total = .ok r) = (returns (mtpc_flush_all_levels n mt c ct level total) r ∧ cfg r.2 = cfg mt) :=
  keep_intro (ih.mtpc_flush_all_levels mt c ct level total r)

theorem cfg_kr_mtpc_flush_all (n : Nat) (ih : cfg_frame n) (mt : mapping_table_t) (c : mtpc_ref) (ct : Bool)
    (r : Int × mapping_table_t) :
    (mtpc_flush_all n mt c ct = .ok r) = (returns (mtpc_flush_all n mt c ct) r ∧ cfg r.2 = cfg mt) :=
  keep_intro (ih.mtpc_flush_all mt c ct r)

theorem cfg_kr_descend_to_parent (n : Nat) (ih : cfg_frame n) (mt : mapping_table_t) (bh ba : Nat) (ap : Option (Nat × Nat)) (brs : Nat) (ce : Option Nat) (csr crs : Nat)
    (r : Bool × mapping_table_t) :
    (descend_to_parent n mt bh ba ap brs ce csr crs = .ok r) = (returns (descend_to_parent n mt bh ba ap brs ce csr crs) r ∧ cfg r.2 = cfg mt) :=
  keep_intro (ih.descend_to_parent mt bh ba ap brs ce csr crs r)

theorem cfg_kr_locate_parent (n : Nat) (ih : cfg_frame n) (mt : mapping_table_t) (bh ba : Nat) (ap : Option (Nat × Nat))
    (r : Bool × mapping_table_t) :
    (locate_parent n mt bh ba ap = .ok r) = (returns (locate_parent n mt bh ba ap) r ∧ cfg r.2 = cfg mt) :=
  keep_intro (ih.locate_parent mt bh ba ap r)

theorem cfg_kr_is_mt_block_alive (n : Nat) (ih : cfg_frame n) (mt : mapping_table_t) (ba bh : Nat)
    (r : Bool × mapping_table_t) :
    (is_mt_block_alive n mt ba bh = .ok r) = (returns (is_mt_block_alive n mt ba bh) r ∧ cfg r.2 = cfg mt) :=
  keep_intro (ih.is_mt_block_alive mt ba bh r)

theorem cfg_kr_apply_reallocate (n : Nat) (ih : cfg_frame n) (mt : mapping_table_t) (bh old new : Nat)
    (r : Int × mapping_table_t) :
    (apply_reallocate n mt bh old new = .ok r) = (returns (apply_reallocate n mt bh old new) r ∧ cfg r.2 = cfg mt) :=
  keep_intro (ih.apply_reallocate mt bh old new r)

theorem cfg_kr_lss_realloc_evict_loop (n : Nat) (ih : cfg_frame n) (mt : mapping_table_t) (idx : Nat)
    (r : mapping_table_t) :
    (lss_realloc_evict_loop n mt idx = .ok r) = (returns (lss_realloc_evict_loop n mt idx) r ∧ cfg r = cfg mt) :=
  keep_intro (ih.lss_realloc_evict_loop mt idx r)

theorem cfg_kr_lss_realloc_evict (n : Nat) (ih : cfg_frame n) (mt : mapping_table_t) 
    (r : Int × mapping_table_t) :
    (lss_realloc_evict n mt = .ok r) = (returns (lss_realloc_evict n mt) r ∧ cfg r.2 = cfg mt) :=
  keep_intro (ih.lss_realloc_evict mt  r)

theorem cfg_kr_lss_realloc_insert (n : Nat) (ih : cfg_frame n) (mt : mapping_table_t) (bh old new : Nat)
    (r : Int × mapping_table_t) :
    (lss_realloc_insert n mt bh old new = .ok r) = (returns (lss_realloc_insert n mt bh old new) r ∧ cfg r.2 = cfg mt) :=
  keep_intro (ih.lss_realloc_insert mt bh old new r)

theorem cfg_kr_is_mt_segment_fully_dead_loop (n : Nat) (ih : cfg_frame n) (mt : mapping_table_t) (buf : Nat → flash_block_t) (ba bhdr ps np i : Nat)
    (r : Bool × mapping_table_t) :
    (is_mt_segment_fully_dead_loop n mt buf ba bhdr ps np i = .ok r) = (returns (is_mt_segment_fully_dead_loop n mt buf ba bhdr ps np i) r ∧ cfg r.2 = cfg mt) :=
  keep_intro (ih.is_mt_segment_fully_dead_loop mt buf ba bhdr ps np i r)

theorem cfg_kr_is_mt_segment_fully_dead (n : Nat) (ih : cfg_frame n) (mt : mapping_table_t) (ba : Nat)
    (r : Bool × mapping_table_t) :
    (is_mt_segment_fully_dead n mt ba = .ok r) = (returns (is_mt_segment_fully_dead n mt ba) r ∧ cfg r.2 = cfg mt) :=
  keep_intro (ih.is_mt_segment_fully_dead mt ba r)

theorem cfg_kr_lss_debug_analyze_loop (n : Nat) (ih : cfg_frame n) (mt : mapping_table_t) (bs nb i : Nat)
    (r : mapping_table_t) :
    (lss_debug_analyze_loop n mt bs nb i = .ok r) = (returns (lss_debug_analyze_loop n mt bs nb i) r ∧ cfg r = cfg mt) :=
  keep_intro (ih.lss_debug_analyze_loop mt bs nb i r)

theorem cfg_kr_lss_debug_analyze (n : Nat) (ih : cfg_frame n) (mt : mapping_table_t) 
    (r : Int × mapping_table_t) :
    (lss_debug_analyze n mt = .ok r) = (returns (lss_debug_analyze n mt) r ∧ cfg r.2 = cfg mt) :=
  keep_intro (ih.lss_debug_analyze mt  r)

theorem cfg_kr_lss_clean_tail_block (n : Nat) (ih : cfg_frame n) (mt : mapping_table_t) (tail : Nat)
    (r : Int × mapping_table_t) :
    (lss_clean_tail_block n mt tail = .ok r) = (returns (lss_clean_tail_block n mt tail) r ∧ cfg r.2 = cfg mt) :=
  keep_intro (ih.lss_clean_tail_block mt tail r)

theorem cfg_kr_lss_write_clean (n : Nat) (ih : cfg_frame n) (mt : mapping_table_t) (tries : Nat)
    (r : mapping_table_t) :
    (lss_write_clean n mt tries = .ok r) = (returns (lss_write_clean n mt tries) r ∧ cfg r = cfg mt) :=
  keep_intro (ih.lss_write_clean mt tries r)

theorem cfg_kr_lss_write_rotate (n : Nat) (ih : cfg_frame n) (mt : mapping_table_t) 
    (r : mapping_table_t) :
    (lss_write_rotate n mt = .ok r) = (returns (lss_write_rotate n mt) r ∧ cfg r = cfg mt) :=
  keep_intro (ih.lss_write_rotate mt  r)

theorem cfg_kr_lss_write (n : Nat) (ih : cfg_frame n) (mt : mapping_table_t) (data : buf_ptr) (len : Nat) (ct : Bool)
    (r : Nat × mapping_table_t) :
    (lss_write n mt data len ct = .ok r) = (returns (lss_write n mt data len ct) r ∧ cfg r.2 = cfg mt) :=
  keep_intro (ih.lss_write mt data len ct r)

theorem cfg_step_flush_entry (n : Nat) (ih : cfg_frame n) (mt : mapping_table_t) (c : mtpc_ref) (entry : Nat) (ct : Bool)
    (r : Int × mapping_table_t) (h : flush_entry (n + 1) mt c entry ct = .ok r) : cfg r.2 = cfg mt := by
  first | rw [flush_entry] at h | rw [flush_entry.eq_def] at h
  try simp only [bind, Except.bind, pure, Except.pure] at h
  repeat' split at h
  all_goals try cases h
  all_goals try simp only [cfg_kr_flush_entry n ih, cfg_kr_mtpc_insert_evict n ih, cfg_kr_mtpc_insert n ih,
    cfg_kr_mtpc_acquire_from_storage n ih, cfg_kr_mtpc_flush_all_level n ih,
    cfg_kr_mtpc_flush_all_levels n ih, cfg_kr_mtpc_flush_all n ih, cfg_kr_descend_to_parent n ih,
    cfg_kr_locate_parent n ih, cfg_kr_is_mt_block_alive n ih, cfg_kr_apply_reallocate n ih,
    cfg_kr_lss_realloc_evict_loop n ih, cfg_kr_lss_realloc_evict n ih,
    cfg_kr_lss_realloc_insert n ih, cfg_kr_is_mt_segment_fully_dead_loop n ih,
    cfg_kr_is_mt_segment_fully_dead n ih, cfg_kr_lss_debug_analyze_loop n ih,
    cfg_kr_lss_debug_analyze n ih, cfg_kr_lss_clean_tail_block n ih, cfg_kr_lss_write_clean n ih,
    cfg_kr_lss_write_rotate n ih, cfg_kr_lss_write n ih, kr_unpin, kr_write_slot,
    kr_take_entry_ownership, kr_insert_finish, kr_insert_reuse, kr_acquire_fill,
    kr_cache_allocate_entry] at *
  all_goals try simp_all only [cfg_set_entry, cfg_set_cache_data, cfg_set_cache_head, cfg_set_cache_tail,
    cfg_set_cache_free, cfg_lru_remove, cfg_lru_push_head, cfg_lru_move_to_head, cfg_pin,
    cfg_mark_dirty, cfg_cache_free_entry, cfg_cache_allocate_entry, cfg_get_page_entry,
    cfg_search, cfg_with_lss, cfg_with_root, cfg_with_root_offset]
  all_goals repeat' split
  all_goals simp_all only [cfg_set_entry, cfg_set_cache_data, cfg_set_cache_head, cfg_set_cache_tail,
    cfg_set_cache_free, cfg_lru_remove, cfg_lru_push_head, cfg_lru_move_to_head, cfg_pin,
    cfg_mark_dirty, cfg_cache_free_entry, cfg_cache_allocate_entry, cfg_get_page_entry,
    cfg_search, cfg_with_lss, cfg_with_root, cfg_with_root_offset]

theorem cfg_step_mtpc_insert_evict (n : Nat) (ih : cfg_frame n) (mt : mapping_table_t) (c : mtpc_ref) (ct : Bool) (cand : Option Nat)
    (r : Nat × mapping_table_t) (h : mtpc_insert_evict (n + 1) mt c ct cand = .ok r) : cfg r.2 = cfg mt := by
  first | rw [mtpc_insert_evict] at h | rw [mtpc_insert_evict.eq_def] at h
  try simp only [bind, Except.bind, pure, Except.pure] at h
  repeat' split at h
  all_goals try cases h
  all_goals try simp only [cfg_kr_flush_entry n ih, cfg_kr_mtpc_insert_evict n ih, cfg_kr_mtpc_insert n ih,
    cfg_kr_mtpc_acquire_from_storage n ih, cfg_kr_mtpc_flush_all_level n ih,
    cfg_kr_mtpc_flush_all_levels n ih, cfg_kr_mtpc_flush_all n ih, cfg_kr_descend_to_parent n ih,
    cfg_kr_locate_parent n ih, cfg_kr_is_mt_block_alive n ih, cfg_kr_apply_reallocate n ih,
    cfg_kr_lss_realloc_evict_loop n ih, cfg_kr_lss_realloc_evict n ih,
    cfg_kr_lss_realloc_insert n ih, cfg_kr_is_mt_segment_fully_dead_loop n ih,
    cfg_kr_is_mt_segment_fully_dead n ih, cfg_kr_lss_debug_analyze_loop n ih,
    cfg_kr_lss_debug_analyze n ih, cfg_kr_lss_clean_tail_block n ih, cfg_kr_lss_write_clean n ih,
    cfg_kr_lss_write_rotate n ih, cfg_kr_lss_write n ih, kr_unpin, kr_write_slot,
    kr_take_entry_ownership, kr_insert_finish, kr_insert_reuse, kr_acquire_fill,
    kr_cache_allocate_entry] at *
  all_goals try simp_all only [cfg_set_entry, cfg_set_cache_data, cfg_set_cache_head, cfg_set_cache_tail,
    cfg_set_cache_free, cfg_lru_remove, cfg_lru_push_head, cfg_lru_move_to_head, cfg_pin,
    cfg_mark_dirty, cfg_cache_free_entry, cfg_cache_allocate_entry, cfg_get_page_entry,
    cfg_search, cfg_with_lss, cfg_with_root, cfg_with_root_offset]
  all_goals repeat' split
  all_goals simp_all only [cfg_set_entry, cfg_set_cache_data, cfg_set_cache_head, cfg_set_cache_tail,
    cfg_set_cache_free, cfg_lru_remove, cfg_lru_push_head, cfg_lru_move_to_head, cfg_pin,
    cfg_mark_dirty, cfg_cache_free_entry, cfg_cache_allocate_entry, cfg_get_page_entry,
    cfg_search, cfg_with_lss, cfg_with_root, cfg_with_root_offset]

theorem cfg_step_mtpc_insert (n : Nat) (ih : cfg_frame n) (mt : mapping_table_t) (c : mtpc_ref) (s e level : Nat) (parent : Option Nat) (ct : Bool)
    (r : Nat × mapping_table_t) (h : mtpc_insert (n + 1) mt c s e level parent ct = .ok r) : cfg r.2 = cfg mt := by
  first | rw [mtpc_insert] at h | rw [mtpc_insert.eq_def] at h
  try simp only [bind, Except.bind, pure, Except.pure] at h
  repeat' split at h
  all_goals try cases h
  all_goals try simp only [cfg_kr_flush_entry n ih, cfg_kr_mtpc_insert_evict n ih, cfg_kr_mtpc_insert n ih,
    cfg_kr_mtpc_acquire_from_storage n ih, cfg_kr_mtpc_flush_all_level n ih,
    cfg_kr_mtpc_flush_all_levels n ih, cfg_kr_mtpc_flush_all n ih, cfg_kr_descend_to_parent n ih,
    cfg_kr_locate_parent n ih, cfg_kr_is_mt_block_alive n ih, cfg_kr_apply_reallocate n ih,
    cfg_kr_lss_realloc_evict_loop n ih, cfg_kr_lss_realloc_evict n ih,
    cfg_kr_lss_realloc_insert n ih, cfg_kr_is_mt_segment_fully_dead_loop n ih,
    cfg_kr_is_mt_segment_fully_dead n ih, cfg_kr_lss_debug_analyze_loop n ih,
    cfg_kr_lss_debug_analyze n ih, cfg_kr_lss_clean_tail_block n ih, cfg_kr_lss_write_clean n ih,
    cfg_kr_lss_write_rotate n ih, cfg_kr_lss_write n ih, kr_unpin, kr_write_slot,
    kr_take_entry_ownership, kr_insert_finish, kr_insert_reuse, kr_acquire_fill,
    kr_cache_allocate_entry] at *
  all_goals try simp_all only [cfg_set_entry, cfg_set_cache_data, cfg_set_cache_head, cfg_set_cache_tail,
    cfg_set_cache_free, cfg_lru_remove, cfg_lru_push_head, cfg_lru_move_to_head, cfg_pin,
    cfg_mark_dirty, cfg_cache_free_entry, cfg_cache_allocate_entry, cfg_get_page_entry,
    cfg_search, cfg_with_lss, cfg_with_root, cfg_with_root_offset]
  all_goals repeat' split
  all_goals simp_all only [cfg_set_entry, cfg_set_cache_data, cfg_set_cache_head, cfg_set_cache_tail,
    cfg_set_cache_free, cfg_lru_remove, cfg_lru_push_head, cfg_lru_move_to_head, cfg_pin,
    cfg_mark_dirty, cfg_cache_free_entry, cfg_cache_allocate_entry, cfg_get_page_entry,
    cfg_search, cfg_with_lss, cfg_with_root, cfg_with_root_offset]

theorem cfg_step_mtpc_acquire_from_storage (n : Nat) (ih : cfg_frame n) (mt : mapping_table_t) (c : mtpc_ref) (s e sa : Nat) (parent : Option Nat) (ct : Bool)
    (r : Nat × mapping_table_t) (h : mtpc_acquire_from_storage (n + 1) mt c s e sa parent ct = .ok r) : cfg r.2 = cfg mt := by
  first | rw [mtpc_acquire_from_storage] at h | rw [mtpc_acquire_from_storage.eq_def] at h
  try simp only [bind, Except.bind, pure, Except.pure] at h
  repeat' split at h
  all_goals try cases h
  all_goals try simp only [cfg_kr_flush_entry n ih, cfg_kr_mtpc_insert_evict n ih, cfg_kr_mtpc_insert n ih,
    cfg_kr_mtpc_acquire_from_storage n ih, cfg_kr_mtpc_flush_all_level n ih,
    cfg_kr_mtpc_flush_all_levels n ih, cfg_kr_mtpc_flush_all n ih, cfg_kr_descend_to_parent n ih,
    cfg_kr_locate_parent n ih, cfg_kr_is_mt_block_alive n ih, cfg_kr_apply_reallocate n ih,
    cfg_kr_lss_realloc_evict_loop n ih, cfg_kr_lss_realloc_evict n ih,
    cfg_kr_lss_realloc_insert n ih, cfg_kr_is_mt_segment_fully_dead_loop n ih,
    cfg_kr_is_mt_segment_fully_dead n ih, cfg_kr_lss_debug_analyze_loop n ih,
    cfg_kr_lss_debug_analyze n ih, cfg_kr_lss_clean_tail_block n ih, cfg_kr_lss_write_clean n ih,
    cfg_kr_lss_write_rotate n ih, cfg_kr_lss_write n ih, kr_unpin, kr_write_slot,
    kr_take_entry_ownership, kr_insert_finish, kr_insert_reuse, kr_acquire_fill,
    kr_cache_allocate_entry] at *
  all_goals try simp_all only [cfg_set_entry, cfg_set_cache_data, cfg_set_cache_head, cfg_set_cache_tail,
    cfg_set_cache_free, cfg_lru_remove, cfg_lru_push_head, cfg_lru_move_to_head, cfg_pin,
    cfg_mark_dirty, cfg_cache_free_entry, cfg_cache_allocate_entry, cfg_get_page_entry,
    cfg_search, cfg_with_lss, cfg_with_root, cfg_with_root_offset]
  all_goals repeat' split
  all_goals simp_all only [cfg_set_entry, cfg_set_cache_data, cfg_set_cache_head, cfg_set_cache_tail,
    cfg_set_cache_free, cfg_lru_remove, cfg_lru_push_head, cfg_lru_move_to_head, cfg_pin,
    cfg_mark_dirty, cfg_cache_free_entry, cfg_cache_allocate_entry, cfg_get_page_entry,
    cfg_search, cfg_with_lss, cfg_with_root, cfg_with_root_offset]

theorem cfg_step_mtpc_flush_all_level (n : Nat) (ih : cfg_frame n) (mt : mapping_table_t) (c : mtpc_ref) (ct : Bool) (level i total : Nat)
    (r : Nat × mapping_table_t) (h : mtpc_flush_all_level (n + 1) mt c ct level i total = .ok r) : cfg r.2 = cfg mt := by
  first | rw [mtpc_flush_all_level] at h | rw [mtpc_flush_all_level.eq_def] at h
  try simp only [bind, Except.bind, pure, Except.pure] at h
  repeat' split at h
  all_goals try cases h
  all_goals try simp only [cfg_kr_flush_entry n ih, cfg_kr_mtpc_insert_evict n ih, cfg_kr_mtpc_insert n ih,
    cfg_kr_mtpc_acquire_from_storage n ih, cfg_kr_mtpc_flush_all_level n ih,
    cfg_kr_mtpc_flush_all_levels n ih, cfg_kr_mtpc_flush_all n ih, cfg_kr_descend_to_parent n ih,
    cfg_kr_locate_parent n ih, cfg_kr_is_mt_block_alive n ih, cfg_kr_apply_reallocate n ih,
    cfg_kr_lss_realloc_evict_loop n ih, cfg_kr_lss_realloc_evict n ih,
    cfg_kr_lss_realloc_insert n ih, cfg_kr_is_mt_segment_fully_dead_loop n ih,
    cfg_kr_is_mt_segment_fully_dead n ih, cfg_kr_lss_debug_analyze_loop n ih,
    cfg_kr_lss_debug_analyze n ih, cfg_kr_lss_clean_tail_block n ih, cfg_kr_lss_write_clean n ih,
    cfg_kr_lss_write_rotate n ih, cfg_kr_lss_write n ih, kr_unpin, kr_write_slot,
    kr_take_entry_ownership, kr_insert_finish, kr_insert_reuse, kr_acquire_fill,
    kr_cache_allocate_entry] at *
  all_goals try simp_all only [cfg_set_entry, cfg_set_cache_data, cfg_set_cache_head, cfg_set_cache_tail,
    cfg_set_cache_free, cfg_lru_remove, cfg_lru_push_head, cfg_lru_move_to_head, cfg_pin,
    cfg_mark_dirty, cfg_cache_free_entry, cfg_cache_allocate_entry, cfg_get_page_entry,
    cfg_search, cfg_with_lss, cfg_with_root, cfg_with_root_offset]
  all_goals repeat' split
  all_goals simp_all only [cfg_set_entry, cfg_set_cache_data, cfg_set_cache_head, cfg_set_cache_tail,
    cfg_set_cache_free, cfg_lru_remove, cfg_lru_push_head, cfg_lru_move_to_head, cfg_pin,
    cfg_mark_dirty, cfg_cache_free_entry, cfg_cache_allocate_entry, cfg_get_page_entry,
    cfg_search, cfg_with_lss, cfg_with_root, cfg_with_root_offset]

theorem cfg_step_mtpc_flush_all_levels (n : Nat) (ih : cfg_frame n) (mt : mapping_table_t) (c : mtpc_ref) (ct : Bool) (level total : Nat)
    (r : Nat × mapping_table_t) (h : mtpc_flush_all_levels (n + 1) mt c ct level total = .ok r) : cfg r.2 = cfg mt := by
  first | rw [mtpc_flush_all_levels] at h | rw [mtpc_flush_all_levels.eq_def] at h
  try simp only [bind, Except.bind, pure, Except.pure] at h
  repeat' split at h
  all_goals try cases h
  all_goals try simp only [cfg_kr_flush_entry n ih, cfg_kr_mtpc_insert_evict n ih, cfg_kr_mtpc_insert n ih,
    cfg_kr_mtpc_acquire_from_storage n ih, cfg_kr_mtpc_flush_all_level n ih,
    cfg_kr_mtpc_flush_all_levels n ih, cfg_kr_mtpc_flush_all n ih, cfg_kr_descend_to_parent n ih,
    cfg_kr_locate_parent n ih, cfg_kr_is_mt_block_alive n ih, cfg_kr_apply_reallocate n ih,
    cfg_kr_lss_realloc_evict_loop n ih, cfg_kr_lss_realloc_evict n ih,
    cfg_kr_lss_realloc_insert n ih, cfg_kr_is_mt_segment_fully_dead_loop n ih,
    cfg_kr_is_mt_segment_fully_dead n ih, cfg_kr_lss_debug_analyze_loop n ih,
    cfg_kr_lss_debug_analyze n ih, cfg_kr_lss_clean_tail_block n ih, cfg_kr_lss_write_clean n ih,
    cfg_kr_lss_write_rotate n ih, cfg_kr_lss_write n ih, kr_unpin, kr_write_slot,
    kr_take_entry_ownership, kr_insert_finish, kr_insert_reuse, kr_acquire_fill,
    kr_cache_allocate_entry] at *
  all_goals try simp_all only [cfg_set_entry, cfg_set_cache_data, cfg_set_cache_head, cfg_set_cache_tail,
    cfg_set_cache_free, cfg_lru_remove, cfg_lru_push_head, cfg_lru_move_to_head, cfg_pin,
    cfg_mark_dirty, cfg_cache_free_entry, cfg_cache_allocate_entry, cfg_get_page_entry,
    cfg_search, cfg_with_lss, cfg_with_root, cfg_with_root_offset]
  all_goals repeat' split
  all_goals simp_all only [cfg_set_entry, cfg_set_cache_data, cfg_set_cache_head, cfg_set_cache_tail,
    cfg_set_cache_free, cfg_lru_remove, cfg_lru_push_head, cfg_lru_move_to_head, cfg_pin,
    cfg_mark_dirty, cfg_cache_free_entry, cfg_cache_allocate_entry, cfg_get_page_entry,
    cfg_search, cfg_with_lss, cfg_with_root, cfg_with_root_offset]

theorem cfg_step_mtpc_flush_all (n : Nat) (ih : cfg_frame n) (mt : mapping_table_t) (c : mtpc_ref) (ct : Bool)
    (r : Int × mapping_table_t) (h : mtpc_flush_all (n + 1) mt c ct = .ok r) : cfg r.2 = cfg mt := by
  first | rw [mtpc_flush_all] at h | rw [mtpc_flush_all.eq_def] at h
  try simp only [bind, Except.bind, pure, Except.pure] at h
  repeat' split at h
  all_goals try cases h
  all_goals try simp only [cfg_kr_flush_entry n ih, cfg_kr_mtpc_insert_evict n ih, cfg_kr_mtpc_insert n ih,
    cfg_kr_mtpc_acquire_from_storage n ih, cfg_kr_mtpc_flush_all_level n ih,
    cfg_kr_mtpc_flush_all_levels n ih, cfg_kr_mtpc_flush_all n ih, cfg_kr_descend_to_parent n ih,
    cfg_kr_locate_parent n ih, cfg_kr_is_mt_block_alive n ih, cfg_kr_apply_reallocate n ih,
    cfg_kr_lss_realloc_evict_loop n ih, cfg_kr_lss_realloc_evict n ih,
    cfg_kr_lss_realloc_insert n ih, cfg_kr_is_mt_segment_fully_dead_loop n ih,
    cfg_kr_is_mt_segment_fully_dead n ih, cfg_kr_lss_debug_analyze_loop n ih,
    cfg_kr_lss_debug_analyze n ih, cfg_kr_lss_clean_tail_block n ih, cfg_kr_lss_write_clean n ih,
    cfg_kr_lss_write_rotate n ih, cfg_kr_lss_write n ih, kr_unpin, kr_write_slot,
    kr_take_entry_ownership, kr_insert_finish, kr_insert_reuse, kr_acquire_fill,
    kr_cache_allocate_entry] at *
  all_goals try simp_all only [cfg_set_entry, cfg_set_cache_data, cfg_set_cache_head, cfg_set_cache_tail,
    cfg_set_cache_free, cfg_lru_remove, cfg_lru_push_head, cfg_lru_move_to_head, cfg_pin,
    cfg_mark_dirty, cfg_cache_free_entry, cfg_cache_allocate_entry, cfg_get_page_entry,
    cfg_search, cfg_with_lss, cfg_with_root, cfg_with_root_offset]
  all_goals repeat' split
  all_goals simp_all only [cfg_set_entry, cfg_set_cache_data, cfg_set_cache_head, cfg_set_cache_tail,
    cfg_set_cache_free, cfg_lru_remove, cfg_lru_push_head, cfg_lru_move_to_head, cfg_pin,
    cfg_mark_dirty, cfg_cache_free_entry, cfg_cache_allocate_entry, cfg_get_page_entry,
    cfg_search, cfg_with_lss, cfg_with_root, cfg_with_root_offset]

theorem cfg_step_descend_to_parent (n : Nat) (ih : cfg_frame n) (mt : mapping_table_t) (bh ba : Nat) (ap : Option (Nat × Nat)) (brs : Nat) (ce : Option Nat) (csr crs : Nat)
    (r : Bool × mapping_table_t) (h : descend_to_parent (n + 1) mt bh ba ap brs ce csr crs = .ok r) : cfg r.2 = cfg mt := by
  first | rw [descend_to_parent] at h | rw [descend_to_parent.eq_def] at h
  try simp only [bind, Except.bind, pure, Except.pure] at h
  repeat' split at h
  all_goals try cases h
  all_goals try simp only [cfg_kr_flush_entry n ih, cfg_kr_mtpc_insert_evict n ih, cfg_kr_mtpc_insert n ih,
    cfg_kr_mtpc_acquire_from_storage n ih, cfg_kr_mtpc_flush_all_level n ih,
    cfg_kr_mtpc_flush_all_levels n ih, cfg_kr_mtpc_flush_all n ih, cfg_kr_descend_to_parent n ih,
    cfg_kr_locate_parent n ih, cfg_kr_is_mt_block_alive n ih, cfg_kr_apply_reallocate n ih,
    cfg_kr_lss_realloc_evict_loop n ih, cfg_kr_lss_realloc_evict n ih,
    cfg_kr_lss_realloc_insert n ih, cfg_kr_is_mt_segment_fully_dead_loop n ih,
    cfg_kr_is_mt_segment_fully_dead n ih, cfg_kr_lss_debug_analyze_loop n ih,
    cfg_kr_lss_debug_analyze n ih, cfg_kr_lss_clean_tail_block n ih, cfg_kr_lss_write_clean n ih,
    cfg_kr_lss_write_rotate n ih, cfg_kr_lss_write n ih, kr_unpin, kr_write_slot,
    kr_take_entry_ownership, kr_insert_finish, kr_insert_reuse, kr_acquire_fill,
    kr_cache_allocate_entry] at *
  all_goals try simp_all only [cfg_set_entry, cfg_set_cache_data, cfg_set_cache_head, cfg_set_cache_tail,
    cfg_set_cache_free, cfg_lru_remove, cfg_lru_push_head, cfg_lru_move_to_head, cfg_pin,
    cfg_mark_dirty, cfg_cache_free_entry, cfg_cache_allocate_entry, cfg_get_page_entry,
    cfg_search, cfg_with_lss, cfg_with_root, cfg_with_root_offset]
  all_goals repeat' split
  all_goals simp_all only [cfg_set_entry, cfg_set_cache_data, cfg_set_cache_head, cfg_set_cache_tail,
    cfg_set_cache_free, cfg_lru_remove, cfg_lru_push_head, cfg_lru_move_to_head, cfg_pin,
    cfg_mark_dirty, cfg_cache_free_entry, cfg_cache_allocate_entry, cfg_get_page_entry,
    cfg_search, cfg_with_lss, cfg_with_root, cfg_with_root_offset]

theorem cfg_step_locate_parent (n : Nat) (ih : cfg_frame n) (mt : mapping_table_t) (bh ba : Nat) (ap : Option (Nat × Nat))
    (r : Bool × mapping_table_t) (h : locate_parent (n + 1) mt bh ba ap = .ok r) : cfg r.2 = cfg mt := by
  first | rw [locate_parent] at h | rw [locate_parent.eq_def] at h
  try simp only [bind, Except.bind, pure, Except.pure] at h
  repeat' split at h
  all_goals try cases h
  all_goals try simp only [cfg_kr_flush_entry n ih, cfg_kr_mtpc_insert_evict n ih, cfg_kr_mtpc_insert n ih,
    cfg_kr_mtpc_acquire_from_storage n ih, cfg_kr_mtpc_flush_all_level n ih,
    cfg_kr_mtpc_flush_all_levels n ih, cfg_kr_mtpc_flush_all n ih, cfg_kr_descend_to_parent n ih,
    cfg_kr_locate_parent n ih, cfg_kr_is_mt_block_alive n ih, cfg_kr_apply_reallocate n ih,
    cfg_kr_lss_realloc_evict_loop n ih, cfg_kr_lss_realloc_evict n ih,
    cfg_kr_lss_realloc_insert n ih, cfg_kr_is_mt_segment_fully_dead_loop n ih,
    cfg_kr_is_mt_segment_fully_dead n ih, cfg_kr_lss_debug_analyze_loop n ih,
    cfg_kr_lss_debug_analyze n ih, cfg_kr_lss_clean_tail_block n ih, cfg_kr_lss_write_clean n ih,
    cfg_kr_lss_write_rotate n ih, cfg_kr_lss_write n ih, kr_unpin, kr_write_slot,
    kr_take_entry_ownership, kr_insert_finish, kr_insert_reuse, kr_acquire_fill,
    kr_cache_allocate_entry] at *
  all_goals try simp_all only [cfg_set_entry, cfg_set_cache_data, cfg_set_cache_head, cfg_set_cache_tail,
    cfg_set_cache_free, cfg_lru_remove, cfg_lru_push_head, cfg_lru_move_to_head, cfg_pin,
    cfg_mark_dirty, cfg_cache_free_entry, cfg_cache_allocate_entry, cfg_get_page_entry,
    cfg_search, cfg_with_lss, cfg_with_root, cfg_with_root_offset]
  all_goals repeat' split
  all_goals simp_all only [cfg_set_entry, cfg_set_cache_data, cfg_set_cache_head, cfg_set_cache_tail,
    cfg_set_cache_free, cfg_lru_remove, cfg_lru_push_head, cfg_lru_move_to_head, cfg_pin,
    cfg_mark_dirty, cfg_cache_free_entry, cfg_cache_allocate_entry, cfg_get_page_entry,
    cfg_search, cfg_with_lss, cfg_with_root, cfg_with_root_offset]

theorem cfg_step_is_mt_block_alive (n : Nat) (ih : cfg_frame n) (mt : mapping_table_t) (ba bh : Nat)
    (r : Bool × mapping_table_t) (h : is_mt_block_alive (n + 1) mt ba bh = .ok r) : cfg r.2 = cfg mt := by
  first | rw [is_mt_block_alive] at h | rw [is_mt_block_alive.eq_def] at h
  try simp only [bind, Except.bind, pure, Except.pure] at h
  repeat' split at h
  all_goals try cases h
  all_goals try simp only [cfg_kr_flush_entry n ih, cfg_kr_mtpc_insert_evict n ih, cfg_kr_mtpc_insert n ih,
    cfg_kr_mtpc_acquire_from_storage n ih, cfg_kr_mtpc_flush_all_level n ih,
    cfg_kr_mtpc_flush_all_levels n ih, cfg_kr_mtpc_flush_all n ih, cfg_kr_descend_to_parent n ih,
    cfg_kr_locate_parent n ih, cfg_kr_is_mt_block_alive n ih, cfg_kr_apply_reallocate n ih,
    cfg_kr_lss_realloc_evict_loop n ih, cfg_kr_lss_realloc_evict n ih,
    cfg_kr_lss_realloc_insert n ih, cfg_kr_is_mt_segment_fully_dead_loop n ih,
    cfg_kr_is_mt_segment_fully_dead n ih, cfg_kr_lss_debug_analyze_loop n ih,
    cfg_kr_lss_debug_analyze n ih, cfg_kr_lss_clean_tail_block n ih, cfg_kr_lss_write_clean n ih,
    cfg_kr_lss_write_rotate n ih, cfg_kr_lss_write n ih, kr_unpin, kr_write_slot,
    kr_take_entry_ownership, kr_insert_finish, kr_insert_reuse, kr_acquire_fill,
    kr_cache_allocate_entry] at *
  all_goals try simp_all only [cfg_set_entry, cfg_set_cache_data, cfg_set_cache_head, cfg_set_cache_tail,
    cfg_set_cache_free, cfg_lru_remove, cfg_lru_push_head, cfg_lru_move_to_head, cfg_pin,
    cfg_mark_dirty, cfg_cache_free_entry, cfg_cache_allocate_entry, cfg_get_page_entry,
    cfg_search, cfg_with_lss, cfg_with_root, cfg_with_root_offset]
  all_goals repeat' split
  all_goals simp_all only [cfg_set_entry, cfg_set_cache_data, cfg_set_cache_head, cfg_set_cache_tail,
    cfg_set_cache_free, cfg_lru_remove, cfg_lru_push_head, cfg_lru_move_to_head, cfg_pin,
    cfg_mark_dirty, cfg_cache_free_entry, cfg_cache_allocate_entry, cfg_get_page_entry,
    cfg_search, cfg_with_lss, cfg_with_root, cfg_with_root_offset]

theorem cfg_step_apply_reallocate (n : Nat) (ih : cfg_frame n) (mt : mapping_table_t) (bh old new : Nat)
    (r : Int × mapping_table_t) (h : apply_reallocate (n + 1) mt bh old new = .ok r) : cfg r.2 = cfg mt := by
  first | rw [apply_reallocate] at h | rw [apply_reallocate.eq_def] at h
  try simp only [bind, Except.bind, pure, Except.pure] at h
  repeat' split at h
  all_goals try cases h
  all_goals try simp only [cfg_kr_flush_entry n ih, cfg_kr_mtpc_insert_evict n ih, cfg_kr_mtpc_insert n ih,
    cfg_kr_mtpc_acquire_from_storage n ih, cfg_kr_mtpc_flush_all_level n ih,
    cfg_kr_mtpc_flush_all_levels n ih, cfg_kr_mtpc_flush_all n ih, cfg_kr_descend_to_parent n ih,
    cfg_kr_locate_parent n ih, cfg_kr_is_mt_block_alive n ih, cfg_kr_apply_reallocate n ih,
    cfg_kr_lss_realloc_evict_loop n ih, cfg_kr_lss_realloc_evict n ih,
    cfg_kr_lss_realloc_insert n ih, cfg_kr_is_mt_segment_fully_dead_loop n ih,
    cfg_kr_is_mt_segment_fully_dead n ih, cfg_kr_lss_debug_analyze_loop n ih,
    cfg_kr_lss_debug_analyze n ih, cfg_kr_lss_clean_tail_block n ih, cfg_kr_lss_write_clean n ih,
    cfg_kr_lss_write_rotate n ih, cfg_kr_lss_write n ih, kr_unpin, kr_write_slot,
    kr_take_entry_ownership, kr_insert_finish, kr_insert_reuse, kr_acquire_fill,
    kr_cache_allocate_entry] at *
  all_goals try simp_all only [cfg_set_entry, cfg_set_cache_data, cfg_set_cache_head, cfg_set_cache_tail,
    cfg_set_cache_free, cfg_lru_remove, cfg_lru_push_head, cfg_lru_move_to_head, cfg_pin,
    cfg_mark_dirty, cfg_cache_free_entry, cfg_cache_allocate_entry, cfg_get_page_entry,
    cfg_search, cfg_with_lss, cfg_with_root, cfg_with_root_offset]
  all_goals repeat' split
  all_goals simp_all only [cfg_set_entry, cfg_set_cache_data, cfg_set_cache_head, cfg_set_cache_tail,
    cfg_set_cache_free, cfg_lru_remove, cfg_lru_push_head, cfg_lru_move_to_head, cfg_pin,
    cfg_mark_dirty, cfg_cache_free_entry, cfg_cache_allocate_entry, cfg_get_page_entry,
    cfg_search, cfg_with_lss, cfg_with_root, cfg_with_root_offset]

theorem cfg_step_lss_realloc_evict_loop (n : Nat) (ih : cfg_frame n) (mt : mapping_table_t) (idx : Nat)
    (r : mapping_table_t) (h : lss_realloc_evict_loop (n + 1) mt idx = .ok r) : cfg r = cfg mt := by
  first | rw [lss_realloc_evict_loop] at h | rw [lss_realloc_evict_loop.eq_def] at h
  try simp only [bind, Except.bind, pure, Except.pure] at h
  repeat' split at h
  all_goals try cases h
  all_goals try simp only [cfg_kr_flush_entry n ih, cfg_kr_mtpc_insert_evict n ih, cfg_kr_mtpc_insert n ih,
    cfg_kr_mtpc_acquire_from_storage n ih, cfg_kr_mtpc_flush_all_level n ih,
    cfg_kr_mtpc_flush_all_levels n ih, cfg_kr_mtpc_flush_all n ih, cfg_kr_descend_to_parent n ih,
    cfg_kr_locate_parent n ih, cfg_kr_is_mt_block_alive n ih, cfg_kr_apply_reallocate n ih,
    cfg_kr_lss_realloc_evict_loop n ih, cfg_kr_lss_realloc_evict n ih,
    cfg_kr_lss_realloc_insert n ih, cfg_kr_is_mt_segment_fully_dead_loop n ih,
    cfg_kr_is_mt_segment_fully_dead n ih, cfg_kr_lss_debug_analyze_loop n ih,
    cfg_kr_lss_debug_analyze n ih, cfg_kr_lss_clean_tail_block n ih, cfg_kr_lss_write_clean n ih,
    cfg_kr_lss_write_rotate n ih, cfg_kr_lss_write n ih, kr_unpin, kr_write_slot,
    kr_take_entry_ownership, kr_insert_finish, kr_insert_reuse, kr_acquire_fill,
    kr_cache_allocate_entry] at *
  all_goals try simp_all only [cfg_set_entry, cfg_set_cache_data, cfg_set_cache_head, cfg_set_cache_tail,
    cfg_set_cache_free, cfg_lru_remove, cfg_lru_push_head, cfg_lru_move_to_head, cfg_pin,
    cfg_mark_dirty, cfg_cache_free_entry, cfg_cache_allocate_entry, cfg_get_page_entry,
    cfg_search, cfg_with_lss, cfg_with_root, cfg_with_root_offset]
  all_goals repeat' split
  all_goals simp_all only [cfg_set_entry, cfg_set_cache_data, cfg_set_cache_head, cfg_set_cache_tail,
    cfg_set_cache_free, cfg_lru_remove, cfg_lru_push_head, cfg_lru_move_to_head, cfg_pin,
    cfg_mark_dirty, cfg_cache_free_entry, cfg_cache_allocate_entry, cfg_get_page_entry,
    cfg_search, cfg_with_lss, cfg_with_root, cfg_with_root_offset]

theorem cfg_step_lss_realloc_evict (n : Nat) (ih : cfg_frame n) (mt : mapping_table_t) 
    (r : Int × mapping_table_t) (h : lss_realloc_evict (n + 1) mt = .ok r) : cfg r.2 = cfg mt := by
  first | rw [lss_realloc_evict] at h | rw [lss_realloc_evict.eq_def] at h
  try simp only [bind, Except.bind, pure, Except.pure] at h
  repeat' split at h
  all_goals try cases h
  all_goals try simp only [cfg_kr_flush_entry n ih, cfg_kr_mtpc_insert_evict n ih, cfg_kr_mtpc_insert n ih,
    cfg_kr_mtpc_acquire_from_storage n ih, cfg_kr_mtpc_flush_all_level n ih,
    cfg_kr_mtpc_flush_all_levels n ih, cfg_kr_mtpc_flush_all n ih, cfg_kr_descend_to_parent n ih,
    cfg_kr_locate_parent n ih, cfg_kr_is_mt_block_alive n ih, cfg_kr_apply_reallocate n ih,
    cfg_kr_lss_realloc_evict_loop n ih, cfg_kr_lss_realloc_evict n ih,
    cfg_kr_lss_realloc_insert n ih, cfg_kr_is_mt_segment_fully_dead_loop n ih,
    cfg_kr_is_mt_segment_fully_dead n ih, cfg_kr_lss_debug_analyze_loop n ih,
    cfg_kr_lss_debug_analyze n ih, cfg_kr_lss_clean_tail_block n ih, cfg_kr_lss_write_clean n ih,
    cfg_kr_lss_write_rotate n ih, cfg_kr_lss_write n ih, kr_unpin, kr_write_slot,
    kr_take_entry_ownership, kr_insert_finish, kr_insert_reuse, kr_acquire_fill,
    kr_cache_allocate_entry] at *
  all_goals try simp_all only [cfg_set_entry, cfg_set_cache_data, cfg_set_cache_head, cfg_set_cache_tail,
    cfg_set_cache_free, cfg_lru_remove, cfg_lru_push_head, cfg_lru_move_to_head, cfg_pin,
    cfg_mark_dirty, cfg_cache_free_entry, cfg_cache_allocate_entry, cfg_get_page_entry,
    cfg_search, cfg_with_lss, cfg_with_root, cfg_with_root_offset]
  all_goals repeat' split
  all_goals simp_all only [cfg_set_entry, cfg_set_cache_data, cfg_set_cache_head, cfg_set_cache_tail,
    cfg_set_cache_free, cfg_lru_remove, cfg_lru_push_head, cfg_lru_move_to_head, cfg_pin,
    cfg_mark_dirty, cfg_cache_free_entry, cfg_cache_allocate_entry, cfg_get_page_entry,
    cfg_search, cfg_with_lss, cfg_with_root, cfg_with_root_offset]

theorem cfg_step_lss_realloc_insert (n : Nat) (ih : cfg_frame n) (mt : mapping_table_t) (bh old new : Nat)
    (r : Int × mapping_table_t) (h : lss_realloc_insert (n + 1) mt bh old new = .ok r) : cfg r.2 = cfg mt := by
  first | rw [lss_realloc_insert] at h | rw [lss_realloc_insert.eq_def] at h
  try simp only [bind, Except.bind, pure, Except.pure] at h
  repeat' split at h
  all_goals try cases h
  all_goals try simp only [cfg_kr_flush_entry n ih, cfg_kr_mtpc_insert_evict n ih, cfg_kr_mtpc_insert n ih,
    cfg_kr_mtpc_acquire_from_storage n ih, cfg_kr_mtpc_flush_all_level n ih,
    cfg_kr_mtpc_flush_all_levels n ih, cfg_kr_mtpc_flush_all n ih, cfg_kr_descend_to_parent n ih,
    cfg_kr_locate_parent n ih, cfg_kr_is_mt_block_alive n ih, cfg_kr_apply_reallocate n ih,
    cfg_kr_lss_realloc_evict_loop n ih, cfg_kr_lss_realloc_evict n ih,
    cfg_kr_lss_realloc_insert n ih, cfg_kr_is_mt_segment_fully_dead_loop n ih,
    cfg_kr_is_mt_segment_fully_dead n ih, cfg_kr_lss_debug_analyze_loop n ih,
    cfg_kr_lss_debug_analyze n ih, cfg_kr_lss_clean_tail_block n ih, cfg_kr_lss_write_clean n ih,
    cfg_kr_lss_write_rotate n ih, cfg_kr_lss_write n ih, kr_unpin, kr_write_slot,
    kr_take_entry_ownership, kr_insert_finish, kr_insert_reuse, kr_acquire_fill,
    kr_cache_allocate_entry] at *
  all_goals try simp_all only [cfg_set_entry, cfg_set_cache_data, cfg_set_cache_head, cfg_set_cache_tail,
    cfg_set_cache_free, cfg_lru_remove, cfg_lru_push_head, cfg_lru_move_to_head, cfg_pin,
    cfg_mark_dirty, cfg_cache_free_entry, cfg_cache_allocate_entry, cfg_get_page_entry,
    cfg_search, cfg_with_lss, cfg_with_root, cfg_with_root_offset]
  all_goals repeat' split
  all_goals simp_all only [cfg_set_entry, cfg_set_cache_data, cfg_set_cache_head, cfg_set_cache_tail,
    cfg_set_cache_free, cfg_lru_remove, cfg_lru_push_head, cfg_lru_move_to_head, cfg_pin,
    cfg_mark_dirty, cfg_cache_free_entry, cfg_cache_allocate_entry, cfg_get_page_entry,
    cfg_search, cfg_with_lss, cfg_with_root, cfg_with_root_offset]

theorem cfg_step_is_mt_segment_fully_dead_loop (n : Nat) (ih : cfg_frame n) (mt : mapping_table_t) (buf : Nat → flash_block_t) (ba bhdr ps np i : Nat)
    (r : Bool × mapping_table_t) (h : is_mt_segment_fully_dead_loop (n + 1) mt buf ba bhdr ps np i = .ok r) : cfg r.2 = cfg mt := by
  first | rw [is_mt_segment_fully_dead_loop] at h | rw [is_mt_segment_fully_dead_loop.eq_def] at h
  try simp only [bind, Except.bind, pure, Except.pure] at h
  repeat' split at h
  all_goals try cases h
  all_goals try simp only [cfg_kr_flush_entry n ih, cfg_kr_mtpc_insert_evict n ih, cfg_kr_mtpc_insert n ih,
    cfg_kr_mtpc_acquire_from_storage n ih, cfg_kr_mtpc_flush_all_level n ih,
    cfg_kr_mtpc_flush_all_levels n ih, cfg_kr_mtpc_flush_all n ih, cfg_kr_descend_to_parent n ih,
    cfg_kr_locate_parent n ih, cfg_kr_is_mt_block_alive n ih, cfg_kr_apply_reallocate n ih,
    cfg_kr_lss_realloc_evict_loop n ih, cfg_kr_lss_realloc_evict n ih,
    cfg_kr_lss_realloc_insert n ih, cfg_kr_is_mt_segment_fully_dead_loop n ih,
    cfg_kr_is_mt_segment_fully_dead n ih, cfg_kr_lss_debug_analyze_loop n ih,
    cfg_kr_lss_debug_analyze n ih, cfg_kr_lss_clean_tail_block n ih, cfg_kr_lss_write_clean n ih,
    cfg_kr_lss_write_rotate n ih, cfg_kr_lss_write n ih, kr_unpin, kr_write_slot,
    kr_take_entry_ownership, kr_insert_finish, kr_insert_reuse, kr_acquire_fill,
    kr_cache_allocate_entry] at *
  all_goals try simp_all only [cfg_set_entry, cfg_set_cache_data, cfg_set_cache_head, cfg_set_cache_tail,
    cfg_set_cache_free, cfg_lru_remove, cfg_lru_push_head, cfg_lru_move_to_head, cfg_pin,
    cfg_mark_dirty, cfg_cache_free_entry, cfg_cache_allocate_entry, cfg_get_page_entry,
    cfg_search, cfg_with_lss, cfg_with_root, cfg_with_root_offset]
  all_goals repeat' split
  all_goals simp_all only [cfg_set_entry, cfg_set_cache_data, cfg_set_cache_head, cfg_set_cache_tail,
    cfg_set_cache_free, cfg_lru_remove, cfg_lru_push_head, cfg_lru_move_to_head, cfg_pin,
    cfg_mark_dirty, cfg_cache_free_entry, cfg_cache_allocate_entry, cfg_get_page_entry,
    cfg_search, cfg_with_lss, cfg_with_root, cfg_with_root_offset]

theorem cfg_step_is_mt_segment_fully_dead (n : Nat) (ih : cfg_frame n) (mt : mapping_table_t) (ba : Nat)
    (r : Bool × mapping_table_t) (h : is_mt_segment_fully_dead (n + 1) mt ba = .ok r) : cfg r.2 = cfg mt := by
  first | rw [is_mt_segment_fully_dead] at h | rw [is_mt_segment_fully_dead.eq_def] at h
  try simp only [bind, Except.bind, pure, Except.pure] at h
  repeat' split at h
  all_goals try cases h
  all_goals try simp only [cfg_kr_flush_entry n ih, cfg_kr_mtpc_insert_evict n ih, cfg_kr_mtpc_insert n ih,
    cfg_kr_mtpc_acquire_from_storage n ih, cfg_kr_mtpc_flush_all_level n ih,
    cfg_kr_mtpc_flush_all_levels n ih, cfg_kr_mtpc_flush_all n ih, cfg_kr_descend_to_parent n ih,
    cfg_kr_locate_parent n ih, cfg_kr_is_mt_block_alive n ih, cfg_kr_apply_reallocate n ih,
    cfg_kr_lss_realloc_evict_loop n ih, cfg_kr_lss_realloc_evict n ih,
    cfg_kr_lss_realloc_insert n ih, cfg_kr_is_mt_segment_fully_dead_loop n ih,
    cfg_kr_is_mt_segment_fully_dead n ih, cfg_kr_lss_debug_analyze_loop n ih,
    cfg_kr_lss_debug_analyze n ih, cfg_kr_lss_clean_tail_block n ih, cfg_kr_lss_write_clean n ih,
    cfg_kr_lss_write_rotate n ih, cfg_kr_lss_write n ih, kr_unpin, kr_write_slot,
    kr_take_entry_ownership, kr_insert_finish, kr_insert_reuse, kr_acquire_fill,
    kr_cache_allocate_entry] at *
  all_goals try simp_all only [cfg_set_entry, cfg_set_cache_data, cfg_set_cache_head, cfg_set_cache_tail,
    cfg_set_cache_free, cfg_lru_remove, cfg_lru_push_head, cfg_lru_move_to_head, cfg_pin,
    cfg_mark_dirty, cfg_cache_free_entry, cfg_cache_allocate_entry, cfg_get_page_entry,
    cfg_search, cfg_with_lss, cfg_with_root, cfg_with_root_offset]
  all_goals repeat' split
  all_goals simp_all only [cfg_set_entry, cfg_set_cache_data, cfg_set_cache_head, cfg_set_cache_tail,
    cfg_set_cache_free, cfg_lru_remove, cfg_lru_push_head, cfg_lru_move_to_head, cfg_pin,
    cfg_mark_dirty, cfg_cache_free_entry, cfg_cache_allocate_entry, cfg_get_page_entry,
    cfg_search, cfg_with_lss, cfg_with_root, cfg_with_root_offset]

theorem cfg_step_lss_debug_analyze_loop (n : Nat) (ih : cfg_frame n) (mt : mapping_table_t) (bs nb i : Nat)
    (r : mapping_table_t) (h : lss_debug_analyze_loop (n + 1) mt bs nb i = .ok r) : cfg r = cfg mt := by
  first | rw [lss_debug_analyze_loop] at h | rw [lss_debug_analyze_loop.eq_def] at h
  try simp only [bind, Except.bind, pure, Except.pure] at h
  repeat' split at h
  all_goals try cases h
  all_goals try simp only [cfg_kr_flush_entry n ih, cfg_kr_mtpc_insert_evict n ih, cfg_kr_mtpc_insert n ih,
    cfg_kr_mtpc_acquire_from_storage n ih, cfg_kr_mtpc_flush_all_level n ih,
    cfg_kr_mtpc_flush_all_levels n ih, cfg_kr_mtpc_flush_all n ih, cfg_kr_descend_to_parent n ih,
    cfg_kr_locate_parent n ih, cfg_kr_is_mt_block_alive n ih, cfg_kr_apply_reallocate n ih,
    cfg_kr_lss_realloc_evict_loop n ih, cfg_kr_lss_realloc_evict n ih,
    cfg_kr_lss_realloc_insert n ih, cfg_kr_is_mt_segment_fully_dead_loop n ih,
    cfg_kr_is_mt_segment_fully_dead n ih, cfg_kr_lss_debug_analyze_loop n ih,
    cfg_kr_lss_debug_analyze n ih, cfg_kr_lss_clean_tail_block n ih, cfg_kr_lss_write_clean n ih,
    cfg_kr_lss_write_rotate n ih, cfg_kr_lss_write n ih, kr_unpin, kr_write_slot,
    kr_take_entry_ownership, kr_insert_finish, kr_insert_reuse, kr_acquire_fill,
    kr_cache_allocate_entry] at *
  all_goals try simp_all only [cfg_set_entry, cfg_set_cache_data, cfg_set_cache_head, cfg_set_cache_tail,
    cfg_set_cache_free, cfg_lru_remove, cfg_lru_push_head, cfg_lru_move_to_head, cfg_pin,
    cfg_mark_dirty, cfg_cache_free_entry, cfg_cache_allocate_entry, cfg_get_page_entry,
    cfg_search, cfg_with_lss, cfg_with_root, cfg_with_root_offset]
  all_goals repeat' split
  all_goals simp_all only [cfg_set_entry, cfg_set_cache_data, cfg_set_cache_head, cfg_set_cache_tail,
    cfg_set_cache_free, cfg_lru_remove, cfg_lru_push_head, cfg_lru_move_to_head, cfg_pin,
    cfg_mark_dirty, cfg_cache_free_entry, cfg_cache_allocate_entry, cfg_get_page_entry,
    cfg_search, cfg_with_lss, cfg_with_root, cfg_with_root_offset]

theorem cfg_step_lss_debug_analyze (n : Nat) (ih : cfg_frame n) (mt : mapping_table_t) 
    (r : Int × mapping_table_t) (h : lss_debug_analyze (n + 1) mt = .ok r) : cfg r.2 = cfg mt := by
  first | rw [lss_debug_analyze] at h | rw [lss_debug_analyze.eq_def] at h
  try simp only [bind, Except.bind, pure, Except.pure] at h
  repeat' split at h
  all_goals try cases h
  all_goals try simp only [cfg_kr_flush_entry n ih, cfg_kr_mtpc_insert_evict n ih, cfg_kr_mtpc_insert n ih,
    cfg_kr_mtpc_acquire_from_storage n ih, cfg_kr_mtpc_flush_all_level n ih,
    cfg_kr_mtpc_flush_all_levels n ih, cfg_kr_mtpc_flush_all n ih, cfg_kr_descend_to_parent n ih,
    cfg_kr_locate_parent n ih, cfg_kr_is_mt_block_alive n ih, cfg_kr_apply_reallocate n ih,
    cfg_kr_lss_realloc_evict_loop n ih, cfg_kr_lss_realloc_evict n ih,
    cfg_kr_lss_realloc_insert n ih, cfg_kr_is_mt_segment_fully_dead_loop n ih,
    cfg_kr_is_mt_segment_fully_dead n ih, cfg_kr_lss_debug_analyze_loop n ih,
    cfg_kr_lss_debug_analyze n ih, cfg_kr_lss_clean_tail_block n ih, cfg_kr_lss_write_clean n ih,
    cfg_kr_lss_write_rotate n ih, cfg_kr_lss_write n ih, kr_unpin, kr_write_slot,
    kr_take_entry_ownership, kr_insert_finish, kr_insert_reuse, kr_acquire_fill,
    kr_cache_allocate_entry] at *
  all_goals try simp_all only [cfg_set_entry, cfg_set_cache_data, cfg_set_cache_head, cfg_set_cache_tail,
    cfg_set_cache_free, cfg_lru_remove, cfg_lru_push_head, cfg_lru_move_to_head, cfg_pin,
    cfg_mark_dirty, cfg_cache_free_entry, cfg_cache_allocate_entry, cfg_get_page_entry,
    cfg_search, cfg_with_lss, cfg_with_root, cfg_with_root_offset]
  all_goals repeat' split
  all_goals simp_all only [cfg_set_entry, cfg_set_cache_data, cfg_set_cache_head, cfg_set_cache_tail,
    cfg_set_cache_free, cfg_lru_remove, cfg_lru_push_head, cfg_lru_move_to_head, cfg_pin,
    cfg_mark_dirty, cfg_cache_free_entry, cfg_cache_allocate_entry, cfg_get_page_entry,
    cfg_search, cfg_with_lss, cfg_with_root, cfg_with_root_offset]

theorem cfg_step_lss_clean_tail_block (n : Nat) (ih : cfg_frame n) (mt : mapping_table_t) (tail : Nat)
    (r : Int × mapping_table_t) (h : lss_clean_tail_block (n + 1) mt tail = .ok r) : cfg r.2 = cfg mt := by
  first | rw [lss_clean_tail_block] at h | rw [lss_clean_tail_block.eq_def] at h
  try simp only [bind, Except.bind, pure, Except.pure] at h
  repeat' split at h
  all_goals try cases h
  all_goals try simp only [cfg_kr_flush_entry n ih, cfg_kr_mtpc_insert_evict n ih, cfg_kr_mtpc_insert n ih,
    cfg_kr_mtpc_acquire_from_storage n ih, cfg_kr_mtpc_flush_all_level n ih,
    cfg_kr_mtpc_flush_all_levels n ih, cfg_kr_mtpc_flush_all n ih, cfg_kr_descend_to_parent n ih,
    cfg_kr_locate_parent n ih, cfg_kr_is_mt_block_alive n ih, cfg_kr_apply_reallocate n ih,
    cfg_kr_lss_realloc_evict_loop n ih, cfg_kr_lss_realloc_evict n ih,
    cfg_kr_lss_realloc_insert n ih, cfg_kr_is_mt_segment_fully_dead_loop n ih,
    cfg_kr_is_mt_segment_fully_dead n ih, cfg_kr_lss_debug_analyze_loop n ih,
    cfg_kr_lss_debug_analyze n ih, cfg_kr_lss_clean_tail_block n ih, cfg_kr_lss_write_clean n ih,
    cfg_kr_lss_write_rotate n ih, cfg_kr_lss_write n ih, kr_unpin, kr_write_slot,
    kr_take_entry_ownership, kr_insert_finish, kr_insert_reuse, kr_acquire_fill,
    kr_cache_allocate_entry] at *
  all_goals try simp_all only [cfg_set_entry, cfg_set_cache_data, cfg_set_cache_head, cfg_set_cache_tail,
    cfg_set_cache_free, cfg_lru_remove, cfg_lru_push_head, cfg_lru_move_to_head, cfg_pin,
    cfg_mark_dirty, cfg_cache_free_entry, cfg_cache_allocate_entry, cfg_get_page_entry,
    cfg_search, cfg_with_lss, cfg_with_root, cfg_with_root_offset]
  all_goals repeat' split
  all_goals simp_all only [cfg_set_entry, cfg_set_cache_data, cfg_set_cache_head, cfg_set_cache_tail,
    cfg_set_cache_free, cfg_lru_remove, cfg_lru_push_head, cfg_lru_move_to_head, cfg_pin,
    cfg_mark_dirty, cfg_cache_free_entry, cfg_cache_allocate_entry, cfg_get_page_entry,
    cfg_search, cfg_with_lss, cfg_with_root, cfg_with_root_offset]

theorem cfg_step_lss_write_clean (n : Nat) (ih : cfg_frame n) (mt : mapping_table_t) (tries : Nat)
    (r : mapping_table_t) (h : lss_write_clean (n + 1) mt tries = .ok r) : cfg r = cfg mt := by
  first | rw [lss_write_clean] at h | rw [lss_write_clean.eq_def] at h
  try simp only [bind, Except.bind, pure, Except.pure] at h
  repeat' split at h
  all_goals try cases h
  all_goals try simp only [cfg_kr_flush_entry n ih, cfg_kr_mtpc_insert_evict n ih, cfg_kr_mtpc_insert n ih,
    cfg_kr_mtpc_acquire_from_storage n ih, cfg_kr_mtpc_flush_all_level n ih,
    cfg_kr_mtpc_flush_all_levels n ih, cfg_kr_mtpc_flush_all n ih, cfg_kr_descend_to_parent n ih,
    cfg_kr_locate_parent n ih, cfg_kr_is_mt_block_alive n ih, cfg_kr_apply_reallocate n ih,
    cfg_kr_lss_realloc_evict_loop n ih, cfg_kr_lss_realloc_evict n ih,
    cfg_kr_lss_realloc_insert n ih, cfg_kr_is_mt_segment_fully_dead_loop n ih,
    cfg_kr_is_mt_segment_fully_dead n ih, cfg_kr_lss_debug_analyze_loop n ih,
    cfg_kr_lss_debug_analyze n ih, cfg_kr_lss_clean_tail_block n ih, cfg_kr_lss_write_clean n ih,
    cfg_kr_lss_write_rotate n ih, cfg_kr_lss_write n ih, kr_unpin, kr_write_slot,
    kr_take_entry_ownership, kr_insert_finish, kr_insert_reuse, kr_acquire_fill,
    kr_cache_allocate_entry] at *
  all_goals try simp_all only [cfg_set_entry, cfg_set_cache_data, cfg_set_cache_head, cfg_set_cache_tail,
    cfg_set_cache_free, cfg_lru_remove, cfg_lru_push_head, cfg_lru_move_to_head, cfg_pin,
    cfg_mark_dirty, cfg_cache_free_entry, cfg_cache_allocate_entry, cfg_get_page_entry,
    cfg_search, cfg_with_lss, cfg_with_root, cfg_with_root_offset]
  all_goals repeat' split
  all_goals simp_all only [cfg_set_entry, cfg_set_cache_data, cfg_set_cache_head, cfg_set_cache_tail,
    cfg_set_cache_free, cfg_lru_remove, cfg_lru_push_head, cfg_lru_move_to_head, cfg_pin,
    cfg_mark_dirty, cfg_cache_free_entry, cfg_cache_allocate_entry, cfg_get_page_entry,
    cfg_search, cfg_with_lss, cfg_with_root, cfg_with_root_offset]

theorem cfg_step_lss_write_rotate (n : Nat) (ih : cfg_frame n) (mt : mapping_table_t) 
    (r : mapping_table_t) (h : lss_write_rotate (n + 1) mt = .ok r) : cfg r = cfg mt := by
  first | rw [lss_write_rotate] at h | rw [lss_write_rotate.eq_def] at h
  try simp only [bind, Except.bind, pure, Except.pure] at h
  repeat' split at h
  all_goals try cases h
  all_goals try simp only [cfg_kr_flush_entry n ih, cfg_kr_mtpc_insert_evict n ih, cfg_kr_mtpc_insert n ih,
    cfg_kr_mtpc_acquire_from_storage n ih, cfg_kr_mtpc_flush_all_level n ih,
    cfg_kr_mtpc_flush_all_levels n ih, cfg_kr_mtpc_flush_all n ih, cfg_kr_descend_to_parent n ih,
    cfg_kr_locate_parent n ih, cfg_kr_is_mt_block_alive n ih, cfg_kr_apply_reallocate n ih,
    cfg_kr_lss_realloc_evict_loop n ih, cfg_kr_lss_realloc_evict n ih,
    cfg_kr_lss_realloc_insert n ih, cfg_kr_is_mt_segment_fully_dead_loop n ih,
    cfg_kr_is_mt_segment_fully_dead n ih, cfg_kr_lss_debug_analyze_loop n ih,
    cfg_kr_lss_debug_analyze n ih, cfg_kr_lss_clean_tail_block n ih, cfg_kr_lss_write_clean n ih,
    cfg_kr_lss_write_rotate n ih, cfg_kr_lss_write n ih, kr_unpin, kr_write_slot,
    kr_take_entry_ownership, kr_insert_finish, kr_insert_reuse, kr_acquire_fill,
    kr_cache_allocate_entry] at *
  all_goals try simp_all only [cfg_set_entry, cfg_set_cache_data, cfg_set_cache_head, cfg_set_cache_tail,
    cfg_set_cache_free, cfg_lru_remove, cfg_lru_push_head, cfg_lru_move_to_head, cfg_pin,
    cfg_mark_dirty, cfg_cache_free_entry, cfg_cache_allocate_entry, cfg_get_page_entry,
    cfg_search, cfg_with_lss, cfg_with_root, cfg_with_root_offset]
  all_goals repeat' split
  all_goals simp_all only [cfg_set_entry, cfg_set_cache_data, cfg_set_cache_head, cfg_set_cache_tail,
    cfg_set_cache_free, cfg_lru_remove, cfg_lru_push_head, cfg_lru_move_to_head, cfg_pin,
    cfg_mark_dirty, cfg_cache_free_entry, cfg_cache_allocate_entry, cfg_get_page_entry,
    cfg_search, cfg_with_lss, cfg_with_root, cfg_with_root_offset]

theorem cfg_step_lss_write (n : Nat) (ih : cfg_frame n) (mt : mapping_table_t) (data : buf_ptr) (len : Nat) (ct : Bool)
    (r : Nat × mapping_table_t) (h : lss_write (n + 1) mt data len ct = .ok r) : cfg r.2 = cfg mt := by
  first | rw [lss_write] at h | rw [lss_write.eq_def] at h
  try simp only [bind, Except.bind, pure, Except.pure] at h
  repeat' split at h
  all_goals try cases h
  all_goals try simp only [cfg_kr_flush_entry n ih, cfg_kr_mtpc_insert_evict n ih, cfg_kr_mtpc_insert n ih,
    cfg_kr_mtpc_acquire_from_storage n ih, cfg_kr_mtpc_flush_all_level n ih,
    cfg_kr_mtpc_flush_all_levels n ih, cfg_kr_mtpc_flush_all n ih, cfg_kr_descend_to_parent n ih,
    cfg_kr_locate_parent n ih, cfg_kr_is_mt_block_alive n ih, cfg_kr_apply_reallocate n ih,
    cfg_kr_lss_realloc_evict_loop n ih, cfg_kr_lss_realloc_evict n ih,
    cfg_kr_lss_realloc_insert n ih, cfg_kr_is_mt_segment_fully_dead_loop n ih,
    cfg_kr_is_mt_segment_fully_dead n ih, cfg_kr_lss_debug_analyze_loop n ih,
    cfg_kr_lss_debug_analyze n ih, cfg_kr_lss_clean_tail_block n ih, cfg_kr_lss_write_clean n ih,
    cfg_kr_lss_write_rotate n ih, cfg_kr_lss_write n ih, kr_unpin, kr_write_slot,
    kr_take_entry_ownership, kr_insert_finish, kr_insert_reuse, kr_acquire_fill,
    kr_cache_allocate_entry] at *
  all_goals try simp_all only [cfg_set_entry, cfg_set_cache_data, cfg_set_cache_head, cfg_set_cache_tail,
    cfg_set_cache_free, cfg_lru_remove, cfg_lru_push_head, cfg_lru_move_to_head, cfg_pin,
    cfg_mark_dirty, cfg_cache_free_entry, cfg_cache_allocate_entry, cfg_get_page_entry,
    cfg_search, cfg_with_lss, cfg_with_root, cfg_with_root_offset]
  all_goals repeat' split
  all_goals simp_all only [cfg_set_entry, cfg_set_cache_data, cfg_set_cache_head, cfg_set_cache_tail,
    cfg_set_cache_free, cfg_lru_remove, cfg_lru_push_head, cfg_lru_move_to_head, cfg_pin,
    cfg_mark_dirty, cfg_cache_free_entry, cfg_cache_allocate_entry, cfg_get_page_entry,
    cfg_search, cfg_with_lss, cfg_with_root, cfg_with_root_offset]

theorem cfg_frame_all (n : Nat) : cfg_frame n := by
  induction n with
  | zero =>
    constructor
    all_goals intros
    all_goals rename_i h
    · rw [flush_entry] at h; cases h
    · rw [mtpc_insert_evict] at h; cases h
    · rw [mtpc_insert] at h; cases h
    · rw [mtpc_acquire_from_storage] at h; cases h
    · rw [mtpc_flush_all_level] at h; cases h
    · rw [mtpc_flush_all_levels] at h; cases h
    · rw [mtpc_flush_all] at h; cases h
    · rw [descend_to_parent] at h; cases h
    · rw [locate_parent] at h; cases h
    · rw [is_mt_block_alive] at h; cases h
    · rw [apply_reallocate] at h; cases h
    · rw [lss_realloc_evict_loop] at h; cases h
    · rw [lss_realloc_evict] at h; cases h
    · rw [lss_realloc_insert] at h; cases h
    · rw [is_mt_segment_fully_dead_loop] at h; cases h
    · rw [is_mt_segment_fully_dead] at h; cases h
    · rw [lss_debug_analyze_loop] at h; cases h
    · rw [lss_debug_analyze] at h; cases h
    · rw [lss_clean_tail_block] at h; cases h
    · rw [lss_write_clean] at h; cases h
    · rw [lss_write_rotate] at h; cases h
    · rw [lss_write] at h; cases h
  | succ n ih =>
    exact ⟨cfg_step_flush_entry n ih,
      cfg_step_mtpc_insert_evict n ih,
      cfg_step_mtpc_insert n ih,
      cfg_step_mtpc_acquire_from_storage n ih,
      cfg_step_mtpc_flush_all_level n ih,
      cfg_step_mtpc_flush_all_levels n ih,
      cfg_step_mtpc_flush_all n ih,
      cfg_step_descend_to_parent n ih,
      cfg_step_locate_parent n ih,
      cfg_step_is_mt_block_alive n ih,
      cfg_step_apply_reallocate n ih,
      cfg_step_lss_realloc_evict_loop n ih,
      cfg_step_lss_realloc_evict n ih,
      cfg_step_lss_realloc_insert n ih,
      cfg_step_is_mt_segment_fully_dead_loop n ih,
      cfg_step_is_mt_segment_fully_dead n ih,
      cfg_step_lss_debug_analyze_loop n ih,
      cfg_step_lss_debug_analyze n ih,
      cfg_step_lss_clean_tail_block n ih,
      cfg_step_lss_write_clean n ih,
      cfg_step_lss_write_rotate n ih,
      cfg_step_lss_write n ih⟩

/-! ### Update followed by lookup -/

theorem holds_iff (mt : mapping_table_t) (x s e : Nat) :
    holds mt x s e ↔
      x ∈ mt.page_cache.data ∧ (mt.heap x).start_range = s ∧ (mt.heap x).end_range = e := by
  simp only [holds, rng, mtpc_entry_t.range, Prod.mk.injEq]

theorem holds_of_rng {mt mt' : mapping_table_t} (h : rng mt' = rng mt) (x s e : Nat) :
    holds mt' x s e ↔ holds mt x s e := by
  simp only [holds, h]

theorem rng_set_entry_new (mt : mapping_table_t) (e : Nat) (v : mtpc_entry_t) :
    rng (mt.set_entry e v) = ((rng mt).1, Function.update (rng mt).2 e v.range) := by
  simp only [rng, mapping_table_t.set_entry, Prod.mk.injEq, true_and]
  funext i
  by_cases hi : i = e
  · subst hi; simp
  · simp [hi]

theorem rng_set_cache_data (mt : mapping_table_t) (d : List Nat) :
    rng (mt.set_cache .table { mt.cache .table with data := d }) = (d, (rng mt).2) := rfl

theorem rng_set_entry (mt : mapping_table_t) (e : Nat) (v : mtpc_entry_t)
    (h : v.range = (mt.heap e).range) : rng (mt.set_entry e v) = rng mt := by
  simp only [rng, mapping_table_t.set_entry, Prod.mk.injEq, true_and]
  funext i
  by_cases hi : i = e
  · subst hi; simp [h]
  · simp [hi]

theorem rng_set_cache_reader (mt : mapping_table_t) (v : mtpc_t) :
    rng (mt.set_cache .reader v) = rng mt := rfl

theorem rng_set_cache_head (mt : mapping_table_t) (c : mtpc_ref) (d : Option Nat) :
    rng (mt.set_cache c { mt.cache c with lru_head := d }) = rng mt := by cases c <;> rfl

theorem rng_set_cache_tail (mt : mapping_table_t) (c : mtpc_ref) (d : Option Nat) :
    rng (mt.set_cache c { mt.cache c with lru_tail := d }) = rng mt := by cases c <;> rfl

theorem rng_set_cache_free (mt : mapping_table_t) (c : mtpc_ref) (d : Option Nat) :
    rng (mt.set_cache c { mt.cache c with free_list := d }) = rng mt := by cases c <;> rfl

theorem rng_with_lss (mt : mapping_table_t) (l : lss_t) : rng { mt with lss := l } = rng mt := rfl

theorem rng_with_root (mt : mapping_table_t) (b : flash_block_t) :
    rng { mt with root := b } = rng mt := rfl

theorem rng_with_root_offset (mt : mapping_table_t) (o : Nat) :
    rng { mt with root_offset := o } = rng mt := rfl

theorem range_with_links (e : mtpc_entry_t) (p n : Option Nat) :
    ({ e with lru_prev := p, lru_next := n } : mtpc_entry_t).range = e.range := rfl

theorem rng_lru_remove (mt : mapping_table_t) (c : mtpc_ref) (e : Nat) :
    rng (lru_remove mt c e) = rng mt := by
  unfold lru_remove
  simp only
  repeat' split
  all_goals simp only [rng_set_entry, rng_set_cache_head, rng_set_cache_tail, mtpc_entry_t.range]

theorem rng_lru_push_head (mt : mapping_table_t) (c : mtpc_ref) (e : Nat) :
    rng (lru_push_head mt c e) = rng mt := by
  unfold lru_push_head
  simp only
  repeat' split
  all_goals simp only [rng_set_entry, rng_set_cache_head, rng_set_cache_tail, mtpc_entry_t.range]

theorem rng_lru_move_to_head (mt : mapping_table_t) (c : mtpc_ref) (e : Nat) :
    rng (lru_move_to_head mt c e) = rng mt := by
  unfold lru_move_to_head
  split
  · rfl
  · rw [rng_lru_push_head, rng_lru_remove]

theorem rng_pin (mt : mapping_table_t) (e : Nat) : rng (pin mt e) = rng mt :=
  rng_set_entry _ _ _ rfl

theorem rng_mark_dirty (mt : mapping_table_t) (e : Option Nat) :
    rng (mtpc_mark_dirty mt e) = rng mt := by
  cases e with
  | none => rfl
  | some e => exact rng_set_entry _ _ _ rfl

theorem rng_get_page_entry (mt : mapping_table_t) (c : Option mtpc_ref) (s e : Nat) :
    rng (mtpc_get_page_entry mt c s e).2 = rng mt := by
  unfold mtpc_get_page_entry
  repeat' split
  all_goals simp only [rng_pin]

theorem rng_search (mt : mapping_table_t) (c : mtpc_ref) (l : Nat) :
    rng (mtpc_search mt c l).2 = rng mt := by
  unfold mtpc_search
  repeat' split
  all_goals simp only [rng_pin, rng_lru_move_to_head]

theorem rng_unpin (mt : mapping_table_t) (e : Option Nat) (r : Nat × mapping_table_t)
    (h : mtpc_unpin mt e = .ok r) : rng r.2 = rng mt := by
  unfold mtpc_unpin at h
  repeat' split at h
  all_goals try cases h
  · rfl
  · exact rng_set_entry _ _ _ rfl

theorem rng_write_slot (mt : mapping_table_t) (ce : Option Nat) (i v : Nat) (r : mapping_table_t)
    (h : write_slot mt ce i v = .ok r) : rng r = rng mt := by
  unfold write_slot at h
  simp only [bind, Except.bind, pure, Except.pure] at h
  repeat' split at h
  all_goals try cases h
  · rfl
  · exact rng_set_entry _ _ _ rfl

/-! #### The smallest resident cover -/

theorem search_loop_spec (heap : Nat → mtpc_entry_t) (L : Nat) :
    ∀ (l : List Nat) (best : Option Nat) (bs : Nat),
      ((mtpc_search_loop heap L l (best, bs)).1 = best
          ∧ ∀ e ∈ l, (heap e).covers L → bs ≤ (heap e).span)
        ∨ ∃ b ∈ l, (mtpc_search_loop heap L l (best, bs)).1 = some b
            ∧ (heap b).covers L ∧ (heap b).span < bs
            ∧ ∀ e ∈ l, (heap e).covers L → (heap b).span ≤ (heap e).span := by
  intro l
  induction l with
  | nil => intro best bs; left; exact ⟨rfl, fun e he => by simp at he⟩
  | cons a rest ih =>
    intro best bs
    rw [mtpc_search_loop]
    split
    · rename_i hend
      have hnc : ¬ (heap a).covers L := by
        intro hc; exact absurd hc.2 (by omega)
      rcases ih best bs with ⟨h1, h2⟩ | ⟨b, hb, h1, h2, h3, h4⟩
      · left
        refine ⟨h1, fun e he hc => ?_⟩
        rcases List.mem_cons.mp he with rfl | he
        · exact absurd hc hnc
        · exact h2 e he hc
      · right
        refine ⟨b, List.mem_cons_of_mem _ hb, h1, h2, h3, fun e he hc => ?_⟩
        rcases List.mem_cons.mp he with rfl | he
        · exact absurd hc hnc
        · exact h4 e he hc
    · rename_i hend
      split
      · rename_i hcov
        have hc : (heap a).covers L := ⟨hcov.1, hcov.2⟩
        split
        · rename_i hlt
          rcases ih (some a) (heap a).span with ⟨h1, h2⟩ | ⟨b, hb, h1, h2, h3, h4⟩
          · right
            refine ⟨a, List.mem_cons_self _ _, h1, hc, hlt, fun e he hce => ?_⟩
            rcases List.mem_cons.mp he with rfl | he
            · exact le_refl _
            · exact h2 e he hce
          · right
            refine ⟨b, List.mem_cons_of_mem _ hb, h1, h2, by omega, fun e he hce => ?_⟩
            rcases List.mem_cons.mp he with rfl | he
            · omega
            · exact h4 e he hce
        · rename_i hge
          rcases ih best bs with ⟨h1, h2⟩ | ⟨b, hb, h1, h2, h3, h4⟩
          · left
            refine ⟨h1, fun e he hce => ?_⟩
            rcases List.mem_cons.mp he with rfl | he
            · omega
            · exact h2 e he hce
          · right
            refine ⟨b, List.mem_cons_of_mem _ hb, h1, h2, h3, fun e he hce => ?_⟩
            rcases List.mem_cons.mp he with rfl | he
            · omega
            · exact h4 e he hce
      · rename_i hncov
        have hnc : ¬ (heap a).covers L := fun hc => hncov ⟨hc.1, hc.2⟩
        rcases ih best bs with ⟨h1, h2⟩ | ⟨b, hb, h1, h2, h3, h4⟩
        · left
          refine ⟨h1, fun e he hc => ?_⟩
          rcases List.mem_cons.mp he with rfl | he
          · exact absurd hc hnc
          · exact h2 e he hc
        · right
          refine ⟨b, List.mem_cons_of_mem _ hb, h1, h2, h3, fun e he hc => ?_⟩
          rcases List.mem_cons.mp he with rfl | he
          · exact absurd hc hnc
          · exact h4 e he hc

theorem get_page_entry_loop_mem (heap : Nat → mtpc_entry_t) (s e : Nat) :
    ∀ (l : List Nat) (best : Option Nat) (bs : Nat) (b : Nat),
      (mtpc_get_page_entry_loop heap s e l (best, bs)).1 = some b → best = some b ∨ b ∈ l := by
  intro l
  induction l with
  | nil => intro best bs b h; left; exact h
  | cons a rest ih =>
    intro best bs b h
    rw [mtpc_get_page_entry_loop] at h
    repeat' split at h
    all_goals
      rcases ih _ _ _ h with h1 | h1
      · first
          | (left; exact h1)
          | (right; simp only [Option.some.injEq] at h1; subst h1; exact List.mem_cons_self _ _)
      · right; exact List.mem_cons_of_mem _ h1

theorem get_page_entry_mem (mt : mapping_table_t) (c : mtpc_ref) (s e b : Nat)
    (h : (mtpc_get_page_entry mt (some c) s e).1 = some b) : b ∈ (mt.cache c).data := by
  unfold mtpc_get_page_entry at h
  simp only at h
  repeat' split at h
  all_goals try cases h
  rename_i heq
  rcases get_page_entry_loop_mem _ _ _ _ _ _ _ heq with h1 | h1
  · cases h1
  · exact h1

theorem mem_array_insert (data : List Nat) (idx x : Nat) : x ∈ array_insert data idx x := by
  simp [array_insert]

theorem insert_finish_holds (mt : mapping_table_t) (s e l : Nat) (p : Option Nat) (en : Nat)
    (r : Nat × mapping_table_t) (h : mtpc_insert_finish mt .table s e l p en = .ok r) :
    holds r.2 r.1 s e := by
  unfold mtpc_insert_finish at h
  simp only [bind, Except.bind, pure, Except.pure] at h
  repeat' split at h
  all_goals try cases h
  all_goals
    simp only [holds, rng_lru_push_head, rng_set_cache_data, rng_pin, rng_set_entry_new,
      mtpc_entry_t.range, Function.update_same, mem_array_insert, and_self]

theorem found_holds (mt : mapping_table_t) (s e b : Nat)
    (h1 : (mtpc_get_page_entry mt (some .table) s e).1 = some b)
    (h2 : entry_is (mtpc_get_page_entry mt (some .table) s e).2 b s e = true) :
    holds (mtpc_get_page_entry mt (some .table) s e).2 b s e := by
  have hm := get_page_entry_mem mt .table s e b h1
  simp only [entry_is, decide_eq_true_eq] at h2
  rw [holds_iff]
  refine ⟨?_, h2.1, h2.2⟩
  have := congrArg Prod.fst (rng_get_page_entry mt (some .table) s e)
  simp only [rng] at this
  rw [this]
  exact hm

theorem insert_reuse_holds (mt : mapping_table_t) (s e l : Nat) (p : Option Nat) (cand : Nat)
    (r : Nat × mapping_table_t) (h : mtpc_insert_reuse mt .table s e l p cand = .ok r) :
    holds r.2 r.1 s e := by
  unfold mtpc_insert_reuse at h
  simp only [bind, Except.bind, pure, Except.pure] at h
  repeat' split at h
  all_goals try cases h
  all_goals first
    | exact insert_finish_holds _ _ _ _ _ _ _ h
    | (rw [holds_of_rng (rng_lru_move_to_head _ _ _), holds_of_rng (rng_lru_push_head _ _ _)]
       apply found_holds <;> assumption)

theorem insert_holds (n : Nat) (mt : mapping_table_t) (s e l : Nat) (p : Option Nat) (ct : Bool)
    (r : Nat × mapping_table_t) (h : mtpc_insert n mt .table s e l p ct = .ok r) :
    holds r.2 r.1 s e := by
  cases n with
  | zero => rw [mtpc_insert] at h; cases h
  | succ n =>
    rw [mtpc_insert] at h
    simp only [bind, Except.bind, pure, Except.pure] at h
    repeat' split at h
    all_goals try cases h
    all_goals first
      | exact insert_finish_holds _ _ _ _ _ _ _ h
      | exact insert_reuse_holds _ _ _ _ _ _ _ h
      | (rw [holds_of_rng (rng_lru_move_to_head _ _ _)]
         apply found_holds <;> assumption)

theorem rng_snd_set_cache (mt : mapping_table_t) (c : mtpc_ref) (v : mtpc_t) :
    (rng (mt.set_cache c v)).2 = (rng mt).2 := by cases c <;> rfl

theorem rng_cache_free_entry (mt : mapping_table_t) (c : mtpc_ref) (e : Nat) :
    rng (cache_free_entry mt c e) = ((rng mt).1, Function.update (rng mt).2 e (0, 0)) := by
  unfold cache_free_entry
  simp only [rng_set_cache_free, rng_set_entry_new, mtpc_entry_t.range]

theorem take_ownership_post (mt : mapping_table_t) (ea : Nat) (cb : mtpc_ref) (eb : Nat)
    (r : Int × mapping_table_t) (h : mtpc_take_entry_ownership mt .table ea cb eb = .ok r) :
    eb ∈ (rng r.2).1 ∧ (rng r.2).2 eb = if eb = ea then (0, 0) else (rng mt).2 eb := by
  unfold mtpc_take_entry_ownership at h
  simp only [bind, Except.bind, pure, Except.pure] at h
  repeat' split at h
  all_goals try cases h
  simp only [rng_cache_free_entry, rng_lru_push_head, rng_set_cache_data, mem_array_insert,
    rng_snd_set_cache, rng_lru_remove, true_and, Function.update_apply]

theorem lodged_of_holds {mt : mapping_table_t} {x s e : Nat} (h : holds mt x s e) :
    lodged mt x s e := ⟨h.1, Or.inl h.2⟩

theorem lodged_of_rng {mt mt' : mapping_table_t} (h : rng mt' = rng mt) (x s e : Nat) :
    lodged mt' x s e ↔ lodged mt x s e := by
  simp only [lodged, h]

theorem entry_is_range (mt : mapping_table_t) (x s e : Nat) (h : entry_is mt x s e = true) :
    (rng mt).2 x = (s, e) := by
  simp only [entry_is, decide_eq_true_eq] at h
  simp only [rng, mtpc_entry_t.range, h.1, h.2]

theorem rng_set_parent (m : mapping_table_t) (x : Nat) (q : Option Nat) :
    rng (m.set_entry x { m.heap x with parent := q }) = rng m := rng_set_entry _ _ _ rfl

theorem rng_set_value (m : mapping_table_t) (x : Nat) (b : flash_block_t) :
    rng (m.set_entry x { m.heap x with value := b }) = rng m := rng_set_entry _ _ _ rfl

theorem acquire_probe_lodged (mt : mapping_table_t) (s e : Nat) (p : Option Nat) (en : Nat)
    (r : Nat × Bool × mapping_table_t) (hpc : mt.page_cache.parent_cache = none)
    (hh : holds mt en s e) (h : mtpc_acquire_probe mt .table s e p en = .ok r) :
    lodged r.2.2 r.1 s e := by
  unfold mtpc_acquire_probe at h
  simp only [mapping_table_t.cache, hpc, bind, Except.bind, pure, Except.pure] at h
  repeat' split at h
  all_goals try cases h
  · rename_i hei _ v hto _
    have hp := take_ownership_post _ _ _ _ _ hto
    have hr := entry_is_range _ _ _ _ hei
    dsimp only
    rw [lodged_of_rng (rng_set_parent _ _ _)]
    refine ⟨hp.1, ?_⟩
    rw [hp.2, hr]
    split
    · right; rfl
    · left; rfl
  · rename_i v hu
    have h1 := rng_unpin _ _ _ hu
    rw [lodged_of_rng (h1.trans (rng_get_page_entry _ _ _ _))]
    exact lodged_of_holds hh
  · rename_i v hu
    have h1 := rng_unpin _ _ _ hu
    rw [lodged_of_rng (h1.trans (rng_get_page_entry _ _ _ _))]
    exact lodged_of_holds hh

theorem acquire_fill_lodged (mt : mapping_table_t) (s e sa : Nat) (p : Option Nat) (en : Nat)
    (r : Nat × mapping_table_t) (hpc : mt.page_cache.parent_cache = none)
    (hh : holds mt en s e) (h : mtpc_acquire_fill mt .table s e sa p en = .ok r) :
    lodged r.2 r.1 s e := by
  unfold mtpc_acquire_fill at h
  simp only [bind, Except.bind, pure, Except.pure] at h
  repeat' split at h
  all_goals try cases h
  · exact lodged_of_holds hh
  all_goals
    have hl := acquire_probe_lodged _ _ _ _ _ _ hpc hh (by assumption)
    first
      | exact hl
      | (dsimp only; rw [lodged_of_rng (rng_set_value _ _ _)]; exact hl)

theorem acquire_lodged (n : Nat) (mt : mapping_table_t) (s e sa : Nat) (p : Option Nat)
    (ct : Bool) (r : Nat × mapping_table_t) (hpc : mt.page_cache.parent_cache = none)
    (h : mtpc_acquire_from_storage n mt .table s e sa p ct = .ok r) :
    lodged r.2 r.1 s e := by
  cases n with
  | zero => rw [mtpc_acquire_from_storage] at h; cases h
  | succ n =>
    rw [mtpc_acquire_from_storage] at h
    simp only [bind, Except.bind, pure, Except.pure] at h
    repeat' split at h
    all_goals try cases h
    rename_i v hins
    have hc := (cfg_frame_all n).mtpc_insert _ _ _ _ _ _ _ _ hins
    have hpc' : v.2.page_cache.parent_cache = none := by
      have := congrArg (fun t => t.2.2.2.2.1.2.2) hc
      simp only [cfg, mtpc_t.shape] at this
      rw [this, hpc]
    exact acquire_fill_lodged _ _ _ _ _ _ _ hpc' (insert_holds _ _ _ _ _ _ _ _ hins) h

theorem child_geometry (f k S L : Nat) (hf : 2 ≤ f) (hS : S % f ^ (k + 1) = 0) (h1 : S ≤ L)
    (h2 : L < S + f ^ (k + 1)) :
    f ^ (k + 1) / f = f ^ k ∧ L % f ^ (k + 1) / f ^ k < f
      ∧ (S + L % f ^ (k + 1) / f ^ k * f ^ k) % f ^ k = 0
      ∧ S + L % f ^ (k + 1) / f ^ k * f ^ k ≤ L
      ∧ L < S + L % f ^ (k + 1) / f ^ k * f ^ k + f ^ k
      ∧ S + L % f ^ (k + 1) / f ^ k * f ^ k + f ^ k ≤ S + f ^ (k + 1) := by
  have hfpos : 0 < f := by omega
  have hpk : 0 < f ^ k := Nat.pow_pos hfpos
  have hsucc : f ^ (k + 1) = f ^ k * f := pow_succ f k
  have hdiv : f ^ (k + 1) / f = f ^ k := by rw [hsucc]; exact Nat.mul_div_cancel _ hfpos
  obtain ⟨q, hq⟩ : ∃ q, S = f ^ (k + 1) * q := ⟨S / f ^ (k + 1), by
    have := Nat.div_add_mod S (f ^ (k + 1)); omega⟩
  have hmod : L % f ^ (k + 1) = L - S := by
    have hL : L = (L - S) + f ^ (k + 1) * q := by omega
    have hlt : L - S < f ^ (k + 1) := by omega
    conv_lhs => rw [hL]
    rw [Nat.add_mul_mod_self_left, Nat.mod_eq_of_lt hlt]
  rw [hmod]
  have hidx : (L - S) / f ^ k < f := by
    rw [Nat.div_lt_iff_lt_mul hpk]
    have : L - S < f ^ k * f := by rw [← hsucc]; omega
    rw [Nat.mul_comm]; exact this
  have hle : (L - S) / f ^ k * f ^ k ≤ L - S := Nat.div_mul_le_self _ _
  have hgt : L - S < (L - S) / f ^ k * f ^ k + f ^ k := by
    have := Nat.div_add_mod (L - S) (f ^ k)
    have hm := Nat.mod_lt (L - S) hpk
    rw [Nat.mul_comm] at this
    omega
  have hSk : S % f ^ k = 0 := by
    rw [hq, hsucc, Nat.mul_assoc]; exact Nat.mul_mod_right _ _
  refine ⟨hdiv, hidx, ?_, by omega, by omega, ?_⟩
  · rw [Nat.add_mul_mod_self_right]; exact hSk
  · have : ((L - S) / f ^ k + 1) * f ^ k ≤ f * f ^ k := Nat.mul_le_mul_right _ hidx
    rw [Nat.add_mul, Nat.one_mul, Nat.mul_comm f] at this
    rw [hsucc]; omega

theorem geometry_ok_of_cfg {mt mt' : mapping_table_t} (h : cfg mt' = cfg mt)
    (hg : geometry_ok mt) : geometry_ok mt' := by
  simp only [cfg, mtpc_t.shape, Prod.mk.injEq] at h
  obtain ⟨h1, _, h3, h4, ⟨_, _, h7⟩, _⟩ := h
  simp only [geometry_ok, h1, h3, h4, h7]
  exact hg

theorem read_write_entry (b b' : flash_block_t) (i v : Nat) (h : write_entry b i v = .ok b') :
    read_entry b' i = .ok v := by
  unfold write_entry at h
  split at h
  · simp only [Except.ok.injEq] at h
    subst h
    simp [read_entry, List.getElem?_set, *]
  · cases h

theorem update_leaf_step (mt mt1 : mapping_table_t) (ce : Option Nat) (i P : Nat)
    (r : Nat × mapping_table_t) (h1 : write_slot mt ce i P = .ok mt1)
    (h2 : mtpc_unpin (mtpc_mark_dirty mt1 ce) ce = .ok r) :
    cfg r.2 = cfg mt ∧ rng r.2 = rng mt
      ∧ (∀ x, ce = some x → read_entry (r.2.heap x).value i = .ok P)
      ∧ (ce = none → r.2.page_cache = mt.page_cache ∧ r.2.heap = mt.heap
          ∧ read_entry r.2.root i = .ok P) := by
  have c1 := ((kr_write_slot _ _ _ _ _).mp h1).2
  have c2 := ((kr_unpin _ _ _).mp h2).2
  have r1 := rng_write_slot _ _ _ _ _ h1
  have r2 := rng_unpin _ _ _ h2
  rw [cfg_mark_dirty] at c2
  rw [rng_mark_dirty] at r2
  refine ⟨c2.trans c1, r2.trans r1, ?_, ?_⟩
  · intro x hx
    subst hx
    simp only [write_slot, bind, Except.bind, pure, Except.pure] at h1
    split at h1
    · cases h1
    · rename_i b hb
      simp only [Except.ok.injEq] at h1
      subst h1
      simp only [mtpc_unpin, mtpc_mark_dirty] at h2
      split at h2
      · simp only [Except.ok.injEq] at h2
        subst h2
        simp only [mapping_table_t.set_entry, if_true]
        exact read_write_entry _ _ _ _ hb
      · cases h2
  · intro hx
    subst hx
    simp only [write_slot, bind, Except.bind, pure, Except.pure] at h1
    split at h1
    · cases h1
    · rename_i b hb
      simp only [Except.ok.injEq] at h1
      subst h1
      simp only [mtpc_unpin, mtpc_mark_dirty, Except.ok.injEq] at h2
      subst h2
      exact ⟨rfl, rfl, read_write_entry _ _ _ _ hb⟩

theorem u32_of_lt {x : Nat} (h : x < 2 ^ 32) : u32 x = x := Nat.mod_eq_of_lt h

theorem u64_of_lt {x : Nat} (h : x < 2 ^ 64) : u64 x = x := Nat.mod_eq_of_lt h

theorem update_loop_post (L P : Nat) (ct : Bool) :
    ∀ (fuel : Nat) (mt : mapping_table_t) (ce : Option Nat) (k S : Nat)
      (r : Int × mapping_table_t),
      geometry_ok mt → S % mt.fanout ^ k = 0 → S ≤ L → L < S + mt.fanout ^ k →
      S + mt.fanout ^ k < 2 ^ 64 →
      (∀ x, ce = some x → lodged mt x S (S + mt.fanout ^ k)) →
      mapping_table_update_loop L P ct fuel mt ce (mt.fanout ^ k) S = .ok r →
      cfg r.2 = cfg mt ∧ r.1 = 0
        ∧ ((∃ x Sf, lodged r.2 x Sf (Sf + mt.fanout) ∧ Sf ≤ L ∧ L < Sf + mt.fanout
              ∧ read_entry (r.2.heap x).value (L % mt.fanout) = .ok P)
          ∨ (ce = none ∧ k = 1 ∧ r.2.page_cache = mt.page_cache ∧ r.2.heap = mt.heap
              ∧ read_entry r.2.root (L % mt.fanout) = .ok P)) := by
  intro fuel
  induction fuel with
  | zero => intro mt ce k S r _ _ _ _ _ _ h; rw [mapping_table_update_loop] at h; cases h
  | succ n ih =>
    intro mt ce k
    rcases k with _ | _ | k
    all_goals
      intro S r hg hS h1 h2 h3 hce h
      have hf2 : 2 ≤ mt.fanout := hg.1
      have hf32 : mt.fanout < 2 ^ 32 := hg.2.1
      have hfne : mt.fanout ≠ 0 := by omega
      rw [mapping_table_update_loop] at h
    ·
      have h10 : 1 / mt.fanout = 0 := Nat.div_eq_of_lt (by omega)
      simp only [pow_zero, udiv, umod, hfne, if_false, bind, Except.bind, h10, one_ne_zero,
        if_true] at h
      cases h
    ·
      have hpos : 0 < mt.fanout := by omega
      have hi : u32 (L % mt.fanout / 1) = L % mt.fanout := by
        rw [Nat.div_one]; exact u32_of_lt (lt_trans (Nat.mod_lt _ hpos) hf32)
      simp only [zero_add, pow_one, udiv, umod, hfne, if_false, bind, Except.bind,
        Nat.div_self hpos,
        one_ne_zero, if_true, hi, pure, Except.pure] at h
      split at h
      · cases h
      · rename_i mt1 hw
        split at h
        · cases h
        · rename_i v hu
          simp only [Except.ok.injEq] at h
          subst h
          obtain ⟨c, rg, hsome, hnone⟩ := update_leaf_step _ _ _ _ _ _ hw hu
          refine ⟨c, rfl, ?_⟩
          cases ce with
          | none => right; exact ⟨rfl, rfl, hnone rfl⟩
          | some x =>
            left
            refine ⟨x, S, ?_, h1, by simpa using h2, hsome x rfl⟩
            rw [lodged_of_rng rg]
            simpa using hce x rfl
    ·
      obtain ⟨g1, g2, g3, g4, g5, g6⟩ := child_geometry mt.fanout (k + 1) S L hf2 hS h1 h2
      have hpos : 0 < mt.fanout := by omega
      have hsub1 : mt.fanout ^ (k + 1) ≠ 1 := by
        have : 2 ^ (k + 1) ≤ mt.fanout ^ (k + 1) := Nat.pow_le_pow_left hf2 _
        have : 2 ≤ 2 ^ (k + 1) := by
          calc 2 = 2 ^ 1 := rfl
            _ ≤ 2 ^ (k + 1) := Nat.pow_le_pow_right (by decide) (by omega)
        omega
      have hsub0 : mt.fanout ^ (k + 1) ≠ 0 := pos_iff_ne_zero.mp (Nat.pow_pos hpos)
      have hi : u32 (L % mt.fanout ^ (k + 1 + 1) / mt.fanout ^ (k + 1))
          = L % mt.fanout ^ (k + 1 + 1) / mt.fanout ^ (k + 1) := u32_of_lt (lt_trans g2 hf32)
      have hns : u64 (S + u64 (L % mt.fanout ^ (k + 1 + 1) / mt.fanout ^ (k + 1)
            * mt.fanout ^ (k + 1)))
          = S + L % mt.fanout ^ (k + 1 + 1) / mt.fanout ^ (k + 1) * mt.fanout ^ (k + 1) := by
        rw [u64_of_lt (x := _ * _) (by omega), u64_of_lt (by omega)]
      have hne : u64 (S + L % mt.fanout ^ (k + 1 + 1) / mt.fanout ^ (k + 1) * mt.fanout ^ (k + 1)
            + mt.fanout ^ (k + 1))
          = S + L % mt.fanout ^ (k + 1 + 1) / mt.fanout ^ (k + 1) * mt.fanout ^ (k + 1)
            + mt.fanout ^ (k + 1) := u64_of_lt (by omega)
      simp only [udiv, umod, hfne, if_false, bind, Except.bind, g1, hsub1, hsub0, hi, hns, hne,
        pure, Except.pure, pow_ne_zero, ne_eq, not_false_eq_true] at h
      have key : ∀ (m : mapping_table_t) (x : Nat), cfg m = cfg mt →
          lodged m x (S + L % mt.fanout ^ (k + 1 + 1) / mt.fanout ^ (k + 1) * mt.fanout ^ (k + 1))
            (S + L % mt.fanout ^ (k + 1 + 1) / mt.fanout ^ (k + 1) * mt.fanout ^ (k + 1)
              + mt.fanout ^ (k + 1)) →
          mapping_table_update_loop L P ct n m (some x) (mt.fanout ^ (k + 1))
            (S + L % mt.fanout ^ (k + 1 + 1) / mt.fanout ^ (k + 1) * mt.fanout ^ (k + 1)) = .ok r →
          cfg r.2 = cfg mt ∧ r.1 = 0
            ∧ ((∃ x Sf, lodged r.2 x Sf (Sf + mt.fanout) ∧ Sf ≤ L ∧ L < Sf + mt.fanout
                  ∧ read_entry (r.2.heap x).value (L % mt.fanout) = .ok P)
              ∨ (ce = none ∧ k + 1 + 1 = 1 ∧ r.2.page_cache = mt.page_cache ∧ r.2.heap = mt.heap
                  ∧ read_entry r.2.root (L % mt.fanout) = .ok P)) := by
        intro m x hc hl hloop
        have hfan : m.fanout = mt.fanout := congrArg Prod.fst hc
        rw [← hfan] at hloop hl g3 g4 g5 g6 h3
        obtain ⟨a, b, c⟩ := ih m (some x) (k + 1) _ r (geometry_ok_of_cfg hc hg) g3 g4 g5
          (by omega) (fun y hy => by cases hy; exact hl) hloop
        refine ⟨a.trans hc, b, ?_⟩
        rcases c with c | c
        · left; rw [← hfan]; exact c
        · exact absurd c.1 (by simp)
      split at h
      · cases h
      · rename_i slot hslot
        split at h
        · split at h
          · cases h
          · rename_i v hins
            split at h
            · cases h
            · rename_i v1 hu
              have c1 := (cfg_frame_all n).mtpc_insert _ _ _ _ _ _ _ _ hins
              have c2 := ((kr_unpin _ _ _).mp hu).2
              rw [cfg_set_entry] at c2
              have hl := lodged_of_holds (insert_holds _ _ _ _ _ _ _ _ hins)
              have r2 := rng_unpin _ _ _ hu
              rw [rng_set_value] at r2
              exact key v1.2 v.1 (c2.trans c1) ((lodged_of_rng r2 _ _ _).mpr hl) h
        · split at h
          · cases h
          · rename_i v hacq
            split at h
            · cases h
            · split at h
              · cases h
              · rename_i v1 hu
                have c1 := (cfg_frame_all n).mtpc_acquire_from_storage _ _ _ _ _ _ _ _ hacq
                have c2 := ((kr_unpin _ _ _).mp hu).2
                have hl := acquire_lodged _ _ _ _ _ _ _ _ hg.2.2.2.2.1 hacq
                have r2 := rng_unpin _ _ _ hu
                exact key v1.2 v.1 (c2.trans c1) ((lodged_of_rng r2 _ _ _).mpr hl) h

theorem cores_set_entry (mt : mapping_table_t) (e : Nat) (v : mtpc_entry_t)
    (h : v.core = (mt.heap e).core) : cores (mt.set_entry e v) = cores mt := by
  funext i
  simp only [cores, mapping_table_t.set_entry]
  by_cases hi : i = e
  · subst hi; simp [h]
  · simp [hi]

theorem cores_set_cache (mt : mapping_table_t) (c : mtpc_ref) (v : mtpc_t) :
    cores (mt.set_cache c v) = cores mt := by cases c <;> rfl

theorem cores_lru_remove (mt : mapping_table_t) (c : mtpc_ref) (e : Nat) :
    cores (lru_remove mt c e) = cores mt := by
  unfold lru_remove
  simp only
  repeat' split
  all_goals simp only [cores_set_entry, cores_set_cache, mtpc_entry_t.core]

theorem cores_lru_push_head (mt : mapping_table_t) (c : mtpc_ref) (e : Nat) :
    cores (lru_push_head mt c e) = cores mt := by
  unfold lru_push_head
  simp only
  repeat' split
  all_goals simp only [cores_set_entry, cores_set_cache, mtpc_entry_t.core]

theorem cores_lru_move_to_head (mt : mapping_table_t) (c : mtpc_ref) (e : Nat) :
    cores (lru_move_to_head mt c e) = cores mt := by
  unfold lru_move_to_head
  split
  · rfl
  · rw [cores_lru_push_head, cores_lru_remove]

theorem search_some (mt : mapping_table_t) (L x : Nat) (m : mapping_table_t)
    (h : mtpc_search mt .table L = (some x, m)) :
    x ∈ mt.page_cache.data ∧ (mt.heap x).covers L
      ∧ m = pin (lru_move_to_head mt .table x) x := by
  unfold mtpc_search at h
  split at h
  · cases h
  · split at h
    · cases h
    · rename_i best hb
      simp only [Prod.mk.injEq, Option.some.injEq] at h
      obtain ⟨h1, h2⟩ := h
      subst h1
      refine ⟨?_, ?_, h2.symm⟩
      · rcases search_loop_spec mt.heap L (mt.cache .table).data none UINT64_MAX with
          ⟨h1, _⟩ | ⟨b, hb1, hb2, _⟩
        · rw [hb] at h1; cases h1
        · rw [hb] at hb2; cases hb2; exact hb1
      · rcases search_loop_spec mt.heap L (mt.cache .table).data none UINT64_MAX with
          ⟨h1, _⟩ | ⟨b, _, hb2, hb3, _⟩
        · rw [hb] at h1; cases h1
        · rw [hb] at hb2; cases hb2; exact hb3

theorem search_none (mt : mapping_table_t) (L : Nat) (m : mapping_table_t)
    (h : mtpc_search mt .table L = (none, m)) : m = mt := by
  unfold mtpc_search at h
  split at h
  · simp only [Prod.mk.injEq, true_and] at h; exact h.symm
  · split at h
    · simp only [Prod.mk.injEq, true_and] at h; exact h.symm
    · cases h

theorem search_congr (mt mt' : mapping_table_t) (L : Nat) (h1 : mt'.page_cache = mt.page_cache)
    (h2 : mt'.heap = mt.heap) (h : (mtpc_search mt .table L).1 = none) :
    mtpc_search mt' .table L = (none, mt') := by
  unfold mtpc_search at h ⊢
  simp only [mapping_table_t.cache, h1, h2] at h ⊢
  split
  · rfl
  · rename_i hne
    simp only [hne, if_false] at h
    split at h
    · rename_i heq; simp only [heq]
    · cases h

theorem span_of_aligned (e : mtpc_entry_t) (w : Nat) (h1 : e.end_range = e.start_range + w)
    (h2 : e.end_range < 2 ^ 64) : e.span = w := by
  unfold mtpc_entry_t.span u64_sub
  have h3 : e.start_range < 2 ^ 64 := by omega
  rw [Nat.mod_eq_of_lt h2, Nat.mod_eq_of_lt h3, h1]
  have : e.start_range + w + 2 ^ 64 - e.start_range = w + 2 ^ 64 := by omega
  rw [this, Nat.add_mod_right]
  exact Nat.mod_eq_of_lt (by omega)

theorem pow_succ_le_self (f j : Nat) (hf : 2 ≤ f) (h : f ^ (j + 1) ≤ f) : j = 0 := by
  by_contra hj
  have h2 : f ^ 2 ≤ f ^ (j + 1) := Nat.pow_le_pow_right (by omega) (by omega)
  have h3 : f * 2 ≤ f * f := Nat.mul_le_mul_left f hf
  have h4 : f ^ 2 = f * f := by ring
  omega

theorem same_page (f L a b : Nat) (ha : a % f = 0) (hb : b % f = 0)
    (ha1 : a ≤ L) (ha2 : L < a + f) (hb1 : b ≤ L) (hb2 : L < b + f) : a = b := by
  obtain ⟨p, hp⟩ : ∃ p, a = f * p := ⟨a / f, by have := Nat.div_add_mod a f; omega⟩
  obtain ⟨q, hq⟩ : ∃ q, b = f * q := ⟨b / f, by have := Nat.div_add_mod b f; omega⟩
  subst hp hq
  have h1 : p = L / f := by
    symm; apply Nat.div_eq_of_lt_le
    · rw [Nat.mul_comm]; exact ha1
    · rw [Nat.add_mul, Nat.one_mul, Nat.mul_comm]; exact ha2
  have h2 : q = L / f := by
    symm; apply Nat.div_eq_of_lt_le
    · rw [Nat.mul_comm]; exact hb1
    · rw [Nat.add_mul, Nat.one_mul, Nat.mul_comm]; exact hb2
  rw [h1, h2]

theorem search_finds (mt : mapping_table_t) (L x Sf : Nat) (hf : 2 ≤ mt.fanout)
    (hf32 : mt.fanout < 2 ^ 32) (hok : table_cache_ok mt) (hx : holds mt x Sf (Sf + mt.fanout)) (h1 : Sf ≤ L)
    (h2 : L < Sf + mt.fanout) :
    mtpc_search mt .table L = (some x, pin (lru_move_to_head mt .table x) x) := by
  rw [holds_iff] at hx
  obtain ⟨hxm, hxs, hxe⟩ := hx
  obtain ⟨hal, hinj, _⟩ := hok
  have hxc : (mt.heap x).covers L := by
    simp only [mtpc_entry_t.covers, hxs, hxe]; exact ⟨h1, h2⟩
  obtain ⟨jx, _, ax1, ax2, ax3⟩ := hal x hxm
  have hjx : mt.fanout ^ (jx + 1) = mt.fanout := by rw [hxs, hxe] at ax1; omega
  have hxspan : (mt.heap x).span = mt.fanout :=
    span_of_aligned _ _ (by rw [hxs, hxe]) ax3
  unfold mtpc_search
  have hne : ¬ ((mt.cache .table).size = 0) := by
    simp only [mtpc_t.size, mapping_table_t.cache]
    intro h
    rw [List.length_eq_zero] at h
    rw [h] at hxm; simp at hxm
  simp only [hne, if_false]
  rcases search_loop_spec mt.heap L (mt.cache .table).data none UINT64_MAX with
    ⟨_, hmin⟩ | ⟨b, hb, hres, hbc, _, hmin⟩
  · have := hmin x hxm hxc
    rw [hxspan] at this
    simp only [UINT64_MAX] at this
    omega
  · rw [hres]
    have hbx : b = x := by
      apply hinj b hb x hxm
      obtain ⟨jb, _, ab1, ab2, ab3⟩ := hal b hb
      have hbspan : (mt.heap b).span = mt.fanout ^ (jb + 1) := span_of_aligned _ _ ab1 ab3
      have hle := hmin x hxm hxc
      rw [hbspan, hxspan] at hle
      have hjb := pow_succ_le_self _ _ hf hle
      subst hjb
      simp only [zero_add, pow_one] at ab1 ab2
      simp only [zero_add, pow_one] at hjx
      rw [hjx] at ax2
      have hs : (mt.heap b).start_range = (mt.heap x).start_range :=
        same_page mt.fanout L _ _ ab2 ax2 hbc.1 (by rw [← ab1]; exact hbc.2)
          (by rw [hxs]; exact h1) (by rw [hxs]; exact h2)
      simp only [mtpc_entry_t.range, Prod.mk.injEq]
      exact ⟨hs, by rw [ab1, hs, hxs, hxe]⟩
    subst hbx
    rfl

theorem lookup_leaf (n : Nat) (mt : mapping_table_t) (L x Sf P : Nat) (ct : Bool) (out : Nat)
    (hg : geometry_ok mt) (hL : L < mt.npage_mappings) (hok : table_cache_ok mt)
    (hx : holds mt x Sf (Sf + mt.fanout)) (h1 : Sf ≤ L) (h2 : L < Sf + mt.fanout)
    (hr : read_entry (mt.heap x).value (L % mt.fanout) = .ok P)
    (hP : P ≠ FLASH_INVALID_ADDRESS) :
    ∃ m, mapping_table_get_physical_address (n + 1) mt L ct out = .ok (0, P, m) := by
  have hf2 : 2 ≤ mt.fanout := hg.1
  have hf32 : mt.fanout < 2 ^ 32 := hg.2.1
  have hpos : 0 < mt.fanout := by omega
  have hfne : mt.fanout ≠ 0 := by omega
  have hs := search_finds mt L x Sf hf2 hf32 hok hx h1 h2
  rw [holds_iff] at hx
  obtain ⟨hxm, hxs, hxe⟩ := hx
  obtain ⟨jx, _, _, _, ax3⟩ := hok.1 x hxm
  have hpin := hok.2.2 x hxm
  have hcore : ((lru_move_to_head mt .table x).heap x).core = (mt.heap x).core :=
    congrFun (cores_lru_move_to_head mt .table x) x
  simp only [mtpc_entry_t.core, Prod.mk.injEq] at hcore
  obtain ⟨c1, c2, c3, _, c5, _⟩ := hcore
  have hfan : (pin (lru_move_to_head mt .table x) x).fanout = mt.fanout := by
    have := congrArg Prod.fst ((cfg_pin _ x).trans (cfg_lru_move_to_head mt .table x))
    exact this
  have hspan : ((pin (lru_move_to_head mt .table x) x).heap x).span = mt.fanout := by
    apply span_of_aligned
    · simp only [pin, mapping_table_t.set_entry, if_true, c1, c2, hxs, hxe]
    · simp only [pin, mapping_table_t.set_entry, if_true, c2]; exact ax3
  have hval : (pin (lru_move_to_head mt .table x) x).block_of (some x) = (mt.heap x).value := by
    simp only [mapping_table_t.block_of, pin, mapping_table_t.set_entry, if_true, c3]
  have hpc : ((pin (lru_move_to_head mt .table x) x).heap x).pin_count > 0 := by
    simp only [pin, mapping_table_t.set_entry, if_true, c5, u16]
    rw [Nat.mod_eq_of_lt hpin]; omega
  have hi : u32 (L % mt.fanout / 1) = L % mt.fanout := by
    rw [Nat.div_one]; exact u32_of_lt (lt_trans (Nat.mod_lt _ hpos) hf32)
  unfold mapping_table_get_physical_address
  rw [if_neg (by omega), hs]
  simp only
  rw [mapping_table_get_loop]
  simp only [hfan, hspan, udiv, umod, hfne, if_false, bind, Except.bind, Nat.div_self hpos,
    one_ne_zero, hi, hval, hr, if_true, mtpc_unpin, hpc, hP, pure, Except.pure]
  exact ⟨_, rfl⟩

theorem lookup_root_leaf (n : Nat) (mt : mapping_table_t) (L P : Nat) (ct : Bool) (out : Nat)
    (hg : geometry_ok mt) (hL : L < mt.npage_mappings)
    (hpad : mt.npage_mappings_padded = mt.fanout)
    (hs : mtpc_search mt .table L = (none, mt))
    (hr : read_entry mt.root (L % mt.fanout) = .ok P) (hP : P ≠ FLASH_INVALID_ADDRESS) :
    mapping_table_get_physical_address (n + 1) mt L ct out = .ok (0, P, mt) := by
  have hf2 : 2 ≤ mt.fanout := hg.1
  have hf32 : mt.fanout < 2 ^ 32 := hg.2.1
  have hpos : 0 < mt.fanout := by omega
  have hfne : mt.fanout ≠ 0 := by omega
  have hi : u32 (L % mt.fanout / 1) = L % mt.fanout := by
    rw [Nat.div_one]; exact u32_of_lt (lt_trans (Nat.mod_lt _ hpos) hf32)
  unfold mapping_table_get_physical_address
  rw [if_neg (by omega), hs]
  simp only
  rw [mapping_table_get_loop]
  simp only [hpad, udiv, umod, hfne, if_false, bind, Except.bind, Nat.div_self hpos,
    one_ne_zero, hi, mapping_table_t.block_of, hr, if_true, mtpc_unpin, hP, pure, Except.pure]

theorem lodged_holds (mt : mapping_table_t) (x s e : Nat) (hf : 0 < mt.fanout)
    (hok : table_cache_ok mt) (hl : lodged mt x s e) : holds mt x s e := by
  refine ⟨hl.1, ?_⟩
  rcases hl.2 with h | h
  · exact h
  · exfalso
    obtain ⟨j, _, a1, _, _⟩ := hok.1 x hl.1
    simp only [rng, mtpc_entry_t.range, Prod.mk.injEq] at h
    rw [h.1, h.2] at a1
    have := Nat.pow_pos (n := j + 1) hf
    omega

theorem update_then_lookup_aux (fuel n : Nat) (mt mt' : mapping_table_t) (L P : Nat)
    (ct ct' : Bool) (out : Nat) (hg : geometry_ok mt) (hok : table_cache_ok mt)
    (hP : P ≠ UINT64_MAX)
    (hupd : mapping_table_update_physical_address fuel mt L P ct = .ok (0, mt'))
    (hok' : table_cache_ok mt') :
    ∃ m, mapping_table_get_physical_address (n + 1) mt' L ct' out = .ok (0, P, m) := by
  have hf2 : 2 ≤ mt.fanout := hg.1
  unfold mapping_table_update_physical_address at hupd
  split at hupd
  · simp at hupd
  · rename_i hL
    have hL : L < mt.npage_mappings := by omega
    have fin : ∀ r : Int × mapping_table_t, r.2 = mt' → cfg r.2 = cfg mt →
        (∃ x Sf, lodged r.2 x Sf (Sf + mt.fanout) ∧ Sf ≤ L ∧ L < Sf + mt.fanout
          ∧ read_entry (r.2.heap x).value (L % mt.fanout) = .ok P) →
        ∃ m, mapping_table_get_physical_address (n + 1) mt' L ct' out = .ok (0, P, m) := by
      intro r hr hc ⟨x, Sf, hl, h1, h2, hrd⟩
      subst hr
      have hfan : r.2.fanout = mt.fanout := congrArg Prod.fst hc
      have hnp : r.2.npage_mappings = mt.npage_mappings := by
        simp only [cfg, Prod.mk.injEq] at hc; exact hc.2.2.1
      rw [← hfan] at hl h2 hrd
      have hg' := geometry_ok_of_cfg hc hg
      exact lookup_leaf n r.2 L x Sf P ct' out hg' (by omega) hok'
        (lodged_holds _ _ _ _ (by omega) hok' hl) h1 h2 hrd hP
    cases hsr : mtpc_search mt .table L with
    | mk o m1 =>
      rw [hsr] at hupd
      cases o with
      | none =>
        simp only at hupd
        have hm := search_none _ _ _ hsr
        subst hm
        obtain ⟨h, _, hpad⟩ := hg.2.2.1
        rw [hpad] at hupd
        have hlt : L < 0 + m1.fanout ^ h := by
          have := hg.2.2.2.2.2; omega
        have hb : 0 + m1.fanout ^ h < 2 ^ 64 := by
          have := hg.2.2.2.1; omega
        obtain ⟨c, _, d⟩ := update_loop_post L P ct fuel m1 none h 0 _ hg (Nat.zero_mod _)
          (Nat.zero_le _) hlt hb (fun x hx => by cases hx) hupd
        rcases d with d | ⟨_, hh, hpc, hhp, hrd⟩
        · exact fin _ rfl c d
        · subst hh
          simp only [pow_one] at hpad
          have hfan : mt'.fanout = m1.fanout := congrArg Prod.fst c
          have hnp : mt'.npage_mappings = m1.npage_mappings := by
            simp only [cfg, Prod.mk.injEq] at c; exact c.2.2.1
          have hpp : mt'.npage_mappings_padded = m1.npage_mappings_padded := by
            simp only [cfg, Prod.mk.injEq] at c; exact c.2.2.2.1
          refine ⟨mt', lookup_root_leaf n mt' L P ct' out (geometry_ok_of_cfg c hg) (by omega)
            (by rw [hpp, hpad, hfan]) ?_ (by rw [hfan]; exact hrd) hP⟩
          exact search_congr m1 mt' L hpc hhp (by rw [hsr])
      | some x =>
        simp only at hupd
        obtain ⟨hxm, hxc, hm⟩ := search_some _ _ _ _ hsr
        obtain ⟨j, _, a1, a2, a3⟩ := hok.1 x hxm
        have hcfg : cfg m1 = cfg mt := by
          rw [hm]; exact (cfg_pin _ x).trans (cfg_lru_move_to_head mt .table x)
        have hrng : rng m1 = rng mt := by
          rw [hm]; exact (rng_pin _ x).trans (rng_lru_move_to_head mt .table x)
        have hfan : m1.fanout = mt.fanout := congrArg Prod.fst hcfg
        have hr : (m1.heap x).range = (mt.heap x).range := congrFun (congrArg Prod.snd hrng) x
        simp only [mtpc_entry_t.range, Prod.mk.injEq] at hr
        have hspan : (m1.heap x).span = m1.fanout ^ (j + 1) := by
          rw [hfan]
          exact span_of_aligned _ _ (by rw [hr.1, hr.2]; exact a1) (by rw [hr.2]; exact a3)
        rw [hspan, hr.1] at hupd
        have hg1 := geometry_ok_of_cfg hcfg hg
        have hlod : lodged m1 x (mt.heap x).start_range
            ((mt.heap x).start_range + m1.fanout ^ (j + 1)) := by
          rw [lodged_of_rng hrng, hfan, ← a1]
          exact lodged_of_holds ((holds_iff _ _ _ _).mpr ⟨hxm, rfl, rfl⟩)
        obtain ⟨c, _, d⟩ := update_loop_post L P ct fuel m1 (some x) (j + 1)
          (mt.heap x).start_range _ hg1 (by rw [hfan]; exact a2) hxc.1
          (by rw [hfan, ← a1]; exact hxc.2) (by rw [hfan, ← a1]; exact a3)
          (fun y hy => by cases hy; exact hlod) hupd
        rcases d with d | ⟨hh, _⟩
        · rw [hfan] at d
          exact fin _ rfl (c.trans hcfg) d
        · cases hh

theorem lss_set_entry (mt : mapping_table_t) (e : Nat) (v : mtpc_entry_t) :
    (mt.set_entry e v).lss = mt.lss := rfl

theorem lss_set_cache (mt : mapping_table_t) (c : mtpc_ref) (v : mtpc_t) :
    (mt.set_cache c v).lss = mt.lss := by cases c <;> rfl

theorem lss_lru_remove (mt : mapping_table_t) (c : mtpc_ref) (e : Nat) :
    (lru_remove mt c e).lss = mt.lss := by
  unfold lru_remove
  simp only
  repeat' split
  all_goals simp only [lss_set_entry, lss_set_cache]

theorem lss_lru_push_head (mt : mapping_table_t) (c : mtpc_ref) (e : Nat) :
    (lru_push_head mt c e).lss = mt.lss := by
  unfold lru_push_head
  simp only
  repeat' split
  all_goals simp only [lss_set_entry, lss_set_cache]

theorem lss_lru_move_to_head (mt : mapping_table_t) (c : mtpc_ref) (e : Nat) :
    (lru_move_to_head mt c e).lss = mt.lss := by
  unfold lru_move_to_head
  split
  · rfl
  · rw [lss_lru_push_head, lss_lru_remove]

theorem lss_pin (mt : mapping_table_t) (e : Nat) : (pin mt e).lss = mt.lss := rfl

theorem lss_mark_dirty (mt : mapping_table_t) (e : Option Nat) :
    (mtpc_mark_dirty mt e).lss = mt.lss := by cases e <;> rfl

theorem lss_cache_free_entry (mt : mapping_table_t) (c : mtpc_ref) (e : Nat) :
    (cache_free_entry mt c e).lss = mt.lss := by
  unfold cache_free_entry
  simp only [lss_set_entry, lss_set_cache]

theorem lss_cache_allocate_entry (mt : mapping_table_t) (c : mtpc_ref) :
    (cache_allocate_entry mt c).2.lss = mt.lss := by
  unfold cache_allocate_entry
  split <;> simp only [lss_set_entry, lss_set_cache]

theorem lss_get_page_entry (mt : mapping_table_t) (c : Option mtpc_ref) (s e : Nat) :
    (mtpc_get_page_entry mt c s e).2.lss = mt.lss := by
  unfold mtpc_get_page_entry
  repeat' split
  all_goals simp only [lss_pin]

theorem lss_search (mt : mapping_table_t) (c : mtpc_ref) (l : Nat) :
    (mtpc_search mt c l).2.lss = mt.lss := by
  unfold mtpc_search
  repeat' split
  all_goals simp only [lss_pin, lss_lru_move_to_head]

theorem lss_kr_cache_allocate_entry (mt : mapping_table_t) (c : mtpc_ref)
    (r : Option Nat × mapping_table_t) :
    (cache_allocate_entry mt c = r)
      = (yields (cache_allocate_entry mt c) r ∧ r.2.lss = mt.lss) :=
  keep_val (fun h => by rw [← h, lss_cache_allocate_entry])

theorem lss_kr_unpin (mt : mapping_table_t) (e : Option Nat) (r : Nat × mapping_table_t) :
    (mtpc_unpin mt e = .ok r) = (returns (mtpc_unpin mt e) r ∧ r.2.lss = mt.lss) := by
  apply keep_intro
  intro h
  unfold mtpc_unpin at h
  repeat' split at h
  all_goals try cases h
  all_goals simp only [lss_set_entry]

theorem lss_kr_write_slot (mt : mapping_table_t) (ce : Option Nat) (i v : Nat)
    (r : mapping_table_t) :
    (write_slot mt ce i v = .ok r) = (returns (write_slot mt ce i v) r ∧ r.lss = mt.lss) := by
  apply keep_intro
  intro h
  unfold write_slot at h
  simp only [bind, Except.bind, pure, Except.pure] at h
  repeat' split at h
  all_goals try cases h
  all_goals simp only [lss_set_entry]

theorem lss_kr_take_entry_ownership (mt : mapping_table_t) (ca : mtpc_ref) (ea : Nat)
    (cb : mtpc_ref) (eb : Nat) (r : Int × mapping_table_t) :
    (mtpc_take_entry_ownership mt ca ea cb eb = .ok r)
      = (returns (mtpc_take_entry_ownership mt ca ea cb eb) r ∧ r.2.lss = mt.lss) := by
  apply keep_intro
  intro h
  unfold mtpc_take_entry_ownership at h
  simp only [bind, Except.bind, pure, Except.pure] at h
  repeat' split at h
  all_goals try cases h
  all_goals simp only [lss_cache_free_entry, lss_lru_push_head, lss_set_cache, lss_lru_remove]

theorem lss_kr_insert_finish (mt : mapping_table_t) (c : mtpc_ref) (s e l : Nat)
    (p : Option Nat) (en : Nat) (r : Nat × mapping_table_t) :
    (mtpc_insert_finish mt c s e l p en = .ok r)
      = (returns (mtpc_insert_finish mt c s e l p en) r ∧ r.2.lss = mt.lss) := by
  apply keep_intro
  intro h
  unfold mtpc_insert_finish at h
  simp only [bind, Except.bind, pure, Except.pure] at h
  repeat' split at h
  all_goals try cases h
  all_goals simp only [lss_lru_push_head, lss_set_cache, lss_pin, lss_set_entry]

theorem lss_kr_insert_reuse (mt : mapping_table_t) (c : mtpc_ref) (s e l : Nat)
    (p : Option Nat) (cand : Nat) (r : Nat × mapping_table_t) :
    (mtpc_insert_reuse mt c s e l p cand = .ok r)
      = (returns (mtpc_insert_reuse mt c s e l p cand) r ∧ r.2.lss = mt.lss) := by
  apply keep_intro
  intro h
  unfold mtpc_insert_reuse at h
  simp only [bind, Except.bind, pure, Except.pure] at h
  repeat' split at h
  all_goals try cases h
  all_goals try simp only [lss_kr_unpin, lss_kr_insert_finish] at *
  all_goals simp_all only [lss_set_entry, lss_set_cache, lss_lru_remove, lss_lru_push_head,
    lss_lru_move_to_head, lss_pin, lss_get_page_entry]

theorem lss_kr_acquire_probe (mt : mapping_table_t) (c : mtpc_ref) (s e : Nat)
    (p : Option Nat) (en : Nat) (r : Nat × Bool × mapping_table_t) :
    (mtpc_acquire_probe mt c s e p en = .ok r)
      = (returns (mtpc_acquire_probe mt c s e p en) r ∧ r.2.2.lss = mt.lss) := by
  apply keep_intro
  intro h
  unfold mtpc_acquire_probe at h
  simp only [bind, Except.bind, pure, Except.pure] at h
  repeat' split at h
  all_goals try cases h
  all_goals try simp only [lss_kr_unpin, lss_kr_take_entry_ownership] at *
  all_goals simp_all only [lss_set_entry, lss_set_cache, lss_lru_remove, lss_lru_push_head,
    lss_lru_move_to_head, lss_pin, lss_get_page_entry]

theorem lss_kr_acquire_fill (mt : mapping_table_t) (c : mtpc_ref) (s e sa : Nat)
    (p : Option Nat) (en : Nat) (r : Nat × mapping_table_t) :
    (mtpc_acquire_fill mt c s e sa p en = .ok r)
      = (returns (mtpc_acquire_fill mt c s e sa p en) r ∧ r.2.lss = mt.lss) := by
  apply keep_intro
  intro h
  unfold mtpc_acquire_fill at h
  simp only [bind, Except.bind, pure, Except.pure] at h
  repeat' split at h
  all_goals try cases h
  all_goals try simp only [lss_kr_acquire_probe] at *
  all_goals simp_all only [lss_set_entry, lss_set_cache, lss_lru_remove, lss_lru_push_head,
    lss_lru_move_to_head, lss_pin, lss_get_page_entry]

theorem quiet_head (t : Nat) (l : lss_t) (h : Nat) : quiet t { l with head := h } = quiet t l :=
  rfl

theorem quiet_flash_head (t : Nat) (l : lss_t) (f : flash_t) (h : Nat) :
    quiet t { l with flash := f, head := h } = quiet t l := rfl

theorem quiet_flash_meta (t : Nat) (l : lss_t) (f : flash_t) (m : lss_segment_metadata_t) :
    quiet t { l with flash := f, curr_segment_metadata := m } = quiet t l := rfl

theorem quiet_drained (t : Nat) (l : lss_t) (h : quiet t l) :
    quiet t { l with realloc_list := [] } := by
  refine ⟨?_, List.Pairwise.nil, fun r hr => by cases hr⟩
  exact Nat.lt_of_le_of_lt (Nat.zero_le _) h.1

theorem lss_kr_segment_metadata (t : Nat) (l : lss_t) (off : Nat) (r : Int × lss_t) :
    (lss_write_segment_metadata l off = .ok r)
      = (returns (lss_write_segment_metadata l off) r ∧ quiet t r.2 = quiet t l) := by
  apply keep_intro
  intro h
  unfold lss_write_segment_metadata at h
  simp only at h
  repeat' split at h
  all_goals try cases h
  rfl

theorem quiet_kr_flush_entry (t : Nat) (n : Nat) (ih : quiet_frame t n) (mt : mapping_table_t) (c : mtpc_ref) (entry : Nat) (ct : Bool)
    (r : Int × mapping_table_t) :
    (flush_entry n mt c entry ct = .ok r) = (returns (flush_entry n mt c entry ct) r ∧ (ct = false → quiet t mt.lss → quiet t r.2.lss)) :=
  keep_intro (ih.flush_entry mt c entry ct r)

theorem quiet_kr_mtpc_insert_evict (t : Nat) (n : Nat) (ih : quiet_frame t n) (mt : mapping_table_t) (c : mtpc_ref) (ct : Bool) (cand : Option Nat)
    (r : Nat × mapping_table_t) :
    (mtpc_insert_evict n mt c ct cand = .ok r) = (returns (mtpc_insert_evict n mt c ct cand) r ∧ (ct = false → quiet t mt.lss → quiet t r.2.lss)) :=
  keep_intro (ih.mtpc_insert_evict mt c ct cand r)

theorem quiet_kr_mtpc_insert (t : Nat) (n : Nat) (ih : quiet_frame t n) (mt : mapping_table_t) (c : mtpc_ref) (s e level : Nat) (parent : Option Nat) (ct : Bool)
    (r : Nat × mapping_table_t) :
    (mtpc_insert n mt c s e level parent ct = .ok r) = (returns (mtpc_insert n mt c s e level parent ct) r ∧ (ct = false → quiet t mt.lss → quiet t r.2.lss)) :=
  keep_intro (ih.mtpc_insert mt c s e level parent ct r)

theorem quiet_kr_mtpc_acquire_from_storage (t : Nat) (n : Nat) (ih : quiet_frame t n) (mt : mapping_table_t) (c : mtpc_ref) (s e sa : Nat) (parent : Option Nat) (ct : Bool)
    (r : Nat × mapping_table_t) :
    (mtpc_acquire_from_storage n mt c s e sa parent ct = .ok r) = (returns (mtpc_acquire_from_storage n mt c s e sa parent ct) r ∧ (ct = false → quiet t mt.lss → quiet t r.2.lss)) :=
  keep_intro (ih.mtpc_acquire_from_storage mt c s e sa parent ct r)

theorem quiet_kr_mtpc_flush_all_level (t : Nat) (n : Nat) (ih : quiet_frame t n) (mt : mapping_table_t) (c : mtpc_ref) (ct : Bool) (level i total : Nat)
    (r : Nat × mapping_table_t) :
    (mtpc_flush_all_level n mt c ct level i total = .ok r) = (returns (mtpc_flush_all_level n mt c ct level i total) r ∧ (ct = false → quiet t mt.lss → quiet t r.2.lss)) :=
  keep_intro (ih.mtpc_flush_all_level mt c ct level i total r)

theorem quiet_kr_mtpc_flush_all_levels (t : Nat) (n : Nat) (ih : quiet_frame t n) (mt : mapping_table_t) (c : mtpc_ref) (ct : Bool) (level total : Nat)
    (r : Nat × mapping_table_t) :
    (mtpc_flush_all_levels n mt c ct level total = .ok r) = (returns (mtpc_flush_all_levels n mt c ct level total) r ∧ (ct = false → quiet t mt.lss → quiet t r.2.lss)) :=
  keep_intro (ih.mtpc_flush_all_levels mt c ct level total r)

theorem quiet_kr_mtpc_flush_all (t : Nat) (n : Nat) (ih : quiet_frame t n) (mt : mapping_table_t) (c : mtpc_ref) (ct : Bool)
    (r : Int × mapping_table_t) :
    (mtpc_flush_all n mt c ct = .ok r) = (returns (mtpc_flush_all n mt c ct) r ∧ (ct = false → quiet t mt.lss → quiet t r.2.lss)) :=
  keep_intro (ih.mtpc_flush_all mt c ct r)

theorem quiet_kr_descend_to_parent (t : Nat) (n : Nat) (ih : quiet_frame t n) (mt : mapping_table_t) (bh ba : Nat) (ap : Option (Nat × Nat)) (brs : Nat) (ce : Option Nat) (csr crs : Nat)
    (r : Bool × mapping_table_t) :
    (descend_to_parent n mt bh ba ap brs ce csr crs = .ok r) = (returns (descend_to_parent n mt bh ba ap brs ce csr crs) r ∧ (quiet t mt.lss → quiet t r.2.lss)) :=
  keep_intro (ih.descend_to_parent mt bh ba ap brs ce csr crs r)

theorem quiet_kr_locate_parent (t : Nat) (n : Nat) (ih : quiet_frame t n) (mt : mapping_table_t) (bh ba : Nat) (ap : Option (Nat × Nat))
    (r : Bool × mapping_table_t) :
    (locate_parent n mt bh ba ap = .ok r) = (returns (locate_parent n mt bh ba ap) r ∧ (quiet t mt.lss → quiet t r.2.lss)) :=
  keep_intro (ih.locate_parent mt bh ba ap r)

theorem quiet_kr_is_mt_block_alive (t : Nat) (n : Nat) (ih : quiet_frame t n) (mt : mapping_table_t) (ba bh : Nat)
    (r : Bool × mapping_table_t) :
    (is_mt_block_alive n mt ba bh = .ok r) = (returns (is_mt_block_alive n mt ba bh) r ∧ (quiet t mt.lss → quiet t r.2.lss)) :=
  keep_intro (ih.is_mt_block_alive mt ba bh r)

theorem quiet_kr_apply_reallocate (t : Nat) (n : Nat) (ih : quiet_frame t n) (mt : mapping_table_t) (bh old new : Nat)
    (r : Int × mapping_table_t) :
    (apply_reallocate n mt bh old new = .ok r) = (returns (apply_reallocate n mt bh old new) r ∧ (quiet t mt.lss → quiet t r.2.lss)) :=
  keep_intro (ih.apply_reallocate mt bh old new r)

theorem quiet_kr_lss_realloc_evict_loop (t : Nat) (n : Nat) (ih : quiet_frame t n) (mt : mapping_table_t) (idx : Nat)
    (r : mapping_table_t) :
    (lss_realloc_evict_loop n mt idx = .ok r) = (returns (lss_realloc_evict_loop n mt idx) r ∧ (quiet t mt.lss → quiet t r.lss)) :=
  keep_intro (ih.lss_realloc_evict_loop mt idx r)

theorem quiet_kr_lss_realloc_evict (t : Nat) (n : Nat) (ih : quiet_frame t n) (mt : mapping_table_t) 
    (r : Int × mapping_table_t) :
    (lss_realloc_evict n mt = .ok r) = (returns (lss_realloc_evict n mt) r ∧ (quiet t mt.lss → quiet t r.2.lss)) :=
  keep_intro (ih.lss_realloc_evict mt  r)

theorem quiet_kr_lss_realloc_insert (t : Nat) (n : Nat) (ih : quiet_frame t n) (mt : mapping_table_t) (bh old new : Nat)
    (r : Int × mapping_table_t) :
    (lss_realloc_insert n mt bh old new = .ok r) = (returns (lss_realloc_insert n mt bh old new) r ∧ (True)) :=
  keep_intro (ih.lss_realloc_insert mt bh old new r)

theorem quiet_kr_is_mt_segment_fully_dead_loop (t : Nat) (n : Nat) (ih : quiet_frame t n) (mt : mapping_table_t) (buf : Nat → flash_block_t) (ba bhdr ps np i : Nat)
    (r : Bool × mapping_table_t) :
    (is_mt_segment_fully_dead_loop n mt buf ba bhdr ps np i = .ok r) = (returns (is_mt_segment_fully_dead_loop n mt buf ba bhdr ps np i) r ∧ (quiet t mt.lss → quiet t r.2.lss)) :=
  keep_intro (ih.is_mt_segment_fully_dead_loop mt buf ba bhdr ps np i r)

theorem quiet_kr_is_mt_segment_fully_dead (t : Nat) (n : Nat) (ih : quiet_frame t n) (mt : mapping_table_t) (ba : Nat)
    (r : Bool × mapping_table_t) :
    (is_mt_segment_fully_dead n mt ba = .ok r) = (returns (is_mt_segment_fully_dead n mt ba) r ∧ (quiet t mt.lss → quiet t r.2.lss)) :=
  keep_intro (ih.is_mt_segment_fully_dead mt ba r)

theorem quiet_kr_lss_debug_analyze_loop (t : Nat) (n : Nat) (ih : quiet_frame t n) (mt : mapping_table_t) (bs nb i : Nat)
    (r : mapping_table_t) :
    (lss_debug_analyze_loop n mt bs nb i = .ok r) = (returns (lss_debug_analyze_loop n mt bs nb i) r ∧ (quiet t mt.lss → quiet t r.lss)) :=
  keep_intro (ih.lss_debug_analyze_loop mt bs nb i r)

theorem quiet_kr_lss_debug_analyze (t : Nat) (n : Nat) (ih : quiet_frame t n) (mt : mapping_table_t) 
    (r : Int × mapping_table_t) :
    (lss_debug_analyze n mt = .ok r) = (returns (lss_debug_analyze n mt) r ∧ (quiet t mt.lss → quiet t r.2.lss)) :=
  keep_intro (ih.lss_debug_analyze mt  r)

theorem quiet_kr_lss_clean_tail_block (t : Nat) (n : Nat) (ih : quiet_frame t n) (mt : mapping_table_t) (tail : Nat)
    (r : Int × mapping_table_t) :
    (lss_clean_tail_block n mt tail = .ok r) = (returns (lss_clean_tail_block n mt tail) r ∧ (True)) :=
  keep_intro (ih.lss_clean_tail_block mt tail r)

theorem quiet_kr_lss_write_clean (t : Nat) (n : Nat) (ih : quiet_frame t n) (mt : mapping_table_t) (tries : Nat)
    (r : mapping_table_t) :
    (lss_write_clean n mt tries = .ok r) = (returns (lss_write_clean n mt tries) r ∧ (True)) :=
  keep_intro (ih.lss_write_clean mt tries r)

theorem quiet_kr_lss_write_rotate (t : Nat) (n : Nat) (ih : quiet_frame t n) (mt : mapping_table_t) 
    (r : mapping_table_t) :
    (lss_write_rotate n mt = .ok r) = (returns (lss_write_rotate n mt) r ∧ (quiet t mt.lss → quiet t r.lss)) :=
  keep_intro (ih.lss_write_rotate mt  r)

theorem quiet_kr_lss_write (t : Nat) (n : Nat) (ih : quiet_frame t n) (mt : mapping_table_t) (data : buf_ptr) (len : Nat) (ct : Bool)
    (r : Nat × mapping_table_t) :
    (lss_write n mt data len ct = .ok r) = (returns (lss_write n mt data len ct) r ∧ (ct = false → quiet t mt.lss → quiet t r.2.lss)) :=
  keep_intro (ih.lss_write mt data len ct r)

theorem quiet_step_flush_entry (t : Nat) (n : Nat) (ih : quiet_frame t n) (mt : mapping_table_t) (c : mtpc_ref) (entry : Nat) (ct : Bool)
    (r : Int × mapping_table_t) (h : flush_entry (n + 1) mt c entry ct = .ok r) : ct = false → quiet t mt.lss → quiet t r.2.lss := by
  intros
  all_goals first | rw [flush_entry] at h | rw [flush_entry.eq_def] at h
  all_goals try simp only [bind, Except.bind, pure, Except.pure] at h
  repeat' split at h
  all_goals try cases h
  all_goals try simp only [quiet_kr_flush_entry t n ih, quiet_kr_mtpc_insert_evict t n ih, quiet_kr_mtpc_insert t n ih,
    quiet_kr_mtpc_acquire_from_storage t n ih, quiet_kr_mtpc_flush_all_level t n ih,
    quiet_kr_mtpc_flush_all_levels t n ih, quiet_kr_mtpc_flush_all t n ih,
    quiet_kr_descend_to_parent t n ih, quiet_kr_locate_parent t n ih,
    quiet_kr_is_mt_block_alive t n ih, quiet_kr_apply_reallocate t n ih,
    quiet_kr_lss_realloc_evict_loop t n ih, quiet_kr_lss_realloc_evict t n ih,
    quiet_kr_lss_realloc_insert t n ih, quiet_kr_is_mt_segment_fully_dead_loop t n ih,
    quiet_kr_is_mt_segment_fully_dead t n ih, quiet_kr_lss_debug_analyze_loop t n ih,
    quiet_kr_lss_debug_analyze t n ih, quiet_kr_lss_clean_tail_block t n ih,
    quiet_kr_lss_write_clean t n ih, quiet_kr_lss_write_rotate t n ih, quiet_kr_lss_write t n ih,
    lss_kr_cache_allocate_entry, lss_kr_unpin, lss_kr_write_slot, lss_kr_take_entry_ownership,
    lss_kr_insert_finish, lss_kr_insert_reuse, lss_kr_acquire_fill, lss_kr_segment_metadata t] at *
  all_goals try simp_all only [lss_set_entry, lss_set_cache, lss_lru_remove, lss_lru_push_head, lss_lru_move_to_head,
    lss_pin, lss_mark_dirty, lss_cache_free_entry, lss_cache_allocate_entry, lss_get_page_entry,
    lss_search, quiet_head, quiet_flash_head, quiet_flash_meta, quiet_drained, eq_self_iff_true,
    true_implies, implies_true, forall_const, Bool.true_eq_false, Bool.false_eq_true,
    false_implies, and_true, true_and]
  all_goals repeat' split
  all_goals simp_all only [lss_set_entry, lss_set_cache, lss_lru_remove, lss_lru_push_head, lss_lru_move_to_head,
    lss_pin, lss_mark_dirty, lss_cache_free_entry, lss_cache_allocate_entry, lss_get_page_entry,
    lss_search, quiet_head, quiet_flash_head, quiet_flash_meta, quiet_drained, eq_self_iff_true,
    true_implies, implies_true, forall_const, Bool.true_eq_false, Bool.false_eq_true,
    false_implies, and_true, true_and]

theorem quiet_step_mtpc_insert_evict (t : Nat) (n : Nat) (ih : quiet_frame t n) (mt : mapping_table_t) (c : mtpc_ref) (ct : Bool) (cand : Option Nat)
    (r : Nat × mapping_table_t) (h : mtpc_insert_evict (n + 1) mt c ct cand = .ok r) : ct = false → quiet t mt.lss → quiet t r.2.lss := by
  intros
  cases cand
  all_goals first | rw [mtpc_insert_evict] at h | rw [mtpc_insert_evict.eq_def] at h
  all_goals try simp only [bind, Except.bind, pure, Except.pure] at h
  repeat' split at h
  all_goals try cases h
  all_goals try simp only [quiet_kr_flush_entry t n ih, quiet_kr_mtpc_insert_evict t n ih, quiet_kr_mtpc_insert t n ih,
    quiet_kr_mtpc_acquire_from_storage t n ih, quiet_kr_mtpc_flush_all_level t n ih,
    quiet_kr_mtpc_flush_all_levels t n ih, quiet_kr_mtpc_flush_all t n ih,
    quiet_kr_descend_to_parent t n ih, quiet_kr_locate_parent t n ih,
    quiet_kr_is_mt_block_alive t n ih, quiet_kr_apply_reallocate t n ih,
    quiet_kr_lss_realloc_evict_loop t n ih, quiet_kr_lss_realloc_evict t n ih,
    quiet_kr_lss_realloc_insert t n ih, quiet_kr_is_mt_segment_fully_dead_loop t n ih,
    quiet_kr_is_mt_segment_fully_dead t n ih, quiet_kr_lss_debug_analyze_loop t n ih,
    quiet_kr_lss_debug_analyze t n ih, quiet_kr_lss_clean_tail_block t n ih,
    quiet_kr_lss_write_clean t n ih, quiet_kr_lss_write_rotate t n ih, quiet_kr_lss_write t n ih,
    lss_kr_cache_allocate_entry, lss_kr_unpin, lss_kr_write_slot, lss_kr_take_entry_ownership,
    lss_kr_insert_finish, lss_kr_insert_reuse, lss_kr_acquire_fill, lss_kr_segment_metadata t] at *
  all_goals try simp_all only [lss_set_entry, lss_set_cache, lss_lru_remove, lss_lru_push_head, lss_lru_move_to_head,
    lss_pin, lss_mark_dirty, lss_cache_free_entry, lss_cache_allocate_entry, lss_get_page_entry,
    lss_search, quiet_head, quiet_flash_head, quiet_flash_meta, quiet_drained, eq_self_iff_true,
    true_implies, implies_true, forall_const, Bool.true_eq_false, Bool.false_eq_true,
    false_implies, and_true, true_and]
  all_goals repeat' split
  all_goals simp_all only [lss_set_entry, lss_set_cache, lss_lru_remove, lss_lru_push_head, lss_lru_move_to_head,
    lss_pin, lss_mark_dirty, lss_cache_free_entry, lss_cache_allocate_entry, lss_get_page_entry,
    lss_search, quiet_head, quiet_flash_head, quiet_flash_meta, quiet_drained, eq_self_iff_true,
    true_implies, implies_true, forall_const, Bool.true_eq_false, Bool.false_eq_true,
    false_implies, and_true, true_and]

theorem quiet_step_mtpc_insert (t : Nat) (n : Nat) (ih : quiet_frame t n) (mt : mapping_table_t) (c : mtpc_ref) (s e level : Nat) (parent : Option Nat) (ct : Bool)
    (r : Nat × mapping_table_t) (h : mtpc_insert (n + 1) mt c s e level parent ct = .ok r) : ct = false → quiet t mt.lss → quiet t r.2.lss := by
  intros
  all_goals first | rw [mtpc_insert] at h | rw [mtpc_insert.eq_def] at h
  all_goals try simp only [bind, Except.bind, pure, Except.pure] at h
  repeat' split at h
  all_goals try cases h
  all_goals try simp only [quiet_kr_flush_entry t n ih, quiet_kr_mtpc_insert_evict t n ih, quiet_kr_mtpc_insert t n ih,
    quiet_kr_mtpc_acquire_from_storage t n ih, quiet_kr_mtpc_flush_all_level t n ih,
    quiet_kr_mtpc_flush_all_levels t n ih, quiet_kr_mtpc_flush_all t n ih,
    quiet_kr_descend_to_parent t n ih, quiet_kr_locate_parent t n ih,
    quiet_kr_is_mt_block_alive t n ih, quiet_kr_apply_reallocate t n ih,
    quiet_kr_lss_realloc_evict_loop t n ih, quiet_kr_lss_realloc_evict t n ih,
    quiet_kr_lss_realloc_insert t n ih, quiet_kr_is_mt_segment_fully_dead_loop t n ih,
    quiet_kr_is_mt_segment_fully_dead t n ih, quiet_kr_lss_debug_analyze_loop t n ih,
    quiet_kr_lss_debug_analyze t n ih, quiet_kr_lss_clean_tail_block t n ih,
    quiet_kr_lss_write_clean t n ih, quiet_kr_lss_write_rotate t n ih, quiet_kr_lss_write t n ih,
    lss_kr_cache_allocate_entry, lss_kr_unpin, lss_kr_write_slot, lss_kr_take_entry_ownership,
    lss_kr_insert_finish, lss_kr_insert_reuse, lss_kr_acquire_fill, lss_kr_segment_metadata t] at *
  all_goals try simp_all only [lss_set_entry, lss_set_cache, lss_lru_remove, lss_lru_push_head, lss_lru_move_to_head,
    lss_pin, lss_mark_dirty, lss_cache_free_entry, lss_cache_allocate_entry, lss_get_page_entry,
    lss_search, quiet_head, quiet_flash_head, quiet_flash_meta, quiet_drained, eq_self_iff_true,
    true_implies, implies_true, forall_const, Bool.true_eq_false, Bool.false_eq_true,
    false_implies, and_true, true_and]
  all_goals repeat' split
  all_goals simp_all only [lss_set_entry, lss_set_cache, lss_lru_remove, lss_lru_push_head, lss_lru_move_to_head,
    lss_pin, lss_mark_dirty, lss_cache_free_entry, lss_cache_allocate_entry, lss_get_page_entry,
    lss_search, quiet_head, quiet_flash_head, quiet_flash_meta, quiet_drained, eq_self_iff_true,
    true_implies, implies_true, forall_const, Bool.true_eq_false, Bool.false_eq_true,
    false_implies, and_true, true_and]

theorem quiet_step_mtpc_acquire_from_storage (t : Nat) (n : Nat) (ih : quiet_frame t n) (mt : mapping_table_t) (c : mtpc_ref) (s e sa : Nat) (parent : Option Nat) (ct : Bool)
    (r : Nat × mapping_table_t) (h : mtpc_acquire_from_storage (n + 1) mt c s e sa parent ct = .ok r) : ct = false → quiet t mt.lss → quiet t r.2.lss := by
  intros
  all_goals first | rw [mtpc_acquire_from_storage] at h | rw [mtpc_acquire_from_storage.eq_def] at h
  all_goals try simp only [bind, Except.bind, pure, Except.pure] at h
  repeat' split at h
  all_goals try cases h
  all_goals try simp only [quiet_kr_flush_entry t n ih, quiet_kr_mtpc_insert_evict t n ih, quiet_kr_mtpc_insert t n ih,
    quiet_kr_mtpc_acquire_from_storage t n ih, quiet_kr_mtpc_flush_all_level t n ih,
    quiet_kr_mtpc_flush_all_levels t n ih, quiet_kr_mtpc_flush_all t n ih,
    quiet_kr_descend_to_parent t n ih, quiet_kr_locate_parent t n ih,
    quiet_kr_is_mt_block_alive t n ih, quiet_kr_apply_reallocate t n ih,
    quiet_kr_lss_realloc_evict_loop t n ih, quiet_kr_lss_realloc_evict t n ih,
    quiet_kr_lss_realloc_insert t n ih, quiet_kr_is_mt_segment_fully_dead_loop t n ih,
    quiet_kr_is_mt_segment_fully_dead t n ih, quiet_kr_lss_debug_analyze_loop t n ih,
    quiet_kr_lss_debug_analyze t n ih, quiet_kr_lss_clean_tail_block t n ih,
    quiet_kr_lss_write_clean t n ih, quiet_kr_lss_write_rotate t n ih, quiet_kr_lss_write t n ih,
    lss_kr_cache_allocate_entry, lss_kr_unpin, lss_kr_write_slot, lss_kr_take_entry_ownership,
    lss_kr_insert_finish, lss_kr_insert_reuse, lss_kr_acquire_fill, lss_kr_segment_metadata t] at *
  all_goals try simp_all only [lss_set_entry, lss_set_cache, lss_lru_remove, lss_lru_push_head, lss_lru_move_to_head,
    lss_pin, lss_mark_dirty, lss_cache_free_entry, lss_cache_allocate_entry, lss_get_page_entry,
    lss_search, quiet_head, quiet_flash_head, quiet_flash_meta, quiet_drained, eq_self_iff_true,
    true_implies, implies_true, forall_const, Bool.true_eq_false, Bool.false_eq_true,
    false_implies, and_true, true_and]
  all_goals repeat' split
  all_goals simp_all only [lss_set_entry, lss_set_cache, lss_lru_remove, lss_lru_push_head, lss_lru_move_to_head,
    lss_pin, lss_mark_dirty, lss_cache_free_entry, lss_cache_allocate_entry, lss_get_page_entry,
    lss_search, quiet_head, quiet_flash_head, quiet_flash_meta, quiet_drained, eq_self_iff_true,
    true_implies, implies_true, forall_const, Bool.true_eq_false, Bool.false_eq_true,
    false_implies, and_true, true_and]

theorem quiet_step_mtpc_flush_all_level (t : Nat) (n : Nat) (ih : quiet_frame t n) (mt : mapping_table_t) (c : mtpc_ref) (ct : Bool) (level i total : Nat)
    (r : Nat × mapping_table_t) (h : mtpc_flush_all_level (n + 1) mt c ct level i total = .ok r) : ct = false → quiet t mt.lss → quiet t r.2.lss := by
  intros
  all_goals first | rw [mtpc_flush_all_level] at h | rw [mtpc_flush_all_level.eq_def] at h
  all_goals try simp only [bind, Except.bind, pure, Except.pure] at h
  repeat' split at h
  all_goals try cases h
  all_goals try simp only [quiet_kr_flush_entry t n ih, quiet_kr_mtpc_insert_evict t n ih, quiet_kr_mtpc_insert t n ih,
    quiet_kr_mtpc_acquire_from_storage t n ih, quiet_kr_mtpc_flush_all_level t n ih,
    quiet_kr_mtpc_flush_all_levels t n ih, quiet_kr_mtpc_flush_all t n ih,
    quiet_kr_descend_to_parent t n ih, quiet_kr_locate_parent t n ih,
    quiet_kr_is_mt_block_alive t n ih, quiet_kr_apply_reallocate t n ih,
    quiet_kr_lss_realloc_evict_loop t n ih, quiet_kr_lss_realloc_evict t n ih,
    quiet_kr_lss_realloc_insert t n ih, quiet_kr_is_mt_segment_fully_dead_loop t n ih,
    quiet_kr_is_mt_segment_fully_dead t n ih, quiet_kr_lss_debug_analyze_loop t n ih,
    quiet_kr_lss_debug_analyze t n ih, quiet_kr_lss_clean_tail_block t n ih,
    quiet_kr_lss_write_clean t n ih, quiet_kr_lss_write_rotate t n ih, quiet_kr_lss_write t n ih,
    lss_kr_cache_allocate_entry, lss_kr_unpin, lss_kr_write_slot, lss_kr_take_entry_ownership,
    lss_kr_insert_finish, lss_kr_insert_reuse, lss_kr_acquire_fill, lss_kr_segment_metadata t] at *
  all_goals try simp_all only [lss_set_entry, lss_set_cache, lss_lru_remove, lss_lru_push_head, lss_lru_move_to_head,
    lss_pin, lss_mark_dirty, lss_cache_free_entry, lss_cache_allocate_entry, lss_get_page_entry,
    lss_search, quiet_head, quiet_flash_head, quiet_flash_meta, quiet_drained, eq_self_iff_true,
    true_implies, implies_true, forall_const, Bool.true_eq_false, Bool.false_eq_true,
    false_implies, and_true, true_and]
  all_goals repeat' split
  all_goals simp_all only [lss_set_entry, lss_set_cache, lss_lru_remove, lss_lru_push_head, lss_lru_move_to_head,
    lss_pin, lss_mark_dirty, lss_cache_free_entry, lss_cache_allocate_entry, lss_get_page_entry,
    lss_search, quiet_head, quiet_flash_head, quiet_flash_meta, quiet_drained, eq_self_iff_true,
    true_implies, implies_true, forall_const, Bool.true_eq_false, Bool.false_eq_true,
    false_implies, and_true, true_and]

theorem quiet_step_mtpc_flush_all_levels (t : Nat) (n : Nat) (ih : quiet_frame t n) (mt : mapping_table_t) (c : mtpc_ref) (ct : Bool) (level total : Nat)
    (r : Nat × mapping_table_t) (h : mtpc_flush_all_levels (n + 1) mt c ct level total = .ok r) : ct = false → quiet t mt.lss → quiet t r.2.lss := by
  intros
  all_goals first | rw [mtpc_flush_all_levels] at h | rw [mtpc_flush_all_levels.eq_def] at h
  all_goals try simp only [bind, Except.bind, pure, Except.pure] at h
  repeat' split at h
  all_goals try cases h
  all_goals try simp only [quiet_kr_flush_entry t n ih, quiet_kr_mtpc_insert_evict t n ih, quiet_kr_mtpc_insert t n ih,
    quiet_kr_mtpc_acquire_from_storage t n ih, quiet_kr_mtpc_flush_all_level t n ih,
    quiet_kr_mtpc_flush_all_levels t n ih, quiet_kr_mtpc_flush_all t n ih,
    quiet_kr_descend_to_parent t n ih, quiet_kr_locate_parent t n ih,
    quiet_kr_is_mt_block_alive t n ih, quiet_kr_apply_reallocate t n ih,
    quiet_kr_lss_realloc_evict_loop t n ih, quiet_kr_lss_realloc_evict t n ih,
    quiet_kr_lss_realloc_insert t n ih, quiet_kr_is_mt_segment_fully_dead_loop t n ih,
    quiet_kr_is_mt_segment_fully_dead t n ih, quiet_kr_lss_debug_analyze_loop t n ih,
    quiet_kr_lss_debug_analyze t n ih, quiet_kr_lss_clean_tail_block t n ih,
    quiet_kr_lss_write_clean t n ih, quiet_kr_lss_write_rotate t n ih, quiet_kr_lss_write t n ih,
    lss_kr_cache_allocate_entry, lss_kr_unpin, lss_kr_write_slot, lss_kr_take_entry_ownership,
    lss_kr_insert_finish, lss_kr_insert_reuse, lss_kr_acquire_fill, lss_kr_segment_metadata t] at *
  all_goals try simp_all only [lss_set_entry, lss_set_cache, lss_lru_remove, lss_lru_push_head, lss_lru_move_to_head,
    lss_pin, lss_mark_dirty, lss_cache_free_entry, lss_cache_allocate_entry, lss_get_page_entry,
    lss_search, quiet_head, quiet_flash_head, quiet_flash_meta, quiet_drained, eq_self_iff_true,
    true_implies, implies_true, forall_const, Bool.true_eq_false, Bool.false_eq_true,
    false_implies, and_true, true_and]
  all_goals repeat' split
  all_goals simp_all only [lss_set_entry, lss_set_cache, lss_lru_remove, lss_lru_push_head, lss_lru_move_to_head,
    lss_pin, lss_mark_dirty, lss_cache_free_entry, lss_cache_allocate_entry, lss_get_page_entry,
    lss_search, quiet_head, quiet_flash_head, quiet_flash_meta, quiet_drained, eq_self_iff_true,
    true_implies, implies_true, forall_const, Bool.true_eq_false, Bool.false_eq_true,
    false_implies, and_true, true_and]

theorem quiet_step_mtpc_flush_all (t : Nat) (n : Nat) (ih : quiet_frame t n) (mt : mapping_table_t) (c : mtpc_ref) (ct : Bool)
    (r : Int × mapping_table_t) (h : mtpc_flush_all (n + 1) mt c ct = .ok r) : ct = false → quiet t mt.lss → quiet t r.2.lss := by
  intros
  all_goals first | rw [mtpc_flush_all] at h | rw [mtpc_flush_all.eq_def] at h
  all_goals try simp only [bind, Except.bind, pure, Except.pure] at h
  repeat' split at h
  all_goals try cases h
  all_goals try simp only [quiet_kr_flush_entry t n ih, quiet_kr_mtpc_insert_evict t n ih, quiet_kr_mtpc_insert t n ih,
    quiet_kr_mtpc_acquire_from_storage t n ih, quiet_kr_mtpc_flush_all_level t n ih,
    quiet_kr_mtpc_flush_all_levels t n ih, quiet_kr_mtpc_flush_all t n ih,
    quiet_kr_descend_to_parent t n ih, quiet_kr_locate_parent t n ih,
    quiet_kr_is_mt_block_alive t n ih, quiet_kr_apply_reallocate t n ih,
    quiet_kr_lss_realloc_evict_loop t n ih, quiet_kr_lss_realloc_evict t n ih,
    quiet_kr_lss_realloc_insert t n ih, quiet_kr_is_mt_segment_fully_dead_loop t n ih,
    quiet_kr_is_mt_segment_fully_dead t n ih, quiet_kr_lss_debug_analyze_loop t n ih,
    quiet_kr_lss_debug_analyze t n ih, quiet_kr_lss_clean_tail_block t n ih,
    quiet_kr_lss_write_clean t n ih, quiet_kr_lss_write_rotate t n ih, quiet_kr_lss_write t n ih,
    lss_kr_cache_allocate_entry, lss_kr_unpin, lss_kr_write_slot, lss_kr_take_entry_ownership,
    lss_kr_insert_finish, lss_kr_insert_reuse, lss_kr_acquire_fill, lss_kr_segment_metadata t] at *
  all_goals try simp_all only [lss_set_entry, lss_set_cache, lss_lru_remove, lss_lru_push_head, lss_lru_move_to_head,
    lss_pin, lss_mark_dirty, lss_cache_free_entry, lss_cache_allocate_entry, lss_get_page_entry,
    lss_search, quiet_head, quiet_flash_head, quiet_flash_meta, quiet_drained, eq_self_iff_true,
    true_implies, implies_true, forall_const, Bool.true_eq_false, Bool.false_eq_true,
    false_implies, and_true, true_and]
  all_goals repeat' split
  all_goals simp_all only [lss_set_entry, lss_set_cache, lss_lru_remove, lss_lru_push_head, lss_lru_move_to_head,
    lss_pin, lss_mark_dirty, lss_cache_free_entry, lss_cache_allocate_entry, lss_get_page_entry,
    lss_search, quiet_head, quiet_flash_head, quiet_flash_meta, quiet_drained, eq_self_iff_true,
    true_implies, implies_true, forall_const, Bool.true_eq_false, Bool.false_eq_true,
    false_implies, and_true, true_and]

theorem quiet_step_descend_to_parent (t : Nat) (n : Nat) (ih : quiet_frame t n) (mt : mapping_table_t) (bh ba : Nat) (ap : Option (Nat × Nat)) (brs : Nat) (ce : Option Nat) (csr crs : Nat)
    (r : Bool × mapping_table_t) (h : descend_to_parent (n + 1) mt bh ba ap brs ce csr crs = .ok r) : quiet t mt.lss → quiet t r.2.lss := by
  intros
  all_goals first | rw [descend_to_parent] at h | rw [descend_to_parent.eq_def] at h
  all_goals try simp only [bind, Except.bind, pure, Except.pure] at h
  repeat' split at h
  all_goals try cases h
  all_goals try simp only [quiet_kr_flush_entry t n ih, quiet_kr_mtpc_insert_evict t n ih, quiet_kr_mtpc_insert t n ih,
    quiet_kr_mtpc_acquire_from_storage t n ih, quiet_kr_mtpc_flush_all_level t n ih,
    quiet_kr_mtpc_flush_all_levels t n ih, quiet_kr_mtpc_flush_all t n ih,
    quiet_kr_descend_to_parent t n ih, quiet_kr_locate_parent t n ih,
    quiet_kr_is_mt_block_alive t n ih, quiet_kr_apply_reallocate t n ih,
    quiet_kr_lss_realloc_evict_loop t n ih, quiet_kr_lss_realloc_evict t n ih,
    quiet_kr_lss_realloc_insert t n ih, quiet_kr_is_mt_segment_fully_dead_loop t n ih,
    quiet_kr_is_mt_segment_fully_dead t n ih, quiet_kr_lss_debug_analyze_loop t n ih,
    quiet_kr_lss_debug_analyze t n ih, quiet_kr_lss_clean_tail_block t n ih,
    quiet_kr_lss_write_clean t n ih, quiet_kr_lss_write_rotate t n ih, quiet_kr_lss_write t n ih,
    lss_kr_cache_allocate_entry, lss_kr_unpin, lss_kr_write_slot, lss_kr_take_entry_ownership,
    lss_kr_insert_finish, lss_kr_insert_reuse, lss_kr_acquire_fill, lss_kr_segment_metadata t] at *
  all_goals try simp_all only [lss_set_entry, lss_set_cache, lss_lru_remove, lss_lru_push_head, lss_lru_move_to_head,
    lss_pin, lss_mark_dirty, lss_cache_free_entry, lss_cache_allocate_entry, lss_get_page_entry,
    lss_search, quiet_head, quiet_flash_head, quiet_flash_meta, quiet_drained, eq_self_iff_true,
    true_implies, implies_true, forall_const, Bool.true_eq_false, Bool.false_eq_true,
    false_implies, and_true, true_and]
  all_goals repeat' split
  all_goals simp_all only [lss_set_entry, lss_set_cache, lss_lru_remove, lss_lru_push_head, lss_lru_move_to_head,
    lss_pin, lss_mark_dirty, lss_cache_free_entry, lss_cache_allocate_entry, lss_get_page_entry,
    lss_search, quiet_head, quiet_flash_head, quiet_flash_meta, quiet_drained, eq_self_iff_true,
    true_implies, implies_true, forall_const, Bool.true_eq_false, Bool.false_eq_true,
    false_implies, and_true, true_and]

theorem quiet_step_locate_parent (t : Nat) (n : Nat) (ih : quiet_frame t n) (mt : mapping_table_t) (bh ba : Nat) (ap : Option (Nat × Nat))
    (r : Bool × mapping_table_t) (h : locate_parent (n + 1) mt bh ba ap = .ok r) : quiet t mt.lss → quiet t r.2.lss := by
  intros
  all_goals first | rw [locate_parent] at h | rw [locate_parent.eq_def] at h
  all_goals try simp only [bind, Except.bind, pure, Except.pure] at h
  repeat' split at h
  all_goals try cases h
  all_goals try simp only [quiet_kr_flush_entry t n ih, quiet_kr_mtpc_insert_evict t n ih, quiet_kr_mtpc_insert t n ih,
    quiet_kr_mtpc_acquire_from_storage t n ih, quiet_kr_mtpc_flush_all_level t n ih,
    quiet_kr_mtpc_flush_all_levels t n ih, quiet_kr_mtpc_flush_all t n ih,
    quiet_kr_descend_to_parent t n ih, quiet_kr_locate_parent t n ih,
    quiet_kr_is_mt_block_alive t n ih, quiet_kr_apply_reallocate t n ih,
    quiet_kr_lss_realloc_evict_loop t n ih, quiet_kr_lss_realloc_evict t n ih,
    quiet_kr_lss_realloc_insert t n ih, quiet_kr_is_mt_segment_fully_dead_loop t n ih,
    quiet_kr_is_mt_segment_fully_dead t n ih, quiet_kr_lss_debug_analyze_loop t n ih,
    quiet_kr_lss_debug_analyze t n ih, quiet_kr_lss_clean_tail_block t n ih,
    quiet_kr_lss_write_clean t n ih, quiet_kr_lss_write_rotate t n ih, quiet_kr_lss_write t n ih,
    lss_kr_cache_allocate_entry, lss_kr_unpin, lss_kr_write_slot, lss_kr_take_entry_ownership,
    lss_kr_insert_finish, lss_kr_insert_reuse, lss_kr_acquire_fill, lss_kr_segment_metadata t] at *
  all_goals try simp_all only [lss_set_entry, lss_set_cache, lss_lru_remove, lss_lru_push_head, lss_lru_move_to_head,
    lss_pin, lss_mark_dirty, lss_cache_free_entry, lss_cache_allocate_entry, lss_get_page_entry,
    lss_search, quiet_head, quiet_flash_head, quiet_flash_meta, quiet_drained, eq_self_iff_true,
    true_implies, implies_true, forall_const, Bool.true_eq_false, Bool.false_eq_true,
    false_implies, and_true, true_and]
  all_goals repeat' split
  all_goals simp_all only [lss_set_entry, lss_set_cache, lss_lru_remove, lss_lru_push_head, lss_lru_move_to_head,
    lss_pin, lss_mark_dirty, lss_cache_free_entry, lss_cache_allocate_entry, lss_get_page_entry,
    lss_search, quiet_head, quiet_flash_head, quiet_flash_meta, quiet_drained, eq_self_iff_true,
    true_implies, implies_true, forall_const, Bool.true_eq_false, Bool.false_eq_true,
    false_implies, and_true, true_and]

theorem quiet_step_is_mt_block_alive (t : Nat) (n : Nat) (ih : quiet_frame t n) (mt : mapping_table_t) (ba bh : Nat)
    (r : Bool × mapping_table_t) (h : is_mt_block_alive (n + 1) mt ba bh = .ok r) : quiet t mt.lss → quiet t r.2.lss := by
  intros
  all_goals first | rw [is_mt_block_alive] at h | rw [is_mt_block_alive.eq_def] at h
  all_goals try simp only [bind, Except.bind, pure, Except.pure] at h
  repeat' split at h
  all_goals try cases h
  all_goals try simp only [quiet_kr_flush_entry t n ih, quiet_kr_mtpc_insert_evict t n ih, quiet_kr_mtpc_insert t n ih,
    quiet_kr_mtpc_acquire_from_storage t n ih, quiet_kr_mtpc_flush_all_level t n ih,
    quiet_kr_mtpc_flush_all_levels t n ih, quiet_kr_mtpc_flush_all t n ih,
    quiet_kr_descend_to_parent t n ih, quiet_kr_locate_parent t n ih,
    quiet_kr_is_mt_block_alive t n ih, quiet_kr_apply_reallocate t n ih,
    quiet_kr_lss_realloc_evict_loop t n ih, quiet_kr_lss_realloc_evict t n ih,
    quiet_kr_lss_realloc_insert t n ih, quiet_kr_is_mt_segment_fully_dead_loop t n ih,
    quiet_kr_is_mt_segment_fully_dead t n ih, quiet_kr_lss_debug_analyze_loop t n ih,
    quiet_kr_lss_debug_analyze t n ih, quiet_kr_lss_clean_tail_block t n ih,
    quiet_kr_lss_write_clean t n ih, quiet_kr_lss_write_rotate t n ih, quiet_kr_lss_write t n ih,
    lss_kr_cache_allocate_entry, lss_kr_unpin, lss_kr_write_slot, lss_kr_take_entry_ownership,
    lss_kr_insert_finish, lss_kr_insert_reuse, lss_kr_acquire_fill, lss_kr_segment_metadata t] at *
  all_goals try simp_all only [lss_set_entry, lss_set_cache, lss_lru_remove, lss_lru_push_head, lss_lru_move_to_head,
    lss_pin, lss_mark_dirty, lss_cache_free_entry, lss_cache_allocate_entry, lss_get_page_entry,
    lss_search, quiet_head, quiet_flash_head, quiet_flash_meta, quiet_drained, eq_self_iff_true,
    true_implies, implies_true, forall_const, Bool.true_eq_false, Bool.false_eq_true,
    false_implies, and_true, true_and]
  all_goals repeat' split
  all_goals simp_all only [lss_set_entry, lss_set_cache, lss_lru_remove, lss_lru_push_head, lss_lru_move_to_head,
    lss_pin, lss_mark_dirty, lss_cache_free_entry, lss_cache_allocate_entry, lss_get_page_entry,
    lss_search, quiet_head, quiet_flash_head, quiet_flash_meta, quiet_drained, eq_self_iff_true,
    true_implies, implies_true, forall_const, Bool.true_eq_false, Bool.false_eq_true,
    false_implies, and_true, true_and]

theorem quiet_step_apply_reallocate (t : Nat) (n : Nat) (ih : quiet_frame t n) (mt : mapping_table_t) (bh old new : Nat)
    (r : Int × mapping_table_t) (h : apply_reallocate (n + 1) mt bh old new = .ok r) : quiet t mt.lss → quiet t r.2.lss := by
  intros
  all_goals first | rw [apply_reallocate] at h | rw [apply_reallocate.eq_def] at h
  all_goals try simp only [bind, Except.bind, pure, Except.pure] at h
  repeat' split at h
  all_goals try cases h
  all_goals try simp only [quiet_kr_flush_entry t n ih, quiet_kr_mtpc_insert_evict t n ih, quiet_kr_mtpc_insert t n ih,
    quiet_kr_mtpc_acquire_from_storage t n ih, quiet_kr_mtpc_flush_all_level t n ih,
    quiet_kr_mtpc_flush_all_levels t n ih, quiet_kr_mtpc_flush_all t n ih,
    quiet_kr_descend_to_parent t n ih, quiet_kr_locate_parent t n ih,
    quiet_kr_is_mt_block_alive t n ih, quiet_kr_apply_reallocate t n ih,
    quiet_kr_lss_realloc_evict_loop t n ih, quiet_kr_lss_realloc_evict t n ih,
    quiet_kr_lss_realloc_insert t n ih, quiet_kr_is_mt_segment_fully_dead_loop t n ih,
    quiet_kr_is_mt_segment_fully_dead t n ih, quiet_kr_lss_debug_analyze_loop t n ih,
    quiet_kr_lss_debug_analyze t n ih, quiet_kr_lss_clean_tail_block t n ih,
    quiet_kr_lss_write_clean t n ih, quiet_kr_lss_write_rotate t n ih, quiet_kr_lss_write t n ih,
    lss_kr_cache_allocate_entry, lss_kr_unpin, lss_kr_write_slot, lss_kr_take_entry_ownership,
    lss_kr_insert_finish, lss_kr_insert_reuse, lss_kr_acquire_fill, lss_kr_segment_metadata t] at *
  all_goals try simp_all only [lss_set_entry, lss_set_cache, lss_lru_remove, lss_lru_push_head, lss_lru_move_to_head,
    lss_pin, lss_mark_dirty, lss_cache_free_entry, lss_cache_allocate_entry, lss_get_page_entry,
    lss_search, quiet_head, quiet_flash_head, quiet_flash_meta, quiet_drained, eq_self_iff_true,
    true_implies, implies_true, forall_const, Bool.true_eq_false, Bool.false_eq_true,
    false_implies, and_true, true_and]
  all_goals repeat' split
  all_goals simp_all only [lss_set_entry, lss_set_cache, lss_lru_remove, lss_lru_push_head, lss_lru_move_to_head,
    lss_pin, lss_mark_dirty, lss_cache_free_entry, lss_cache_allocate_entry, lss_get_page_entry,
    lss_search, quiet_head, quiet_flash_head, quiet_flash_meta, quiet_drained, eq_self_iff_true,
    true_implies, implies_true, forall_const, Bool.true_eq_false, Bool.false_eq_true,
    false_implies, and_true, true_and]

theorem quiet_step_lss_realloc_evict_loop (t : Nat) (n : Nat) (ih : quiet_frame t n) (mt : mapping_table_t) (idx : Nat)
    (r : mapping_table_t) (h : lss_realloc_evict_loop (n + 1) mt idx = .ok r) : quiet t mt.lss → quiet t r.lss := by
  intros
  all_goals first | rw [lss_realloc_evict_loop] at h | rw [lss_realloc_evict_loop.eq_def] at h
  all_goals try simp only [bind, Except.bind, pure, Except.pure] at h
  repeat' split at h
  all_goals try cases h
  all_goals try simp only [quiet_kr_flush_entry t n ih, quiet_kr_mtpc_insert_evict t n ih, quiet_kr_mtpc_insert t n ih,
    quiet_kr_mtpc_acquire_from_storage t n ih, quiet_kr_mtpc_flush_all_level t n ih,
    quiet_kr_mtpc_flush_all_levels t n ih, quiet_kr_mtpc_flush_all t n ih,
    quiet_kr_descend_to_parent t n ih, quiet_kr_locate_parent t n ih,
    quiet_kr_is_mt_block_alive t n ih, quiet_kr_apply_reallocate t n ih,
    quiet_kr_lss_realloc_evict_loop t n ih, quiet_kr_lss_realloc_evict t n ih,
    quiet_kr_lss_realloc_insert t n ih, quiet_kr_is_mt_segment_fully_dead_loop t n ih,
    quiet_kr_is_mt_segment_fully_dead t n ih, quiet_kr_lss_debug_analyze_loop t n ih,
    quiet_kr_lss_debug_analyze t n ih, quiet_kr_lss_clean_tail_block t n ih,
    quiet_kr_lss_write_clean t n ih, quiet_kr_lss_write_rotate t n ih, quiet_kr_lss_write t n ih,
    lss_kr_cache_allocate_entry, lss_kr_unpin, lss_kr_write_slot, lss_kr_take_entry_ownership,
    lss_kr_insert_finish, lss_kr_insert_reuse, lss_kr_acquire_fill, lss_kr_segment_metadata t] at *
  all_goals try simp_all only [lss_set_entry, lss_set_cache, lss_lru_remove, lss_lru_push_head, lss_lru_move_to_head,
    lss_pin, lss_mark_dirty, lss_cache_free_entry, lss_cache_allocate_entry, lss_get_page_entry,
    lss_search, quiet_head, quiet_flash_head, quiet_flash_meta, quiet_drained, eq_self_iff_true,
    true_implies, implies_true, forall_const, Bool.true_eq_false, Bool.false_eq_true,
    false_implies, and_true, true_and]
  all_goals repeat' split
  all_goals simp_all only [lss_set_entry, lss_set_cache, lss_lru_remove, lss_lru_push_head, lss_lru_move_to_head,
    lss_pin, lss_mark_dirty, lss_cache_free_entry, lss_cache_allocate_entry, lss_get_page_entry,
    lss_search, quiet_head, quiet_flash_head, quiet_flash_meta, quiet_drained, eq_self_iff_true,
    true_implies, implies_true, forall_const, Bool.true_eq_false, Bool.false_eq_true,
    false_implies, and_true, true_and]

theorem quiet_step_lss_realloc_evict (t : Nat) (n : Nat) (ih : quiet_frame t n) (mt : mapping_table_t) 
    (r : Int × mapping_table_t) (h : lss_realloc_evict (n + 1) mt = .ok r) : quiet t mt.lss → quiet t r.2.lss := by
  intros
  all_goals first | rw [lss_realloc_evict] at h | rw [lss_realloc_evict.eq_def] at h
  all_goals try simp only [bind, Except.bind, pure, Except.pure] at h
  repeat' split at h
  all_goals try cases h
  all_goals try simp only [quiet_kr_flush_entry t n ih, quiet_kr_mtpc_insert_evict t n ih, quiet_kr_mtpc_insert t n ih,
    quiet_kr_mtpc_acquire_from_storage t n ih, quiet_kr_mtpc_flush_all_level t n ih,
    quiet_kr_mtpc_flush_all_levels t n ih, quiet_kr_mtpc_flush_all t n ih,
    quiet_kr_descend_to_parent t n ih, quiet_kr_locate_parent t n ih,
    quiet_kr_is_mt_block_alive t n ih, quiet_kr_apply_reallocate t n ih,
    quiet_kr_lss_realloc_evict_loop t n ih, quiet_kr_lss_realloc_evict t n ih,
    quiet_kr_lss_realloc_insert t n ih, quiet_kr_is_mt_segment_fully_dead_loop t n ih,
    quiet_kr_is_mt_segment_fully_dead t n ih, quiet_kr_lss_debug_analyze_loop t n ih,
    quiet_kr_lss_debug_analyze t n ih, quiet_kr_lss_clean_tail_block t n ih,
    quiet_kr_lss_write_clean t n ih, quiet_kr_lss_write_rotate t n ih, quiet_kr_lss_write t n ih,
    lss_kr_cache_allocate_entry, lss_kr_unpin, lss_kr_write_slot, lss_kr_take_entry_ownership,
    lss_kr_insert_finish, lss_kr_insert_reuse, lss_kr_acquire_fill, lss_kr_segment_metadata t] at *
  all_goals try simp_all only [lss_set_entry, lss_set_cache, lss_lru_remove, lss_lru_push_head, lss_lru_move_to_head,
    lss_pin, lss_mark_dirty, lss_cache_free_entry, lss_cache_allocate_entry, lss_get_page_entry,
    lss_search, quiet_head, quiet_flash_head, quiet_flash_meta, quiet_drained, eq_self_iff_true,
    true_implies, implies_true, forall_const, Bool.true_eq_false, Bool.false_eq_true,
    false_implies, and_true, true_and]
  all_goals repeat' split
  all_goals simp_all only [lss_set_entry, lss_set_cache, lss_lru_remove, lss_lru_push_head, lss_lru_move_to_head,
    lss_pin, lss_mark_dirty, lss_cache_free_entry, lss_cache_allocate_entry, lss_get_page_entry,
    lss_search, quiet_head, quiet_flash_head, quiet_flash_meta, quiet_drained, eq_self_iff_true,
    true_implies, implies_true, forall_const, Bool.true_eq_false, Bool.false_eq_true,
    false_implies, and_true, true_and]

theorem quiet_step_lss_realloc_insert (t : Nat) (n : Nat) (ih : quiet_frame t n) (mt : mapping_table_t) (bh old new : Nat)
    (r : Int × mapping_table_t) (h : lss_realloc_insert (n + 1) mt bh old new = .ok r) : True := by
  intros
  all_goals first | rw [lss_realloc_insert] at h | rw [lss_realloc_insert.eq_def] at h
  all_goals try simp only [bind, Except.bind, pure, Except.pure] at h
  repeat' split at h
  all_goals try cases h
  all_goals try simp only [quiet_kr_flush_entry t n ih, quiet_kr_mtpc_insert_evict t n ih, quiet_kr_mtpc_insert t n ih,
    quiet_kr_mtpc_acquire_from_storage t n ih, quiet_kr_mtpc_flush_all_level t n ih,
    quiet_kr_mtpc_flush_all_levels t n ih, quiet_kr_mtpc_flush_all t n ih,
    quiet_kr_descend_to_parent t n ih, quiet_kr_locate_parent t n ih,
    quiet_kr_is_mt_block_alive t n ih, quiet_kr_apply_reallocate t n ih,
    quiet_kr_lss_realloc_evict_loop t n ih, quiet_kr_lss_realloc_evict t n ih,
    quiet_kr_lss_realloc_insert t n ih, quiet_kr_is_mt_segment_fully_dead_loop t n ih,
    quiet_kr_is_mt_segment_fully_dead t n ih, quiet_kr_lss_debug_analyze_loop t n ih,
    quiet_kr_lss_debug_analyze t n ih, quiet_kr_lss_clean_tail_block t n ih,
    quiet_kr_lss_write_clean t n ih, quiet_kr_lss_write_rotate t n ih, quiet_kr_lss_write t n ih,
    lss_kr_cache_allocate_entry, lss_kr_unpin, lss_kr_write_slot, lss_kr_take_entry_ownership,
    lss_kr_insert_finish, lss_kr_insert_reuse, lss_kr_acquire_fill, lss_kr_segment_metadata t] at *
  all_goals try simp_all only [lss_set_entry, lss_set_cache, lss_lru_remove, lss_lru_push_head, lss_lru_move_to_head,
    lss_pin, lss_mark_dirty, lss_cache_free_entry, lss_cache_allocate_entry, lss_get_page_entry,
    lss_search, quiet_head, quiet_flash_head, quiet_flash_meta, quiet_drained, eq_self_iff_true,
    true_implies, implies_true, forall_const, Bool.true_eq_false, Bool.false_eq_true,
    false_implies, and_true, true_and]
  all_goals repeat' split
  all_goals simp_all only [lss_set_entry, lss_set_cache, lss_lru_remove, lss_lru_push_head, lss_lru_move_to_head,
    lss_pin, lss_mark_dirty, lss_cache_free_entry, lss_cache_allocate_entry, lss_get_page_entry,
    lss_search, quiet_head, quiet_flash_head, quiet_flash_meta, quiet_drained, eq_self_iff_true,
    true_implies, implies_true, forall_const, Bool.true_eq_false, Bool.false_eq_true,
    false_implies, and_true, true_and]

theorem quiet_step_is_mt_segment_fully_dead_loop (t : Nat) (n : Nat) (ih : quiet_frame t n) (mt : mapping_table_t) (buf : Nat → flash_block_t) (ba bhdr ps np i : Nat)
    (r : Bool × mapping_table_t) (h : is_mt_segment_fully_dead_loop (n + 1) mt buf ba bhdr ps np i = .ok r) : quiet t mt.lss → quiet t r.2.lss := by
  intros
  all_goals first | rw [is_mt_segment_fully_dead_loop] at h | rw [is_mt_segment_fully_dead_loop.eq_def] at h
  all_goals try simp only [bind, Except.bind, pure, Except.pure] at h
  repeat' split at h
  all_goals try cases h
  all_goals try simp only [quiet_kr_flush_entry t n ih, quiet_kr_mtpc_insert_evict t n ih, quiet_kr_mtpc_insert t n ih,
    quiet_kr_mtpc_acquire_from_storage t n ih, quiet_kr_mtpc_flush_all_level t n ih,
    quiet_kr_mtpc_flush_all_levels t n ih, quiet_kr_mtpc_flush_all t n ih,
    quiet_kr_descend_to_parent t n ih, quiet_kr_locate_parent t n ih,
    quiet_kr_is_mt_block_alive t n ih, quiet_kr_apply_reallocate t n ih,
    quiet_kr_lss_realloc_evict_loop t n ih, quiet_kr_lss_realloc_evict t n ih,
    quiet_kr_lss_realloc_insert t n ih, quiet_kr_is_mt_segment_fully_dead_loop t n ih,
    quiet_kr_is_mt_segment_fully_dead t n ih, quiet_kr_lss_debug_analyze_loop t n ih,
    quiet_kr_lss_debug_analyze t n ih, quiet_kr_lss_clean_tail_block t n ih,
    quiet_kr_lss_write_clean t n ih, quiet_kr_lss_write_rotate t n ih, quiet_kr_lss_write t n ih,
    lss_kr_cache_allocate_entry, lss_kr_unpin, lss_kr_write_slot, lss_kr_take_entry_ownership,
    lss_kr_insert_finish, lss_kr_insert_reuse, lss_kr_acquire_fill, lss_kr_segment_metadata t] at *
  all_goals try simp_all only [lss_set_entry, lss_set_cache, lss_lru_remove, lss_lru_push_head, lss_lru_move_to_head,
    lss_pin, lss_mark_dirty, lss_cache_free_entry, lss_cache_allocate_entry, lss_get_page_entry,
    lss_search, quiet_head, quiet_flash_head, quiet_flash_meta, quiet_drained, eq_self_iff_true,
    true_implies, implies_true, forall_const, Bool.true_eq_false, Bool.false_eq_true,
    false_implies, and_true, true_and]
  all_goals repeat' split
  all_goals simp_all only [lss_set_entry, lss_set_cache, lss_lru_remove, lss_lru_push_head, lss_lru_move_to_head,
    lss_pin, lss_mark_dirty, lss_cache_free_entry, lss_cache_allocate_entry, lss_get_page_entry,
    lss_search, quiet_head, quiet_flash_head, quiet_flash_meta, quiet_drained, eq_self_iff_true,
    true_implies, implies_true, forall_const, Bool.true_eq_false, Bool.false_eq_true,
    false_implies, and_true, true_and]

theorem quiet_step_is_mt_segment_fully_dead (t : Nat) (n : Nat) (ih : quiet_frame t n) (mt : mapping_table_t) (ba : Nat)
    (r : Bool × mapping_table_t) (h : is_mt_segment_fully_dead (n + 1) mt ba = .ok r) : quiet t mt.lss → quiet t r.2.lss := by
  intros
  all_goals first | rw [is_mt_segment_fully_dead] at h | rw [is_mt_segment_fully_dead.eq_def] at h
  all_goals try simp only [bind, Except.bind, pure, Except.pure] at h
  repeat' split at h
  all_goals try cases h
  all_goals try simp only [quiet_kr_flush_entry t n ih, quiet_kr_mtpc_insert_evict t n ih, quiet_kr_mtpc_insert t n ih,
    quiet_kr_mtpc_acquire_from_storage t n ih, quiet_kr_mtpc_flush_all_level t n ih,
    quiet_kr_mtpc_flush_all_levels t n ih, quiet_kr_mtpc_flush_all t n ih,
    quiet_kr_descend_to_parent t n ih, quiet_kr_locate_parent t n ih,
    quiet_kr_is_mt_block_alive t n ih, quiet_kr_apply_reallocate t n ih,
    quiet_kr_lss_realloc_evict_loop t n ih, quiet_kr_lss_realloc_evict t n ih,
    quiet_kr_lss_realloc_insert t n ih, quiet_kr_is_mt_segment_fully_dead_loop t n ih,
    quiet_kr_is_mt_segment_fully_dead t n ih, quiet_kr_lss_debug_analyze_loop t n ih,
    quiet_kr_lss_debug_analyze t n ih, quiet_kr_lss_clean_tail_block t n ih,
    quiet_kr_lss_write_clean t n ih, quiet_kr_lss_write_rotate t n ih, quiet_kr_lss_write t n ih,
    lss_kr_cache_allocate_entry, lss_kr_unpin, lss_kr_write_slot, lss_kr_take_entry_ownership,
    lss_kr_insert_finish, lss_kr_insert_reuse, lss_kr_acquire_fill, lss_kr_segment_metadata t] at *
  all_goals try simp_all only [lss_set_entry, lss_set_cache, lss_lru_remove, lss_lru_push_head, lss_lru_move_to_head,
    lss_pin, lss_mark_dirty, lss_cache_free_entry, lss_cache_allocate_entry, lss_get_page_entry,
    lss_search, quiet_head, quiet_flash_head, quiet_flash_meta, quiet_drained, eq_self_iff_true,
    true_implies, implies_true, forall_const, Bool.true_eq_false, Bool.false_eq_true,
    false_implies, and_true, true_and]
  all_goals repeat' split
  all_goals simp_all only [lss_set_entry, lss_set_cache, lss_lru_remove, lss_lru_push_head, lss_lru_move_to_head,
    lss_pin, lss_mark_dirty, lss_cache_free_entry, lss_cache_allocate_entry, lss_get_page_entry,
    lss_search, quiet_head, quiet_flash_head, quiet_flash_meta, quiet_drained, eq_self_iff_true,
    true_implies, implies_true, forall_const, Bool.true_eq_false, Bool.false_eq_true,
    false_implies, and_true, true_and]

theorem quiet_step_lss_debug_analyze_loop (t : Nat) (n : Nat) (ih : quiet_frame t n) (mt : mapping_table_t) (bs nb i : Nat)
    (r : mapping_table_t) (h : lss_debug_analyze_loop (n + 1) mt bs nb i = .ok r) : quiet t mt.lss → quiet t r.lss := by
  intros
  all_goals first | rw [lss_debug_analyze_loop] at h | rw [lss_debug_analyze_loop.eq_def] at h
  all_goals try simp only [bind, Except.bind, pure, Except.pure] at h
  repeat' split at h
  all_goals try cases h
  all_goals try simp only [quiet_kr_flush_entry t n ih, quiet_kr_mtpc_insert_evict t n ih, quiet_kr_mtpc_insert t n ih,
    quiet_kr_mtpc_acquire_from_storage t n ih, quiet_kr_mtpc_flush_all_level t n ih,
    quiet_kr_mtpc_flush_all_levels t n ih, quiet_kr_mtpc_flush_all t n ih,
    quiet_kr_descend_to_parent t n ih, quiet_kr_locate_parent t n ih,
    quiet_kr_is_mt_block_alive t n ih, quiet_kr_apply_reallocate t n ih,
    quiet_kr_lss_realloc_evict_loop t n ih, quiet_kr_lss_realloc_evict t n ih,
    quiet_kr_lss_realloc_insert t n ih, quiet_kr_is_mt_segment_fully_dead_loop t n ih,
    quiet_kr_is_mt_segment_fully_dead t n ih, quiet_kr_lss_debug_analyze_loop t n ih,
    quiet_kr_lss_debug_analyze t n ih, quiet_kr_lss_clean_tail_block t n ih,
    quiet_kr_lss_write_clean t n ih, quiet_kr_lss_write_rotate t n ih, quiet_kr_lss_write t n ih,
    lss_kr_cache_allocate_entry, lss_kr_unpin, lss_kr_write_slot, lss_kr_take_entry_ownership,
    lss_kr_insert_finish, lss_kr_insert_reuse, lss_kr_acquire_fill, lss_kr_segment_metadata t] at *
  all_goals try simp_all only [lss_set_entry, lss_set_cache, lss_lru_remove, lss_lru_push_head, lss_lru_move_to_head,
    lss_pin, lss_mark_dirty, lss_cache_free_entry, lss_cache_allocate_entry, lss_get_page_entry,
    lss_search, quiet_head, quiet_flash_head, quiet_flash_meta, quiet_drained, eq_self_iff_true,
    true_implies, implies_true, forall_const, Bool.true_eq_false, Bool.false_eq_true,
    false_implies, and_true, true_and]
  all_goals repeat' split
  all_goals simp_all only [lss_set_entry, lss_set_cache, lss_lru_remove, lss_lru_push_head, lss_lru_move_to_head,
    lss_pin, lss_mark_dirty, lss_cache_free_entry, lss_cache_allocate_entry, lss_get_page_entry,
    lss_search, quiet_head, quiet_flash_head, quiet_flash_meta, quiet_drained, eq_self_iff_true,
    true_implies, implies_true, forall_const, Bool.true_eq_false, Bool.false_eq_true,
    false_implies, and_true, true_and]

theorem quiet_step_lss_debug_analyze (t : Nat) (n : Nat) (ih : quiet_frame t n) (mt : mapping_table_t) 
    (r : Int × mapping_table_t) (h : lss_debug_analyze (n + 1) mt = .ok r) : quiet t mt.lss → quiet t r.2.lss := by
  intros
  all_goals first | rw [lss_debug_analyze] at h | rw [lss_debug_analyze.eq_def] at h
  all_goals try simp only [bind, Except.bind, pure, Except.pure] at h
  repeat' split at h
  all_goals try cases h
  all_goals try simp only [quiet_kr_flush_entry t n ih, quiet_kr_mtpc_insert_evict t n ih, quiet_kr_mtpc_insert t n ih,
    quiet_kr_mtpc_acquire_from_storage t n ih, quiet_kr_mtpc_flush_all_level t n ih,
    quiet_kr_mtpc_flush_all_levels t n ih, quiet_kr_mtpc_flush_all t n ih,
    quiet_kr_descend_to_parent t n ih, quiet_kr_locate_parent t n ih,
    quiet_kr_is_mt_block_alive t n ih, quiet_kr_apply_reallocate t n ih,
    quiet_kr_lss_realloc_evict_loop t n ih, quiet_kr_lss_realloc_evict t n ih,
    quiet_kr_lss_realloc_insert t n ih, quiet_kr_is_mt_segment_fully_dead_loop t n ih,
    quiet_kr_is_mt_segment_fully_dead t n ih, quiet_kr_lss_debug_analyze_loop t n ih,
    quiet_kr_lss_debug_analyze t n ih, quiet_kr_lss_clean_tail_block t n ih,
    quiet_kr_lss_write_clean t n ih, quiet_kr_lss_write_rotate t n ih, quiet_kr_lss_write t n ih,
    lss_kr_cache_allocate_entry, lss_kr_unpin, lss_kr_write_slot, lss_kr_take_entry_ownership,
    lss_kr_insert_finish, lss_kr_insert_reuse, lss_kr_acquire_fill, lss_kr_segment_metadata t] at *
  all_goals try simp_all only [lss_set_entry, lss_set_cache, lss_lru_remove, lss_lru_push_head, lss_lru_move_to_head,
    lss_pin, lss_mark_dirty, lss_cache_free_entry, lss_cache_allocate_entry, lss_get_page_entry,
    lss_search, quiet_head, quiet_flash_head, quiet_flash_meta, quiet_drained, eq_self_iff_true,
    true_implies, implies_true, forall_const, Bool.true_eq_false, Bool.false_eq_true,
    false_implies, and_true, true_and]
  all_goals repeat' split
  all_goals simp_all only [lss_set_entry, lss_set_cache, lss_lru_remove, lss_lru_push_head, lss_lru_move_to_head,
    lss_pin, lss_mark_dirty, lss_cache_free_entry, lss_cache_allocate_entry, lss_get_page_entry,
    lss_search, quiet_head, quiet_flash_head, quiet_flash_meta, quiet_drained, eq_self_iff_true,
    true_implies, implies_true, forall_const, Bool.true_eq_false, Bool.false_eq_true,
    false_implies, and_true, true_and]

theorem quiet_step_lss_clean_tail_block (t : Nat) (n : Nat) (ih : quiet_frame t n) (mt : mapping_table_t) (tail : Nat)
    (r : Int × mapping_table_t) (h : lss_clean_tail_block (n + 1) mt tail = .ok r) : True := by
  intros
  all_goals first | rw [lss_clean_tail_block] at h | rw [lss_clean_tail_block.eq_def] at h
  all_goals try simp only [bind, Except.bind, pure, Except.pure] at h
  repeat' split at h
  all_goals try cases h
  all_goals try simp only [quiet_kr_flush_entry t n ih, quiet_kr_mtpc_insert_evict t n ih, quiet_kr_mtpc_insert t n ih,
    quiet_kr_mtpc_acquire_from_storage t n ih, quiet_kr_mtpc_flush_all_level t n ih,
    quiet_kr_mtpc_flush_all_levels t n ih, quiet_kr_mtpc_flush_all t n ih,
    quiet_kr_descend_to_parent t n ih, quiet_kr_locate_parent t n ih,
    quiet_kr_is_mt_block_alive t n ih, quiet_kr_apply_reallocate t n ih,
    quiet_kr_lss_realloc_evict_loop t n ih, quiet_kr_lss_realloc_evict t n ih,
    quiet_kr_lss_realloc_insert t n ih, quiet_kr_is_mt_segment_fully_dead_loop t n ih,
    quiet_kr_is_mt_segment_fully_dead t n ih, quiet_kr_lss_debug_analyze_loop t n ih,
    quiet_kr_lss_debug_analyze t n ih, quiet_kr_lss_clean_tail_block t n ih,
    quiet_kr_lss_write_clean t n ih, quiet_kr_lss_write_rotate t n ih, quiet_kr_lss_write t n ih,
    lss_kr_cache_allocate_entry, lss_kr_unpin, lss_kr_write_slot, lss_kr_take_entry_ownership,
    lss_kr_insert_finish, lss_kr_insert_reuse, lss_kr_acquire_fill, lss_kr_segment_metadata t] at *
  all_goals try simp_all only [lss_set_entry, lss_set_cache, lss_lru_remove, lss_lru_push_head, lss_lru_move_to_head,
    lss_pin, lss_mark_dirty, lss_cache_free_entry, lss_cache_allocate_entry, lss_get_page_entry,
    lss_search, quiet_head, quiet_flash_head, quiet_flash_meta, quiet_drained, eq_self_iff_true,
    true_implies, implies_true, forall_const, Bool.true_eq_false, Bool.false_eq_true,
    false_implies, and_true, true_and]
  all_goals repeat' split
  all_goals simp_all only [lss_set_entry, lss_set_cache, lss_lru_remove, lss_lru_push_head, lss_lru_move_to_head,
    lss_pin, lss_mark_dirty, lss_cache_free_entry, lss_cache_allocate_entry, lss_get_page_entry,
    lss_search, quiet_head, quiet_flash_head, quiet_flash_meta, quiet_drained, eq_self_iff_true,
    true_implies, implies_true, forall_const, Bool.true_eq_false, Bool.false_eq_true,
    false_implies, and_true, true_and]

theorem quiet_step_lss_write_clean (t : Nat) (n : Nat) (ih : quiet_frame t n) (mt : mapping_table_t) (tries : Nat)
    (r : mapping_table_t) (h : lss_write_clean (n + 1) mt tries = .ok r) : True := by
  intros
  all_goals first | rw [lss_write_clean] at h | rw [lss_write_clean.eq_def] at h
  all_goals try simp only [bind, Except.bind, pure, Except.pure] at h
  repeat' split at h
  all_goals try cases h
  all_goals try simp only [quiet_kr_flush_entry t n ih, quiet_kr_mtpc_insert_evict t n ih, quiet_kr_mtpc_insert t n ih,
    quiet_kr_mtpc_acquire_from_storage t n ih, quiet_kr_mtpc_flush_all_level t n ih,
    quiet_kr_mtpc_flush_all_levels t n ih, quiet_kr_mtpc_flush_all t n ih,
    quiet_kr_descend_to_parent t n ih, quiet_kr_locate_parent t n ih,
    quiet_kr_is_mt_block_alive t n ih, quiet_kr_apply_reallocate t n ih,
    quiet_kr_lss_realloc_evict_loop t n ih, quiet_kr_lss_realloc_evict t n ih,
    quiet_kr_lss_realloc_insert t n ih, quiet_kr_is_mt_segment_fully_dead_loop t n ih,
    quiet_kr_is_mt_segment_fully_dead t n ih, quiet_kr_lss_debug_analyze_loop t n ih,
    quiet_kr_lss_debug_analyze t n ih, quiet_kr_lss_clean_tail_block t n ih,
    quiet_kr_lss_write_clean t n ih, quiet_kr_lss_write_rotate t n ih, quiet_kr_lss_write t n ih,
    lss_kr_cache_allocate_entry, lss_kr_unpin, lss_kr_write_slot, lss_kr_take_entry_ownership,
    lss_kr_insert_finish, lss_kr_insert_reuse, lss_kr_acquire_fill, lss_kr_segment_metadata t] at *
  all_goals try simp_all only [lss_set_entry, lss_set_cache, lss_lru_remove, lss_lru_push_head, lss_lru_move_to_head,
    lss_pin, lss_mark_dirty, lss_cache_free_entry, lss_cache_allocate_entry, lss_get_page_entry,
    lss_search, quiet_head, quiet_flash_head, quiet_flash_meta, quiet_drained, eq_self_iff_true,
    true_implies, implies_true, forall_const, Bool.true_eq_false, Bool.false_eq_true,
    false_implies, and_true, true_and]
  all_goals repeat' split
  all_goals simp_all only [lss_set_entry, lss_set_cache, lss_lru_remove, lss_lru_push_head, lss_lru_move_to_head,
    lss_pin, lss_mark_dirty, lss_cache_free_entry, lss_cache_allocate_entry, lss_get_page_entry,
    lss_search, quiet_head, quiet_flash_head, quiet_flash_meta, quiet_drained, eq_self_iff_true,
    true_implies, implies_true, forall_const, Bool.true_eq_false, Bool.false_eq_true,
    false_implies, and_true, true_and]

theorem quiet_step_lss_write_rotate (t : Nat) (n : Nat) (ih : quiet_frame t n) (mt : mapping_table_t) 
    (r : mapping_table_t) (h : lss_write_rotate (n + 1) mt = .ok r) : quiet t mt.lss → quiet t r.lss := by
  intros
  all_goals first | rw [lss_write_rotate] at h | rw [lss_write_rotate.eq_def] at h
  all_goals try simp only [bind, Except.bind, pure, Except.pure] at h
  repeat' split at h
  all_goals try cases h
  all_goals try simp only [quiet_kr_flush_entry t n ih, quiet_kr_mtpc_insert_evict t n ih, quiet_kr_mtpc_insert t n ih,
    quiet_kr_mtpc_acquire_from_storage t n ih, quiet_kr_mtpc_flush_all_level t n ih,
    quiet_kr_mtpc_flush_all_levels t n ih, quiet_kr_mtpc_flush_all t n ih,
    quiet_kr_descend_to_parent t n ih, quiet_kr_locate_parent t n ih,
    quiet_kr_is_mt_block_alive t n ih, quiet_kr_apply_reallocate t n ih,
    quiet_kr_lss_realloc_evict_loop t n ih, quiet_kr_lss_realloc_evict t n ih,
    quiet_kr_lss_realloc_insert t n ih, quiet_kr_is_mt_segment_fully_dead_loop t n ih,
    quiet_kr_is_mt_segment_fully_dead t n ih, quiet_kr_lss_debug_analyze_loop t n ih,
    quiet_kr_lss_debug_analyze t n ih, quiet_kr_lss_clean_tail_block t n ih,
    quiet_kr_lss_write_clean t n ih, quiet_kr_lss_write_rotate t n ih, quiet_kr_lss_write t n ih,
    lss_kr_cache_allocate_entry, lss_kr_unpin, lss_kr_write_slot, lss_kr_take_entry_ownership,
    lss_kr_insert_finish, lss_kr_insert_reuse, lss_kr_acquire_fill, lss_kr_segment_metadata t] at *
  all_goals try simp_all only [lss_set_entry, lss_set_cache, lss_lru_remove, lss_lru_push_head, lss_lru_move_to_head,
    lss_pin, lss_mark_dirty, lss_cache_free_entry, lss_cache_allocate_entry, lss_get_page_entry,
    lss_search, quiet_head, quiet_flash_head, quiet_flash_meta, quiet_drained, eq_self_iff_true,
    true_implies, implies_true, forall_const, Bool.true_eq_false, Bool.false_eq_true,
    false_implies, and_true, true_and]
  all_goals repeat' split
  all_goals simp_all only [lss_set_entry, lss_set_cache, lss_lru_remove, lss_lru_push_head, lss_lru_move_to_head,
    lss_pin, lss_mark_dirty, lss_cache_free_entry, lss_cache_allocate_entry, lss_get_page_entry,
    lss_search, quiet_head, quiet_flash_head, quiet_flash_meta, quiet_drained, eq_self_iff_true,
    true_implies, implies_true, forall_const, Bool.true_eq_false, Bool.false_eq_true,
    false_implies, and_true, true_and]

theorem quiet_step_lss_write (t : Nat) (n : Nat) (ih : quiet_frame t n) (mt : mapping_table_t) (data : buf_ptr) (len : Nat) (ct : Bool)
    (r : Nat × mapping_table_t) (h : lss_write (n + 1) mt data len ct = .ok r) : ct = false → quiet t mt.lss → quiet t r.2.lss := by
  intros
  all_goals first | rw [lss_write] at h | rw [lss_write.eq_def] at h
  all_goals try simp only [bind, Except.bind, pure, Except.pure] at h
  repeat' split at h
  all_goals try cases h
  all_goals try simp only [quiet_kr_flush_entry t n ih, quiet_kr_mtpc_insert_evict t n ih, quiet_kr_mtpc_insert t n ih,
    quiet_kr_mtpc_acquire_from_storage t n ih, quiet_kr_mtpc_flush_all_level t n ih,
    quiet_kr_mtpc_flush_all_levels t n ih, quiet_kr_mtpc_flush_all t n ih,
    quiet_kr_descend_to_parent t n ih, quiet_kr_locate_parent t n ih,
    quiet_kr_is_mt_block_alive t n ih, quiet_kr_apply_reallocate t n ih,
    quiet_kr_lss_realloc_evict_loop t n ih, quiet_kr_lss_realloc_evict t n ih,
    quiet_kr_lss_realloc_insert t n ih, quiet_kr_is_mt_segment_fully_dead_loop t n ih,
    quiet_kr_is_mt_segment_fully_dead t n ih, quiet_kr_lss_debug_analyze_loop t n ih,
    quiet_kr_lss_debug_analyze t n ih, quiet_kr_lss_clean_tail_block t n ih,
    quiet_kr_lss_write_clean t n ih, quiet_kr_lss_write_rotate t n ih, quiet_kr_lss_write t n ih,
    lss_kr_cache_allocate_entry, lss_kr_unpin, lss_kr_write_slot, lss_kr_take_entry_ownership,
    lss_kr_insert_finish, lss_kr_insert_reuse, lss_kr_acquire_fill, lss_kr_segment_metadata t] at *
  all_goals try simp_all only [lss_set_entry, lss_set_cache, lss_lru_remove, lss_lru_push_head, lss_lru_move_to_head,
    lss_pin, lss_mark_dirty, lss_cache_free_entry, lss_cache_allocate_entry, lss_get_page_entry,
    lss_search, quiet_head, quiet_flash_head, quiet_flash_meta, quiet_drained, eq_self_iff_true,
    true_implies, implies_true, forall_const, Bool.true_eq_false, Bool.false_eq_true,
    false_implies, and_true, true_and]
  all_goals repeat' split
  all_goals simp_all only [lss_set_entry, lss_set_cache, lss_lru_remove, lss_lru_push_head, lss_lru_move_to_head,
    lss_pin, lss_mark_dirty, lss_cache_free_entry, lss_cache_allocate_entry, lss_get_page_entry,
    lss_search, quiet_head, quiet_flash_head, quiet_flash_meta, quiet_drained, eq_self_iff_true,
    true_implies, implies_true, forall_const, Bool.true_eq_false, Bool.false_eq_true,
    false_implies, and_true, true_and]

theorem quiet_frame_all (t : Nat) (n : Nat) : quiet_frame t n := by
  induction n with
  | zero =>
    constructor
    · intro mt c entry ct r h; rw [flush_entry] at h; cases h
    · intro mt c ct cand r h; rw [mtpc_insert_evict] at h; cases h
    · intro mt c s e level parent ct r h; rw [mtpc_insert] at h; cases h
    · intro mt c s e sa parent ct r h; rw [mtpc_acquire_from_storage] at h; cases h
    · intro mt c ct level i total r h; rw [mtpc_flush_all_level] at h; cases h
    · intro mt c ct level total r h; rw [mtpc_flush_all_levels] at h; cases h
    · intro mt c ct r h; rw [mtpc_flush_all] at h; cases h
    · intro mt bh ba ap brs ce csr crs r h; rw [descend_to_parent] at h; cases h
    · intro mt bh ba ap r h; rw [locate_parent] at h; cases h
    · intro mt ba bh r h; rw [is_mt_block_alive] at h; cases h
    · intro mt bh old new r h; rw [apply_reallocate] at h; cases h
    · intro mt idx r h; rw [lss_realloc_evict_loop] at h; cases h
    · intro mt  r h; rw [lss_realloc_evict] at h; cases h
    · intro mt bh old new r h; rw [lss_realloc_insert] at h; cases h
    · intro mt buf ba bhdr ps np i r h; rw [is_mt_segment_fully_dead_loop] at h; cases h
    · intro mt ba r h; rw [is_mt_segment_fully_dead] at h; cases h
    · intro mt bs nb i r h; rw [lss_debug_analyze_loop] at h; cases h
    · intro mt  r h; rw [lss_debug_analyze] at h; cases h
    · intro mt tail r h; rw [lss_clean_tail_block] at h; cases h
    · intro mt tries r h; rw [lss_write_clean] at h; cases h
    · intro mt  r h; rw [lss_write_rotate] at h; cases h
    · intro mt data len ct r h; rw [lss_write] at h; cases h
  | succ n ih =>
    exact ⟨quiet_step_flush_entry t n ih,
      quiet_step_mtpc_insert_evict t n ih,
      quiet_step_mtpc_insert t n ih,
      quiet_step_mtpc_acquire_from_storage t n ih,
      quiet_step_mtpc_flush_all_level t n ih,
      quiet_step_mtpc_flush_all_levels t n ih,
      quiet_step_mtpc_flush_all t n ih,
      quiet_step_descend_to_parent t n ih,
      quiet_step_locate_parent t n ih,
      quiet_step_is_mt_block_alive t n ih,
      quiet_step_apply_reallocate t n ih,
      quiet_step_lss_realloc_evict_loop t n ih,
      quiet_step_lss_realloc_evict t n ih,
      quiet_step_lss_realloc_insert t n ih,
      quiet_step_is_mt_segment_fully_dead_loop t n ih,
      quiet_step_is_mt_segment_fully_dead t n ih,
      quiet_step_lss_debug_analyze_loop t n ih,
      quiet_step_lss_debug_analyze t n ih,
      quiet_step_lss_clean_tail_block t n ih,
      quiet_step_lss_write_clean t n ih,
      quiet_step_lss_write_rotate t n ih,
      quiet_step_lss_write t n ih⟩

theorem sorted_old_lt (l : List lss_realloc_entry_t) (hs : sorted_by_old l) (i j : Nat)
    (hi : i < l.length) (hj : j < l.length) (hij : i < j) :
    (l.get ⟨i, hi⟩).old_offset < (l.get ⟨j, hj⟩).old_offset :=
  (List.pairwise_iff_get.mp hs) ⟨i, hi⟩ ⟨j, hj⟩ hij

/-- The binary search finds a record of a buffer sorted strictly by
`old_offset`. -/
theorem lookup_loop_finds (l : List lss_realloc_entry_t) (hs : sorted_by_old l) (i : Nat)
    (hi : i < l.length) :
    ∀ (fuel : Nat) (lo hi' : Int), 0 ≤ lo → hi' < l.length → lo ≤ i → (i : Int) ≤ hi' →
      hi' - lo + 1 < fuel →
      lss_realloc_lookup_loop l (l.get ⟨i, hi⟩).old_offset fuel lo hi'
        = some (l.get ⟨i, hi⟩).new_offset := by
  intro fuel
  induction fuel with
  | zero => intro lo hi' _ _ _ _ h; omega
  | succ n ih =>
    intro lo hi' h0 hlen hlo hhi hf
    rw [lss_realloc_lookup_loop]
    have hle : lo ≤ hi' := by omega
    simp only [hle, if_true]
    have hmid0 : 0 ≤ lo + (hi' - lo) / 2 := by
      have : 0 ≤ (hi' - lo) / 2 := Int.ediv_nonneg (by omega) (by decide)
      omega
    have hmidle : lo + (hi' - lo) / 2 ≤ hi' := by
      have : (hi' - lo) / 2 ≤ hi' - lo := Int.ediv_le_self _ (by omega)
      omega
    have hmidlo : lo ≤ lo + (hi' - lo) / 2 := by
      have : 0 ≤ (hi' - lo) / 2 := Int.ediv_nonneg (by omega) (by decide)
      omega
    obtain ⟨m, hm⟩ : ∃ m : Nat, lo + (hi' - lo) / 2 = (m : Int) :=
      ⟨(lo + (hi' - lo) / 2).toNat, (Int.toNat_of_nonneg hmid0).symm⟩
    have hmlen : m < l.length := by omega
    rw [hm, Int.toNat_ofNat, List.get?_eq_get hmlen]
    simp only
    by_cases h1 : (l.get ⟨m, hmlen⟩).old_offset = (l.get ⟨i, hi⟩).old_offset
    · simp only [h1, if_true]
      have : m = i := by
        by_contra hne
        rcases Nat.lt_or_gt_of_ne hne with h | h
        · have := sorted_old_lt l hs m i hmlen hi h; omega
        · have := sorted_old_lt l hs i m hi hmlen h; omega
      subst this
      rfl
    · simp only [h1, if_false]
      by_cases h2 : (l.get ⟨m, hmlen⟩).old_offset < (l.get ⟨i, hi⟩).old_offset
      · simp only [h2, if_true]
        have hmi : m < i := by
          by_contra hne
          have hge : i ≤ m := by omega
          rcases Nat.eq_or_lt_of_le hge with h | h
          · subst h; exact h1 rfl
          · have := sorted_old_lt l hs i m hi hmlen h; omega
        exact ih (↑m + 1) hi' (by omega) hlen (by omega) hhi (by omega)
      · simp only [h2, if_false]
        have hmi : i < m := by
          by_contra hne
          have hge : m ≤ i := by omega
          rcases Nat.eq_or_lt_of_le hge with h | h
          · subst h; exact h1 rfl
          · have := sorted_old_lt l hs m i hmlen hi h; omega
        exact ih lo (↑m - 1) h0 (by omega) hlo (by omega) (by omega)

theorem lookup_finds (lss : lss_t) (hs : sorted_by_old lss.realloc_list)
    (rec : lss_realloc_entry_t) (hr : rec ∈ lss.realloc_list) :
    lss_realloc_lookup lss rec.old_offset = some rec.new_offset := by
  obtain ⟨⟨i, hi⟩, hget⟩ := List.mem_iff_get.mp hr
  unfold lss_realloc_lookup lss_t.realloc_count
  rw [← hget]
  exact lookup_loop_finds _ hs i hi _ 0 _ (le_refl _) (by omega) (by omega) (by omega) (by omega)

/-- On a sorted buffer that does not mention `t`, the first loop of
`lss_realloc_insert` collapses nothing and ends with the sorted position of
`t`. -/
theorem insert_scan_spec (hdr t new : Nat) :
    ∀ (l : List lss_realloc_entry_t) (i p : Nat), sorted_by_old l →
      (∀ r ∈ l, r.old_offset ≠ t ∧ r.new_offset ≠ t) →
      ∃ p', lss_realloc_insert_scan hdr t new l i p = .ok (none, p')
        ∧ ((p' = p ∧ ∀ r ∈ l, t < r.old_offset)
          ∨ ∃ k, 1 ≤ k ∧ k ≤ l.length ∧ p' = i + k ∧ (∀ r ∈ l.take k, r.old_offset < t)
              ∧ ∀ r ∈ l.drop k, t < r.old_offset) := by
  intro l
  induction l with
  | nil =>
    intro i p _ _
    exact ⟨p, rfl, Or.inl ⟨rfl, fun r hr => by cases hr⟩⟩
  | cons r rest ih =>
    intro i p hs hm
    have hr := hm r (List.mem_cons_self _ _)
    have hs' : sorted_by_old rest := (List.pairwise_cons.mp hs).2
    have hlt := (List.pairwise_cons.mp hs).1
    obtain ⟨p', hp', hcase⟩ := ih (i + 1) (if r.old_offset < t then i + 1 else p) hs'
      (fun x hx => hm x (List.mem_cons_of_mem _ hx))
    refine ⟨p', ?_, ?_⟩
    · rw [lss_realloc_insert_scan]
      simp only [hr.1, hr.2, or_self, if_false, bind, Except.bind, hp', Option.map, pure,
        Except.pure]
    · rcases hcase with ⟨hpp, hall⟩ | ⟨k, hk1, hk2, hpk, htake, hdrop⟩
      · by_cases hrt : r.old_offset < t
        · right
          refine ⟨1, le_refl _, by simp, by simp [hpp, hrt], ?_, ?_⟩
          · intro x hx
            simp only [List.take_succ_cons, List.take_zero, List.mem_singleton] at hx
            subst hx; exact hrt
          · intro x hx
            simp only [List.drop_succ_cons, List.drop_zero] at hx
            exact hall x hx
        · left
          refine ⟨by simp [hpp, hrt], fun x hx => ?_⟩
          rcases List.mem_cons.mp hx with h | h
          · subst h; have := hr.1; omega
          · exact hall x h
      · right
        refine ⟨k + 1, by omega, by simp; omega, by omega, ?_, ?_⟩
        · intro x hx
          simp only [List.take_succ_cons, List.mem_cons] at hx
          rcases hx with h | h
          · subst h
            obtain ⟨y, hy⟩ : ∃ y, y ∈ rest.take k := by
              cases rest with
              | nil => simp at hk2; omega
              | cons y ys => exact ⟨y, by
                  obtain ⟨k', rfl⟩ : ∃ k', k = k' + 1 := ⟨k - 1, by omega⟩
                  simp⟩
            have h1 := hlt y (List.mem_of_mem_take hy)
            have h2 := htake y hy
            omega
          · exact htake x h
        · intro x hx
          simp only [List.drop_succ_cons] at hx
          exact hdrop x hx

theorem sorted_insert (l : List lss_realloc_entry_t) (k : Nat) (rec : lss_realloc_entry_t)
    (hs : sorted_by_old l) (h1 : ∀ r ∈ l.take k, r.old_offset < rec.old_offset)
    (h2 : ∀ r ∈ l.drop k, rec.old_offset < r.old_offset) :
    sorted_by_old (l.take k ++ rec :: l.drop k) := by
  have hsplit : sorted_by_old (l.take k ++ l.drop k) := by rw [List.take_append_drop]; exact hs
  obtain ⟨ht, hd, hx⟩ := List.pairwise_append.mp hsplit
  refine List.pairwise_append.mpr ⟨ht, List.pairwise_cons.mpr ⟨h2, hd⟩, fun a ha b hb => ?_⟩
  rcases List.mem_cons.mp hb with h | h
  · subst h; exact h1 a ha
  · exact hx a ha b h

/-- On a buffer with room that is sorted and does not mention `old`,
`lss_realloc_insert` adds the record, and the lookup of `old` yields `new`. -/
theorem realloc_insert_spec (n : Nat) (mt : mapping_table_t) (hdr old new : Nat)
    (r : Int × mapping_table_t) (hq : quiet old mt.lss)
    (h : lss_realloc_insert n mt hdr old new = .ok r) :
    lss_realloc_lookup r.2.lss old = some new ∧ r.2.lss.flash = mt.lss.flash := by
  cases n with
  | zero => rw [lss_realloc_insert] at h; cases h
  | succ n =>
    obtain ⟨hroom, hs, hm⟩ := hq
    obtain ⟨p', hp', hcase⟩ := insert_scan_spec hdr old new mt.lss.realloc_list 0 0 hs hm
    have hroom' : ¬ (mt.lss.realloc_count ≥ mt.lss.realloc_capacity) := by
      simp only [lss_t.realloc_count]; omega
    rw [lss_realloc_insert] at h
    simp only [bind, Except.bind, hp', hroom', if_false, pure, Except.pure,
      Except.ok.injEq] at h
    subst h
    refine ⟨?_, rfl⟩
    have hk : (∀ r ∈ mt.lss.realloc_list.take p', r.old_offset < old)
        ∧ ∀ r ∈ mt.lss.realloc_list.drop p', old < r.old_offset := by
      rcases hcase with ⟨hpp, hall⟩ | ⟨k, _, _, hpk, htake, hdrop⟩
      · subst hpp
        exact ⟨fun r hr => by simp at hr, fun r hr => hall r (by simpa using hr)⟩
      · have : p' = k := by omega
        subst this
        exact ⟨htake, hdrop⟩
    have hsorted := sorted_insert mt.lss.realloc_list p'
      { old_offset := old, new_offset := new, block_header := hdr } hs hk.1 hk.2
    exact lookup_finds _ hsorted { old_offset := old, new_offset := new, block_header := hdr }
      (by simp)

/-- What a successful `lss_write` leaves: the payload at the returned address,
no relocation record for that address, and a read of it that yields the
payload. -/
theorem lss_write_spec (fuel : Nat) (mt : mapping_table_t) (data : buf_ptr) (len : Nat)
    (clean_tail : Bool) (a : Nat) (mt' : mapping_table_t)
    (h : lss_write fuel mt data len clean_tail = .ok (a, mt')) :
    mt'.lss.flash.mem (a / len) = mt'.deref data ∧ mt'.lss.head = u64 (a + len)
      ∧ lss_realloc_lookup mt'.lss a = none ∧ lss_read mt' a len = .ok (mt'.deref data) := by
  cases fuel with
  | zero => simp [lss_write] at h
  | succ n =>
    rw [lss_write] at h
    simp only [bind, Except.bind, pure, Except.pure] at h
    repeat' split at h
    all_goals try (simp at h; done)
    all_goals first
      | (rename_i hev _ _ _ hw
         simp only [Except.ok.injEq] at h
         exact lss_write_tail _ data len _ a mt'
           (lss_realloc_lookup_nil _ _ (lss_realloc_evict_list _ _ _ hev).2) hw h)
      | (rename_i hl _ _ hw
         simp only [Except.ok.injEq] at h
         exact lss_write_tail _ data len _ a mt' (by simpa using hl) hw h)

theorem outcome_ok {α : Type} (x : Res (α × mapping_table_t)) (v : α)
    (h : outcome x = .ok v) : ∃ m, x = .ok (v, m) := by
  unfold outcome at h
  cases x with
  | error e => cases h
  | ok p =>
    obtain ⟨a, m⟩ := p
    simp only [Except.map, Except.ok.injEq] at h
    subst h
    exact ⟨m, rfl⟩

theorem clean_tail_read_aux (n : Nat) (mt mt' : mapping_table_t) (t : Nat) (rc : Int)
    (b : flash_block_t) (hq : quiet t mt.lss)
    (hb : flash_read mt.lss.flash t mt.lss.flash.write_granularity_bytes = .ok b)
    (ha : outcome (is_mt_block_alive n mt t b.hdr) = .ok true)
    (h : lss_clean_tail_block (n + 1) mt t = .ok (rc, mt')) :
    ∃ a, lss_realloc_lookup mt'.lss t = some a
      ∧ flash_read mt'.lss.flash a mt.lss.flash.write_granularity_bytes = .ok b
      ∧ mt'.lss.flash.write_granularity_bytes = mt.lss.flash.write_granularity_bytes := by
  obtain ⟨m, hm⟩ := outcome_ok _ _ ha
  have hwg : mt.lss.flash.write_granularity_bytes ≠ 0 := by
    intro h0
    unfold flash_read at hb
    simp only [h0, ne_eq, not_true_eq_false, true_or, or_true, if_true] at hb
    split at hb <;> cases hb
  rw [lss_clean_tail_block] at h
  simp only [hwg, if_false, bind, Except.bind, hb, hm, if_true, pure, Except.pure] at h
  split at h
  · cases h
  · rename_i v hw
    obtain ⟨new, m1⟩ := v
    split at h
    · cases h
    · rename_i v2 hins
      split at h
      · cases h
      · simp only [Except.ok.injEq, Prod.mk.injEq] at h
        obtain ⟨_, h⟩ := h
        subst h
        have q1 := (quiet_frame_all t n).is_mt_block_alive _ _ _ _ hm hq
        have q2 := (quiet_frame_all t n).lss_write _ _ _ _ _ hw rfl q1
        obtain ⟨hlook, hflash⟩ := realloc_insert_spec n m1 b.hdr t new v2 q2 hins
        obtain ⟨_, _, hnone, hread⟩ := lss_write_spec n m (.copy b) _ false new m1 hw
        unfold lss_read at hread
        split at hread
        · cases hread
        · rename_i hwg1
          simp only [hnone] at hread
          simp only [ne_eq, not_not] at hwg1
          refine ⟨new, ?_, ?_, ?_⟩
          · simpa [lss_realloc_lookup, lss_t.realloc_count] using hlook
          · simp only [hflash]; exact hread
          · simp only [hflash]; exact hwg1

theorem init_shell_fanout (image : Nat → flash_block_t) (n bs cap f p h : Nat) :
    (init_shell image n bs cap f p h).fanout = f := rfl

theorem init_shell_padded (image : Nat → flash_block_t) (n bs cap f p h : Nat) :
    (init_shell image n bs cap f p h).npage_mappings_padded = p := rfl

theorem init_shell_npage (image : Nat → flash_block_t) (n bs cap f p h : Nat) :
    (init_shell image n bs cap f p h).npage_mappings = n := rfl

theorem init_shell_block_size (image : Nat → flash_block_t) (n bs cap f p h : Nat) :
    (init_shell image n bs cap f p h).block_size = bs := rfl

theorem init_shell_root (image : Nat → flash_block_t) (n bs cap f p h : Nat) :
    (init_shell image n bs cap f p h).root
      = { hdr := mk_hdr MT_BLOCK 0 0, data := List.replicate (payload_words bs) 0 } := rfl

theorem init_shell_lss (image : Nat → flash_block_t) (n bs cap f p h : Nat) :
    (init_shell image n bs cap f p h).lss = lss_create image := rfl

theorem init_shell_data (image : Nat → flash_block_t) (n bs cap f p h : Nat) :
    (init_shell image n bs cap f p h).page_cache.data = [] := rfl

theorem init_shell_parent (image : Nat → flash_block_t) (n bs cap f p h : Nat) :
    (init_shell image n bs cap f p h).page_cache.parent_cache = none := rfl

theorem padded_loop_exact (n f k : Nat) (hf : 1 ≤ f) (hk : n ≤ f ^ k)
    (hmin : ∀ j < k, f ^ j < n) (h32 : f ^ k < 2 ^ 32) :
    ∀ (fuel j p : Nat), j ≤ k → padded_loop n f fuel (f ^ j) = .ok p → p = f ^ k := by
  intro fuel
  induction fuel with
  | zero =>
    intro j p hj h
    rw [padded_loop] at h
    split at h
    · cases h
    · rename_i hn
      have : j = k := by
        by_contra hne
        have := hmin j (by omega)
        omega
      subst this
      cases h; rfl
  | succ m ih =>
    intro j p hj h
    rw [padded_loop] at h
    split at h
    · rename_i hn
      have hjk : j < k := by
        by_contra hne
        have : j = k := by omega
        subst this
        omega
      have hle : f ^ (j + 1) ≤ f ^ k := Nat.pow_le_pow_right hf hjk
      have hu : u32 (f ^ j * f) = f ^ (j + 1) := by
        have e : f ^ j * f = f ^ (j + 1) := (Nat.pow_succ ..).symm
        rw [e]
        unfold u32
        exact Nat.mod_eq_of_lt (by omega)
      rw [hu] at h
      exact ih (j + 1) p hjk h
    · rename_i hn
      have : j = k := by
        by_contra hne
        have := hmin j (by omega)
        omega
      subst this
      cases h; rfl

theorem padded_loop_total (n f k : Nat) (hf : 1 ≤ f) (hk : n ≤ f ^ k)
    (hmin : ∀ j < k, f ^ j < n) (h32 : f ^ k < 2 ^ 32) :
    ∀ (m j fuel : Nat), j + m = k → m ≤ fuel → padded_loop n f fuel (f ^ j) = .ok (f ^ k) := by
  intro m
  induction m with
  | zero =>
    intro j fuel hj _
    have : j = k := by omega
    subst this
    cases fuel <;> rw [padded_loop, if_neg (by omega)]
  | succ m ih =>
    intro j fuel hj hfuel
    obtain ⟨fuel, rfl⟩ : ∃ x, fuel = x + 1 := ⟨fuel - 1, by omega⟩
    have hlt := hmin j (by omega)
    have hle : f ^ (j + 1) ≤ f ^ k := Nat.pow_le_pow_right hf (by omega)
    have hu : u32 (f ^ j * f) = f ^ (j + 1) := by
      have e : f ^ j * f = f ^ (j + 1) := (Nat.pow_succ ..).symm
      rw [e]
      unfold u32
      exact Nat.mod_eq_of_lt (by omega)
    rw [padded_loop, if_pos (by omega), hu]
    exact ih (j + 1) fuel (by omega) (by omega)

theorem lss_init_cfg (fuel : Nat) (mt : mapping_table_t) (r : Int × mapping_table_t)
    (h : lss_init fuel mt = .ok r) : cfg r.2 = cfg mt := by
  unfold lss_init at h
  simp only [bind, Except.bind, pure, Except.pure] at h
  repeat' split at h
  all_goals try cases h
  rename_i hw
  have := (cfg_frame_all fuel).lss_write _ _ _ _ _ hw
  simp only [cfg_with_root_offset]
  rw [this, cfg_with_lss]

theorem init_open_cfg (fuel : Nat) (mt : mapping_table_t) (n bs : Nat) (create : Bool)
    (r : mapping_table_t) (h : init_open fuel mt n bs create = .ok (some r)) :
    cfg r = cfg mt := by
  unfold init_open at h
  cases create
  · simp only [Bool.false_eq_true, if_false, bind, Except.bind, pure, Except.pure] at h
    repeat' split at h
    all_goals try cases h
    rfl
  · simp only [if_true, bind, Except.bind, pure, Except.pure] at h
    repeat' split at h
    all_goals try cases h
    have hc := lss_init_cfg _ _ _ (by assumption)
    rw [hc]
    rfl

theorem init_padding (fuel : Nat) (image : Nat → flash_block_t) (n bs cap : Nat)
    (create : Bool) (mt : mapping_table_t)
    (h : mapping_table_init fuel image n bs cap create = .ok (some mt)) :
    mt.fanout = fanout_of bs
      ∧ padded_loop n (fanout_of bs) fuel 1 = .ok mt.npage_mappings_padded := by
  unfold mapping_table_init at h
  unfold fanout_of
  generalize u32 ((bs - sizeof_flash_block_t) / sizeof_mapping_table_entry_t) = f at h ⊢
  split at h
  · cases h
  · simp only [bind, Except.bind] at h
    split at h
    · cases h
    · rename_i padded hp
      split at h
      · cases h
      · rename_i height hh
        have hc := init_open_cfg _ _ _ _ _ _ h
        simp only [cfg, Prod.mk.injEq, init_shell_fanout, init_shell_padded] at hc
        refine ⟨hc.1, ?_⟩
        rw [hc.2.2.2.1]
        exact hp

/-- C20 (counterexample): for 2 000 000 000 pages and a fanout of 7 the
smallest power of the fanout that is large enough is 7^12, which does not fit
in 32 bits; the padding loop wraps twice and the table is created with
`npage_mappings_padded = 2399729895`, which is not 7^12. -/
theorem padded_wraps_for_large_tables :
    padding_of (mapping_table_init 40 erased_image 2000000000 64 40 true)
        = .ok (some (7, 2399729895))
      ∧ 7 ^ 11 < 2000000000 ∧ 2000000000 ≤ 7 ^ 12 ∧ 2399729895 ≠ 7 ^ 12 := by
  decide!

/-- C20 (amended): when the smallest power `fanout ^ k` of the fanout that is
at least `npage_mappings` fits in 32 bits, the padding loop ends with that
power (given `k` units of fuel or more), and every table that
`mapping_table_init` returns has it as `npage_mappings_padded`. -/
theorem init_pads_to_next_power (fuel : Nat) (image : Nat → flash_block_t) (n bs cap k : Nat)
    (create : Bool) (hf : 2 ≤ fanout_of bs) (hk : n ≤ fanout_of bs ^ k)
    (hmin : ∀ j < k, fanout_of bs ^ j < n) (h32 : fanout_of bs ^ k < 2 ^ 32) :
    padded_loop n (fanout_of bs) (k + fuel) 1 = .ok (fanout_of bs ^ k)
      ∧ ∀ mt, mapping_table_init fuel image n bs cap create = .ok (some mt) →
          mt.fanout = fanout_of bs ∧ mt.npage_mappings_padded = fanout_of bs ^ k := by
  constructor
  · have := padded_loop_total n (fanout_of bs) k (by omega) hk hmin h32 k 0 (k + fuel)
      (by omega) (by omega)
    simpa using this
  · intro mt h
    obtain ⟨h1, h2⟩ := init_padding fuel image n bs cap create mt h
    refine ⟨h1, ?_⟩
    have := padded_loop_exact n (fanout_of bs) k (by omega) hk hmin h32 fuel 0 _ (by omega)
      (by simpa using h2)
    exact this

theorem init_pads_to_next_power_witness :
    padded_loop 64 (fanout_of 64) (3 + 8) 1 = .ok (fanout_of 64 ^ 3)
      ∧ ∀ mt, mapping_table_init 8 erased_image 64 64 10 true = .ok (some mt) →
          mt.fanout = fanout_of 64 ∧ mt.npage_mappings_padded = fanout_of 64 ^ 3 :=
  init_pads_to_next_power 8 erased_image 64 64 10 3 true (by decide) (by decide) (by decide)
    (by decide)

/-- C18: a drain of the relocation buffer that returns leaves an empty buffer
and returns 0, and a second drain right after it returns 0 and leaves the
state exactly as it is: calling `lss_realloc_evict` twice is the same as
calling it once. -/
theorem drain_twice_is_drain_once (fuel k : Nat) (mt mt1 : mapping_table_t) (rc : Int)
    (h : lss_realloc_evict fuel mt = .ok (rc, mt1)) :
    rc = 0 ∧ mt1.lss.realloc_count = 0
      ∧ lss_realloc_evict (k + 1) mt1 = .ok (0, mt1)
      ∧ (lss_realloc_evict fuel mt).bind (fun r => lss_realloc_evict (k + 1) r.2)
          = lss_realloc_evict fuel mt := by
  obtain ⟨h1, h2⟩ := lss_realloc_evict_list fuel mt (rc, mt1) h
  have hc : mt1.lss.realloc_count = 0 := by
    simp only at h2
    simp [lss_t.realloc_count, h2]
  have h3 : lss_realloc_evict (k + 1) mt1 = .ok (0, mt1) := by
    rw [lss_realloc_evict, if_pos hc]
  refine ⟨h1, hc, h3, ?_⟩
  rw [h]
  simp only [Except.bind]
  rw [h3]
  simp only at h1
  rw [h1]

theorem drain_twice_is_drain_once_witness :
    relocated_table.lss.realloc_count = 1
      ∧ ((0 : Int) = 0 ∧ (state_after (lss_realloc_evict 12 relocated_table)).lss.realloc_count = 0
      ∧ lss_realloc_evict (3 + 1) (state_after (lss_realloc_evict 12 relocated_table))
          = .ok (0, state_after (lss_realloc_evict 12 relocated_table))
      ∧ (lss_realloc_evict 12 relocated_table).bind (fun r => lss_realloc_evict (3 + 1) r.2)
          = lss_realloc_evict 12 relocated_table) :=
  ⟨by decide!, drain_twice_is_drain_once 12 3 relocated_table _ 0 (ok_of_outcome _ _ (by decide!))⟩

theorem evict_result_clean :
    ∀ (n : Nat) (mt : mapping_table_t) (c : mtpc_ref) (ct : Bool) (cand : Option Nat)
      (r : Nat × mapping_table_t), mtpc_insert_evict n mt c ct cand = .ok r →
      (r.2.heap r.1).pin_count = 0 ∧ (r.2.heap r.1).dirty = false := by
  intro n
  induction n with
  | zero => intro mt c ct cand r h; rw [mtpc_insert_evict.eq_def] at h; cases h
  | succ n ih =>
    intro mt c ct cand r h
    rw [mtpc_insert_evict.eq_def] at h
    simp only [bind, Except.bind, pure, Except.pure] at h
    repeat' split at h
    all_goals try cases h
    all_goals first
      | exact ih _ _ _ _ _ h
      | (simp only [ne_eq, Decidable.not_not, Bool.not_eq_true] at *
         constructor <;> assumption)

theorem get_page_entry_dirty (mt : mapping_table_t) (c : Option mtpc_ref) (s e x : Nat) :
    ((mtpc_get_page_entry mt c s e).2.heap x).dirty = (mt.heap x).dirty
      ∧ ((mtpc_get_page_entry mt c s e).2.cache) = mt.cache := by
  unfold mtpc_get_page_entry
  repeat' split
  all_goals simp only [pin, mapping_table_t.set_entry, and_true]
  constructor
  · split
    · rename_i hx; rw [hx]
    · rfl
  · rfl

theorem unpin_dirty (mt : mapping_table_t) (o : Option Nat) (r : Nat × mapping_table_t) (x : Nat)
    (h : mtpc_unpin mt o = .ok r) :
    (r.2.heap x).dirty = (mt.heap x).dirty ∧ r.2.cache = mt.cache := by
  unfold mtpc_unpin at h
  repeat' split at h
  all_goals try cases h
  · exact ⟨rfl, rfl⟩
  · simp only [mapping_table_t.set_entry]
    constructor
    · split
      · rename_i hx; rw [hx]
      · rfl
    · rfl

theorem find_index_mem (data : List Nat) (x i : Nat) (h : find_index data x = some i) :
    x ∈ data := by
  unfold find_index at h
  simp only at h
  split at h
  · rename_i hlt
    exact List.indexOf_lt_length.mp hlt
  · cases h

theorem arrays_cache {mt mt' : mapping_table_t} (h : arrays mt' = arrays mt) (c : mtpc_ref) :
    (mt'.cache c).data = (mt.cache c).data := by
  simp only [arrays, Prod.mk.injEq] at h
  cases c
  · exact h.1
  · exact h.2

theorem arrays_set_entry (mt : mapping_table_t) (x : Nat) (v : mtpc_entry_t) :
    arrays (mt.set_entry x v) = arrays mt := rfl

theorem arrays_lru_remove (mt : mapping_table_t) (c : mtpc_ref) (x : Nat) :
    arrays (lru_remove mt c x) = arrays mt := by
  unfold lru_remove
  cases c <;> simp only [mapping_table_t.set_cache, mapping_table_t.cache] <;>
    repeat' split
  all_goals rfl

theorem arrays_lru_push_head (mt : mapping_table_t) (c : mtpc_ref) (x : Nat) :
    arrays (lru_push_head mt c x) = arrays mt := by
  unfold lru_push_head
  cases c <;> simp only [mapping_table_t.set_cache, mapping_table_t.cache] <;>
    repeat' split
  all_goals rfl

theorem arrays_lru_move_to_head (mt : mapping_table_t) (c : mtpc_ref) (x : Nat) :
    arrays (lru_move_to_head mt c x) = arrays mt := by
  unfold lru_move_to_head
  split
  · rfl
  · rw [arrays_lru_push_head, arrays_lru_remove]

theorem reuse_removes_clean (mt4 : mapping_table_t) (c : mtpc_ref) (s e level : Nat)
    (parent : Option Nat) (cand : Nat) (r : Nat × mapping_table_t)
    (hd : (mt4.heap cand).dirty = false)
    (h : mtpc_insert_reuse mt4 c s e level parent cand = .ok r) :
    (state_at_removal mt4 c s e = .ok none ∧ (r.2.cache c).data = (mt4.cache c).data)
      ∨ ∃ m6, state_at_removal mt4 c s e = .ok (some m6) ∧ cand ∈ (m6.cache c).data
          ∧ (m6.heap cand).pin_count = 0 ∧ (m6.heap cand).dirty = false := by
  unfold mtpc_insert_reuse at h
  unfold state_at_removal
  have hg := get_page_entry_dirty mt4 (some c) s e cand
  generalize mtpc_get_page_entry mt4 (some c) s e = g at h hg ⊢
  obtain ⟨sp, mt5⟩ := g
  simp only at hg
  simp only [bind, Except.bind, pure, Except.pure] at h
  cases sp with
  | none =>
    right
    simp only at h ⊢
    refine ⟨mt5, rfl, ?_⟩
    simp only [mtpc_unpin] at h
    repeat' split at h
    all_goals try cases h
    all_goals
      refine ⟨find_index_mem _ _ _ (by assumption), ?_, ?_⟩
      · simp only [ne_eq, Decidable.not_not] at *; assumption
      · rw [hg.1, hd]
  | some sp =>
    simp only at h ⊢
    by_cases hex : entry_is mt5 sp s e = true
    · left
      simp only [hex, if_true, Except.ok.injEq] at h ⊢
      subst h
      simp only [true_and]
      rw [arrays_cache (arrays_lru_move_to_head _ _ _), arrays_cache (arrays_lru_push_head _ _ _),
        hg.2]
    · right
      simp only [hex, if_false, Bool.false_eq_true] at h ⊢
      cases hu : mtpc_unpin mt5 (some sp) with
      | error err => rw [hu] at h; simp only at h; cases h
      | ok u =>
        rw [hu] at h
        simp only at h
        have hud := unpin_dirty mt5 (some sp) u cand hu
        refine ⟨u.2, rfl, ?_⟩
        repeat' split at h
        all_goals try cases h
        all_goals
          refine ⟨find_index_mem _ _ _ (by assumption), ?_, ?_⟩
          · simp only [ne_eq, Decidable.not_not] at *; assumption
          · rw [hud.1, hg.1, hd]

/-- C14: the entry that the eviction loop of `mtpc_insert` hands over for
reuse has `pin_count = 0` and `dirty = false` (a dirty candidate has been
flushed, a candidate that got pinned meanwhile has been put back and the loop
has gone on), and it still has when it is taken out of the sorted array: then
either the second probe has found the wanted range, the candidate is put
back and the array keeps its entries, or the candidate is in the array,
unpinned and clean in the state in which it is removed. -/
theorem evicted_entry_is_clean (n : Nat) (mt : mapping_table_t) (c : mtpc_ref) (ct : Bool)
    (s e level : Nat) (parent : Option Nat) (r1 r : Nat × mapping_table_t)
    (hev : mtpc_insert_evict n mt c ct none = .ok r1)
    (hre : mtpc_insert_reuse r1.2 c s e level parent r1.1 = .ok r) :
    (r1.2.heap r1.1).pin_count = 0 ∧ (r1.2.heap r1.1).dirty = false
      ∧ ((state_at_removal r1.2 c s e = .ok none ∧ (r.2.cache c).data = (r1.2.cache c).data)
        ∨ ∃ m6, state_at_removal r1.2 c s e = .ok (some m6) ∧ r1.1 ∈ (m6.cache c).data
            ∧ (m6.heap r1.1).pin_count = 0 ∧ (m6.heap r1.1).dirty = false) := by
  obtain ⟨h1, h2⟩ := evict_result_clean n mt c ct none r1 hev
  exact ⟨h1, h2, reuse_removes_clean _ _ _ _ _ _ _ _ h2 hre⟩

theorem evicted_entry_is_clean_witness :
    (full_table.heap 4).dirty = true
      ∧ ((state_after (mtpc_insert_evict 20 full_table .table true none)).heap 4).pin_count = 0
      ∧ ((state_after (mtpc_insert_evict 20 full_table .table true none)).heap 4).dirty = false
      ∧ ((state_at_removal (state_after (mtpc_insert_evict 20 full_table .table true none))
              .table 35 42 = .ok none
            ∧ ((state_after (mtpc_insert_reuse
                  (state_after (mtpc_insert_evict 20 full_table .table true none))
                  .table 35 42 2 (some 8) 4)).cache .table).data
                = ((state_after (mtpc_insert_evict 20 full_table .table true none)).cache
                    .table).data)
        ∨ ∃ m6, state_at_removal (state_after (mtpc_insert_evict 20 full_table .table true none))
              .table 35 42 = .ok (some m6)
            ∧ 4 ∈ (m6.cache .table).data ∧ (m6.heap 4).pin_count = 0
            ∧ (m6.heap 4).dirty = false) :=
  ⟨by decide!,
   evicted_entry_is_clean 20 full_table .table true 35 42 2 (some 8)
     (4, state_after (mtpc_insert_evict 20 full_table .table true none))
     (4, state_after (mtpc_insert_reuse
        (state_after (mtpc_insert_evict 20 full_table .table true none)) .table 35 42 2 (some 8) 4))
     (ok_of_outcome _ _ (by decide!)) (ok_of_outcome _ _ (by decide!))⟩

theorem dll_congr (h h' : Nat → mtpc_entry_t) :
    ∀ (l : List Nat) (p t : Option Nat),
      (∀ x ∈ l, (h' x).lru_prev = (h x).lru_prev ∧ (h' x).lru_next = (h x).lru_next) →
      dll h p l t → dll h' p l t := by
  intro l
  induction l with
  | nil => intro p t _ hd; exact hd
  | cons x xs ih =>
    intro p t hc hd
    obtain ⟨h1, h2, h3⟩ := hd
    have hx := hc x (List.mem_cons_self _ _)
    exact ⟨hx.1.trans h1, hx.2.trans h2,
      ih _ _ (fun y hy => hc y (List.mem_cons_of_mem _ hy)) h3⟩

theorem last_or_nil (p : Option Nat) : last_or [] p = p := rfl

theorem last_or_cons (x : Nat) (xs : List Nat) (p : Option Nat) :
    last_or (x :: xs) p = last_or xs (some x) := rfl

theorem dll_last (h : Nat → mtpc_entry_t) :
    ∀ (l : List Nat) (p t : Option Nat), dll h p l t → t = last_or l p := by
  intro l
  induction l with
  | nil => intro p t hd; exact hd
  | cons x xs ih =>
    intro p t hd
    rw [last_or_cons]
    exact ih _ _ hd.2.2

theorem last_or_mem :
    ∀ (l : List Nat) (p : Option Nat) (z : Nat), last_or l p = some z → z ∈ l ∨ p = some z := by
  intro l
  induction l with
  | nil => intro p z h; right; exact h
  | cons x xs ih =>
    intro p z h
    rw [last_or_cons] at h
    rcases ih _ _ h with h1 | h1
    · left; exact List.mem_cons_of_mem _ h1
    · left; cases h1; exact List.mem_cons_self _ _

theorem dll_split (h : Nat → mtpc_entry_t) (x : Nat) :
    ∀ (a : List Nat) (p t : Option Nat) (b : List Nat), dll h p (a ++ x :: b) t →
      (h x).lru_prev = last_or a p ∧ (h x).lru_next = b.head? := by
  intro a
  induction a with
  | nil => intro p t b hd; exact ⟨hd.1, hd.2.1⟩
  | cons w a ih =>
    intro p t b hd
    rw [last_or_cons]
    exact ih _ _ _ hd.2.2

theorem dll_unlink (h : Nat → mtpc_entry_t) (x : Nat) :
    ∀ (a : List Nat) (p t : Option Nat) (b : List Nat), dll h p (a ++ x :: b) t →
      (a ++ x :: b).Nodup → (∀ q, p = some q → q ∉ a ++ x :: b) →
      dll (unlink h x) p (a ++ b) (if b = [] then (h x).lru_prev else t) := by
  intro a
  induction a with
  | nil =>
    intro p t b hd hn hp
    simp only [List.nil_append] at hd hn hp ⊢
    obtain ⟨h1, h2, h3⟩ := hd
    cases b with
    | nil => simp only [if_true, dll]; exact h1
    | cons y b' =>
      simp only [List.cons_ne_nil, if_false] at h3 ⊢
      obtain ⟨g1, g2, g3⟩ := h3
      have hyx : y ≠ x := by
        intro e; subst e; simp at hn
      have hy : unlink h x y = { h y with lru_prev := (h x).lru_prev } := by
        simp only [unlink, if_neg hyx, h2, List.head?_cons, if_true]
      refine ⟨by rw [hy]; exact h1, by rw [hy]; exact g2, ?_⟩
      apply dll_congr h _ _ _ _ _ g3
      intro z hz
      have hzx : z ≠ x := by
        intro e; subst e; simp [hz] at hn
      have hzy : z ≠ y := by
        intro e; subst e
        simp only [List.nodup_cons] at hn
        exact hn.2.1 hz
      have hzp : some z ≠ (h x).lru_prev := by
        rw [h1]
        intro e
        exact hp z e.symm (by simp [hz])
      simp only [unlink, if_neg hzx, h2, List.head?_cons, Option.some.injEq, if_neg hzy,
        if_neg hzp, and_self]
  | cons w a ih =>
    intro p t b hd hn hp
    simp only [List.cons_append] at hd hn hp ⊢
    obtain ⟨h1, h2, h3⟩ := hd
    have hn' := (List.nodup_cons.mp hn).2
    have hw : w ∉ a ++ x :: b := (List.nodup_cons.mp hn).1
    have ih' := ih (some w) t b h3 hn' (fun q hq => by cases hq; exact hw)
    obtain ⟨s1, s2⟩ := dll_split h x a (some w) t b h3
    have hwx : w ≠ x := by
      intro e; subst e; simp at hw
    have hwn : some w ≠ (h x).lru_next := by
      rw [s2]
      intro e
      have : w ∈ b := by
        cases b with
        | nil => simp at e
        | cons y b' => simp only [List.head?_cons, Option.some.injEq] at e; subst e; simp
      exact hw (by simp [this])
    refine ⟨?_, ?_, ih'⟩
    · simp only [unlink, if_neg hwx, if_neg hwn]
      split
      · exact h1
      · exact h1
    · simp only [unlink, if_neg hwx, if_neg hwn]
      cases a with
      | nil =>
        simp only [last_or_nil] at s1
        simp only [s1, if_true, List.nil_append, s2]
      | cons v a' =>
        have hne : some w ≠ (h x).lru_prev := by
          rw [s1, last_or_cons]
          intro e
          rcases last_or_mem _ _ _ e.symm with hm | hm
          · exact hw (by simp [List.mem_of_mem_tail, hm])
          · simp only [Option.some.injEq] at hm
            subst hm
            simp at hw
        simp only [if_neg hne]
        simpa using h2

theorem lru_remove_heap (mt : mapping_table_t) (c : mtpc_ref) (x : Nat)
    (hp : (mt.heap x).lru_prev ≠ some x) (hn : (mt.heap x).lru_next ≠ some x)
    (hpn : ∀ q, (mt.heap x).lru_prev = some q → (mt.heap x).lru_next ≠ some q) :
    (lru_remove mt c x).heap = unlink mt.heap x := by
  funext y
  unfold lru_remove unlink
  cases hpv : (mt.heap x).lru_prev with
  | none =>
    cases hnx : (mt.heap x).lru_next with
    | none =>
      cases c <;>
        simp only [mapping_table_t.set_cache, mapping_table_t.set_entry, mapping_table_t.cache,
          hpv, hnx] <;> by_cases h1 : y = x <;> simp_all
    | some n =>
      have hnx' : n ≠ x := by intro e; subst e; exact hn hnx
      have hxn : x ≠ n := fun e => hnx' e.symm
      cases c <;>
        simp only [mapping_table_t.set_cache, mapping_table_t.set_entry, mapping_table_t.cache,
          hpv, hnx, if_neg hxn] <;>
        by_cases h1 : y = x <;> by_cases h2 : y = n <;> simp_all
  | some p =>
    have hpx : p ≠ x := by intro e; subst e; exact hp hpv
    have hxp : x ≠ p := fun e => hpx e.symm
    cases hnx : (mt.heap x).lru_next with
    | none =>
      cases c <;>
        simp only [mapping_table_t.set_cache, mapping_table_t.set_entry, mapping_table_t.cache,
          hpv, hnx, if_neg hxp] <;>
        by_cases h1 : y = x <;> by_cases h3 : y = p <;> simp_all
    | some n =>
      have hnx' : n ≠ x := by intro e; subst e; exact hn hnx
      have hxn : x ≠ n := fun e => hnx' e.symm
      have hnp : n ≠ p := by
        intro e; subst e; exact hpn n hpv hnx
      cases c <;>
        simp only [mapping_table_t.set_cache, mapping_table_t.set_entry, mapping_table_t.cache,
          hpv, hnx, if_neg hxp, if_neg hnp, if_neg hxn] <;>
        by_cases h1 : y = x <;> by_cases h2 : y = n <;> by_cases h3 : y = p <;> simp_all

theorem lru_remove_cache (mt : mapping_table_t) (c : mtpc_ref) (x : Nat)
    (hp : (mt.heap x).lru_prev ≠ some x) :
    (lru_remove mt c x).cache c
      = { mt.cache c with
          lru_head := if (mt.heap x).lru_prev = none then (mt.heap x).lru_next
            else (mt.cache c).lru_head
          lru_tail := if (mt.heap x).lru_next = none then (mt.heap x).lru_prev
            else (mt.cache c).lru_tail } := by
  unfold lru_remove
  cases hpv : (mt.heap x).lru_prev with
  | none =>
    cases hnx : (mt.heap x).lru_next with
    | none =>
      cases c <;>
        simp [mapping_table_t.set_cache, mapping_table_t.set_entry, mapping_table_t.cache,
          hpv, hnx]
    | some n =>
      cases c <;>
        simp [mapping_table_t.set_cache, mapping_table_t.set_entry, mapping_table_t.cache,
          hpv, hnx]
  | some p =>
    have hxp : x ≠ p := by intro e; subst e; exact hp hpv
    cases hnx : (mt.heap x).lru_next with
    | none =>
      cases c <;>
        simp [mapping_table_t.set_cache, mapping_table_t.set_entry, mapping_table_t.cache,
          hpv, hnx, hxp]
    | some n =>
      cases c <;>
        simp [mapping_table_t.set_cache, mapping_table_t.set_entry, mapping_table_t.cache,
          hpv, hnx, hxp]

theorem lru_remove_other (mt : mapping_table_t) (c c' : mtpc_ref) (x : Nat) (h : c' ≠ c) :
    (lru_remove mt c x).cache c' = mt.cache c' := by
  unfold lru_remove
  cases c <;> cases c' <;> first | exact absurd rfl h | skip
  all_goals
    simp only [mapping_table_t.set_cache, mapping_table_t.set_entry, mapping_table_t.cache]
    repeat' split
    all_goals rfl

theorem lru_remove_spec (mt : mapping_table_t) (c : mtpc_ref) (a b : List Nat) (x : Nat)
    (h : lru_is mt c (a ++ x :: b)) :
    lru_is (lru_remove mt c x) c (a ++ b) ∧ (lru_remove mt c x).heap = unlink mt.heap x := by
  obtain ⟨h1, h2, h3⟩ := h
  obtain ⟨s1, s2⟩ := dll_split mt.heap x a none _ b h2
  have hxa : x ∉ a := by
    intro hm
    have := List.nodup_append.mp h3
    exact this.2.2 hm (List.mem_cons_self _ _) 
  have hxb : x ∉ b := by
    have := (List.nodup_append.mp h3).2.1
    exact (List.nodup_cons.mp this).1
  have hp : (mt.heap x).lru_prev ≠ some x := by
    rw [s1]
    intro e
    rcases last_or_mem _ _ _ e with hm | hm
    · exact hxa hm
    · cases hm
  have hn : (mt.heap x).lru_next ≠ some x := by
    rw [s2]
    intro e
    cases b with
    | nil => cases e
    | cons y b' =>
      simp only [List.head?_cons, Option.some.injEq] at e
      subst e
      exact hxb (List.mem_cons_self _ _)
  have hpn : ∀ q, (mt.heap x).lru_prev = some q → (mt.heap x).lru_next ≠ some q := by
    intro q hq e
    rw [s1] at hq
    rw [s2] at e
    have hqb : q ∈ b := by
      cases b with
      | nil => cases e
      | cons y b' =>
        simp only [List.head?_cons, Option.some.injEq] at e
        subst e
        exact List.mem_cons_self _ _
    rcases last_or_mem _ _ _ hq with hm | hm
    · exact (List.nodup_append.mp h3).2.2 hm (List.mem_cons_of_mem _ hqb)
    · cases hm
  have hheap := lru_remove_heap mt c x hp hn hpn
  refine ⟨⟨?_, ?_, ?_⟩, hheap⟩
  · rw [lru_remove_cache mt c x hp]
    simp only
    cases a with
    | nil =>
      simp only [last_or_nil] at s1
      simp only [s1, if_true, s2, List.nil_append]
    | cons w a' =>
      have : (mt.heap x).lru_prev ≠ none := by
        rw [s1, last_or_cons]
        intro e
        have hh : ∀ (l : List Nat) (z : Nat), last_or l (some z) ≠ none := by
          intro l
          induction l with
          | nil => intro z; simp [last_or]
          | cons v l ih => intro z; rw [last_or_cons]; exact ih v
        exact hh _ _ e
      simp only [if_neg this]
      rw [h1]
      rfl
  · rw [hheap, lru_remove_cache mt c x hp]
    simp only
    have := dll_unlink mt.heap x a none _ b h2 h3 (fun q hq => by cases hq)
    have hb : (b = []) ↔ (mt.heap x).lru_next = none := by
      rw [s2]
      cases b <;> simp
    by_cases hbe : b = []
    · rw [if_pos hbe] at this
      rw [if_pos (hb.mp hbe)]
      exact this
    · rw [if_neg hbe] at this
      rw [if_neg (fun e => hbe (hb.mpr e))]
      exact this
  · have := List.nodup_append.mp h3
    exact List.nodup_append.mpr ⟨this.1, (List.nodup_cons.mp this.2.1).2,
      fun y hy hyb => this.2.2 hy (List.mem_cons_of_mem _ hyb)⟩

theorem lru_push_head_heap (mt : mapping_table_t) (c : mtpc_ref) (x : Nat)
    (hx : (mt.cache c).lru_head ≠ some x) :
    (lru_push_head mt c x).heap = link_front mt.heap (mt.cache c).lru_head x := by
  funext y
  unfold lru_push_head link_front
  cases hh : (mt.cache c).lru_head with
  | none =>
    cases c <;>
      simp only [mapping_table_t.set_cache, mapping_table_t.set_entry, mapping_table_t.cache] at hh ⊢ <;>
      simp only [hh] <;> repeat' split
    all_goals simp_all
  | some hd =>
    have hne : hd ≠ x := by intro e; subst e; exact hx hh
    cases c <;>
      simp only [mapping_table_t.set_cache, mapping_table_t.set_entry, mapping_table_t.cache] at hh ⊢ <;>
      simp only [hh] <;> repeat' split
    all_goals simp_all

theorem lru_push_head_cache (mt : mapping_table_t) (c : mtpc_ref) (x : Nat) :
    (lru_push_head mt c x).cache c
      = { mt.cache c with
          lru_head := some x
          lru_tail := if (mt.cache c).lru_tail = none then some x else (mt.cache c).lru_tail } := by
  unfold lru_push_head
  cases hh : (mt.cache c).lru_head <;> cases ht : (mt.cache c).lru_tail <;> cases c <;>
    simp only [mapping_table_t.set_cache, mapping_table_t.set_entry, mapping_table_t.cache] at hh ht ⊢ <;>
    simp [hh, ht]

theorem lru_push_head_other (mt : mapping_table_t) (c c' : mtpc_ref) (x : Nat) (h : c' ≠ c) :
    (lru_push_head mt c x).cache c' = mt.cache c' := by
  unfold lru_push_head
  cases c <;> cases c' <;> first | exact absurd rfl h | skip
  all_goals
    simp only [mapping_table_t.set_cache, mapping_table_t.set_entry, mapping_table_t.cache]
    repeat' split
    all_goals rfl

theorem lru_push_head_spec (mt : mapping_table_t) (c : mtpc_ref) (l : List Nat) (x : Nat)
    (h : lru_is mt c l) (hx : x ∉ l) : lru_is (lru_push_head mt c x) c (x :: l) := by
  obtain ⟨h1, h2, h3⟩ := h
  have hhx : (mt.cache c).lru_head ≠ some x := by
    rw [h1]
    intro e
    cases l with
    | nil => cases e
    | cons y ys =>
      simp only [List.head?_cons, Option.some.injEq] at e
      subst e
      exact hx (List.mem_cons_self _ _)
  have hheap := lru_push_head_heap mt c x hhx
  have ht := dll_last _ _ _ _ h2
  refine ⟨?_, ?_, List.nodup_cons.mpr ⟨hx, h3⟩⟩
  · rw [lru_push_head_cache]; rfl
  · rw [hheap, lru_push_head_cache]
    simp only
    cases l with
    | nil =>
      simp only [last_or_nil] at ht
      simp only [List.head?_nil] at h1
      simp only [ht, if_true, dll, link_front, h1, if_true, and_self, List.head?_nil]
      simp
    | cons y ys =>
      simp only [List.head?_cons] at h1
      have hyx : y ≠ x := by
        intro e; subst e; exact hx (List.mem_cons_self _ _)
      have htn : (mt.cache c).lru_tail ≠ none := by
        rw [ht, last_or_cons]
        have hh : ∀ (l : List Nat) (z : Nat), last_or l (some z) ≠ none := by
          intro l
          induction l with
          | nil => intro z; simp [last_or]
          | cons v l ih => intro z; rw [last_or_cons]; exact ih v
        exact hh _ _
      simp only [if_neg htn]
      obtain ⟨g1, g2, g3⟩ := h2
      refine ⟨?_, ?_, ?_, ?_, ?_⟩
      · have hxy : x ≠ y := fun e => hyx e.symm
        simp only [link_front, h1, Option.some.injEq, if_neg hxy, if_true]
      · have hxy : x ≠ y := fun e => hyx e.symm
        simp only [link_front, h1, Option.some.injEq, if_neg hxy, if_true, List.head?_cons]
      · simp [link_front, h1]
      · simp only [link_front, h1, if_true]
        exact g2
      · apply dll_congr mt.heap _ _ _ _ _ g3
        intro z hz
        have hzy : z ≠ y := by
          intro e; subst e
          exact (List.nodup_cons.mp h3).1 hz
        have hzx : z ≠ x := by
          intro e; subst e
          exact hx (List.mem_cons_of_mem _ hz)
        simp [link_front, h1, hzy, hzx]

theorem lru_move_to_head_spec (mt : mapping_table_t) (c : mtpc_ref) (l : List Nat) (x : Nat)
    (h : lru_is mt c l) (hx : x ∈ l) : lru_is (lru_move_to_head mt c x) c (x :: l.erase x) := by
  unfold lru_move_to_head
  split
  · rename_i hh
    rw [h.1] at hh
    cases l with
    | nil => cases hh
    | cons y ys =>
      simp only [List.head?_cons, Option.some.injEq] at hh
      subst hh
      simpa using h
  · obtain ⟨a, b, hab⟩ := List.append_of_mem hx
    subst hab
    have hn := h.2.2
    have hxa : x ∉ a := fun hm => (List.nodup_append.mp hn).2.2 hm (List.mem_cons_self _ _)
    have hxb : x ∉ b := (List.nodup_cons.mp (List.nodup_append.mp hn).2.1).1
    have he : (a ++ x :: b).erase x = a ++ b := by
      rw [List.erase_append_right _ hxa, List.erase_cons_head]
    rw [he]
    apply lru_push_head_spec _ _ _ _ (lru_remove_spec mt c a b x h).1
    simp [hxa, hxb]

theorem lru_is_of_links {mt mt' : mapping_table_t} (c : mtpc_ref) (l : List Nat)
    (hc : mt'.cache c = mt.cache c)
    (hh : ∀ x, (mt'.heap x).lru_prev = (mt.heap x).lru_prev
      ∧ (mt'.heap x).lru_next = (mt.heap x).lru_next)
    (h : lru_is mt c l) : lru_is mt' c l := by
  obtain ⟨h1, h2, h3⟩ := h
  refine ⟨by rw [hc]; exact h1, ?_, h3⟩
  rw [hc]
  exact dll_congr mt.heap mt'.heap l _ _ (fun x _ => hh x) h2

theorem pin_heap (mt : mapping_table_t) (x y : Nat) :
    ((pin mt x).heap y) = if y = x then { mt.heap x with pin_count := u16 ((mt.heap x).pin_count + 1) }
      else mt.heap y := by
  simp only [pin, mapping_table_t.set_entry]

theorem lru_is_pin (mt : mapping_table_t) (c : mtpc_ref) (l : List Nat) (x : Nat)
    (h : lru_is mt c l) : lru_is (pin mt x) c l := by
  apply lru_is_of_links c l _ _ h
  · cases c <;> rfl
  · intro y
    rw [pin_heap]
    split
    · rename_i e; subst e; exact ⟨rfl, rfl⟩
    · exact ⟨rfl, rfl⟩

theorem span_of_range (e : mtpc_entry_t) (h1 : e.start_range ≤ e.end_range)
    (h2 : e.end_range < 2 ^ 64) : e.span = e.end_range - e.start_range :=
  span_of_aligned e (e.end_range - e.start_range) (by omega) h2

/-- C11: `mtpc_search` on a cache whose LRU list is `l` and holds every
resident entry, with ranges that end below `2^64 - 1` and pin counts below
`2^16 - 1`.  It returns no entry exactly when no resident entry covers the
address.  An entry it returns is resident, covers the address and has the
smallest span among the resident entries that cover it; its pin count has
gone up by one, nobody else's has changed, the sorted array is the same, and
the LRU list is that entry followed by the others in their old order. -/
theorem search_contract (mt : mapping_table_t) (c : mtpc_ref) (L : Nat) (l : List Nat)
    (hl : lru_is mt c l) (hres : ∀ x ∈ (mt.cache c).data, x ∈ l)
    (hr : ∀ x ∈ (mt.cache c).data, (mt.heap x).end_range < UINT64_MAX)
    (hp : ∀ x ∈ (mt.cache c).data, (mt.heap x).pin_count + 1 < 2 ^ 16) :
    ((mtpc_search mt c L).1 = none ↔ ∀ x ∈ (mt.cache c).data, ¬ (mt.heap x).covers L)
      ∧ ((mtpc_search mt c L).1 = none → (mtpc_search mt c L).2 = mt)
      ∧ ∀ b, (mtpc_search mt c L).1 = some b →
          b ∈ (mt.cache c).data ∧ (mt.heap b).covers L
          ∧ (∀ x ∈ (mt.cache c).data, (mt.heap x).covers L →
              (mt.heap b).end_range - (mt.heap b).start_range
                ≤ (mt.heap x).end_range - (mt.heap x).start_range)
          ∧ ((mtpc_search mt c L).2.heap b).pin_count = (mt.heap b).pin_count + 1
          ∧ (∀ y, y ≠ b → ((mtpc_search mt c L).2.heap y).pin_count = (mt.heap y).pin_count)
          ∧ (∀ y, ((mtpc_search mt c L).2.heap y).range = (mt.heap y).range)
          ∧ arrays (mtpc_search mt c L).2 = arrays mt
          ∧ lru_is (mtpc_search mt c L).2 c (b :: l.erase b) := by
  have hspan : ∀ x ∈ (mt.cache c).data, (mt.heap x).covers L →
      (mt.heap x).span = (mt.heap x).end_range - (mt.heap x).start_range
        ∧ (mt.heap x).span < UINT64_MAX := by
    intro x hx hc
    have h2 := hr x hx
    have h3 : (mt.heap x).start_range ≤ (mt.heap x).end_range := by
      unfold mtpc_entry_t.covers at hc; omega
    have := span_of_range (mt.heap x) h3 (by unfold UINT64_MAX at h2; omega)
    rw [this]
    exact ⟨rfl, by omega⟩
  have hloop := search_loop_spec mt.heap L (mt.cache c).data none UINT64_MAX
  unfold mtpc_search
  by_cases hsz : (mt.cache c).size = 0
  · have hnil : (mt.cache c).data = [] := by
      simpa [mtpc_t.size] using hsz
    simp only [hsz, if_true, hnil, List.not_mem_nil, false_implies, implies_true, true_and]
    intro b hb
    cases hb
  · simp only [hsz, if_false]
    rcases hloop with ⟨h1, h2⟩ | ⟨b, hb1, hb2, hb3, hb4, hb5⟩
    · rw [h1]
      refine ⟨?_, ?_, ?_⟩
      · constructor
        · intro _ x hx hc
          have := h2 x hx hc
          have := (hspan x hx hc).2
          omega
        · intro _; rfl
      · intro _; rfl
      · intro b hb; cases hb
    · rw [hb2]
      refine ⟨?_, ?_, ?_⟩
      · constructor
        · intro e; cases e
        · intro hall; exact absurd hb3 (hall b hb1)
      · intro e; cases e
      intro b' hb'
      simp only [Option.some.injEq] at hb'
      subst hb'
      have hc := congrFun (cores_lru_move_to_head mt c b)
      simp only [cores, mtpc_entry_t.core, Prod.mk.injEq] at hc
      refine ⟨hb1, hb3, ?_, ?_, ?_, ?_, ?_, ?_⟩
      · intro x hx hcx
        have := hb5 x hx hcx
        rw [(hspan x hx hcx).1, (hspan b hb1 hb3).1] at this
        exact this
      · rw [pin_heap, if_pos rfl]
        simp only [(hc b).2.2.2.2.1]
        unfold u16
        exact Nat.mod_eq_of_lt (hp b hb1)
      · intro y hy
        rw [pin_heap, if_neg hy]
        exact (hc y).2.2.2.2.1
      · intro y
        rw [pin_heap]
        split
        · rename_i e; subst e
          simp only [mtpc_entry_t.range, (hc y).1, (hc y).2.1]
        · simp only [mtpc_entry_t.range, (hc y).1, (hc y).2.1]
      · show arrays (pin _ _) = _
        unfold pin
        rw [arrays_set_entry, arrays_lru_move_to_head]
      · exact lru_is_pin _ _ _ _ (lru_move_to_head_spec mt c l b hl (hres b hb1))

theorem search_contract_witness :
    lru_is full_table .table [6, 8, 0, 2, 4]
      ∧ (mtpc_search full_table .table 10).1 = some 4
      ∧ (((mtpc_search full_table .table 10).1 = none
            ↔ ∀ x ∈ (full_table.cache .table).data, ¬ (full_table.heap x).covers 10)
        ∧ ((mtpc_search full_table .table 10).1 = none
            → (mtpc_search full_table .table 10).2 = full_table)
        ∧ ∀ b, (mtpc_search full_table .table 10).1 = some b →
            b ∈ (full_table.cache .table).data ∧ (full_table.heap b).covers 10
            ∧ (∀ x ∈ (full_table.cache .table).data, (full_table.heap x).covers 10 →
                (full_table.heap b).end_range - (full_table.heap b).start_range
                  ≤ (full_table.heap x).end_range - (full_table.heap x).start_range)
            ∧ ((mtpc_search full_table .table 10).2.heap b).pin_count
                = (full_table.heap b).pin_count + 1
            ∧ (∀ y, y ≠ b → ((mtpc_search full_table .table 10).2.heap y).pin_count
                = (full_table.heap y).pin_count)
            ∧ (∀ y, ((mtpc_search full_table .table 10).2.heap y).range
                = (full_table.heap y).range)
            ∧ arrays (mtpc_search full_table .table 10).2 = arrays full_table
            ∧ lru_is (mtpc_search full_table .table 10).2 .table
                (b :: [6, 8, 0, 2, 4].erase b)) :=
  ⟨by decide!, by decide!,
   search_contract full_table .table 10 [6, 8, 0, 2, 4] (by decide!) (by decide!) (by decide!)
     (by decide!)⟩

theorem get_page_entry_loop_spec (heap : Nat → mtpc_entry_t) (s e : Nat) :
    ∀ (l : List Nat) (best : Option Nat) (bs : Nat),
      ((mtpc_get_page_entry_loop heap s e l (best, bs)).1 = best
          ∧ ∀ x ∈ l, (heap x).contains s e → bs ≤ (heap x).span)
        ∨ ∃ b ∈ l, (mtpc_get_page_entry_loop heap s e l (best, bs)).1 = some b
            ∧ (heap b).contains s e ∧ (heap b).span < bs
            ∧ ∀ x ∈ l, (heap x).contains s e → (heap b).span ≤ (heap x).span := by
  intro l
  induction l with
  | nil => intro best bs; left; exact ⟨rfl, fun e he => by simp at he⟩
  | cons a rest ih =>
    intro best bs
    rw [mtpc_get_page_entry_loop]
    split
    · rename_i hend
      have hnc : ¬ (heap a).contains s e := by
        intro hc; exact absurd hc.1.2 (by omega)
      rcases ih best bs with ⟨h1, h2⟩ | ⟨b, hb, h1, h2, h3, h4⟩
      · left
        refine ⟨h1, fun x he hc => ?_⟩
        rcases List.mem_cons.mp he with rfl | he
        · exact absurd hc hnc
        · exact h2 x he hc
      · right
        refine ⟨b, List.mem_cons_of_mem _ hb, h1, h2, h3, fun x he hc => ?_⟩
        rcases List.mem_cons.mp he with rfl | he
        · exact absurd hc hnc
        · exact h4 x he hc
    · rename_i hend
      split
      · rename_i hcov
        have hc : (heap a).contains s e := hcov
        split
        · rename_i hlt
          rcases ih (some a) (heap a).span with ⟨h1, h2⟩ | ⟨b, hb, h1, h2, h3, h4⟩
          · right
            refine ⟨a, List.mem_cons_self _ _, h1, hc, hlt, fun x he hce => ?_⟩
            rcases List.mem_cons.mp he with rfl | he
            · exact le_refl _
            · exact h2 x he hce
          · right
            refine ⟨b, List.mem_cons_of_mem _ hb, h1, h2, by omega, fun x he hce => ?_⟩
            rcases List.mem_cons.mp he with rfl | he
            · omega
            · exact h4 x he hce
        · rename_i hge
          rcases ih best bs with ⟨h1, h2⟩ | ⟨b, hb, h1, h2, h3, h4⟩
          · left
            refine ⟨h1, fun x he hce => ?_⟩
            rcases List.mem_cons.mp he with rfl | he
            · omega
            · exact h2 x he hce
          · right
            refine ⟨b, List.mem_cons_of_mem _ hb, h1, h2, h3, fun x he hce => ?_⟩
            rcases List.mem_cons.mp he with rfl | he
            · omega
            · exact h4 x he hce
      · rename_i hncov
        have hnc : ¬ (heap a).contains s e := fun hc => hncov hc
        rcases ih best bs with ⟨h1, h2⟩ | ⟨b, hb, h1, h2, h3, h4⟩
        · left
          refine ⟨h1, fun x he hc => ?_⟩
          rcases List.mem_cons.mp he with rfl | he
          · exact absurd hc hnc
          · exact h2 x he hc
        · right
          refine ⟨b, List.mem_cons_of_mem _ hb, h1, h2, h3, fun x he hc => ?_⟩
          rcases List.mem_cons.mp he with rfl | he
          · exact absurd hc hnc
          · exact h4 x he hc

/-- The probe for a range that is resident exactly once finds its entry and
pins it. -/
theorem get_page_entry_exact (mt : mapping_table_t) (c : mtpc_ref) (s e x : Nat)
    (hx : x ∈ (mt.cache c).data) (hs : (mt.heap x).start_range = s)
    (he : (mt.heap x).end_range = e) (hse : s < e) (hmax : e < UINT64_MAX)
    (huniq : ∀ y ∈ (mt.cache c).data, (mt.heap y).range = (s, e) → y = x)
    (hr : ∀ y ∈ (mt.cache c).data, (mt.heap y).end_range < 2 ^ 64) :
    mtpc_get_page_entry mt (some c) s e = (some x, pin mt x) := by
  have hxc : (mt.heap x).contains s e := by
    unfold mtpc_entry_t.contains; omega
  have hxspan : (mt.heap x).span = e - s := by
    rw [span_of_aligned (mt.heap x) (e - s) (by omega) (by unfold UINT64_MAX at hmax; omega)]
  unfold mtpc_get_page_entry
  have hne : ¬ ((mt.cache c).size = 0) := by
    unfold mtpc_t.size
    intro h0
    rw [List.length_eq_zero] at h0
    rw [h0] at hx
    cases hx
  simp only [hne, if_false]
  rcases get_page_entry_loop_spec mt.heap s e (mt.cache c).data none UINT64_MAX with
    ⟨_, h2⟩ | ⟨b, hb, h1, h2, h3, h4⟩
  · have := h2 x hx hxc
    rw [hxspan] at this
    unfold UINT64_MAX at this hmax
    omega
  · have hle := h4 x hx hxc
    rw [hxspan] at hle
    have hbe := hr b hb
    have hbc := h2
    unfold mtpc_entry_t.contains at hbc
    have hbspan : (mt.heap b).span = (mt.heap b).end_range - (mt.heap b).start_range :=
      span_of_aligned (mt.heap b) _ (by omega) hbe
    rw [hbspan] at hle
    have hbx : b = x := by
      apply huniq b hb
      simp only [mtpc_entry_t.range, Prod.mk.injEq]
      omega
    subst hbx
    rw [h1]

theorem pin_core (mt : mapping_table_t) (x y : Nat) :
    ((pin mt x).heap y).start_range = (mt.heap y).start_range
      ∧ ((pin mt x).heap y).end_range = (mt.heap y).end_range
      ∧ ((pin mt x).heap y).value = (mt.heap y).value
      ∧ ((pin mt x).heap y).dirty = (mt.heap y).dirty
      ∧ ((pin mt x).heap y).parent = (mt.heap y).parent := by
  simp only [pin, mapping_table_t.set_entry]
  split
  · rename_i h; subst h; simp
  · simp

theorem vals_of_cores {mt mt' : mapping_table_t} (h : cores mt' = cores mt) :
    vals mt' = vals mt := by
  funext y
  have := congrFun h y
  simp only [cores, mtpc_entry_t.core, Prod.mk.injEq] at this
  exact this.2.2.1

theorem vals_set_entry (mt : mapping_table_t) (x : Nat) (v : mtpc_entry_t)
    (h : v.value = (mt.heap x).value) : vals (mt.set_entry x v) = vals mt := by
  funext y
  simp only [vals, mapping_table_t.set_entry]
  split
  · rename_i e; subst e; exact h
  · rfl

theorem vals_set_cache (mt : mapping_table_t) (c : mtpc_ref) (v : mtpc_t) :
    vals (mt.set_cache c v) = vals mt := by cases c <;> rfl

theorem vals_pin (mt : mapping_table_t) (x : Nat) : vals (pin mt x) = vals mt :=
  vals_set_entry _ _ _ rfl

theorem vals_get_page_entry (mt : mapping_table_t) (c : Option mtpc_ref) (s e : Nat) :
    vals (mtpc_get_page_entry mt c s e).2 = vals mt := by
  unfold mtpc_get_page_entry
  repeat' split
  all_goals first | rfl | exact vals_pin _ _

theorem vals_unpin (mt : mapping_table_t) (o : Option Nat) (r : Nat × mapping_table_t)
    (h : mtpc_unpin mt o = .ok r) : vals r.2 = vals mt := by
  unfold mtpc_unpin at h
  repeat' split at h
  all_goals try cases h
  · rfl
  · exact vals_set_entry _ _ _ rfl

theorem vals_cache_free_entry (mt : mapping_table_t) (c : mtpc_ref) (x : Nat) :
    vals (cache_free_entry mt c x) = vals mt := by
  unfold cache_free_entry
  exact (vals_set_cache _ _ _).trans (vals_set_entry _ _ _ rfl)

theorem vals_take_ownership (mt : mapping_table_t) (ca : mtpc_ref) (ea : Nat) (cb : mtpc_ref)
    (eb : Nat) (r : Int × mapping_table_t)
    (h : mtpc_take_entry_ownership mt ca ea cb eb = .ok r) : vals r.2 = vals mt := by
  unfold mtpc_take_entry_ownership at h
  simp only [bind, Except.bind, pure, Except.pure] at h
  repeat' split at h
  all_goals try cases h
  rw [vals_cache_free_entry, vals_of_cores (cores_lru_push_head _ _ _), vals_set_cache,
    vals_set_cache, vals_set_cache, vals_of_cores (cores_lru_remove _ _ _),
    vals_of_cores (cores_lru_remove _ _ _)]

theorem acquire_probe_vals (m : mapping_table_t) (c : mtpc_ref) (s e : Nat)
    (parent : Option Nat) (entry : Nat) (r : Nat × Bool × mapping_table_t)
    (h : mtpc_acquire_probe m c s e parent entry = .ok r) :
    vals r.2.2 = vals m ∧ (r.2.1 = true → r.1 = entry) := by
  unfold mtpc_acquire_probe at h
  have hg1 := vals_get_page_entry m (m.cache c).child_cache s e
  have hg2 : ∀ pc, vals (mtpc_get_page_entry m (some pc) s e).2 = vals m :=
    fun pc => vals_get_page_entry m (some pc) s e
  simp only [bind, Except.bind, pure, Except.pure] at h
  repeat' split at h
  all_goals try cases h
  all_goals simp only [true_implies, false_implies, and_true, Bool.false_eq_true]
  all_goals try rw [vals_set_entry _ _ _ (by rfl)]
  all_goals try rw [vals_take_ownership _ _ _ _ _ _ (by assumption)]
  all_goals try rw [vals_unpin _ _ _ (by assumption)]
  all_goals first
    | exact hg2 _
    | exact vals_get_page_entry _ _ _ _

theorem acquire_fill_reads (m : mapping_table_t) (c : mtpc_ref) (s e sa : Nat)
    (parent : Option Nat) (entry : Nat) (r : Nat × mapping_table_t)
    (h : mtpc_acquire_fill m c s e sa parent entry = .ok r) :
    vals r.2 = vals m
      ∨ (r.1 = entry ∧ (m.heap entry).value.level = 0
          ∧ (∀ y, y ≠ entry → vals r.2 y = vals m y)
          ∧ ∃ m2, mtpc_acquire_probe m c s e parent entry = .ok (entry, true, m2)
              ∧ lss_read m2 sa m2.block_size = .ok (vals r.2 entry)) := by
  unfold mtpc_acquire_fill at h
  simp only [bind, Except.bind, pure, Except.pure] at h
  split at h
  · cases h; left; rfl
  · rename_i hl
    simp only [ne_eq, Decidable.not_not] at hl
    cases hp : mtpc_acquire_probe m c s e parent entry with
    | error err => rw [hp] at h; simp only at h; cases h
    | ok pr =>
      obtain ⟨en, rf, m2⟩ := pr
      rw [hp] at h
      simp only at h
      obtain ⟨hv, hen⟩ := acquire_probe_vals m c s e parent entry _ hp
      simp only at hv hen
      cases rf with
      | false =>
        simp only [Bool.false_eq_true, if_false] at h
        repeat' split at h
        all_goals try cases h
        left; exact hv
      | true =>
        have hee := hen rfl
        subst hee
        simp only [if_true] at h
        cases hrd : lss_read m2 sa m2.block_size with
        | error err => rw [hrd] at h; simp only at h; cases h
        | ok b =>
          rw [hrd] at h
          simp only at h
          repeat' split at h
          all_goals try cases h
          right
          refine ⟨rfl, hl, ?_, m2, rfl, ?_⟩
          · intro y hy
            simp only [vals, mapping_table_t.set_entry, if_neg hy]
            exact congrFun hv y
          · simp only [vals, mapping_table_t.set_entry, if_true]
            exact hrd

/-- C13: when an entry `x` with exactly the range `[s, e)` and a non-zero
level is resident in the cache (and is the only resident entry with that
range), `mtpc_acquire_from_storage` returns `x`, pinned once more and moved
to the LRU head, and reads nothing from the log: the log and the flash are
as before, and so are the block buffer, the dirty flag, the range and the
parent of every entry and the two sorted arrays.  In general, the part of
the function that follows `mtpc_insert` changes a block buffer only by
`lss_read(storage_address)` into the entry it was given, and only when that
entry has level 0 and the probe of the paired cache asks for the read. -/
theorem acquire_resident_entry (n : Nat) (mt : mapping_table_t) (c : mtpc_ref)
    (s e sa : Nat) (parent : Option Nat) (ct : Bool) (x : Nat)
    (hx : x ∈ (mt.cache c).data) (hs : (mt.heap x).start_range = s)
    (he : (mt.heap x).end_range = e) (hlevel : (mt.heap x).value.level ≠ 0)
    (hse : s < e) (hmax : e < UINT64_MAX)
    (huniq : ∀ y ∈ (mt.cache c).data, (mt.heap y).range = (s, e) → y = x)
    (hr : ∀ y ∈ (mt.cache c).data, (mt.heap y).end_range < 2 ^ 64)
    (hpin : (mt.heap x).pin_count + 1 < 2 ^ 16) (hsa : sa ≠ FLASH_INVALID_ADDRESS) :
    mtpc_acquire_from_storage (n + 2) mt c s e sa parent ct
        = .ok (x, lru_move_to_head (pin mt x) c x)
      ∧ (lru_move_to_head (pin mt x) c x).lss = mt.lss
      ∧ ((lru_move_to_head (pin mt x) c x).heap x).pin_count = (mt.heap x).pin_count + 1
      ∧ (∀ y, ((lru_move_to_head (pin mt x) c x).heap y).value = (mt.heap y).value
          ∧ ((lru_move_to_head (pin mt x) c x).heap y).dirty = (mt.heap y).dirty
          ∧ ((lru_move_to_head (pin mt x) c x).heap y).range = (mt.heap y).range
          ∧ ((lru_move_to_head (pin mt x) c x).heap y).parent = (mt.heap y).parent)
      ∧ arrays (lru_move_to_head (pin mt x) c x) = arrays mt
      ∧ ∀ (m : mapping_table_t) (entry : Nat) (r : Nat × mapping_table_t),
          mtpc_acquire_fill m c s e sa parent entry = .ok r →
          vals r.2 = vals m
            ∨ (r.1 = entry ∧ (m.heap entry).value.level = 0
                ∧ (∀ y, y ≠ entry → vals r.2 y = vals m y)
                ∧ ∃ m2, mtpc_acquire_probe m c s e parent entry = .ok (entry, true, m2)
                    ∧ lss_read m2 sa m2.block_size = .ok (vals r.2 entry)) := by
  have hg := get_page_entry_exact mt c s e x hx hs he hse hmax huniq hr
  have hc := congrFun (cores_lru_move_to_head (pin mt x) c x)
  simp only [cores, mtpc_entry_t.core, Prod.mk.injEq] at hc
  have hval : ((lru_move_to_head (pin mt x) c x).heap x).value = (mt.heap x).value := by
    rw [(hc x).2.2.1, (pin_core mt x x).2.2.1]
  refine ⟨?_, ?_, ?_, ?_, ?_, fun m entry r h => acquire_fill_reads m c s e sa parent entry r h⟩
  · rw [mtpc_acquire_from_storage]
    simp only [hsa, if_false, bind, Except.bind, pure, Except.pure]
    rw [mtpc_insert]
    simp only [hg, bind, Except.bind, pure, Except.pure]
    have hei : entry_is (pin mt x) x s e = true := by
      simp only [entry_is, (pin_core mt x x).1, (pin_core mt x x).2.1, hs, he, and_self,
        decide_True]
    simp only [hei, if_true]
    unfold mtpc_acquire_fill
    simp only [hval, hlevel, ne_eq, not_false_eq_true, if_true, bind, Except.bind, pure,
      Except.pure]
  · rw [lss_lru_move_to_head]
    rfl
  · rw [(hc x).2.2.2.2.1]
    simp only [pin, mapping_table_t.set_entry, if_true]
    unfold u16
    exact Nat.mod_eq_of_lt hpin
  · intro y
    have hp := pin_core mt x y
    refine ⟨by rw [(hc y).2.2.1, hp.2.2.1], by rw [(hc y).2.2.2.2.2, hp.2.2.2.1], ?_,
      by rw [(hc y).2.2.2.1, hp.2.2.2.2]⟩
    simp only [mtpc_entry_t.range, (hc y).1, (hc y).2.1, hp.1, hp.2.1]
  · rw [arrays_lru_move_to_head]
    rfl

theorem acquire_resident_entry_witness :
    8 ∈ (full_table.cache .table).data ∧ (full_table.heap 8).range = (0, 49)
      ∧ (full_table.heap 8).value.level = 1
      ∧ mtpc_acquire_from_storage (3 + 2) full_table .table 0 49 64 none true
          = .ok (8, lru_move_to_head (pin full_table 8) .table 8) :=
  ⟨by decide!, by decide!, by decide!,
   (acquire_resident_entry 3 full_table .table 0 49 64 none true 8 (by decide!) (by decide!)
     (by decide!) (by decide!) (by decide!) (by decide!) (by decide!) (by decide!) (by decide!)
     (by decide!)).1⟩

theorem hdr_fields (t l a : Nat) :
    hdr_type (mk_hdr t l a) = t % 4 ∧ hdr_level (mk_hdr t l a) = l % 64
      ∧ hdr_logical_address (mk_hdr t l a) = a % 2 ^ 56 := by
  unfold hdr_type hdr_level hdr_logical_address mk_hdr
  refine ⟨by omega, by omega, by omega⟩

theorem fresh_header (v : flash_block_t) (level s : Nat) :
    (((v.set_level level).set_type MT_BLOCK).set_logical_address s).type = MT_BLOCK
      ∧ (((v.set_level level).set_type MT_BLOCK).set_logical_address s).level = level % 64
      ∧ (((v.set_level level).set_type MT_BLOCK).set_logical_address s).logical_address
          = s % 2 ^ 56 := by
  simp only [flash_block_t.set_level, flash_block_t.set_type, flash_block_t.set_logical_address,
    flash_block_t.type, flash_block_t.level, flash_block_t.logical_address, hdr_fields, MT_BLOCK,
    Nat.mod_mod, Nat.zero_mod, and_self]

theorem push_head_start (M : mapping_table_t) (c : mtpc_ref) (x y : Nat) :
    ((lru_push_head M c x).heap y).start_range = (M.heap y).start_range := by
  have := congrFun (cores_lru_push_head M c x) y
  simp only [cores, mtpc_entry_t.core, Prod.mk.injEq] at this
  exact this.1

theorem push_head_end (M : mapping_table_t) (c : mtpc_ref) (x y : Nat) :
    ((lru_push_head M c x).heap y).end_range = (M.heap y).end_range := by
  have := congrFun (cores_lru_push_head M c x) y
  simp only [cores, mtpc_entry_t.core, Prod.mk.injEq] at this
  exact this.2.1

theorem push_head_value (M : mapping_table_t) (c : mtpc_ref) (x y : Nat) :
    ((lru_push_head M c x).heap y).value = (M.heap y).value := by
  have := congrFun (cores_lru_push_head M c x) y
  simp only [cores, mtpc_entry_t.core, Prod.mk.injEq] at this
  exact this.2.2.1

theorem push_head_parent (M : mapping_table_t) (c : mtpc_ref) (x y : Nat) :
    ((lru_push_head M c x).heap y).parent = (M.heap y).parent := by
  have := congrFun (cores_lru_push_head M c x) y
  simp only [cores, mtpc_entry_t.core, Prod.mk.injEq] at this
  exact this.2.2.2.1

theorem push_head_pin (M : mapping_table_t) (c : mtpc_ref) (x y : Nat) :
    ((lru_push_head M c x).heap y).pin_count = (M.heap y).pin_count := by
  have := congrFun (cores_lru_push_head M c x) y
  simp only [cores, mtpc_entry_t.core, Prod.mk.injEq] at this
  exact this.2.2.2.2.1

theorem push_head_dirty (M : mapping_table_t) (c : mtpc_ref) (x y : Nat) :
    ((lru_push_head M c x).heap y).dirty = (M.heap y).dirty := by
  have := congrFun (cores_lru_push_head M c x) y
  simp only [cores, mtpc_entry_t.core, Prod.mk.injEq] at this
  exact this.2.2.2.2.2

theorem set_cache_heap (M : mapping_table_t) (c : mtpc_ref) (v : mtpc_t) :
    (M.set_cache c v).heap = M.heap := by cases c <;> rfl

theorem set_cache_data (M : mapping_table_t) (c : mtpc_ref) (v : mtpc_t) :
    ((M.set_cache c v).cache c).data = v.data := by cases c <;> rfl

theorem insert_finish_fresh (mt : mapping_table_t) (c : mtpc_ref) (s e level : Nat)
    (parent : Option Nat) (en : Nat) (r : Nat × mapping_table_t)
    (h : mtpc_insert_finish mt c s e level parent en = .ok r) :
    r.1 = en ∧ en ∈ (r.2.cache c).data
      ∧ fresh_entry (r.2.heap en) s e level (if parent = some en then 2 else 1) := by
  unfold mtpc_insert_finish at h
  simp only [bind, Except.bind, pure, Except.pure] at h
  have hf := fresh_header (mt.heap en).value level s
  cases parent with
  | none =>
    simp only at h
    repeat' split at h
    all_goals try cases h
    refine ⟨rfl, ?_, ?_⟩
    · rw [arrays_cache (arrays_lru_push_head _ _ _), set_cache_data]
      exact mem_array_insert _ _ _
    · simp only [fresh_entry, mtpc_entry_t.range, push_head_start, push_head_end,
        push_head_value, push_head_pin, push_head_dirty, set_cache_heap,
        mapping_table_t.set_entry, if_true, hf]
      simp
  | some p =>
    simp only at h
    repeat' split at h
    all_goals try cases h
    refine ⟨rfl, ?_, ?_⟩
    · rw [arrays_cache (arrays_lru_push_head _ _ _), set_cache_data]
      exact mem_array_insert _ _ _
    · by_cases hpe : p = en
      · subst hpe
        simp only [fresh_entry, mtpc_entry_t.range, push_head_start, push_head_end,
          push_head_value, push_head_pin, push_head_dirty, set_cache_heap, pin,
          mapping_table_t.set_entry, if_true, hf, and_self, true_and]
        decide
      · have hep : en ≠ p := fun e => hpe e.symm
        have hne : ¬ (some p = some en) := by
          intro e; cases e; exact hpe rfl
        simp only [fresh_entry, mtpc_entry_t.range, push_head_start, push_head_end,
          push_head_value, push_head_pin, push_head_dirty, set_cache_heap, pin,
          mapping_table_t.set_entry, if_true, if_neg hep, if_neg hne, hf]
        simp

theorem get_page_entry_some (m : mapping_table_t) (c : mtpc_ref) (s e x : Nat)
    (h : (mtpc_get_page_entry m (some c) s e).1 = some x) :
    (mtpc_get_page_entry m (some c) s e).2 = pin m x := by
  unfold mtpc_get_page_entry at h ⊢
  simp only at h ⊢
  repeat' split at h
  all_goals try cases h
  rename_i hb
  simp only [*, if_false]

theorem found_of_probe (m R : mapping_table_t) (c : mtpc_ref) (s e x : Nat)
    (hg : (mtpc_get_page_entry m (some c) s e).1 = some x)
    (he : entry_is (mtpc_get_page_entry m (some c) s e).2 x s e = true)
    (hc : cores R = cores (mtpc_get_page_entry m (some c) s e).2)
    (ha : arrays R = arrays (mtpc_get_page_entry m (some c) s e).2) :
    x ∈ (R.cache c).data ∧ (R.heap x).range = (s, e) ∧ found_entry m c s e x (R.heap x) := by
  have hm := get_page_entry_mem m c s e x hg
  have hpin := get_page_entry_some m c s e x hg
  rw [hpin] at he hc ha
  have hcx := congrFun hc x
  simp only [cores, mtpc_entry_t.core, Prod.mk.injEq] at hcx
  have hp := pin_core m x x
  simp only [entry_is, decide_eq_true_eq, hp.1, hp.2.1] at he
  have hr : (R.heap x).range = (s, e) := by
    simp only [mtpc_entry_t.range, hcx.1, hcx.2.1, hp.1, hp.2.1, he.1, he.2]
  refine ⟨?_, hr, hg, hm, ?_, hr, ?_, ?_, ?_, ?_⟩
  · rw [arrays_cache ha]
    exact hm
  · simp only [mtpc_entry_t.range, he.1, he.2]
  · rw [hcx.2.2.1, hp.2.2.1]
  · rw [hcx.2.2.2.2.2, hp.2.2.2.1]
  · rw [hcx.2.2.2.1, hp.2.2.2.2]
  · rw [hcx.2.2.2.2.1]
    simp only [pin, mapping_table_t.set_entry, if_true]

theorem insert_reuse_result (mt4 : mapping_table_t) (c : mtpc_ref) (s e level : Nat)
    (parent : Option Nat) (cand : Nat) (r : Nat × mapping_table_t)
    (h : mtpc_insert_reuse mt4 c s e level parent cand = .ok r) :
    r.1 ∈ (r.2.cache c).data ∧ (r.2.heap r.1).range = (s, e)
      ∧ (fresh_entry (r.2.heap r.1) s e level (if parent = some r.1 then 2 else 1)
          ∨ found_entry mt4 c s e r.1 (r.2.heap r.1)) := by
  unfold mtpc_insert_reuse at h
  simp only [bind, Except.bind, pure, Except.pure] at h
  have fin : ∀ m, mtpc_insert_finish m c s e level parent cand = .ok r →
      r.1 ∈ (r.2.cache c).data ∧ (r.2.heap r.1).range = (s, e)
        ∧ (fresh_entry (r.2.heap r.1) s e level (if parent = some r.1 then 2 else 1)
            ∨ found_entry mt4 c s e r.1 (r.2.heap r.1)) := by
    intro m hm
    have hf := insert_finish_fresh m c s e level parent cand r hm
    rw [hf.1]
    exact ⟨hf.2.1, hf.2.2.1, Or.inl hf.2.2⟩
  cases hg : (mtpc_get_page_entry mt4 (some c) s e).1 with
  | none =>
    simp only [hg] at h
    repeat' split at h
    all_goals first
      | cases h
      | exact fin _ h
  | some sp =>
    simp only [hg] at h
    by_cases he : entry_is (mtpc_get_page_entry mt4 (some c) s e).2 sp s e = true
    · simp only [he, if_true] at h
      cases h
      have hf := found_of_probe mt4
        (lru_move_to_head (lru_push_head (mtpc_get_page_entry mt4 (some c) s e).2 c cand) c sp)
        c s e sp hg he
        (by rw [cores_lru_move_to_head, cores_lru_push_head])
        (by rw [arrays_lru_move_to_head, arrays_lru_push_head])
      exact ⟨hf.1, hf.2.1, Or.inr hf.2.2⟩
    · simp only [he] at h
      repeat' split at h
      all_goals first
        | contradiction
        | exact fin _ h

/-- C19 (counterexample): on the table reached by 122 updates the used space
is 16320 bytes, above one segment of 4096; a write of one block with
`clean_tail` set cleans one block of the tail, rotates to the next segment
and returns with 16704 bytes used, above `24576 - 2 * 4096 = 16384`. -/
theorem clean_write_ends_above_bound :
    clean_write_report 70 long_log_table
        = some ((4096, 24576), (16320, 0, 16320), 16704, 16768, 64, 16704, 7872)
      ∧ 4096 < 16320 ∧ 24576 - 2 * 4096 < 16704 := by decide!

theorem used_of_distance (lss : lss_t) (d : Nat) (hht : lss.tail ≤ lss.head)
    (h64 : lss.head - lss.tail < 2 ^ 64) (hs : flash_get_size lss.flash < 2 ^ 64)
    (hu : lss.head - lss.tail ≤ flash_get_size lss.flash) (hd : d < lss_distance lss) :
    lss_get_used_space lss + d < flash_get_size lss.flash := by
  unfold lss_distance at hd
  unfold lss_get_used_space
  rw [if_pos hht] at hd ⊢
  unfold u64_sub at hd
  rw [Nat.mod_eq_of_lt hs, Nat.mod_eq_of_lt h64] at hd
  have e : flash_get_size lss.flash + 2 ^ 64 - (lss.head - lss.tail)
      = 2 ^ 64 + (flash_get_size lss.flash - (lss.head - lss.tail)) := by omega
  rw [e, Nat.add_mod_left, Nat.mod_eq_of_lt (by omega)] at hd
  omega

theorem write_clean_exit (fuel : Nat) :
    ∀ (mt : mapping_table_t) (tries : Nat) (m : mapping_table_t),
      lss_write_clean fuel mt tries = .ok m → last_clean_round m := by
  induction fuel with
  | zero =>
    intro mt tries m h
    rw [lss_write_clean] at h
    cases h
  | succ n ih =>
    intro mt tries m h
    rw [lss_write_clean] at h
    simp only [bind, Except.bind, pure, Except.pure] at h
    split at h
    · cases h
    · rename_i v hv
      by_cases ht : tries + 1 > 10
      · simp only [ht, if_true] at h
        split at h
        · cases h
        · rename_i w hw
          split at h
          · exact ih _ _ _ h
          · rename_i hdist
            cases h
            refine ⟨n, mt, v.2, v.1, hv, by omega, ?_, Or.inr ⟨w.1, hw⟩⟩
            intro a b c d
            exact used_of_distance _ _ a b c d (by omega)
      · simp only [ht, if_false] at h
        split at h
        · exact ih _ _ _ h
        · rename_i hdist
          cases h
          refine ⟨n, mt, v.2, v.1, hv, by omega, ?_, Or.inl rfl⟩
          intro a b c d
          exact used_of_distance _ _ a b c d (by omega)

/-- C19 (amended): when `lss_write` is called with `clean_tail` set and more
than one segment in use and returns, the cleaning loop it ran returned a
state `m` that a last round of cleaning left; in the state `m1` at the end of
that round more than two segments lie between head and tail, so that (with
head and tail in order and the sizes within 64 bits) the used space is below
the device size less two segments there.  The bound is on the state at the
end of the loop, not on the state the call returns. -/
theorem clean_write_bound_at_loop_exit (n : Nat) (mt : mapping_table_t) (data : buf_ptr)
    (len : Nat) (r : Nat × mapping_table_t)
    (hu : lss_get_used_space mt.lss > 1 * mt.lss.flash.segment_size_bytes)
    (h : lss_write (n + 1) mt data len true = .ok r) :
    ∃ m, lss_write_clean n mt 0 = .ok m ∧ last_clean_round m := by
  rw [lss_write] at h
  simp only [bind, Except.bind, pure, Except.pure] at h
  split at h
  · cases h
  · simp only [if_true] at h
    split at h
    · cases h
    · rename_i m hm
      exact ⟨m, hm, write_clean_exit _ _ _ _ hm⟩

theorem clean_write_bound_at_loop_exit_witness :
    ∃ m, lss_write_clean 69 long_log_table 0 = .ok m ∧ last_clean_round m :=
  clean_write_bound_at_loop_exit 69 long_log_table .root 64
    (16704, state_after (lss_write 70 long_log_table .root 64 true))
    (by decide!) (ok_of_outcome _ _ (by decide!))

theorem finish_pins (mt : mapping_table_t) (c : mtpc_ref) (s e level : Nat)
    (p en : Nat) (r : Nat × mapping_table_t) (hne : p ≠ en)
    (h : mtpc_insert_finish mt c s e level (some p) en = .ok r) :
    r.1 = en ∧ (r.2.heap en).pin_count = 1 ∧ (r.2.heap en).parent = some p
      ∧ (r.2.heap p).pin_count = u16 ((mt.heap p).pin_count + 1)
      ∧ (r.2.heap p).parent = (mt.heap p).parent
      ∧ ∀ y, y ≠ en → y ≠ p → (r.2.heap y).pin_count = (mt.heap y).pin_count
          ∧ (r.2.heap y).parent = (mt.heap y).parent := by
  unfold mtpc_insert_finish at h
  simp only [bind, Except.bind, pure, Except.pure] at h
  repeat' split at h
  all_goals try cases h
  have hep : en ≠ p := fun e => hne e.symm
  refine ⟨rfl, ?_, ?_, ?_, ?_, ?_⟩
  · simp only [push_head_pin, set_cache_heap, pin, mapping_table_t.set_entry, if_true, if_neg hep]
  · simp only [push_head_parent, set_cache_heap, pin, mapping_table_t.set_entry, if_true,
      if_neg hep]
  · simp only [push_head_pin, set_cache_heap, pin, mapping_table_t.set_entry, if_true, if_neg hne]
  · simp only [push_head_parent, set_cache_heap, pin, mapping_table_t.set_entry, if_true,
      if_neg hne]
  · intro y hy1 hy2
    simp only [push_head_pin, push_head_parent, set_cache_heap, pin, mapping_table_t.set_entry,
      if_neg hy1, if_neg hy2, and_self]

theorem ranges_congr {R mt : mapping_table_t} (ha : arrays R = arrays mt)
    (hr : ∀ x, (R.heap x).range = (mt.heap x).range) (c : mtpc_ref) :
    ranges R c = ranges mt c := by
  unfold ranges
  rw [arrays_cache ha]
  exact List.map_congr_left (fun x _ => hr x)

theorem range_of_rng {R mt : mapping_table_t} (h : rng R = rng mt) (x : Nat) :
    (R.heap x).range = (mt.heap x).range :=
  congrFun (congrArg Prod.snd h) x

theorem ends_congr {R mt : mapping_table_t} (ha : arrays R = arrays mt)
    (hr : ∀ x, (R.heap x).range = (mt.heap x).range) (c : mtpc_ref)
    (h : ends_bounded mt c) : ends_bounded R c := by
  intro y hy
  rw [arrays_cache ha] at hy
  have := hr y
  simp only [mtpc_entry_t.range, Prod.mk.injEq] at this
  rw [this.2]
  exact h y hy

/-- A probe of the cache for `[s, e)` finds an entry with exactly this range
when one is resident. -/
theorem probe_finds_resident (mt : mapping_table_t) (c : mtpc_ref) (s e : Nat) (hse : s < e)
    (hb : ends_bounded mt c) (hin : (s, e) ∈ ranges mt c) :
    ∃ b, (mtpc_get_page_entry mt (some c) s e).1 = some b
      ∧ entry_is (mtpc_get_page_entry mt (some c) s e).2 b s e = true := by
  unfold ranges at hin
  rw [List.mem_map] at hin
  obtain ⟨y, hy, hyr⟩ := hin
  simp only [mtpc_entry_t.range, Prod.mk.injEq] at hyr
  have hye := hb y hy
  have hmax : e < 2 ^ 64 := by
    unfold UINT64_MAX at hye
    omega
  have hyc : (mt.heap y).contains s e := by
    unfold mtpc_entry_t.contains; omega
  have hys : (mt.heap y).span = e - s :=
    span_of_aligned (mt.heap y) (e - s) (by omega) (by omega)
  have hne : ¬ ((mt.cache c).size = 0) := by
    unfold mtpc_t.size
    intro h0
    rw [List.length_eq_zero] at h0
    rw [h0] at hy
    cases hy
  have key : ∃ b ∈ (mt.cache c).data,
      (mtpc_get_page_entry_loop mt.heap s e (mt.cache c).data (none, UINT64_MAX)).1 = some b
        ∧ (mt.heap b).start_range = s ∧ (mt.heap b).end_range = e := by
    rcases get_page_entry_loop_spec mt.heap s e (mt.cache c).data none UINT64_MAX with h1 | h1
    · have := h1.2 y hy hyc
      unfold UINT64_MAX at this hye
      omega
    · obtain ⟨b, hbm, hb1, hbc, _, hmin⟩ := h1
      refine ⟨b, hbm, hb1, ?_⟩
      have hbe := hb b hbm
      unfold mtpc_entry_t.contains at hbc
      have hbs : (mt.heap b).span = (mt.heap b).end_range - (mt.heap b).start_range :=
        span_of_aligned (mt.heap b) _ (by omega) (by unfold UINT64_MAX at hbe; omega)
      have := hmin y hy hyc
      rw [hbs, hys] at this
      omega
  obtain ⟨b, hbm, hb1, hbs, hbe⟩ := key
  refine ⟨b, ?_, ?_⟩
  · unfold mtpc_get_page_entry
    simp only [if_neg hne, hb1]
  · have h1 : (mtpc_get_page_entry mt (some c) s e).1 = some b := by
      unfold mtpc_get_page_entry
      simp only [if_neg hne, hb1]
    rw [get_page_entry_some mt c s e b h1]
    have hp := pin_core mt b b
    simp only [entry_is, hp.1, hp.2.1, hbs, hbe, and_self, decide_True]

theorem insert_finish_ranges (mt : mapping_table_t) (c : mtpc_ref) (s e level : Nat)
    (parent : Option Nat) (en : Nat) (r : Nat × mapping_table_t)
    (hen : en ∉ (mt.cache c).data)
    (h : mtpc_insert_finish mt c s e level parent en = .ok r) :
    ∃ idx, ranges r.2 c = (ranges mt c).take idx ++ (s, e) :: (ranges mt c).drop idx := by
  unfold mtpc_insert_finish at h
  simp only [bind, Except.bind, pure, Except.pure] at h
  have fin : ∀ (m2 : mapping_table_t) (idx : Nat),
      (m2.cache c).data = (mt.cache c).data →
      (∀ x, (m2.heap x).range = if x = en then (s, e) else (mt.heap x).range) →
      ranges (lru_push_head (m2.set_cache c
          { m2.cache c with data := array_insert (m2.cache c).data idx en }) c en) c
        = (ranges mt c).take idx ++ (s, e) :: (ranges mt c).drop idx := by
    intro m2 idx hd hr
    unfold ranges
    rw [arrays_cache (arrays_lru_push_head _ _ _), set_cache_data, hd]
    unfold array_insert
    have hx : ∀ x, ((lru_push_head (m2.set_cache c
          { m2.cache c with data := (mt.cache c).data.take idx ++ en :: (mt.cache c).data.drop idx })
            c en).heap x).range = if x = en then (s, e) else (mt.heap x).range := by
      intro x
      rw [← hr x]
      simp only [mtpc_entry_t.range, push_head_start, push_head_end, set_cache_heap]
    simp only [List.map_append, List.map_cons, hx, if_true, List.map_take, List.map_drop]
    have e1 : List.map (fun x => if x = en then (s, e) else (mt.heap x).range) (mt.cache c).data
        = List.map (fun x => (mt.heap x).range) (mt.cache c).data := by
      apply List.map_congr_left
      intro a ha
      have : a ≠ en := fun e => hen (e ▸ ha)
      simp only [if_neg this]
    rw [e1]
  cases parent with
  | none =>
    simp only at h
    repeat' split at h
    all_goals try cases h
    rename_i idx _ _
    refine ⟨idx, fin _ idx rfl ?_⟩
    intro x
    by_cases hx : x = en
    · subst hx
      simp only [mapping_table_t.set_entry, if_true, mtpc_entry_t.range]
    · simp only [mapping_table_t.set_entry, if_neg hx]
  | some p =>
    simp only at h
    repeat' split at h
    all_goals try cases h
    rename_i idx _ _ _
    refine ⟨idx, fin _ idx rfl ?_⟩
    intro x
    rw [range_of_rng (rng_pin _ p) x]
    by_cases hx : x = en
    · subst hx
      simp only [mapping_table_t.set_entry, if_true, mtpc_entry_t.range]
    · simp only [mapping_table_t.set_entry, if_neg hx]

theorem nodup_insert_middle (l : List (Nat × Nat)) (a : Nat × Nat) (idx : Nat)
    (hl : l.Nodup) (ha : a ∉ l) : (l.take idx ++ a :: l.drop idx).Nodup := by
  rw [List.perm_middle.nodup_iff, List.take_append_drop]
  exact List.nodup_cons.mpr ⟨ha, hl⟩

theorem insert_finish_distinct (mt : mapping_table_t) (c : mtpc_ref) (s e level : Nat)
    (parent : Option Nat) (en : Nat) (r : Nat × mapping_table_t)
    (hen : en ∉ (mt.cache c).data) (hd : distinct_ranges mt c) (hse : (s, e) ∉ ranges mt c)
    (h : mtpc_insert_finish mt c s e level parent en = .ok r) :
    distinct_ranges r.2 c := by
  obtain ⟨idx, hi⟩ := insert_finish_ranges mt c s e level parent en r hen h
  unfold distinct_ranges
  rw [hi]
  exact nodup_insert_middle _ _ _ hd hse

theorem arrays_probe (mt : mapping_table_t) (c : Option mtpc_ref) (s e : Nat) :
    arrays (mtpc_get_page_entry mt c s e).2 = arrays mt := by
  unfold mtpc_get_page_entry
  repeat' split
  all_goals rfl

theorem arrays_unpin (mt : mapping_table_t) (en : Option Nat) (r : Nat × mapping_table_t)
    (h : mtpc_unpin mt en = .ok r) : arrays r.2 = arrays mt := by
  unfold mtpc_unpin at h
  repeat' split at h
  all_goals cases h
  all_goals rfl

theorem arrays_allocate (mt : mapping_table_t) (c : mtpc_ref) :
    arrays (cache_allocate_entry mt c).2 = arrays mt := by
  unfold cache_allocate_entry
  split
  · rfl
  · cases c <;> rfl

theorem rng_allocate (mt : mapping_table_t) (c : mtpc_ref) :
    rng (cache_allocate_entry mt c).2 = rng mt := by
  unfold cache_allocate_entry
  split
  · rfl
  · simp only
    rw [rng_set_entry _ _ _ (by rfl), rng_set_cache_free]

theorem allocate_free_head (mt : mapping_table_t) (c : mtpc_ref) (en : Nat)
    (h : (cache_allocate_entry mt c).1 = some en) : (mt.cache c).free_list = some en := by
  unfold cache_allocate_entry at h
  split at h
  · cases h
  · rename_i x hx
    simp only [Option.some.injEq] at h
    rw [hx, h]

/-- The state before `mtpc_insert` sets up a slot has the arrays and ranges
of the state `m`, less the slot `cand` taken out at `idx`. -/
theorem removed_distinct (m X : mapping_table_t) (c : mtpc_ref) (idx cand : Nat) (se : Nat × Nat)
    (hdata : (X.cache c).data = array_remove (m.cache c).data idx)
    (hr : ∀ x, (X.heap x).range = (m.heap x).range)
    (hf : find_index (m.cache c).data cand = some idx)
    (hd : distinct_ranges m c) (hse : se ∉ ranges m c) :
    cand ∉ (X.cache c).data ∧ distinct_ranges X c ∧ se ∉ ranges X c := by
  have hsub : (ranges X c).Sublist (ranges m c) := by
    unfold ranges
    rw [hdata, List.map_congr_left (fun x _ => hr x)]
    exact List.Sublist.map _ (List.eraseIdx_sublist _ _)
  refine ⟨?_, List.Nodup.sublist hsub hd, fun h => hse (hsub.subset h)⟩
  have hnd : (m.cache c).data.Nodup := List.Nodup.of_map _ hd
  unfold find_index at hf
  simp only at hf
  split at hf
  · simp only [Option.some.injEq] at hf
    rw [hdata, array_remove, ← hf, List.eraseIdx_indexOf_eq_erase, hnd.mem_erase_iff]
    exact fun h => h.1 rfl
  · cases hf

theorem no_exact_not_resident (mt : mapping_table_t) (c : mtpc_ref) (s e : Nat) (hse : s < e)
    (hb : ends_bounded mt c)
    (hno : ∀ b, (mtpc_get_page_entry mt (some c) s e).1 = some b →
      entry_is (mtpc_get_page_entry mt (some c) s e).2 b s e ≠ true) :
    (s, e) ∉ ranges mt c := by
  intro hin
  obtain ⟨b, h1, h2⟩ := probe_finds_resident mt c s e hse hb hin
  exact hno b h1 h2

theorem insert_after_removal (m X : mapping_table_t) (c : mtpc_ref) (idx cand s e level : Nat)
    (parent : Option Nat) (r : Nat × mapping_table_t)
    (hdata : (X.cache c).data = array_remove (m.cache c).data idx)
    (hr : ∀ x, (X.heap x).range = (m.heap x).range)
    (hf : find_index (m.cache c).data cand = some idx)
    (hd : distinct_ranges m c) (hse : (s, e) ∉ ranges m c)
    (h : mtpc_insert_finish X c s e level parent cand = .ok r) :
    distinct_ranges r.2 c := by
  have key := removed_distinct m X c idx cand (s, e) hdata hr hf hd hse
  exact insert_finish_distinct X c s e level parent cand r key.1 key.2.1 key.2.2 h

theorem insert_reuse_distinct (mt4 : mapping_table_t) (c : mtpc_ref) (s e level : Nat)
    (parent : Option Nat) (cand : Nat) (r : Nat × mapping_table_t) (hse : s < e)
    (hd : distinct_ranges mt4 c) (hb : ends_bounded mt4 c)
    (h : mtpc_insert_reuse mt4 c s e level parent cand = .ok r) :
    distinct_ranges r.2 c := by
  unfold mtpc_insert_reuse at h
  simp only [bind, Except.bind, pure, Except.pure] at h
  have hA5 := arrays_probe mt4 (some c) s e
  have hR5 := range_of_rng (rng_get_page_entry mt4 (some c) s e)
  cases hg : (mtpc_get_page_entry mt4 (some c) s e).1 with
  | none =>
    simp only [hg] at h
    have hnot : (s, e) ∉ ranges mt4 c := by
      apply no_exact_not_resident mt4 c s e hse hb
      intro b hb1
      rw [hg] at hb1
      cases hb1
    cases hu : mtpc_unpin (mtpc_get_page_entry mt4 (some c) s e).2 none with
    | error err => rw [hu] at h; simp only at h; cases h
    | ok v =>
      rw [hu] at h
      simp only at h
      have hA6 := (arrays_unpin _ _ _ hu).trans hA5
      have hR6 : ∀ x, (v.2.heap x).range = (mt4.heap x).range := fun x =>
        (range_of_rng (rng_unpin _ _ _ hu) x).trans (hR5 x)
      have hd6 : distinct_ranges v.2 c := by
        unfold distinct_ranges
        rw [ranges_congr hA6 hR6]
        exact hd
      have hn6 : (s, e) ∉ ranges v.2 c := by
        rw [ranges_congr hA6 hR6]
        exact hnot
      split at h
      · cases h
      · split at h
        · cases h
        · rename_i idx hidx
          repeat' split at h
          all_goals try cases h
          all_goals
            refine insert_after_removal v.2 _ c idx cand s e level parent r ?_ ?_ hidx hd6 hn6 h
            · first
                | rw [set_cache_data]
                | rw [arrays_cache (arrays_set_entry _ _ _), set_cache_data]
            · intro x
              first
                | (rw [set_cache_heap]; done)
                | (simp only [mapping_table_t.set_entry, set_cache_heap]
                   split <;> rename_i hx <;> first | (rw [hx]; rfl) | rfl)
  | some sp =>
    simp only [hg] at h
    by_cases he : entry_is (mtpc_get_page_entry mt4 (some c) s e).2 sp s e = true
    · simp only [he, if_true] at h
      cases h
      unfold distinct_ranges
      rw [ranges_congr ((arrays_lru_move_to_head _ _ _).trans ((arrays_lru_push_head _ _ _).trans hA5))
        (fun x => (range_of_rng (rng_lru_move_to_head _ _ _) x).trans
          ((range_of_rng (rng_lru_push_head _ _ _) x).trans (hR5 x)))]
      exact hd
    · simp only [he, Bool.false_eq_true, if_false] at h
      have hnot : (s, e) ∉ ranges mt4 c := by
        apply no_exact_not_resident mt4 c s e hse hb
        intro b hb1
        rw [hg] at hb1
        cases hb1
        exact he
      cases hu : mtpc_unpin (mtpc_get_page_entry mt4 (some c) s e).2 (some sp) with
      | error err => rw [hu] at h; simp only at h; cases h
      | ok v =>
        rw [hu] at h
        simp only at h
        have hA6 := (arrays_unpin _ _ _ hu).trans hA5
        have hR6 : ∀ x, (v.2.heap x).range = (mt4.heap x).range := fun x =>
          (range_of_rng (rng_unpin _ _ _ hu) x).trans (hR5 x)
        have hd6 : distinct_ranges v.2 c := by
          unfold distinct_ranges
          rw [ranges_congr hA6 hR6]
          exact hd
        have hn6 : (s, e) ∉ ranges v.2 c := by
          rw [ranges_congr hA6 hR6]
          exact hnot
        split at h
        · cases h
        · split at h
          · cases h
          · rename_i idx hidx
            repeat' split at h
            all_goals try cases h
            all_goals
              refine insert_after_removal v.2 _ c idx cand s e level parent r ?_ ?_ hidx hd6 hn6 h
              · first
                  | rw [set_cache_data]
                  | rw [arrays_cache (arrays_set_entry _ _ _), set_cache_data]
              · intro x
                first
                  | (rw [set_cache_heap]; done)
                  | (simp only [mapping_table_t.set_entry, set_cache_heap]
                     split <;> rename_i hx <;> first | (rw [hx]; rfl) | rfl)

theorem cache_free_list_probe (mt : mapping_table_t) (c' : Option mtpc_ref) (s e : Nat)
    (c : mtpc_ref) :
    ((mtpc_get_page_entry mt c' s e).2.cache c).free_list = (mt.cache c).free_list := by
  unfold mtpc_get_page_entry
  repeat' split
  all_goals rfl

theorem cache_free_list_unpin (mt : mapping_table_t) (en : Option Nat) (r : Nat × mapping_table_t)
    (h : mtpc_unpin mt en = .ok r) (c : mtpc_ref) :
    (r.2.cache c).free_list = (mt.cache c).free_list := by
  unfold mtpc_unpin at h
  repeat' split at h
  all_goals cases h
  all_goals rfl

/-- C21 (counterexample): for a padded size of `1 = fanout ^ 0` the early
return gives 2, not `0 + 1`. -/
theorem height_of_single_entry :
    max_tree_height 8 (7 ^ 0) 7 = .ok 2 ∧ max_tree_height 8 (2 ^ 0) 2 = .ok 2
      ∧ (2 : Nat) ≠ 0 + 1 := by decide

theorem max_tree_height_loop_exact (f k : Nat) (hf : 2 ≤ f) (h64 : f ^ k < 2 ^ 64) :
    ∀ (m j fuel : Nat), j + m = k → m ≤ fuel →
      max_tree_height_loop (f ^ k) f fuel (f ^ j) (j + 1) = .ok (k + 1) := by
  intro m
  induction m with
  | zero =>
    intro j fuel hj _
    have : j = k := by omega
    subst this
    cases fuel <;> rw [max_tree_height_loop, if_neg (by omega)]
  | succ m ih =>
    intro j fuel hj hfuel
    obtain ⟨fuel, rfl⟩ : ∃ x, fuel = x + 1 := ⟨fuel - 1, by omega⟩
    have hlt : f ^ j < f ^ k := Nat.pow_lt_pow_right (by omega) (by omega)
    have hle : f ^ (j + 1) ≤ f ^ k := Nat.pow_le_pow_right (by omega) (by omega)
    have hu : u64 (f ^ j * f) = f ^ (j + 1) := by
      have e : f ^ j * f = f ^ (j + 1) := (Nat.pow_succ ..).symm
      rw [e]
      unfold u64
      exact Nat.mod_eq_of_lt (by omega)
    rw [max_tree_height_loop, if_pos hlt, hu]
    exact ih (j + 1) fuel (by omega) (by omega)

/-- C21 (amended): for every fanout `f ≥ 2` and every `k ≥ 1` with
`f ^ k < 2 ^ 64`, `max_tree_height(f ^ k, f)` returns `k + 1` (the loop needs
`k` rounds); for `k = 0`, the padded size 1, it returns 2. -/
theorem max_tree_height_of_power (fuel f k : Nat) (hf : 2 ≤ f) (hk : 1 ≤ k)
    (h64 : f ^ k < 2 ^ 64) (hfuel : k ≤ fuel) :
    max_tree_height fuel (f ^ k) f = .ok (k + 1) ∧ max_tree_height fuel (f ^ 0) f = .ok 2 := by
  constructor
  · unfold max_tree_height
    split
    · rename_i hle
      have : k = 1 := by
        by_contra hne
        have h2 : f ^ 2 ≤ f ^ k := Nat.pow_le_pow_right (by omega) (by omega)
        have h3 : f * 2 ≤ f * f := Nat.mul_le_mul_left f hf
        have h4 : f ^ 2 = f * f := by ring
        omega
      subst this
      rfl
    · have := max_tree_height_loop_exact f k hf h64 k 0 fuel (by omega) hfuel
      simpa using this
  · unfold max_tree_height
    rw [if_pos (by simp; omega)]

theorem max_tree_height_of_power_witness :
    max_tree_height 8 (7 ^ 3) 7 = .ok (3 + 1) ∧ max_tree_height 8 (7 ^ 0) 7 = .ok 2 :=
  max_tree_height_of_power 8 7 3 (by decide) (by decide) (by decide) (by decide)

/-- C22 (counterexample): on the crowded table 7552 bytes lie between head
and tail and more than one segment is in use; a write of one block with
`clean_tail` set needs eleven rounds of cleaning, runs all of them (the tail
moves from 0 to 704, eleven blocks) and returns the address of the block
instead of failing after the tenth round. -/
theorem eleven_rounds_of_cleaning :
    clean_write_report 600 crowded_table
        = some ((4096, 24576), (17024, 0, 17024), 17024, 17088, 704, 16384, 8192)
      ∧ cleaning_rounds 200 40 crowded_table 0 = some 11 := by decide!

/-- C22 (amended): the cleaning loop of `lss_write` has no bound on its
rounds.  A round that leaves at most two segments between head and tail is
followed by another round, whatever the number of rounds done: up to the
tenth round the loop goes on in the state the round left, and from the
eleventh round on it first runs the analysis of the log and goes on in the
state the analysis left.  The loop ends only when more than two segments lie
between head and tail. -/
theorem cleaning_goes_on_after_ten_rounds (n : Nat) (mt mt1 : mapping_table_t) (tries : Nat)
    (a : Int) (h1 : lss_clean_tail_block n mt mt.lss.tail = .ok (a, mt1))
    (hd : lss_distance mt1.lss ≤ 2 * mt.lss.flash.segment_size_bytes) :
    (tries + 1 ≤ 10 → lss_write_clean (n + 1) mt tries = lss_write_clean n mt1 (tries + 1))
      ∧ (10 < tries + 1 → ∀ b m, lss_debug_analyze n mt1 = .ok (b, m) →
          lss_write_clean (n + 1) mt tries = lss_write_clean n m (tries + 1)) := by
  constructor
  · intro ht
    rw [lss_write_clean]
    simp only [bind, Except.bind, pure, Except.pure, h1]
    rw [if_neg (by omega)]
    simp only [hd, if_true]
  · intro ht b m h2
    rw [lss_write_clean]
    simp only [bind, Except.bind, pure, Except.pure, h1]
    rw [if_pos (by omega)]
    simp only [h2, hd, if_true]

theorem cleaning_goes_on_after_ten_rounds_witness :
    (10 + 1 ≤ 10 → lss_write_clean (599 + 1) crowded_table 10
        = lss_write_clean 599 (state_after (lss_clean_tail_block 599 crowded_table
            crowded_table.lss.tail)) (10 + 1))
      ∧ (10 < 10 + 1 → ∀ b m,
          lss_debug_analyze 599 (state_after (lss_clean_tail_block 599 crowded_table
            crowded_table.lss.tail)) = .ok (b, m) →
          lss_write_clean (599 + 1) crowded_table 10 = lss_write_clean 599 m (10 + 1)) :=
  cleaning_goes_on_after_ten_rounds 599 crowded_table _ 10 0
    (ok_of_outcome _ _ (by decide!)) (by decide!)

/-- The loop of the lookup computes its child by `descent_step`. -/
theorem get_loop_step (L : Nat) (ct : Bool) (out n : Nat) (mt : mapping_table_t)
    (ce : Option Nat) (r s : Nat) :
    mapping_table_get_loop L ct out (n + 1) mt ce r s
      = (descent_step mt.fanout L r s).bind (fun d => do
          let slot ← read_entry (mt.block_of ce) d.2.1
          if d.1 = 1 then
            let (_, mt1) ← mtpc_unpin mt ce
            if slot = FLASH_INVALID_ADDRESS then return (-1, slot, mt1)
            else return (0, slot, mt1)
          else if slot = FLASH_INVALID_ADDRESS then
            let (_, mt1) ← mtpc_unpin mt ce
            return (-1, out, mt1)
          else
            let (new_cache_entry, mt1) ← mtpc_acquire_from_storage n mt .table d.2.2
              (u64 (d.2.2 + d.1)) slot ce ct
            if 1 + (mt1.block_of ce).level ≠ (mt1.heap new_cache_entry).value.level then
              throw (.assertion .mapping_table_c 348)
            let (_, mt2) ← mtpc_unpin mt1 ce
            mapping_table_get_loop L ct out n mt2 (some new_cache_entry) d.1 d.2.2) := by
  rw [mapping_table_get_loop]
  unfold descent_step
  simp only [bind, Except.bind, pure, Except.pure]
  cases udiv r mt.fanout with
  | error e => rfl
  | ok sub =>
    simp only
    cases umod L r with
    | error e => rfl
    | ok m =>
      simp only
      cases udiv m sub with
      | error e => rfl
      | ok q => rfl

/-- The loop of the update computes its child by `descent_step`. -/
theorem update_loop_step (L P : Nat) (ct : Bool) (n : Nat) (mt : mapping_table_t)
    (ce : Option Nat) (r s : Nat) :
    mapping_table_update_loop L P ct (n + 1) mt ce r s
      = (descent_step mt.fanout L r s).bind (fun d => do
          if d.1 = 1 then
            let mt1 ← write_slot mt ce d.2.1 P
            let (_, mt2) ← mtpc_unpin (mtpc_mark_dirty mt1 ce) ce
            return ((0 : Int), mt2)
          else
            let slot ← read_entry (mt.block_of ce) d.2.1
            let (new_cache_entry, mt1) ←
              if slot = FLASH_INVALID_ADDRESS then do
                let (e, m) ← mtpc_insert n mt .table d.2.2 (u64 (d.2.2 + d.1))
                  ((mt.block_of ce).level + 1) ce ct
                pure (e, m.set_entry e { m.heap e with
                  value := (m.heap e).value.fill_ones (payload_words m.block_size) })
              else do
                let (e, m) ← mtpc_acquire_from_storage n mt .table d.2.2 (u64 (d.2.2 + d.1))
                  slot ce ct
                if 1 + (m.block_of ce).level ≠ (m.heap e).value.level then
                  throw (.assertion .mapping_table_c 261)
                pure (e, m)
            let (_, mt2) ← mtpc_unpin mt1 ce
            mapping_table_update_loop L P ct n mt2 (some new_cache_entry) d.1 d.2.2) := by
  rw [mapping_table_update_loop]
  unfold descent_step
  simp only [bind, Except.bind, pure, Except.pure]
  cases udiv r mt.fanout with
  | error e => rfl
  | ok sub =>
    simp only
    cases umod L r with
    | error e => rfl
    | ok m =>
      simp only
      cases udiv m sub with
      | error e => rfl
      | ok q => rfl

/-- C23: for a fanout `f ≥ 2` (a 32-bit number), a page range `[s, s + r)`
with `r = f ^ (k + 1)`, `s` a multiple of `r`, the range within 64 bits, and
`s ≤ L < s + r`, the step of the descent returns the child size `f ^ k`, the
index `i = (L mod r) / (r / f) < f` and the child start `s + i * f ^ k`; the
child range contains `L`, starts at a multiple of its size and lies in the
parent range; the child ranges of distinct indices are disjoint, and every
address of the parent range is in the child range of some index below `f`. -/
theorem child_ranges_tile (f k s L : Nat) (hf : 2 ≤ f) (hf32 : f < 2 ^ 32)
    (hs : s % f ^ (k + 1) = 0) (h1 : s ≤ L) (h2 : L < s + f ^ (k + 1))
    (h64 : s + f ^ (k + 1) < 2 ^ 64) :
    descent_step f L (f ^ (k + 1)) s
        = .ok (f ^ k, L % f ^ (k + 1) / (f ^ (k + 1) / f), s + L % f ^ (k + 1) / f ^ k * f ^ k)
      ∧ L % f ^ (k + 1) / (f ^ (k + 1) / f) < f
      ∧ s + L % f ^ (k + 1) / f ^ k * f ^ k ≤ L
      ∧ L < s + L % f ^ (k + 1) / f ^ k * f ^ k + f ^ k
      ∧ (s + L % f ^ (k + 1) / f ^ k * f ^ k) % f ^ k = 0
      ∧ s ≤ s + L % f ^ (k + 1) / f ^ k * f ^ k
      ∧ s + L % f ^ (k + 1) / f ^ k * f ^ k + f ^ k ≤ s + f ^ (k + 1)
      ∧ (∀ a b, a < b → b < f → s + a * f ^ k + f ^ k ≤ s + b * f ^ k)
      ∧ (∀ x, s ≤ x → x < s + f ^ (k + 1) →
          ∃ a < f, s + a * f ^ k ≤ x ∧ x < s + a * f ^ k + f ^ k)
      ∧ s + f * f ^ k = s + f ^ (k + 1) := by
  obtain ⟨g1, g2, g3, g4, g5, g6⟩ := child_geometry f k s L hf hs h1 h2
  have hfpos : 0 < f := by omega
  have hpk : 0 < f ^ k := Nat.pow_pos hfpos
  have hpk1 : f ^ (k + 1) ≠ 0 := Nat.pos_iff_ne_zero.mp (Nat.pow_pos hfpos)
  have hsucc : f ^ (k + 1) = f * f ^ k := by rw [pow_succ, Nat.mul_comm]
  refine ⟨?_, by rw [g1]; exact g2, g4, g5, g3, Nat.le_add_right _ _, g6, ?_, ?_, by rw [hsucc]⟩
  · unfold descent_step
    have hi32 : u32 (L % f ^ (k + 1) / f ^ k) = L % f ^ (k + 1) / f ^ k :=
      u32_of_lt (by omega)
    have hm64 : u64 (L % f ^ (k + 1) / f ^ k * f ^ k) = L % f ^ (k + 1) / f ^ k * f ^ k :=
      u64_of_lt (by omega)
    have hs64 : u64 (s + L % f ^ (k + 1) / f ^ k * f ^ k)
        = s + L % f ^ (k + 1) / f ^ k * f ^ k := u64_of_lt (by omega)
    simp only [udiv, umod, bind, Except.bind, pure, Except.pure, if_neg (by omega : ¬ f = 0),
      if_neg hpk1, g1, if_neg (by omega : ¬ f ^ k = 0), hi32, hm64, hs64]
  · intro a b hab _
    have : (a + 1) * f ^ k ≤ b * f ^ k := Nat.mul_le_mul_right _ hab
    rw [Nat.add_mul, Nat.one_mul] at this
    omega
  · intro x hx1 hx2
    obtain ⟨_, x2, _, x4, x5, _⟩ := child_geometry f k s x hf hs hx1 hx2
    exact ⟨x % f ^ (k + 1) / f ^ k, x2, x4, x5⟩

theorem child_ranges_tile_witness :
    descent_step 7 100 (7 ^ (1 + 1)) 98 = .ok (7 ^ 1, 100 % 7 ^ (1 + 1) / (7 ^ (1 + 1) / 7),
        98 + 100 % 7 ^ (1 + 1) / 7 ^ 1 * 7 ^ 1)
      ∧ 100 % 7 ^ (1 + 1) / (7 ^ (1 + 1) / 7) < 7
      ∧ 98 + 100 % 7 ^ (1 + 1) / 7 ^ 1 * 7 ^ 1 ≤ 100
      ∧ 100 < 98 + 100 % 7 ^ (1 + 1) / 7 ^ 1 * 7 ^ 1 + 7 ^ 1
      ∧ (98 + 100 % 7 ^ (1 + 1) / 7 ^ 1 * 7 ^ 1) % 7 ^ 1 = 0
      ∧ 98 ≤ 98 + 100 % 7 ^ (1 + 1) / 7 ^ 1 * 7 ^ 1
      ∧ 98 + 100 % 7 ^ (1 + 1) / 7 ^ 1 * 7 ^ 1 + 7 ^ 1 ≤ 98 + 7 ^ (1 + 1)
      ∧ (∀ a b, a < b → b < 7 → 98 + a * 7 ^ 1 + 7 ^ 1 ≤ 98 + b * 7 ^ 1)
      ∧ (∀ x, 98 ≤ x → x < 98 + 7 ^ (1 + 1) →
          ∃ a < 7, 98 + a * 7 ^ 1 ≤ x ∧ x < 98 + a * 7 ^ 1 + 7 ^ 1)
      ∧ 98 + 7 * 7 ^ 1 = 98 + 7 ^ (1 + 1) :=
  child_ranges_tile 7 1 98 100 (by decide) (by decide) (by decide) (by decide) (by decide)
    (by decide)

theorem init_npage (fuel : Nat) (image : Nat → flash_block_t) (n bs cap : Nat)
    (create : Bool) (mt : mapping_table_t)
    (h : mapping_table_init fuel image n bs cap create = .ok (some mt)) :
    mt.npage_mappings = n := by
  unfold mapping_table_init at h
  generalize u32 ((bs - sizeof_flash_block_t) / sizeof_mapping_table_entry_t) = f at h ⊢
  split at h
  · cases h
  · simp only [bind, Except.bind] at h
    split at h
    · cases h
    · rename_i padded hp
      split at h
      · cases h
      · rename_i height hh
        have hc := init_open_cfg _ _ _ _ _ _ h
        simp only [cfg, Prod.mk.injEq, init_shell_npage] at hc
        exact hc.2.2.1

theorem padded_loop_one (f fuel : Nat) : padded_loop 1 f fuel 1 = .ok 1 := by
  cases fuel <;> rw [padded_loop, if_neg (by omega)]

/-- C24 (failing input): a table that `mapping_table_init` builds for
`npage_mappings = 1` (any block size that gives a fanout of at least 2) has
the padded size 1, which is no power `fanout ^ k` with `k ≥ 1`; with nothing
cached for address 0, the first step of the descent computes
`sub_range = 1 / fanout = 0` and divides by it: the update and the lookup of
`L = 0 < npage_mappings` both stop with a division by zero. -/
theorem single_entry_table_divides_by_zero (fuel n : Nat) (image : Nat → flash_block_t)
    (bs cap : Nat) (create : Bool) (mt : mapping_table_t) (P : Nat) (ct : Bool) (out : Nat)
    (hf : 2 ≤ fanout_of bs)
    (h : mapping_table_init fuel image 1 bs cap create = .ok (some mt))
    (hs : mtpc_search mt .table 0 = (none, mt)) :
    mt.npage_mappings = 1 ∧ mt.npage_mappings_padded = 1
      ∧ (∀ k, 1 ≤ k → mt.npage_mappings_padded ≠ mt.fanout ^ k)
      ∧ mapping_table_update_physical_address (n + 1) mt 0 P ct = .error .div_by_zero
      ∧ mapping_table_get_physical_address (n + 1) mt 0 ct out = .error .div_by_zero := by
  have hn := init_npage fuel image 1 bs cap create mt h
  obtain ⟨hfan, hpad⟩ := init_padding fuel image 1 bs cap create mt h
  rw [padded_loop_one] at hpad
  have hp : mt.npage_mappings_padded = 1 := by
    simp only [Except.ok.injEq] at hpad
    exact hpad.symm
  have hf2 : 2 ≤ mt.fanout := by rw [hfan]; exact hf
  have hdiv : 1 / mt.fanout = 0 := Nat.div_eq_of_lt (by omega)
  refine ⟨hn, hp, ?_, ?_, ?_⟩
  · intro k hk e
    rw [hp] at e
    have : mt.fanout ^ 1 ≤ mt.fanout ^ k := Nat.pow_le_pow_right (by omega) hk
    rw [pow_one] at this
    omega
  · unfold mapping_table_update_physical_address
    rw [if_neg (by omega), hs]
    simp only
    rw [mapping_table_update_loop, hp]
    simp only [udiv, umod, bind, Except.bind, if_neg (by omega : ¬ mt.fanout = 0), hdiv,
      one_ne_zero, if_false, if_true]
  · unfold mapping_table_get_physical_address
    rw [if_neg (by omega), hs]
    simp only
    rw [mapping_table_get_loop, hp]
    simp only [udiv, umod, bind, Except.bind, if_neg (by omega : ¬ mt.fanout = 0), hdiv,
      one_ne_zero, if_false, if_true]

theorem fresh_table_1_init :
    mapping_table_init 8 erased_image 1 64 10 true = .ok (some (fresh_table 1)) := by
  have h : (mapping_table_init 8 erased_image 1 64 10 true).toOption.join.isSome = true := by
    decide!
  unfold fresh_table
  generalize mapping_table_init 8 erased_image 1 64 10 true = r at h ⊢
  cases r with
  | error e => simp [Except.toOption] at h
  | ok o =>
    cases o with
    | none => simp [Except.toOption] at h
    | some mt => rfl

theorem fresh_table_1_search : mtpc_search (fresh_table 1) .table 0 = (none, fresh_table 1) := by
  have h : (mtpc_search (fresh_table 1) .table 0).1 = none := by decide!
  have h2 := search_none (fresh_table 1) 0 (mtpc_search (fresh_table 1) .table 0).2
  cases hr : mtpc_search (fresh_table 1) .table 0 with
  | mk o m =>
    rw [hr] at h h2
    simp only at h
    subst h
    have := h2 rfl
    simp only at this
    rw [this]

theorem single_entry_table_divides_by_zero_witness :
    (fresh_table 1).npage_mappings = 1 ∧ (fresh_table 1).npage_mappings_padded = 1
      ∧ (∀ k, 1 ≤ k → (fresh_table 1).npage_mappings_padded ≠ (fresh_table 1).fanout ^ k)
      ∧ mapping_table_update_physical_address (7 + 1) (fresh_table 1) 0 1234 true
          = .error .div_by_zero
      ∧ mapping_table_get_physical_address (7 + 1) (fresh_table 1) 0 true 0
          = .error .div_by_zero :=
  single_entry_table_divides_by_zero 8 7 erased_image 64 10 true (fresh_table 1) 1234 true 0
    (by decide) fresh_table_1_init fresh_table_1_search

theorem lookup_leaf_any (n : Nat) (mt : mapping_table_t) (L x Sf P : Nat) (ct : Bool) (out : Nat)
    (hg : geometry_ok mt) (hL : L < mt.npage_mappings) (hok : table_cache_ok mt)
    (hx : holds mt x Sf (Sf + mt.fanout)) (h1 : Sf ≤ L) (h2 : L < Sf + mt.fanout)
    (hr : read_entry (mt.heap x).value (L % mt.fanout) = .ok P) :
    ∃ m, mapping_table_get_physical_address (n + 1) mt L ct out
      = .ok (if P = FLASH_INVALID_ADDRESS then -1 else 0, P, m) := by
  have hf2 : 2 ≤ mt.fanout := hg.1
  have hf32 : mt.fanout < 2 ^ 32 := hg.2.1
  have hpos : 0 < mt.fanout := by omega
  have hfne : mt.fanout ≠ 0 := by omega
  have hs := search_finds mt L x Sf hf2 hf32 hok hx h1 h2
  rw [holds_iff] at hx
  obtain ⟨hxm, hxs, hxe⟩ := hx
  obtain ⟨jx, _, _, _, ax3⟩ := hok.1 x hxm
  have hpin := hok.2.2 x hxm
  have hcore : ((lru_move_to_head mt .table x).heap x).core = (mt.heap x).core :=
    congrFun (cores_lru_move_to_head mt .table x) x
  simp only [mtpc_entry_t.core, Prod.mk.injEq] at hcore
  obtain ⟨c1, c2, c3, _, c5, _⟩ := hcore
  have hfan : (pin (lru_move_to_head mt .table x) x).fanout = mt.fanout := by
    have := congrArg Prod.fst ((cfg_pin _ x).trans (cfg_lru_move_to_head mt .table x))
    exact this
  have hspan : ((pin (lru_move_to_head mt .table x) x).heap x).span = mt.fanout := by
    apply span_of_aligned
    · simp only [pin, mapping_table_t.set_entry, if_true, c1, c2, hxs, hxe]
    · simp only [pin, mapping_table_t.set_entry, if_true, c2]; exact ax3
  have hval : (pin (lru_move_to_head mt .table x) x).block_of (some x) = (mt.heap x).value := by
    simp only [mapping_table_t.block_of, pin, mapping_table_t.set_entry, if_true, c3]
  have hpc : ((pin (lru_move_to_head mt .table x) x).heap x).pin_count > 0 := by
    simp only [pin, mapping_table_t.set_entry, if_true, c5, u16]
    rw [Nat.mod_eq_of_lt hpin]; omega
  have hi : u32 (L % mt.fanout / 1) = L % mt.fanout := by
    rw [Nat.div_one]; exact u32_of_lt (lt_trans (Nat.mod_lt _ hpos) hf32)
  unfold mapping_table_get_physical_address
  rw [if_neg (by omega), hs]
  simp only
  rw [mapping_table_get_loop]
  simp only [hfan, hspan, udiv, umod, hfne, if_false, bind, Except.bind, Nat.div_self hpos,
    one_ne_zero, hi, hval, hr, if_true, mtpc_unpin, hpc, pure, Except.pure]
  split
  · exact ⟨_, rfl⟩
  · exact ⟨_, rfl⟩

theorem lookup_root_leaf_any (n : Nat) (mt : mapping_table_t) (L P : Nat) (ct : Bool) (out : Nat)
    (hg : geometry_ok mt) (hL : L < mt.npage_mappings)
    (hpad : mt.npage_mappings_padded = mt.fanout)
    (hs : mtpc_search mt .table L = (none, mt))
    (hr : read_entry mt.root (L % mt.fanout) = .ok P) :
    mapping_table_get_physical_address (n + 1) mt L ct out
      = .ok (if P = FLASH_INVALID_ADDRESS then -1 else 0, P, mt) := by
  have hf2 : 2 ≤ mt.fanout := hg.1
  have hf32 : mt.fanout < 2 ^ 32 := hg.2.1
  have hpos : 0 < mt.fanout := by omega
  have hfne : mt.fanout ≠ 0 := by omega
  have hi : u32 (L % mt.fanout / 1) = L % mt.fanout := by
    rw [Nat.div_one]; exact u32_of_lt (lt_trans (Nat.mod_lt _ hpos) hf32)
  unfold mapping_table_get_physical_address
  rw [if_neg (by omega), hs]
  simp only
  rw [mapping_table_get_loop]
  simp only [hpad, udiv, umod, hfne, if_false, bind, Except.bind, Nat.div_self hpos,
    one_ne_zero, hi, mapping_table_t.block_of, hr, if_true, mtpc_unpin, pure, Except.pure]
  split <;> rfl

theorem update_then_lookup_any (fuel n : Nat) (mt mt' : mapping_table_t) (L P : Nat)
    (ct ct' : Bool) (out : Nat) (hg : geometry_ok mt) (hok : table_cache_ok mt)
    (hupd : mapping_table_update_physical_address fuel mt L P ct = .ok (0, mt'))
    (hok' : table_cache_ok mt') :
    ∃ m, mapping_table_get_physical_address (n + 1) mt' L ct' out
          = .ok (if P = FLASH_INVALID_ADDRESS then -1 else 0, P, m) := by
  have hf2 : 2 ≤ mt.fanout := hg.1
  unfold mapping_table_update_physical_address at hupd
  split at hupd
  · simp at hupd
  · rename_i hL
    have hL : L < mt.npage_mappings := by omega
    have fin : ∀ r : Int × mapping_table_t, r.2 = mt' → cfg r.2 = cfg mt →
        (∃ x Sf, lodged r.2 x Sf (Sf + mt.fanout) ∧ Sf ≤ L ∧ L < Sf + mt.fanout
          ∧ read_entry (r.2.heap x).value (L % mt.fanout) = .ok P) →
        ∃ m, mapping_table_get_physical_address (n + 1) mt' L ct' out
          = .ok (if P = FLASH_INVALID_ADDRESS then -1 else 0, P, m) := by
      intro r hr hc ⟨x, Sf, hl, h1, h2, hrd⟩
      subst hr
      have hfan : r.2.fanout = mt.fanout := congrArg Prod.fst hc
      have hnp : r.2.npage_mappings = mt.npage_mappings := by
        simp only [cfg, Prod.mk.injEq] at hc; exact hc.2.2.1
      rw [← hfan] at hl h2 hrd
      have hg' := geometry_ok_of_cfg hc hg
      exact lookup_leaf_any n r.2 L x Sf P ct' out hg' (by omega) hok'
        (lodged_holds _ _ _ _ (by omega) hok' hl) h1 h2 hrd
    cases hsr : mtpc_search mt .table L with
    | mk o m1 =>
      rw [hsr] at hupd
      cases o with
      | none =>
        simp only at hupd
        have hm := search_none _ _ _ hsr
        subst hm
        obtain ⟨h, _, hpad⟩ := hg.2.2.1
        rw [hpad] at hupd
        have hlt : L < 0 + m1.fanout ^ h := by
          have := hg.2.2.2.2.2; omega
        have hb : 0 + m1.fanout ^ h < 2 ^ 64 := by
          have := hg.2.2.2.1; omega
        obtain ⟨c, _, d⟩ := update_loop_post L P ct fuel m1 none h 0 _ hg (Nat.zero_mod _)
          (Nat.zero_le _) hlt hb (fun x hx => by cases hx) hupd
        rcases d with d | ⟨_, hh, hpc, hhp, hrd⟩
        · exact fin _ rfl c d
        · subst hh
          simp only [pow_one] at hpad
          have hfan : mt'.fanout = m1.fanout := congrArg Prod.fst c
          have hnp : mt'.npage_mappings = m1.npage_mappings := by
            simp only [cfg, Prod.mk.injEq] at c; exact c.2.2.1
          have hpp : mt'.npage_mappings_padded = m1.npage_mappings_padded := by
            simp only [cfg, Prod.mk.injEq] at c; exact c.2.2.2.1
          refine ⟨mt', lookup_root_leaf_any n mt' L P ct' out (geometry_ok_of_cfg c hg) (by omega)
            (by rw [hpp, hpad, hfan]) ?_ (by rw [hfan]; exact hrd)⟩
          exact search_congr m1 mt' L hpc hhp (by rw [hsr])
      | some x =>
        simp only at hupd
        obtain ⟨hxm, hxc, hm⟩ := search_some _ _ _ _ hsr
        obtain ⟨j, _, a1, a2, a3⟩ := hok.1 x hxm
        have hcfg : cfg m1 = cfg mt := by
          rw [hm]; exact (cfg_pin _ x).trans (cfg_lru_move_to_head mt .table x)
        have hrng : rng m1 = rng mt := by
          rw [hm]; exact (rng_pin _ x).trans (rng_lru_move_to_head mt .table x)
        have hfan : m1.fanout = mt.fanout := congrArg Prod.fst hcfg
        have hr : (m1.heap x).range = (mt.heap x).range := congrFun (congrArg Prod.snd hrng) x
        simp only [mtpc_entry_t.range, Prod.mk.injEq] at hr
        have hspan : (m1.heap x).span = m1.fanout ^ (j + 1) := by
          rw [hfan]
          exact span_of_aligned _ _ (by rw [hr.1, hr.2]; exact a1) (by rw [hr.2]; exact a3)
        rw [hspan, hr.1] at hupd
        have hg1 := geometry_ok_of_cfg hcfg hg
        have hlod : lodged m1 x (mt.heap x).start_range
            ((mt.heap x).start_range + m1.fanout ^ (j + 1)) := by
          rw [lodged_of_rng hrng, hfan, ← a1]
          exact lodged_of_holds ((holds_iff _ _ _ _).mpr ⟨hxm, rfl, rfl⟩)
        obtain ⟨c, _, d⟩ := update_loop_post L P ct fuel m1 (some x) (j + 1)
          (mt.heap x).start_range _ hg1 (by rw [hfan]; exact a2) hxc.1
          (by rw [hfan, ← a1]; exact hxc.2) (by rw [hfan, ← a1]; exact a3)
          (fun y hy => by cases hy; exact hlod) hupd
        rcases d with d | ⟨hh, _⟩
        · rw [hfan] at d
          exact fin _ rfl (c.trans hcfg) d
        · cases hh

theorem update_loop_code (L P : Nat) (ct : Bool) :
    ∀ (fuel : Nat) (mt : mapping_table_t) (ce : Option Nat) (R S : Nat) (rc : Int)
      (mt' : mapping_table_t),
      mapping_table_update_loop L P ct fuel mt ce R S = .ok (rc, mt') → rc = 0 := by
  intro fuel
  induction fuel with
  | zero => intro mt ce R S rc mt' h; simp [mapping_table_update_loop] at h
  | succ n ih =>
    intro mt ce R S rc mt' h
    rw [mapping_table_update_loop] at h
    simp only [bind, Except.bind, pure, Except.pure] at h
    repeat' split at h
    all_goals first
      | (exact (ih _ _ _ _ _ _ h))
      | (simp at h; done)
      | (simp at h; exact h.1.symm)

/-- C26 (counterexample): in the table reached by 122 updates the entry 2
holds the dirty page `[35, 42)` and its parent is the entry 0 (given as
`0 + 1`), the page `[0, 49)`, with slot 5 for it, holding 15616.  The write
of the flush crosses into the next segment, and the checkpoint taken there
flushes the page (to 16448) and then its parent; the write itself appends the
block once more, at 16704.  When `flush_entry` returns 0, slot 5 of the
parent holds 16448, not the address the flush got from its write, and the
parent is not dirty. -/
theorem flush_through_checkpoint :
    flush_report 199 long_log_table .table 2 0 false
      = some ([1, 0 + 1, 35, 42, 0, 49, 5, 15616], [0, 16704, 0, 0, 16448]) := by decide!

theorem read_write_entry_ne (b b' : flash_block_t) (i j v : Nat)
    (h : write_entry b i v = .ok b') (hj : j ≠ i) : read_entry b' j = read_entry b j := by
  unfold write_entry at h
  split at h
  · simp only [Except.ok.injEq] at h
    subst h
    simp only [read_entry, List.get?_eq_getElem?]
    rw [List.getElem?_set_ne (fun e => hj e.symm)]
  · cases h

/-- C26 (amended): a flush of the entry `e` that returns, returns 0 after a
write of the block of `e` that gave the address `A` and left the state `mt1`.
If `e` is no longer dirty in `mt1` (a checkpoint inside the write has flushed
it already), the flush changes nothing more: the slot of the parent holds the
address of the checkpoint's copy and the parent may be clean.  If `e` is
still dirty in `mt1`, it is clean afterwards and the slot with the index
`(e.start_range % R) / (R / fanout)` holds `A`, every other slot being as in
`mt1`: the slot of the parent page, which is marked dirty, with `R` the span
of the parent, or the slot of the root with `R` the padded size when `e` has
no parent. -/
theorem flush_entry_post (n : Nat) (mt : mapping_table_t) (c : mtpc_ref) (e : Nat) (ct : Bool)
    (r : Int × mapping_table_t) (h : flush_entry (n + 1) mt c e ct = .ok r) :
    ∃ A mt1, lss_write n mt (.entry e) mt.block_size ct = .ok (A, mt1) ∧ r.1 = 0
      ∧ ((mt1.heap e).dirty = false → r.2 = mt1)
      ∧ ((mt1.heap e).dirty = true →
          (∀ p, (mt1.heap e).parent = some p → p ≠ e →
            ∃ idx, flush_slot_index mt1.fanout (mt1.heap e).start_range (mt1.heap p).span
                = .ok idx
              ∧ (r.2.heap e).dirty = false ∧ (r.2.heap p).dirty = true
              ∧ read_entry (r.2.heap p).value idx = .ok A
              ∧ (∀ j, j ≠ idx →
                  read_entry (r.2.heap p).value j = read_entry (mt1.heap p).value j)
              ∧ r.2.root = mt1.root)
          ∧ ((mt1.heap e).parent = none →
            ∃ idx, flush_slot_index mt1.fanout (mt1.heap e).start_range
                mt1.npage_mappings_padded = .ok idx
              ∧ (r.2.heap e).dirty = false
              ∧ read_entry r.2.root idx = .ok A
              ∧ (∀ j, j ≠ idx → read_entry r.2.root j = read_entry mt1.root j))) := by
  rw [flush_entry] at h
  simp only [bind, Except.bind, pure, Except.pure] at h
  cases hw : lss_write n mt (.entry e) mt.block_size ct with
  | error err => rw [hw] at h; cases h
  | ok v =>
    obtain ⟨A, mt1⟩ := v
    rw [hw] at h
    simp only at h
    refine ⟨A, mt1, rfl, ?_⟩
    by_cases hd : (mt1.heap e).dirty = true
    · simp only [hd, not_true_eq_false, if_false] at h
      cases hp : (mt1.heap e).parent with
      | none =>
        simp only [mapping_table_t.set_entry, if_true, hp] at h
        cases h1 : udiv mt1.npage_mappings_padded mt1.fanout with
        | error err => rw [h1] at h; cases h
        | ok sub =>
          rw [h1] at h
          simp only at h
          cases h2 : umod (mt1.heap e).start_range mt1.npage_mappings_padded with
          | error err => rw [h2] at h; cases h
          | ok m =>
            rw [h2] at h
            simp only at h
            cases h3 : udiv m sub with
            | error err => rw [h3] at h; cases h
            | ok q =>
              rw [h3] at h
              simp only [write_slot, bind, Except.bind, pure, Except.pure] at h
              cases h4 : write_entry mt1.root (u32 q) A with
              | error err => rw [h4] at h; cases h
              | ok b =>
                rw [h4] at h
                simp only [Except.ok.injEq] at h
                subst h
                refine ⟨rfl, fun hc => (by rw [hd] at hc; cases hc), fun _ => ⟨?_, ?_⟩⟩
                · intro p hc
                  cases hc
                · intro _
                  refine ⟨u32 q, ?_, ?_, read_write_entry _ _ _ _ h4,
                    fun j hj => read_write_entry_ne _ _ _ _ _ h4 hj⟩
                  · simp only [flush_slot_index, bind, Except.bind, pure, Except.pure, h1, h2, h3]
                  · simp only [if_true]
      | some p =>
        simp only [mapping_table_t.set_entry, if_true, hp] at h
        by_cases hpe : p = e
        · refine ⟨?_, fun hc => (by rw [hd] at hc; cases hc), fun _ => ⟨?_, ?_⟩⟩
          · repeat' split at h
            all_goals first
              | (cases h; rfl)
              | cases h
          · intro p' hp' hne
            cases hp'
            exact absurd hpe hne
          · intro hn
            cases hn
        · have hep : e ≠ p := fun x => hpe x.symm
          simp only [if_neg hpe, if_neg hep] at h
          cases h1 : udiv (mt1.heap p).span mt1.fanout with
          | error err => rw [h1] at h; cases h
          | ok sub =>
            rw [h1] at h
            simp only at h
            cases h2 : umod (mt1.heap e).start_range (mt1.heap p).span with
            | error err => rw [h2] at h; cases h
            | ok m =>
              rw [h2] at h
              simp only at h
              cases h3 : udiv m sub with
              | error err => rw [h3] at h; cases h
              | ok q =>
                rw [h3] at h
                simp only [write_slot, bind, Except.bind, pure, Except.pure, if_true] at h
                cases h4 : write_entry (mt1.heap p).value (u32 q) A with
                | error err => rw [h4] at h; cases h
                | ok b =>
                  rw [h4] at h
                  simp only [Except.ok.injEq] at h
                  subst h
                  refine ⟨rfl, fun hc => (by rw [hd] at hc; cases hc), fun _ => ⟨?_, ?_⟩⟩
                  · intro p' hp' _
                    cases hp'
                    refine ⟨u32 q, ?_, ?_, ?_, ?_, ?_, rfl⟩
                    · simp only [flush_slot_index, bind, Except.bind, pure, Except.pure, h1, h2,
                        h3]
                    · simp only [mapping_table_t.set_entry, if_neg hep, if_true]
                    · simp only [mapping_table_t.set_entry, if_true]
                    · simp only [mapping_table_t.set_entry, if_true]
                      exact read_write_entry _ _ _ _ h4
                    · intro j hj
                      simp only [mapping_table_t.set_entry, if_true]
                      exact read_write_entry_ne _ _ _ _ _ h4 hj
                  · intro hn
                    cases hn
    · have hdf : (mt1.heap e).dirty = false := by simpa using hd
      rw [hdf] at h
      simp only [Bool.false_eq_true, not_false_eq_true, if_true, Except.ok.injEq] at h
      subst h
      refine ⟨rfl, fun _ => rfl, fun hc => absurd hc hd⟩

theorem flush_entry_post_witness :
    ∃ A mt1, lss_write 19 full_table (.entry 4) full_table.block_size false = .ok (A, mt1)
      ∧ ((0 : Int), state_after (flush_entry 20 full_table .table 4 false)).1 = 0
      ∧ ((mt1.heap 4).dirty = false →
          ((0 : Int), state_after (flush_entry 20 full_table .table 4 false)).2 = mt1)
      ∧ ((mt1.heap 4).dirty = true →
          (∀ p, (mt1.heap 4).parent = some p → p ≠ 4 →
            ∃ idx, flush_slot_index mt1.fanout (mt1.heap 4).start_range (mt1.heap p).span
                = .ok idx
              ∧ ((state_after (flush_entry 20 full_table .table 4 false)).heap 4).dirty = false
              ∧ ((state_after (flush_entry 20 full_table .table 4 false)).heap p).dirty = true
              ∧ read_entry ((state_after (flush_entry 20 full_table .table 4 false)).heap p).value
                  idx = .ok A
              ∧ (∀ j, j ≠ idx →
                  read_entry ((state_after (flush_entry 20 full_table .table 4 false)).heap p).value
                    j = read_entry (mt1.heap p).value j)
              ∧ (state_after (flush_entry 20 full_table .table 4 false)).root = mt1.root)
          ∧ ((mt1.heap 4).parent = none →
            ∃ idx, flush_slot_index mt1.fanout (mt1.heap 4).start_range
                mt1.npage_mappings_padded = .ok idx
              ∧ ((state_after (flush_entry 20 full_table .table 4 false)).heap 4).dirty = false
              ∧ read_entry (state_after (flush_entry 20 full_table .table 4 false)).root idx
                  = .ok A
              ∧ (∀ j, j ≠ idx →
                  read_entry (state_after (flush_entry 20 full_table .table 4 false)).root j
                    = read_entry mt1.root j))) :=
  flush_entry_post 19 full_table .table 4 false
    (0, state_after (flush_entry 20 full_table .table 4 false)) (ok_of_outcome _ _ (by decide!))

theorem max_level_le (heap : Nat → mtpc_entry_t) :
    ∀ (l : List Nat) (m : Nat), m ≤ mtpc_max_level heap l m
      ∧ ∀ e ∈ l, (heap e).value.level ≤ mtpc_max_level heap l m := by
  intro l
  induction l with
  | nil => intro m; exact ⟨Nat.le_refl _, fun e he => by cases he⟩
  | cons a rest ih =>
    intro m
    rw [mtpc_max_level]
    split
    · rename_i hgt
      obtain ⟨h1, h2⟩ := ih (heap a).value.level
      refine ⟨by omega, ?_⟩
      intro e he
      rcases List.mem_cons.mp he with h | h
      · subst h; exact h1
      · exact h2 e h
    · rename_i hle
      obtain ⟨h1, h2⟩ := ih m
      refine ⟨h1, ?_⟩
      intro e he
      rcases List.mem_cons.mp he with h | h
      · subst h; omega
      · exact h2 e h

/-- A pass of `mtpc_flush_all` for a level at which no resident entry from
position `i` on is dirty flushes nothing. -/
theorem flush_pass_skips (c : mtpc_ref) (ct : Bool) (level : Nat) (mt : mapping_table_t) :
    ∀ (k i fuel t : Nat), i + k = (mt.cache c).data.length → k < fuel →
      (∀ j x, i ≤ j → (mt.cache c).data.get? j = some x →
        (mt.heap x).dirty = false ∨ (mt.heap x).value.level ≠ level) →
      mtpc_flush_all_level fuel mt c ct level i t = .ok (t, mt) := by
  intro k
  induction k with
  | zero =>
    intro i fuel t hi hf _
    obtain ⟨fuel, rfl⟩ : ∃ x, fuel = x + 1 := ⟨fuel - 1, by omega⟩
    rw [mtpc_flush_all_level]
    have : (mt.cache c).data.get? i = none := by
      rw [List.get?_eq_none]; omega
    rw [this]
  | succ k ih =>
    intro i fuel t hi hf hall
    obtain ⟨fuel, rfl⟩ : ∃ x, fuel = x + 1 := ⟨fuel - 1, by omega⟩
    rw [mtpc_flush_all_level]
    cases hg : (mt.cache c).data.get? i with
    | none => rfl
    | some x =>
      simp only
      have hx := hall i x (Nat.le_refl _) hg
      rw [if_pos (by
        rcases hx with h | h
        · left; simp [h]
        · right; exact h)]
      exact ih (i + 1) fuel t (by omega) (by omega)
        (fun j y hj hy => hall j y (by omega) hy)

theorem reuse_is_replace (mt4 m6 : mapping_table_t) (c : mtpc_ref) (s e level : Nat)
    (parent : Option Nat) (cand : Nat) (hst : state_at_removal mt4 c s e = .ok (some m6)) :
    mtpc_insert_reuse mt4 c s e level parent cand = insert_replace m6 c s e level parent cand := by
  unfold mtpc_insert_reuse
  unfold state_at_removal at hst
  generalize mtpc_get_page_entry mt4 (some c) s e = g at hst ⊢
  obtain ⟨sp, mt5⟩ := g
  cases sp with
  | none =>
    simp only [Except.ok.injEq, Option.some.injEq] at hst
    subst hst
    rfl
  | some sp =>
    simp only at hst
    by_cases hex : entry_is mt5 sp s e = true
    · simp only [hex, if_true] at hst
      cases hst
    · simp only [hex, if_false, Bool.false_eq_true] at hst
      cases hu : mtpc_unpin mt5 (some sp) with
      | error err => rw [hu] at hst; cases hst
      | ok u =>
        rw [hu] at hst
        simp only [Except.map, Except.ok.injEq, Option.some.injEq] at hst
        subst hst
        simp only [bind, Except.bind, pure, Except.pure, hex, hu, Bool.false_eq_true, if_false]
        rfl

theorem removal_of_reaches (x : Res (Option mapping_table_t)) (h : reaches_removal x = true) :
    x = .ok (some (removal_state x)) := by
  cases x with
  | error e => cases h
  | ok o =>
    cases o with
    | none => cases h
    | some m => rfl

theorem replace_pins (m6 : mapping_table_t) (c : mtpc_ref) (s e level p cand : Nat)
    (r : Nat × mapping_table_t)
    (h : insert_replace m6 c s e level (some p) cand = .ok r) (hpc : p ≠ cand) :
    (m6.heap cand).pin_count = 0
      ∧ r.1 = cand ∧ (r.2.heap cand).parent = some p ∧ (r.2.heap cand).pin_count = 1
      ∧ (∀ q, (m6.heap cand).parent = some q →
          q ≠ cand ∧ 1 ≤ (m6.heap q).pin_count
            ∧ (q ≠ p → (r.2.heap q).pin_count = (m6.heap q).pin_count - 1)
            ∧ (q = p → (r.2.heap p).pin_count = u16 ((m6.heap p).pin_count - 1 + 1)))
      ∧ ((m6.heap cand).parent ≠ some p →
          (r.2.heap p).pin_count = u16 ((m6.heap p).pin_count + 1))
      ∧ ∀ y, y ≠ cand → y ≠ p → (m6.heap cand).parent ≠ some y →
          (r.2.heap y).pin_count = (m6.heap y).pin_count := by
  unfold insert_replace at h
  simp only [bind, Except.bind, pure, Except.pure] at h
  by_cases h0 : (m6.heap cand).pin_count = 0
  swap
  · simp only [h0, ne_eq, not_false_eq_true, if_true] at h
    cases h
  simp only [h0, ne_eq, not_true_eq_false, if_false] at h
  cases hi : find_index (m6.cache c).data cand with
  | none => rw [hi] at h; cases h
  | some idx =>
    rw [hi] at h
    simp only [set_cache_heap] at h
    cases hq : (m6.heap cand).parent with
    | none =>
      rw [hq] at h
      simp only at h
      obtain ⟨f1, f2, f3, f4, -, f6⟩ := finish_pins _ c s e level p cand r hpc h
      simp only [set_cache_heap] at f4 f6
      refine ⟨h0, f1, f3, f2, ?_, fun _ => f4, fun y hy1 hy2 _ => (f6 y hy1 hy2).1⟩
      intro q hq'
      cases hq'
    | some q =>
      rw [hq] at h
      simp only at h
      by_cases hl : (m6.heap q).value.level + 1 = (m6.heap cand).value.level
      swap
      · simp only [hl, not_false_eq_true, if_true] at h
        cases h
      simp only [hl, not_true_eq_false, if_false] at h
      by_cases hz : (m6.heap q).pin_count = 0
      · simp only [hz, if_true] at h
        cases h
      simp only [hz, if_false] at h
      have hqc : q ≠ cand := fun e => hz (e ▸ h0)
      obtain ⟨f1, f2, f3, f4, -, f6⟩ := finish_pins _ c s e level p cand r hpc h
      simp only [set_cache_heap, mapping_table_t.set_entry] at f4 f6
      refine ⟨h0, f1, f3, f2, ?_, ?_, ?_⟩
      · intro q' hq'
        cases hq'
        refine ⟨hqc, Nat.one_le_iff_ne_zero.mpr hz, ?_, ?_⟩
        · intro hqp
          rw [(f6 q hqc hqp).1]
          simp only [if_true]
        · intro hqp
          subst hqp
          rw [f4]
          simp only [if_true]
      · intro hne
        have hpq : p ≠ q := fun e => hne (by rw [e])
        rw [f4, if_neg hpq]
      · intro y hy1 hy2 hy3
        have hyq : y ≠ q := fun e => hy3 (by rw [e])
        rw [(f6 y hy1 hy2).1, if_neg hyq]

theorem last_or_append (x : Nat) :
    ∀ (a : List Nat) (p : Option Nat), last_or (a ++ [x]) p = some x := by
  intro a
  induction a with
  | nil => intro p; rfl
  | cons w a ih => intro p; exact ih _

theorem find_unpinned_walk (heap : Nat → mtpc_entry_t) (l : List Nat) (t : Option Nat)
    (hd : dll heap none l t) :
    ∀ (a b : List Nat) (n : Nat), l = a ++ b → a.length ≤ n →
      lru_find_unpinned heap n (last_or a none) = .ok (nearest_tail_unpinned heap a) := by
  intro a
  induction a using List.reverseRecOn with
  | nil =>
    intro b n _ _
    cases n <;> rfl
  | append_singleton a x ih =>
    intro b n hl hn
    rw [last_or_append]
    rw [List.length_append, List.length_singleton] at hn
    obtain ⟨m, rfl⟩ : ∃ m, n = m + 1 := ⟨n - 1, by omega⟩
    have hlx : l = a ++ x :: b := by rw [hl, List.append_assoc]; rfl
    have hprev := (dll_split heap x a none t b (hlx ▸ hd)).1
    rw [lru_find_unpinned]
    unfold nearest_tail_unpinned
    rw [List.reverse_append, List.reverse_singleton, List.singleton_append, List.find?_cons]
    by_cases h0 : (heap x).pin_count = 0
    · simp only [h0, if_true, decide_True]
    · simp only [h0, if_false, decide_False]
      rw [hprev]
      exact ih (x :: b) m hlx (by omega)

theorem nearest_tail_unpinned_some (heap : Nat → mtpc_entry_t) (x : Nat) :
    ∀ (l : List Nat), nearest_tail_unpinned heap l = some x →
      (heap x).pin_count = 0
        ∧ ∃ a b, l = a ++ x :: b ∧ ∀ y ∈ b, (heap y).pin_count ≠ 0 := by
  intro l
  induction l using List.reverseRecOn with
  | nil => intro h; cases h
  | append_singleton a w ih =>
    intro h
    unfold nearest_tail_unpinned at h
    rw [List.reverse_append, List.reverse_singleton, List.singleton_append, List.find?_cons] at h
    by_cases h0 : (heap w).pin_count = 0
    · simp only [h0, decide_True, Option.some.injEq] at h
      subst h
      exact ⟨h0, a, [], rfl, fun y hy => by cases hy⟩
    · simp only [h0, decide_False] at h
      obtain ⟨k0, a1, b1, k1, k2⟩ := ih h
      refine ⟨k0, a1, b1 ++ [w], by rw [k1, List.append_assoc]; rfl, ?_⟩
      intro y hy
      rcases List.mem_append.mp hy with hy1 | hy1
      · exact k2 y hy1
      · rw [List.mem_singleton] at hy1
        rw [hy1]
        exact h0

theorem nearest_tail_unpinned_none (heap : Nat → mtpc_entry_t) (l : List Nat) :
    nearest_tail_unpinned heap l = none ↔ ∀ y ∈ l, (heap y).pin_count ≠ 0 := by
  unfold nearest_tail_unpinned
  rw [List.find?_eq_none]
  simp only [List.mem_reverse, decide_eq_true_eq]

theorem unpin_after_pin (mt : mapping_table_t) (b : Nat)
    (hp : (mt.heap b).pin_count + 1 < 2 ^ 16) :
    mtpc_unpin (pin mt b) (some b) = .ok ((mt.heap b).pin_count, mt) := by
  have hu : u16 ((mt.heap b).pin_count + 1) = (mt.heap b).pin_count + 1 :=
    Nat.mod_eq_of_lt hp
  unfold mtpc_unpin
  simp only [pin, mapping_table_t.set_entry, if_true, hu, Nat.add_sub_cancel,
    Nat.succ_pos, gt_iff_lt]
  have hh : (fun i => if i = b then
        { start_range := (mt.heap b).start_range, end_range := (mt.heap b).end_range,
          value := (mt.heap b).value, parent := (mt.heap b).parent,
          pin_count := (mt.heap b).pin_count, dirty := (mt.heap b).dirty,
          lru_prev := (mt.heap b).lru_prev, lru_next := (mt.heap b).lru_next }
      else if i = b then
        { start_range := (mt.heap b).start_range, end_range := (mt.heap b).end_range,
          value := (mt.heap b).value, parent := (mt.heap b).parent,
          pin_count := (mt.heap b).pin_count + 1, dirty := (mt.heap b).dirty,
          lru_prev := (mt.heap b).lru_prev, lru_next := (mt.heap b).lru_next }
      else mt.heap i) = mt.heap := by
    funext i
    by_cases hi : i = b
    · rw [if_pos hi, hi]
    · rw [if_neg hi, if_neg hi]
  simp only [hh]

theorem probe_cases (mt : mapping_table_t) (c : mtpc_ref) (s e : Nat) :
    mtpc_get_page_entry mt (some c) s e = (none, mt)
      ∨ ∃ b ∈ (mt.cache c).data, mtpc_get_page_entry mt (some c) s e = (some b, pin mt b) := by
  cases hf : (mtpc_get_page_entry mt (some c) s e).1 with
  | none =>
    have h2 : (mtpc_get_page_entry mt (some c) s e).2 = mt := by
      unfold mtpc_get_page_entry at hf ⊢
      simp only at hf ⊢
      repeat' split at hf
      all_goals first | (simp only [*, if_true, if_false]; done) | cases hf
    exact Or.inl (Prod.ext hf h2)
  | some b =>
    exact Or.inr ⟨b, get_page_entry_mem mt c s e b hf,
      Prod.ext hf (get_page_entry_some mt c s e b hf)⟩

/-- The state in which the eviction loop starts is the state before the call
when the free list is empty and no pin count is at its maximum. -/
theorem eviction_starts_unchanged (mt : mapping_table_t) (c : mtpc_ref) (s e : Nat)
    (hfree : (mt.cache c).free_list = none)
    (hp : ∀ y ∈ (mt.cache c).data, (mt.heap y).pin_count + 1 < 2 ^ 16) :
    state_at_eviction mt c s e = .ok mt := by
  unfold state_at_eviction
  rcases probe_cases mt c s e with h | ⟨b, hb, h⟩
  · rw [h]
    simp only [bind, Except.bind, pure, Except.pure, mtpc_unpin, cache_allocate_entry, hfree]
  · rw [h]
    simp only [bind, Except.bind, pure, Except.pure, unpin_after_pin mt b (hp b hb),
      cache_allocate_entry, hfree]

theorem evict_all_pinned (n : Nat) (mt : mapping_table_t) (c : mtpc_ref) (ct : Bool)
    (l : List Nat) (hl : lru_is mt c l) (hn : l.length ≤ n)
    (hall : ∀ y ∈ l, (mt.heap y).pin_count ≠ 0) :
    mtpc_insert_evict (n + 1) mt c ct none = .error (.assertion .page_cache_c 320) := by
  have ht := dll_last mt.heap l none _ hl.2.1
  have hw := find_unpinned_walk mt.heap l _ hl.2.1 l [] n (List.append_nil l).symm hn
  rw [← ht, (nearest_tail_unpinned_none mt.heap l).mpr hall] at hw
  rw [mtpc_insert_evict]
  simp only [bind, Except.bind, hw]
  rfl

theorem insert_all_pinned (n : Nat) (mt : mapping_table_t) (c : mtpc_ref) (s e level : Nat)
    (parent : Option Nat) (ct : Bool) (l : List Nat) (hl : lru_is mt c l) (hn : l.length ≤ n)
    (hall : ∀ y ∈ l, (mt.heap y).pin_count ≠ 0)
    (hfree : (mt.cache c).free_list = none) (hnr : (s, e) ∉ ranges mt c)
    (hp : ∀ y ∈ (mt.cache c).data, (mt.heap y).pin_count + 1 < 2 ^ 16) :
    mtpc_insert (n + 2) mt c s e level parent ct = .error (.assertion .page_cache_c 320) := by
  have hev := evict_all_pinned n mt c ct l hl hn hall
  rw [mtpc_insert]
  rcases probe_cases mt c s e with h | ⟨b, hb, h⟩
  · rw [h]
    simp only [bind, Except.bind, pure, Except.pure, mtpc_unpin, cache_allocate_entry, hfree, hev]
  · rw [h]
    have hne : entry_is (pin mt b) b s e = false := by
      cases hx : entry_is (pin mt b) b s e with
      | false => rfl
      | true =>
        exfalso
        apply hnr
        have h1 := entry_is_range _ _ _ _ hx
        rw [rng_pin] at h1
        unfold ranges
        rw [List.mem_map]
        exact ⟨b, hb, h1⟩
    simp only [bind, Except.bind, pure, Except.pure, hne, unpin_after_pin mt b (hp b hb),
      cache_allocate_entry, hfree, hev, Bool.false_eq_true, if_false]

/-- C29 (counterexample): in the table with one slot in the cache of the
table, after the level-1 page `[0, 49)` has been inserted and is pinned by the
caller, the free list is empty and the only resident entry is pinned.
`mtpc_insert` of the leaf page `[0, 7)` does not return: it stops at
`assert(false)` (page_cache.c:320), and so does the first update of this table,
which makes these two calls. -/
theorem all_pinned_insert_stops :
    ranges one_slot_pinned .table = [(0, 49)]
      ∧ pins_of one_slot_pinned = [(0, (0, 49), 1, none)]
      ∧ one_slot_pinned.page_cache.free_list = none
      ∧ fault_of (mtpc_insert 20 one_slot_pinned .table 0 7 2 (some 0) true)
          = some (.assertion .page_cache_c 320)
      ∧ fault_of (mapping_table_update_physical_address 12 one_slot_table 0 1 true)
          = some (.assertion .page_cache_c 320) := by
  decide!

/-- C29 (amended): `mtpc_insert` of a range that is not resident, in a state
whose free list is empty, whose LRU list is `l` (head first) and in which no
pin count is at its maximum.  The eviction loop starts in the state before the
call.  Its walk from the LRU tail returns the entry of `l` nearest to the tail
with `pin_count = 0`: every entry behind it in `l` is pinned.  If every entry
of `l` is pinned the walk returns no candidate, and the loop and `mtpc_insert`
stop at `assert(false)` (page_cache.c:320); the `return NULL` behind the
assertion is not reached. -/
theorem eviction_candidate_or_stop (n : Nat) (mt : mapping_table_t) (c : mtpc_ref)
    (s e level : Nat) (parent : Option Nat) (ct : Bool) (l : List Nat)
    (hl : lru_is mt c l) (hn : l.length ≤ n)
    (hfree : (mt.cache c).free_list = none) (hnr : (s, e) ∉ ranges mt c)
    (hp : ∀ y ∈ (mt.cache c).data, (mt.heap y).pin_count + 1 < 2 ^ 16) :
    state_at_eviction mt c s e = .ok mt
      ∧ lru_find_unpinned mt.heap n (mt.cache c).lru_tail
          = .ok (nearest_tail_unpinned mt.heap l)
      ∧ (∀ x, nearest_tail_unpinned mt.heap l = some x →
          (mt.heap x).pin_count = 0
            ∧ ∃ a b, l = a ++ x :: b ∧ ∀ y ∈ b, (mt.heap y).pin_count ≠ 0)
      ∧ ((∀ y ∈ l, (mt.heap y).pin_count ≠ 0) →
          nearest_tail_unpinned mt.heap l = none
            ∧ mtpc_insert_evict (n + 1) mt c ct none = .error (.assertion .page_cache_c 320)
            ∧ mtpc_insert (n + 2) mt c s e level parent ct
                = .error (.assertion .page_cache_c 320)) := by
  have ht := dll_last mt.heap l none _ hl.2.1
  have hw := find_unpinned_walk mt.heap l _ hl.2.1 l [] n (List.append_nil l).symm hn
  rw [← ht] at hw
  exact ⟨eviction_starts_unchanged mt c s e hfree hp, hw,
    fun x hx => nearest_tail_unpinned_some mt.heap x l hx,
    fun hall => ⟨(nearest_tail_unpinned_none mt.heap l).mpr hall,
      evict_all_pinned n mt c ct l hl hn hall,
      insert_all_pinned n mt c s e level parent ct l hl hn hall hfree hnr hp⟩⟩

theorem eviction_candidate_or_stop_witness :
    state_at_eviction one_slot_pinned .table 0 7 = .ok one_slot_pinned
      ∧ lru_find_unpinned one_slot_pinned.heap 18 (one_slot_pinned.cache .table).lru_tail
          = .ok (nearest_tail_unpinned one_slot_pinned.heap [0])
      ∧ mtpc_insert (18 + 2) one_slot_pinned .table 0 7 2 (some 0) true
          = .error (.assertion .page_cache_c 320) :=
  have h := eviction_candidate_or_stop 18 one_slot_pinned .table 0 7 2 (some 0) true [0]
    (by decide!) (by decide) (by decide!) (by decide!) (by decide!)
  ⟨h.1, h.2.1, (h.2.2.2 (by decide!)).2.2⟩

theorem cmp_pos_iff (a b : mtpc_entry_t) :
    0 < entry_cmp_ptr a b ↔
      b.start_range < a.start_range ∨ (a.start_range = b.start_range ∧ b.span < a.span) := by
  unfold entry_cmp_ptr
  split_ifs <;> omega

theorem cmp_le_iff (a b : mtpc_entry_t) :
    entry_cmp_ptr a b ≤ 0 ↔
      a.start_range < b.start_range ∨ (a.start_range = b.start_range ∧ a.span ≤ b.span) := by
  unfold entry_cmp_ptr
  split_ifs <;> omega

theorem cmp_of_core (a b a' b' : mtpc_entry_t) (ha : a'.core = a.core) (hb : b'.core = b.core) :
    entry_cmp_ptr a' b' = entry_cmp_ptr a b := by
  simp only [mtpc_entry_t.core, Prod.mk.injEq] at ha hb
  unfold entry_cmp_ptr mtpc_entry_t.span
  rw [ha.1, ha.2.1, hb.1, hb.2.1]

theorem sorted_position_lower (heap : Nat → mtpc_entry_t) (data : List Nat) (entry : mtpc_entry_t) :
    ∀ (n left right : Nat), left ≤ right → right ≤ data.length → right - left < n →
      ∃ idx, sorted_position heap data entry false n left right = .ok idx
        ∧ idx ≤ data.length
        ∧ (entry_sorted heap data →
            (∀ x ∈ data.take left, 0 < entry_cmp_ptr entry (heap x)) →
            (∀ x ∈ data.drop right, entry_cmp_ptr entry (heap x) ≤ 0) →
            (∀ x ∈ data.take idx, 0 < entry_cmp_ptr entry (heap x))
              ∧ ∀ x ∈ data.drop idx, entry_cmp_ptr entry (heap x) ≤ 0) := by
  intro n
  induction n with
  | zero => intro left right _ _ h; omega
  | succ n ih =>
    intro left right hlr hr hn
    rw [sorted_position]
    by_cases hlt : left < right
    swap
    · have : left = right := by omega
      subst this
      simp only [hlt, if_false]
      exact ⟨left, rfl, hr, fun _ hl hrr => ⟨hl, hrr⟩⟩
    simp only [hlt, if_true]
    have hmid : left + (right - left) / 2 < data.length := by omega
    have hm1 : left ≤ left + (right - left) / 2 := by omega
    have hm2 : left + (right - left) / 2 < right := by omega
    generalize left + (right - left) / 2 = mid at hmid hm1 hm2
    rw [List.get?_eq_get hmid]
    simp only [Bool.false_eq_true, false_and, if_false]
    have hsplit : data = data.take mid ++ data.get ⟨mid, hmid⟩ :: data.drop (mid + 1) := by
      conv_lhs => rw [← List.take_append_drop mid data, List.drop_eq_getElem_cons hmid]
      rfl
    by_cases hc : 0 < entry_cmp_ptr entry (heap (data.get ⟨mid, hmid⟩))
    · simp only [gt_iff_lt, hc, if_true]
      obtain ⟨idx, k1, k2, k3⟩ := ih (mid + 1) right (by omega) hr (by omega)
      refine ⟨idx, k1, k2, fun hs _ hrr => k3 hs ?_ hrr⟩
      have hs' := hs
      unfold entry_sorted at hs'
      rw [hsplit, List.pairwise_append] at hs'
      obtain ⟨_, -, hs3⟩ := hs'
      intro x hx
      rw [List.take_succ, List.mem_append] at hx
      rcases hx with hx | hx
      · have := hs3 x hx _ (List.mem_cons_self _ _)
        rw [cmp_pos_iff] at hc ⊢
        rw [cmp_le_iff] at this
        omega
      · rw [List.getElem?_eq_getElem hmid] at hx
        simp only [Option.toList, List.mem_singleton] at hx
        rw [hx]
        exact hc
    · simp only [gt_iff_lt, hc, if_false]
      obtain ⟨idx, k1, k2, k3⟩ := ih left mid (by omega) (by omega) (by omega)
      refine ⟨idx, k1, k2, fun hs hl _ => k3 hs hl ?_⟩
      have hs' := hs
      unfold entry_sorted at hs'
      rw [hsplit, List.pairwise_append] at hs'
      obtain ⟨_, hs2, -⟩ := hs'
      rw [List.pairwise_cons] at hs2
      intro x hx
      rw [List.drop_eq_getElem_cons hmid] at hx
      have hc' : entry_cmp_ptr entry (heap (data.get ⟨mid, hmid⟩)) ≤ 0 := by omega
      rcases List.mem_cons.mp hx with hx | hx
      · rw [hx]
        exact hc'
      · have := hs2.1 x hx
        rw [cmp_le_iff] at hc' this ⊢
        omega

theorem sorted_array_insert (heap : Nat → mtpc_entry_t) (data : List Nat) (idx e : Nat)
    (hs : entry_sorted heap data)
    (h1 : ∀ x ∈ data.take idx, 0 < entry_cmp_ptr (heap e) (heap x))
    (h2 : ∀ x ∈ data.drop idx, entry_cmp_ptr (heap e) (heap x) ≤ 0) :
    entry_sorted heap (array_insert data idx e) := by
  unfold entry_sorted array_insert at *
  rw [List.pairwise_append]
  have hd : (data.take idx ++ data.drop idx).Pairwise
      (fun x y => entry_cmp_ptr (heap x) (heap y) ≤ 0) := by
    rw [List.take_append_drop]; exact hs
  rw [List.pairwise_append] at hd
  refine ⟨hd.1, List.pairwise_cons.mpr ⟨h2, hd.2.1⟩, ?_⟩
  intro a ha b hb
  rcases List.mem_cons.mp hb with hb | hb
  · rw [hb]
    have := h1 a ha
    rw [cmp_pos_iff] at this
    rw [cmp_le_iff]
    omega
  · exact hd.2.2 a ha b hb

theorem find_index_of_mem (data : List Nat) (x : Nat) (h : x ∈ data) :
    find_index data x = some (data.indexOf x) := by
  unfold find_index
  simp only [List.indexOf_lt_length.mpr h, if_true]

theorem array_remove_indexOf (data : List Nat) (x : Nat) :
    array_remove data (data.indexOf x) = data.erase x := by
  unfold array_remove
  induction data with
  | nil => rfl
  | cons a l ih =>
    by_cases h : a = x
    · subst h
      simp only [List.indexOf_cons_self, List.eraseIdx_cons_zero, List.erase_cons_head]
    · rw [List.indexOf_cons_ne _ (fun e => h e), List.eraseIdx_cons_succ, ih,
        List.erase_cons_tail (by simpa using h)]

theorem cache_set_cache_same (M : mapping_table_t) (c : mtpc_ref) (v : mtpc_t) :
    (M.set_cache c v).cache c = v := by cases c <;> rfl

theorem cache_set_cache_other (M : mapping_table_t) (c c' : mtpc_ref) (v : mtpc_t)
    (h : c' ≠ c) : (M.set_cache c v).cache c' = M.cache c' := by
  cases c <;> cases c' <;> first | exact absurd rfl h | rfl

theorem cache_free_entry_same (M : mapping_table_t) (c : mtpc_ref) (x : Nat) :
    (cache_free_entry M c x).cache c = { M.cache c with free_list := some x } := by
  unfold cache_free_entry
  cases c <;> rfl

theorem cache_free_entry_other (M : mapping_table_t) (c c' : mtpc_ref) (x : Nat) (h : c' ≠ c) :
    (cache_free_entry M c x).cache c' = M.cache c' := by
  unfold cache_free_entry
  cases c <;> cases c' <;> first | exact absurd rfl h | rfl

theorem cache_free_entry_heap (M : mapping_table_t) (c : mtpc_ref) (x y : Nat) :
    (cache_free_entry M c x).heap y
      = if y = x then
          { M.heap x with
            start_range := 0, end_range := 0, parent := none, pin_count := 0, dirty := false
            lru_next := (M.cache c).free_list }
        else M.heap y := by
  unfold cache_free_entry
  cases c <;> rfl

theorem lru_remove_static (mt : mapping_table_t) (c c' : mtpc_ref) (x : Nat) :
    ((lru_remove mt c x).cache c').capacity = (mt.cache c').capacity
      ∧ ((lru_remove mt c x).cache c').free_list = (mt.cache c').free_list
      ∧ ((lru_remove mt c x).cache c').data = (mt.cache c').data := by
  unfold lru_remove
  cases c <;> cases c' <;>
    simp only [mapping_table_t.set_cache, mapping_table_t.set_entry, mapping_table_t.cache] <;>
    repeat' split
  all_goals exact ⟨rfl, rfl, rfl⟩

theorem lru_push_head_static (mt : mapping_table_t) (c c' : mtpc_ref) (x : Nat) :
    ((lru_push_head mt c x).cache c').capacity = (mt.cache c').capacity
      ∧ ((lru_push_head mt c x).cache c').free_list = (mt.cache c').free_list
      ∧ ((lru_push_head mt c x).cache c').data = (mt.cache c').data := by
  unfold lru_push_head
  cases c <;> cases c' <;>
    simp only [mapping_table_t.set_cache, mapping_table_t.set_entry, mapping_table_t.cache] <;>
    repeat' split
  all_goals exact ⟨rfl, rfl, rfl⟩

theorem lru_push_head_head (mt : mapping_table_t) (c : mtpc_ref) (x : Nat) :
    ((lru_push_head mt c x).cache c).lru_head = some x := by
  rw [lru_push_head_cache]

theorem core_lru_remove (mt : mapping_table_t) (c : mtpc_ref) (x y : Nat) :
    ((lru_remove mt c x).heap y).core = (mt.heap y).core :=
  congrFun (cores_lru_remove mt c x) y

theorem core_lru_push_head (mt : mapping_table_t) (c : mtpc_ref) (x y : Nat) :
    ((lru_push_head mt c x).heap y).core = (mt.heap y).core :=
  congrFun (cores_lru_push_head mt c x) y

theorem take_ownership_returns (mt : mapping_table_t) (ca : mtpc_ref) (ea : Nat) (cb : mtpc_ref)
    (eb : Nat) (hpre : ownership_pre mt ca ea cb eb) :
    ∃ m, mtpc_take_entry_ownership mt ca ea cb eb = .ok (0, m) := by
  obtain ⟨hc, he, ha, hb, hna, hnb, hcap⟩ := hpre
  unfold mtpc_take_entry_ownership
  have hA : ((lru_remove (lru_remove mt ca ea) cb eb).cache ca).data = (mt.cache ca).data := by
    rw [(lru_remove_static _ _ _ _).2.2, (lru_remove_static _ _ _ _).2.2]
  have hB : ((lru_remove (lru_remove mt ca ea) cb eb).cache cb).data = (mt.cache cb).data := by
    rw [(lru_remove_static _ _ _ _).2.2, (lru_remove_static _ _ _ _).2.2]
  have hC : ((lru_remove (lru_remove mt ca ea) cb eb).cache ca).capacity
      = (mt.cache ca).capacity := by
    rw [(lru_remove_static _ _ _ _).1, (lru_remove_static _ _ _ _).1]
  simp only [hA, hB, find_index_of_mem _ _ ha, find_index_of_mem _ _ hb, array_remove_indexOf,
    cache_set_cache_other _ _ _ _ hc, cache_set_cache_same, set_cache_heap, bind, Except.bind,
    pure, Except.pure]
  obtain ⟨idx, k1, -, -⟩ := sorted_position_lower (lru_remove (lru_remove mt ca ea) cb eb).heap
    ((mt.cache ca).data.erase ea) ((lru_remove (lru_remove mt ca ea) cb eb).heap eb)
    (((mt.cache ca).data.erase ea).length + 1) 0 ((mt.cache ca).data.erase ea).length
    (Nat.zero_le _) (Nat.le_refl _) (by omega)
  rw [k1]
  have hlen : ((mt.cache ca).data.erase ea).length = (mt.cache ca).data.length - 1 :=
    List.length_erase_of_mem ha
  have hpos : 0 < (mt.cache ca).data.length := List.length_pos_of_mem ha
  have hlt : ¬ ((mt.cache ca).data.erase ea).length ≥ (mt.cache ca).capacity := by omega
  simp only [hC, hlt, if_false]
  exact ⟨_, rfl⟩

theorem take_ownership_effect (mt : mapping_table_t) (ca : mtpc_ref) (ea : Nat) (cb : mtpc_ref)
    (eb : Nat) (r : Int × mapping_table_t) (hpre : ownership_pre mt ca ea cb eb)
    (h : mtpc_take_entry_ownership mt ca ea cb eb = .ok r) :
    ∃ idx, idx ≤ ((mt.cache ca).data.erase ea).length
      ∧ (r.2.cache ca).data = array_insert ((mt.cache ca).data.erase ea) idx eb
      ∧ (entry_sorted mt.heap (mt.cache ca).data →
          (∀ x ∈ ((mt.cache ca).data.erase ea).take idx,
              0 < entry_cmp_ptr (mt.heap eb) (mt.heap x))
            ∧ (∀ x ∈ ((mt.cache ca).data.erase ea).drop idx,
              entry_cmp_ptr (mt.heap eb) (mt.heap x) ≤ 0))
      ∧ (r.2.cache ca).lru_head = some eb
      ∧ (r.2.cache cb).data = (mt.cache cb).data.erase eb
      ∧ (r.2.cache cb).free_list = some ea
      ∧ (r.2.heap ea).lru_next = (mt.cache cb).free_list
      ∧ ∀ y, y ≠ ea → (r.2.heap y).core = (mt.heap y).core := by
  obtain ⟨hc, he, ha, hb, hna, hnb, hcap⟩ := hpre
  have hcb : cb ≠ ca := fun e => hc e.symm
  unfold mtpc_take_entry_ownership at h
  have hA : ((lru_remove (lru_remove mt ca ea) cb eb).cache ca).data = (mt.cache ca).data := by
    rw [(lru_remove_static _ _ _ _).2.2, (lru_remove_static _ _ _ _).2.2]
  have hB : ((lru_remove (lru_remove mt ca ea) cb eb).cache cb).data = (mt.cache cb).data := by
    rw [(lru_remove_static _ _ _ _).2.2, (lru_remove_static _ _ _ _).2.2]
  have hF : ((lru_remove (lru_remove mt ca ea) cb eb).cache cb).free_list
      = (mt.cache cb).free_list := by
    rw [(lru_remove_static _ _ _ _).2.1, (lru_remove_static _ _ _ _).2.1]
  have hcore : ∀ y, ((lru_remove (lru_remove mt ca ea) cb eb).heap y).core = (mt.heap y).core :=
    fun y => (core_lru_remove _ _ _ _).trans (core_lru_remove _ _ _ _)
  simp only [hA, hB, find_index_of_mem _ _ ha, find_index_of_mem _ _ hb, array_remove_indexOf,
    cache_set_cache_other _ _ _ _ hc, cache_set_cache_same, set_cache_heap, bind, Except.bind,
    pure, Except.pure] at h
  obtain ⟨idx, k1, k2, k3⟩ := sorted_position_lower (lru_remove (lru_remove mt ca ea) cb eb).heap
    ((mt.cache ca).data.erase ea) ((lru_remove (lru_remove mt ca ea) cb eb).heap eb)
    (((mt.cache ca).data.erase ea).length + 1) 0 ((mt.cache ca).data.erase ea).length
    (Nat.zero_le _) (Nat.le_refl _) (by omega)
  rw [k1] at h
  simp only at h
  split at h
  · cases h
  cases h
  have hcmp : ∀ x, entry_cmp_ptr ((lru_remove (lru_remove mt ca ea) cb eb).heap eb)
      ((lru_remove (lru_remove mt ca ea) cb eb).heap x)
        = entry_cmp_ptr (mt.heap eb) (mt.heap x) :=
    fun x => cmp_of_core _ _ _ _ (hcore eb) (hcore x)
  refine ⟨idx, k2, ?_, ?_, ?_, ?_, ?_, ?_, ?_⟩
  · simp only [cache_free_entry_other _ _ _ _ hc, (lru_push_head_static _ _ _ _).2.2,
      cache_set_cache_same]
  · intro hs
    have hs2 : entry_sorted (lru_remove (lru_remove mt ca ea) cb eb).heap
        ((mt.cache ca).data.erase ea) := by
      unfold entry_sorted at hs ⊢
      refine (hs.sublist (List.erase_sublist _ _)).imp ?_
      intro x y hxy
      rw [cmp_of_core _ _ _ _ (hcore x) (hcore y)]
      exact hxy
    obtain ⟨p1, p2⟩ := k3 hs2 (fun x hx => by simp at hx)
      (fun x hx => by simp at hx)
    exact ⟨fun x hx => (hcmp x) ▸ p1 x hx, fun x hx => (hcmp x) ▸ p2 x hx⟩
  · simp only [cache_free_entry_other _ _ _ _ hc, lru_push_head_head]
  · simp only [cache_free_entry_same, (lru_push_head_static _ _ _ _).2.2,
      cache_set_cache_other _ _ _ _ hcb, cache_set_cache_same, hB, array_remove_indexOf]
  · simp only [cache_free_entry_same]
  · simp only [cache_free_entry_heap, if_true, (lru_push_head_static _ _ _ _).2.1,
      cache_set_cache_other _ _ _ _ hcb, cache_set_cache_same, hF]
  · intro y hy
    simp only [cache_free_entry_heap, if_neg hy]
    rw [core_lru_push_head]
    simp only [set_cache_heap]
    exact hcore y

theorem mem_array_insert_iff (data : List Nat) (idx e x : Nat) :
    x ∈ array_insert data idx e ↔ x = e ∨ x ∈ data := by
  unfold array_insert
  rw [List.mem_append, List.mem_cons]
  constructor
  · rintro (h | h | h)
    · exact Or.inr (List.mem_of_mem_take h)
    · exact Or.inl h
    · exact Or.inr (List.mem_of_mem_drop h)
  · rintro (h | h)
    · exact Or.inr (Or.inl h)
    · rw [← List.take_append_drop idx data, List.mem_append] at h
      rcases h with h | h
      · exact Or.inl h
      · exact Or.inr (Or.inr h)

theorem length_array_insert (data : List Nat) (idx e : Nat) (h : idx ≤ data.length) :
    (array_insert data idx e).length = data.length + 1 := by
  unfold array_insert
  rw [List.length_append, List.length_cons, List.length_take, List.length_drop]
  omega

/-- C30: `mtpc_take_entry_ownership(cache_a, entry_a, cache_b, entry_b)`, for
two caches, with `entry_a` in the sorted array of `cache_a` and `entry_b` in
that of `cache_b` (no entry twice in an array, `cache_a` within its capacity),
returns 0 and leaves: `entry_b` in the sorted array of `cache_a`, which is the
old array without `entry_a` and with `entry_b` put in at the position of the
binary search (if the array was in the order of `entry_cmp_ptr` it is so
again); `entry_b` at the LRU head of `cache_a`; the range, the block buffer,
the dirty flag and the pin count of `entry_b` as before; `entry_a` not in the
array of `cache_a` and `entry_b` not in the array of `cache_b`; `entry_a` at
the head of the free list of `cache_b`, in front of the old free list; the
size of `cache_a` as before and the size of `cache_b` one less. -/
theorem take_entry_ownership_transfers (mt : mapping_table_t) (ca : mtpc_ref) (ea : Nat)
    (cb : mtpc_ref) (eb : Nat) (hpre : ownership_pre mt ca ea cb eb) :
    ∃ m, mtpc_take_entry_ownership mt ca ea cb eb = .ok (0, m)
      ∧ eb ∈ (m.cache ca).data
      ∧ (∃ idx, (m.cache ca).data = array_insert ((mt.cache ca).data.erase ea) idx eb)
      ∧ (entry_sorted mt.heap (mt.cache ca).data → entry_sorted m.heap (m.cache ca).data)
      ∧ (m.cache ca).lru_head = some eb
      ∧ ((m.heap eb).start_range = (mt.heap eb).start_range
          ∧ (m.heap eb).end_range = (mt.heap eb).end_range
          ∧ (m.heap eb).value = (mt.heap eb).value
          ∧ (m.heap eb).dirty = (mt.heap eb).dirty
          ∧ (m.heap eb).pin_count = (mt.heap eb).pin_count)
      ∧ ea ∉ (m.cache ca).data
      ∧ eb ∉ (m.cache cb).data
      ∧ (m.cache cb).data = (mt.cache cb).data.erase eb
      ∧ ((m.cache cb).free_list = some ea ∧ (m.heap ea).lru_next = (mt.cache cb).free_list)
      ∧ (m.cache ca).size = (mt.cache ca).size
      ∧ (m.cache cb).size + 1 = (mt.cache cb).size := by
  obtain ⟨m, hm⟩ := take_ownership_returns mt ca ea cb eb hpre
  obtain ⟨idx, e1, e2, e3, e4, e5, e6, e7, e8⟩ :=
    take_ownership_effect mt ca ea cb eb (0, m) hpre hm
  obtain ⟨hc, he, ha, hb, hna, hnb, hcap⟩ := hpre
  simp only at e1 e2 e3 e4 e5 e6 e7 e8
  have hcore := e8 eb (fun e => he e.symm)
  simp only [mtpc_entry_t.core, Prod.mk.injEq] at hcore
  have hnot : ea ∉ (m.cache ca).data := by
    rw [e2, mem_array_insert_iff]
    rintro (h | h)
    · exact he h
    · exact ((List.Nodup.mem_erase_iff hna).mp h).1 rfl
  refine ⟨m, hm, ?_, ⟨idx, e2⟩, ?_, e4, ⟨hcore.1, hcore.2.1, hcore.2.2.1, hcore.2.2.2.2.2,
    hcore.2.2.2.2.1⟩, hnot, ?_, e5, ⟨e6, e7⟩, ?_, ?_⟩
  · rw [e2]
    exact mem_array_insert _ _ _
  · intro hs
    obtain ⟨p1, p2⟩ := e3 hs
    have hs1 : entry_sorted mt.heap ((mt.cache ca).data.erase ea) := by
      unfold entry_sorted at hs ⊢
      exact hs.sublist (List.erase_sublist _ _)
    have hs2 := sorted_array_insert mt.heap _ idx eb hs1 p1 p2
    rw [← e2] at hs2
    unfold entry_sorted at hs2 ⊢
    refine hs2.imp_of_mem ?_
    intro x y hx hy hxy
    have hxa : x ≠ ea := fun e => hnot (e ▸ hx)
    have hya : y ≠ ea := fun e => hnot (e ▸ hy)
    rw [cmp_of_core _ _ _ _ (e8 x hxa) (e8 y hya)]
    exact hxy
  · rw [e5]
    exact fun h => ((List.Nodup.mem_erase_iff hnb).mp h).1 rfl
  · unfold mtpc_t.size
    rw [e2, length_array_insert _ _ _ e1, List.length_erase_of_mem ha]
    have := List.length_pos_of_mem ha
    omega
  · unfold mtpc_t.size
    rw [e5, List.length_erase_of_mem hb]
    have := List.length_pos_of_mem hb
    omega

theorem take_entry_ownership_transfers_witness :
    ∃ m, mtpc_take_entry_ownership shared_range_table .table 4 .reader 7 = .ok (0, m)
      ∧ 7 ∈ (m.cache .table).data ∧ (m.cache .table).lru_head = some 7
      ∧ 4 ∉ (m.cache .table).data ∧ 7 ∉ (m.cache .reader).data
      ∧ (m.cache .reader).free_list = some 4 :=
  match take_entry_ownership_transfers shared_range_table .table 4 .reader 7 (by decide!) with
  | ⟨m, h⟩ => ⟨m, h.1, h.2.1, h.2.2.2.2.1, h.2.2.2.2.2.2.1, h.2.2.2.2.2.2.2.1,
      h.2.2.2.2.2.2.2.2.2.1.1⟩

/-- C40: for a device smaller than `2 ^ 64` bytes and every head and tail
below the device size, the used space of `lss_get_used_space` and the distance
from head to tail that `lss_write` computes add up to the device size; with
`head = tail` the used space is 0 and the distance is the device size; and the
distance exceeds two segments, which ends the cleaning loop, exactly when the
used space is below the device size less two segments. -/
theorem used_space_and_distance (lss : lss_t)
    (hsize : flash_get_size lss.flash < 2 ^ 64)
    (hh : lss.head < flash_get_size lss.flash) (ht : lss.tail < flash_get_size lss.flash) :
    lss_get_used_space lss + lss_distance lss = flash_get_size lss.flash
      ∧ (lss.head = lss.tail →
          lss_get_used_space lss = 0 ∧ lss_distance lss = flash_get_size lss.flash)
      ∧ (lss_distance lss > 2 * lss.flash.segment_size_bytes ↔
          lss_get_used_space lss < flash_get_size lss.flash - 2 * lss.flash.segment_size_bytes)
      ∧ (lss_distance lss > 2 * lss.flash.segment_size_bytes ↔
          lss_get_used_space lss + 2 * lss.flash.segment_size_bytes
            < flash_get_size lss.flash) := by
  have key : lss_get_used_space lss + lss_distance lss = flash_get_size lss.flash
      ∧ (lss.head = lss.tail → lss_get_used_space lss = 0) := by
    unfold lss_get_used_space lss_distance u64_sub u64
    by_cases hge : lss.head ≥ lss.tail
    · simp only [hge, if_true]
      have h1 : flash_get_size lss.flash % 2 ^ 64 = flash_get_size lss.flash :=
        Nat.mod_eq_of_lt hsize
      have h2 : (lss.head - lss.tail) % 2 ^ 64 = lss.head - lss.tail :=
        Nat.mod_eq_of_lt (by omega)
      rw [h1, h2]
      have h3 : (flash_get_size lss.flash + 2 ^ 64 - (lss.head - lss.tail)) % 2 ^ 64
          = flash_get_size lss.flash - (lss.head - lss.tail) := by
        have : flash_get_size lss.flash + 2 ^ 64 - (lss.head - lss.tail)
            = (flash_get_size lss.flash - (lss.head - lss.tail)) + 2 ^ 64 := by omega
        rw [this, Nat.add_mod_right]
        exact Nat.mod_eq_of_lt (by omega)
      rw [h3]
      constructor
      · omega
      · intro; omega
    · simp only [hge, if_false]
      have h1 : (flash_get_size lss.flash - lss.tail) % 2 ^ 64
          = flash_get_size lss.flash - lss.tail := Nat.mod_eq_of_lt (by omega)
      rw [h1]
      have h2 : (flash_get_size lss.flash - lss.tail + lss.head) % 2 ^ 64
          = flash_get_size lss.flash - lss.tail + lss.head := Nat.mod_eq_of_lt (by omega)
      rw [h2]
      constructor
      · omega
      · intro; omega
  obtain ⟨hsum, hzero⟩ := key
  refine ⟨hsum, ?_, ?_, ?_⟩
  · intro he
    have := hzero he
    omega
  · omega
  · omega

theorem used_space_and_distance_witness :
    lss_get_used_space (fresh_table 64).lss + lss_distance (fresh_table 64).lss
        = flash_get_size (fresh_table 64).lss.flash
      ∧ (lss_distance (fresh_table 64).lss > 2 * (fresh_table 64).lss.flash.segment_size_bytes ↔
          lss_get_used_space (fresh_table 64).lss
            < flash_get_size (fresh_table 64).lss.flash
                - 2 * (fresh_table 64).lss.flash.segment_size_bytes) :=
  have h := used_space_and_distance (fresh_table 64).lss (by decide!) (by decide!) (by decide!)
  ⟨h.1, h.2.2.1⟩

theorem padded_loop_fanout_one (n : Nat) (hn : 2 ≤ n) :
    ∀ fuel, padded_loop n 1 fuel 1 = .error .out_of_fuel := by
  intro fuel
  induction fuel with
  | zero =>
    rw [padded_loop, if_pos (by omega)]
  | succ k ih =>
    rw [padded_loop, if_pos (by omega)]
    exact ih

theorem padded_loop_fanout_two (n : Nat) (hn : 2 ^ 31 < n) :
    ∀ fuel p, (p = 0 ∨ ∃ j, j ≤ 31 ∧ p = 2 ^ j) →
      padded_loop n 2 fuel p = .error .out_of_fuel := by
  intro fuel
  induction fuel with
  | zero =>
    intro p hp
    have hle : p ≤ 2 ^ 31 := by
      rcases hp with h | ⟨j, hj, h⟩
      · omega
      · rw [h]; exact Nat.pow_le_pow_right (by decide) hj
    rw [padded_loop, if_pos (by omega)]
  | succ k ih =>
    intro p hp
    have hle : p ≤ 2 ^ 31 := by
      rcases hp with h | ⟨j, hj, h⟩
      · omega
      · rw [h]; exact Nat.pow_le_pow_right (by decide) hj
    rw [padded_loop, if_pos (by omega)]
    apply ih
    rcases hp with h | ⟨j, hj, h⟩
    · left; subst h; rfl
    · by_cases h31 : j = 31
      · left
        subst h31
        subst h
        rfl
      · right
        refine ⟨j + 1, by omega, ?_⟩
        subst h
        have : 2 ^ j * 2 = 2 ^ (j + 1) := by ring
        rw [this]
        unfold u32
        apply Nat.mod_eq_of_lt
        exact Nat.pow_lt_pow_right (by decide) (by omega)

theorem lookup_loop_sound (l : List lss_realloc_entry_t) (x : Nat) :
    ∀ (fuel : Nat) (lo hi : Int) (v : Nat), lss_realloc_lookup_loop l x fuel lo hi = some v →
      ∃ r ∈ l, r.old_offset = x ∧ r.new_offset = v := by
  intro fuel
  induction fuel with
  | zero => intro lo hi v h; rw [lss_realloc_lookup_loop] at h; cases h
  | succ n ih =>
    intro lo hi v h
    rw [lss_realloc_lookup_loop] at h
    split at h
    · simp only at h
      split at h
      · cases h
      · rename_i r hr
        split at h
        · rename_i heq
          simp only [Option.some.injEq] at h
          exact ⟨r, List.get?_mem hr, heq, h⟩
        · split at h
          · exact ih _ _ _ h
          · exact ih _ _ _ h
    · cases h

/-- C36: on a relocation buffer sorted strictly by `old_offset`,
`lss_realloc_lookup(x)` agrees with the linear scan: it yields the
`new_offset` of the record whose `old_offset` is `x` when there is one, and
nothing otherwise.  The result is the `new_offset` of that record itself,
also when another record has it as its `old_offset`: the lookup follows one
hop. -/
theorem lookup_is_linear_scan (lss : lss_t) (x : Nat) (hs : sorted_by_old lss.realloc_list) :
    lss_realloc_lookup lss x = linear_lookup lss.realloc_list x
      ∧ (∀ r ∈ lss.realloc_list, r.old_offset = x →
          lss_realloc_lookup lss x = some r.new_offset)
      ∧ ((∀ r ∈ lss.realloc_list, r.old_offset ≠ x) → lss_realloc_lookup lss x = none) := by
  have hfound : ∀ r ∈ lss.realloc_list, r.old_offset = x →
      lss_realloc_lookup lss x = some r.new_offset := by
    intro r hr hx
    rw [← hx]
    exact lookup_finds lss hs r hr
  have hnone : (∀ r ∈ lss.realloc_list, r.old_offset ≠ x) → lss_realloc_lookup lss x = none := by
    intro hall
    cases hl : lss_realloc_lookup lss x with
    | none => rfl
    | some v =>
      unfold lss_realloc_lookup at hl
      obtain ⟨r, hr, hx, _⟩ := lookup_loop_sound _ _ _ _ _ _ hl
      exact absurd hx (hall r hr)
  refine ⟨?_, hfound, hnone⟩
  unfold linear_lookup
  cases hf : lss.realloc_list.find? (fun r => decide (r.old_offset = x)) with
  | none =>
    rw [List.find?_eq_none] at hf
    simp only [Option.map]
    exact hnone (fun r hr => by simpa using hf r hr)
  | some r =>
    have hm := List.mem_of_find?_eq_some hf
    have hp := List.find?_some hf
    simp only [decide_eq_true_eq] at hp
    simp only [Option.map]
    exact hfound r hm hp

theorem lookup_is_linear_scan_witness :
    lss_realloc_lookup relocated_table.lss 128 = linear_lookup relocated_table.lss.realloc_list 128
      ∧ relocated_table.lss.realloc_list.length = 1 :=
  ⟨(lookup_is_linear_scan relocated_table.lss 128 (by decide!)).1, by decide!⟩

/-- The first loop of `lss_realloc_insert` stops at the first record that
mentions `t` and rewrites its `new_offset`. -/
theorem insert_scan_collapse (hdr t new : Nat) (rec : lss_realloc_entry_t)
    (B : List lss_realloc_entry_t) (hrec : rec.old_offset = t ∨ rec.new_offset = t)
    (hh : hdr = rec.block_header) :
    ∀ (A : List lss_realloc_entry_t) (i p : Nat),
      (∀ r ∈ A, r.old_offset ≠ t ∧ r.new_offset ≠ t) →
      ∃ p', lss_realloc_insert_scan hdr t new (A ++ rec :: B) i p
        = .ok (some (A ++ { rec with new_offset := new } :: B), p') := by
  intro A
  induction A with
  | nil =>
    intro i p _
    refine ⟨p, ?_⟩
    rw [List.nil_append, lss_realloc_insert_scan, if_pos hrec, if_pos hh]
    rfl
  | cons r rest ih =>
    intro i p hm
    have hr := hm r (List.mem_cons_self _ _)
    obtain ⟨p', hp'⟩ := ih (i + 1) (if r.old_offset < t then i + 1 else p)
      (fun x hx => hm x (List.mem_cons_of_mem _ hx))
    refine ⟨p', ?_⟩
    rw [List.cons_append, lss_realloc_insert_scan]
    simp only [hr.1, hr.2, or_self, if_false, bind, Except.bind, hp', Option.map, pure,
      Except.pure, List.cons_append]

/-- On a buffer with room that is sorted and does not mention `old`,
`lss_realloc_insert` returns 0 and puts the record at its sorted position. -/
theorem realloc_insert_adds (n : Nat) (mt : mapping_table_t) (hdr old new : Nat)
    (hq : quiet old mt.lss) :
    ∃ k, lss_realloc_insert (n + 1) mt hdr old new
        = .ok (0, { mt with lss := { mt.lss with
            realloc_list := mt.lss.realloc_list.take k
              ++ { old_offset := old, new_offset := new, block_header := hdr }
                :: mt.lss.realloc_list.drop k } })
      ∧ (∀ r ∈ mt.lss.realloc_list.take k, r.old_offset < old)
      ∧ ∀ r ∈ mt.lss.realloc_list.drop k, old < r.old_offset := by
  obtain ⟨hroom, hs, hm⟩ := hq
  obtain ⟨p', hp', hcase⟩ := insert_scan_spec hdr old new mt.lss.realloc_list 0 0 hs hm
  have hroom' : ¬ (mt.lss.realloc_count ≥ mt.lss.realloc_capacity) := by
    simp only [lss_t.realloc_count]; omega
  refine ⟨p', ?_, ?_⟩
  · rw [lss_realloc_insert]
    simp only [bind, Except.bind, hp', hroom', if_false, pure, Except.pure]
  · rcases hcase with ⟨hpp, hall⟩ | ⟨k, _, _, hpk, htake, hdrop⟩
    · subst hpp
      exact ⟨fun r hr => by simp at hr, fun r hr => hall r (by simpa using hr)⟩
    · have : p' = k := by omega
      subst this
      exact ⟨htake, hdrop⟩

/-- On a buffer in which the first record that mentions `old` is `rec`, with
the header of the incoming record, `lss_realloc_insert` returns 0 and rewrites
the `new_offset` of `rec`. -/
theorem realloc_insert_collapses (n : Nat) (mt : mapping_table_t) (hdr old new : Nat)
    (A B : List lss_realloc_entry_t) (rec : lss_realloc_entry_t)
    (hl : mt.lss.realloc_list = A ++ rec :: B)
    (hA : ∀ r ∈ A, r.old_offset ≠ old ∧ r.new_offset ≠ old)
    (hrec : rec.old_offset = old ∨ rec.new_offset = old) (hh : hdr = rec.block_header) :
    lss_realloc_insert (n + 1) mt hdr old new
      = .ok (0, { mt with lss := { mt.lss with
          realloc_list := A ++ { rec with new_offset := new } :: B } }) := by
  obtain ⟨p', hp'⟩ := insert_scan_collapse hdr old new rec B hrec hh A 0 0 hA
  rw [lss_realloc_insert, hl]
  simp only [bind, Except.bind, hp', pure, Except.pure]

/-- C35: relocation records collapse.  On a buffer with room that is sorted
by `old_offset` and mentions neither `a` nor `b`: the insert of `a -> b`
returns 0 and adds the record at its sorted position; the insert of `b -> c`
with the same header that follows returns 0, leaves the number of records as
it is and turns the record into `a -> c`, the other records being as before,
so that the lookup of `a` yields `c`; and the insert of `a -> c` in place of
`b -> c` does the same. -/
theorem relocation_records_collapse (n1 n2 : Nat) (mt : mapping_table_t) (hdr a b c : Nat)
    (hqa : quiet a mt.lss)
    (hb : ∀ r ∈ mt.lss.realloc_list, r.old_offset ≠ b ∧ r.new_offset ≠ b) :
    ∃ k m1 m2 m3,
      lss_realloc_insert (n1 + 1) mt hdr a b = .ok (0, m1)
        ∧ m1.lss.realloc_list = mt.lss.realloc_list.take k
            ++ { old_offset := a, new_offset := b, block_header := hdr }
              :: mt.lss.realloc_list.drop k
        ∧ lss_realloc_insert (n2 + 1) m1 hdr b c = .ok (0, m2)
        ∧ m2.lss.realloc_list = mt.lss.realloc_list.take k
            ++ { old_offset := a, new_offset := c, block_header := hdr }
              :: mt.lss.realloc_list.drop k
        ∧ m2.lss.realloc_count = m1.lss.realloc_count
        ∧ lss_realloc_lookup m2.lss a = some c
        ∧ lss_realloc_insert (n2 + 1) m1 hdr a c = .ok (0, m3)
        ∧ m3.lss.realloc_list = m2.lss.realloc_list
        ∧ lss_realloc_lookup m3.lss a = some c := by
  obtain ⟨k, h1, ht, hd⟩ := realloc_insert_adds n1 mt hdr a b hqa
  have hA : ∀ t, (∀ r ∈ mt.lss.realloc_list, r.old_offset ≠ t ∧ r.new_offset ≠ t) →
      ∀ r ∈ mt.lss.realloc_list.take k, r.old_offset ≠ t ∧ r.new_offset ≠ t :=
    fun t h r hr => h r (List.mem_of_mem_take hr)
  have h2 := realloc_insert_collapses n2
    { mt with lss := { mt.lss with
        realloc_list := mt.lss.realloc_list.take k
          ++ { old_offset := a, new_offset := b, block_header := hdr }
            :: mt.lss.realloc_list.drop k } } hdr b c (mt.lss.realloc_list.take k)
    (mt.lss.realloc_list.drop k)
    { old_offset := a, new_offset := b, block_header := hdr } rfl (hA b hb) (Or.inr rfl) rfl
  have h3 := realloc_insert_collapses n2
    { mt with lss := { mt.lss with
        realloc_list := mt.lss.realloc_list.take k
          ++ { old_offset := a, new_offset := b, block_header := hdr }
            :: mt.lss.realloc_list.drop k } } hdr a c (mt.lss.realloc_list.take k)
    (mt.lss.realloc_list.drop k)
    { old_offset := a, new_offset := b, block_header := hdr } rfl (hA a hqa.2.2) (Or.inl rfl) rfl
  have hsorted := sorted_insert mt.lss.realloc_list k
    { old_offset := a, new_offset := c, block_header := hdr } hqa.2.1 ht hd
  refine ⟨k, _, _, _, h1, rfl, h2, rfl, ?_, ?_, h3, rfl, ?_⟩
  · simp only [lss_t.realloc_count, List.length_append, List.length_cons]
  · exact lookup_finds _ hsorted { old_offset := a, new_offset := c, block_header := hdr }
      (by simp)
  · exact lookup_finds _ hsorted { old_offset := a, new_offset := c, block_header := hdr }
      (by simp)

theorem relocation_records_collapse_witness :
    ∃ m1 m2,
      lss_realloc_insert (0 + 1) (fresh_table 64) 516 128 256 = .ok (0, m1)
        ∧ lss_realloc_insert (0 + 1) m1 516 256 512 = .ok (0, m2)
        ∧ m2.lss.realloc_count = m1.lss.realloc_count
        ∧ lss_realloc_lookup m2.lss 128 = some 512 :=
  match relocation_records_collapse 0 0 (fresh_table 64) 516 128 256 512 (by decide!)
      (by decide!) with
  | ⟨_, m1, m2, _, h⟩ => ⟨m1, m2, h.1, h.2.2.1, h.2.2.2.2.1, h.2.2.2.2.2.1⟩

theorem div_ne_iff (h s len : Nat) (hs : 0 < s) :
    h / s ≠ (h + len) / s ↔ (h / s + 1) * s ≤ h + len := by
  constructor
  · intro hne
    have h1 : h / s ≤ (h + len) / s := Nat.div_le_div_right (Nat.le_add_right h len)
    have h2 : h / s + 1 ≤ (h + len) / s := by omega
    exact (Nat.le_div_iff_mul_le hs).mp h2
  · intro hle
    have h2 : h / s + 1 ≤ (h + len) / s := (Nat.le_div_iff_mul_le hs).mpr hle
    omega

theorem alive_dead_by_header (n : Nat) (mt : mapping_table_t) (a hdr : Nat)
    (h : dead_by_header hdr) : is_mt_block_alive (n + 1) mt a hdr = .ok (false, mt) := by
  rw [is_mt_block_alive]
  exact if_pos h

theorem fully_dead_loop_first_header (mt : mapping_table_t) (buf : Nat → flash_block_t)
    (S hdr ps np : Nat) (h : dead_by_header hdr) :
    ∀ (k i fuel : Nat), i + k = np → k + 2 ≤ fuel →
      is_mt_segment_fully_dead_loop fuel mt buf S hdr ps np i = .ok (false, mt) := by
  intro k
  induction k with
  | zero =>
    intro i fuel hi hf
    obtain ⟨m, rfl⟩ : ∃ m, fuel = m + 1 := ⟨fuel - 1, by omega⟩
    rw [is_mt_segment_fully_dead_loop, if_neg (by omega)]
  | succ k ih =>
    intro i fuel hi hf
    obtain ⟨m, rfl⟩ : ∃ m, fuel = m + 1 + 1 := ⟨fuel - 2, by omega⟩
    rw [is_mt_segment_fully_dead_loop, if_pos (by omega)]
    simp only
    split
    · exact ih (i + 1) (m + 1) (by omega) (by omega)
    · simp only [bind, Except.bind, alive_dead_by_header m mt _ hdr h, pure, Except.pure,
        Bool.false_eq_true, if_false]
      exact ih (i + 1) (m + 1) (by omega) (by omega)

/-- C32 (failing input): `is_mt_segment_fully_dead` hands the header of the
first block of the segment to `is_mt_block_alive` for every page.  On a device
in range, whenever that first header is one that `is_mt_block_alive` declares
dead at once (a SEG_META, as at the start of every segment in use, an erased
block, or a root), the function returns `true` (fully dead) without a look at
the pages, whatever the segment holds. -/
theorem segment_judged_by_first_header (fuel : Nat) (mt : mapping_table_t) (S : Nat)
    (hseg : mt.lss.flash.segment_size_bytes ≠ 0)
    (hin : u64 (S + mt.lss.flash.segment_size_bytes) ≤ mt.lss.flash.size_bytes)
    (hw : mt.lss.flash.write_granularity_bytes ≠ 0)
    (hal : S % mt.lss.flash.write_granularity_bytes = 0)
    (hfirst : dead_by_header
      (mt.lss.flash.mem (S / u32 mt.lss.flash.write_granularity_bytes)).hdr)
    (hfuel : u32 (mt.lss.flash.segment_size_bytes / u32 mt.lss.flash.write_granularity_bytes) + 3
      ≤ fuel) :
    is_mt_segment_fully_dead fuel mt S = .ok (true, mt) := by
  obtain ⟨m, rfl⟩ : ∃ m, fuel = m + 1 := ⟨fuel - 1, by omega⟩
  rw [is_mt_segment_fully_dead]
  have hin' : ¬ (u64 (S + mt.lss.flash.segment_size_bytes) > mt.lss.flash.size_bytes) := by omega
  have hloop := fully_dead_loop_first_header mt mt.lss.flash.mem S
    (mt.lss.flash.mem (S / u32 mt.lss.flash.write_granularity_bytes)).hdr
    (u32 mt.lss.flash.write_granularity_bytes)
    (u32 (mt.lss.flash.segment_size_bytes / u32 mt.lss.flash.write_granularity_bytes)) hfirst
    (u32 (mt.lss.flash.segment_size_bytes / u32 mt.lss.flash.write_granularity_bytes)) 0 m
    (Nat.zero_add _) (by omega)
  simp only [hseg, hin', hw, hal, if_false, ne_eq, not_true_eq_false, bind, Except.bind,
    hloop, pure, Except.pure]
  simp

theorem segment_judged_by_first_header_witness :
    hdr_type (cleaning_table.lss.flash.mem 0).hdr = SEG_META_BLOCK
      ∧ hdr_type (cleaning_table.lss.flash.mem 2).hdr = MT_BLOCK
      ∧ outcome (is_mt_block_alive 12 cleaning_table 128 (cleaning_table.lss.flash.mem 2).hdr)
          = .ok true
      ∧ is_mt_segment_fully_dead 67 cleaning_table 0 = .ok (true, cleaning_table) :=
  ⟨by decide!, by decide!, by decide!,
    segment_judged_by_first_header 67 cleaning_table 0 (by decide!) (by decide!) (by decide!)
      (by decide!) (by decide!) (by decide!)⟩

/-- The last step of the descent of `is_mt_block_alive`, in the page whose
children have the range size of the block: the block is alive when the child
slot that covers its start, mapped through the relocation buffer, is its
address. -/
theorem descend_alive_here (n : Nat) (mt : mapping_table_t) (hdr addr brs : Nat)
    (ce : Option Nat) (csr crs slot : Nat)
    (hf : mt.fanout ≠ 0) (hc : crs ≠ 0) (hb : brs ≠ 0) (hsub : crs / mt.fanout = brs)
    (hslot : read_entry (mt.block_of ce) (covering_slot (hdr_logical_address hdr) crs brs)
      = .ok slot)
    (hlev : (mt.block_of ce).level + 1 = hdr_level hdr) :
    descend_to_parent (n + 1) mt hdr addr none brs ce csr crs
      = (mtpc_unpin mt ce).map
          (fun u => (decide (addr = relocated u.2.lss slot), u.2)) := by
  rw [descend_to_parent]
  unfold covering_slot at hslot
  simp only [bind, Except.bind, pure, Except.pure, udiv, umod, hf, hc, hb, if_false, hsub, hslot,
    if_true, hlev, ne_eq, not_true_eq_false, Except.map, relocated]
  try (cases mtpc_unpin mt ce <;> rfl)

theorem locate_parent_unfold (n : Nat) (mt : mapping_table_t) (hdr addr brs : Nat)
    (apply : Option (Nat × Nat))
    (hbrs : level_range_size mt.fanout (hdr_level hdr) mt.npage_mappings_padded = .ok brs)
    (hprs : u64 (brs * mt.fanout) ≠ 0) :
    locate_parent (n + 1) mt hdr addr apply
      = descend_to_parent n
          (mtpc_get_page_entry mt (some .table) (parent_range mt hdr brs).1
            (parent_range mt hdr brs).2).2 hdr addr apply brs
          (mtpc_get_page_entry mt (some .table) (parent_range mt hdr brs).1
            (parent_range mt hdr brs).2).1
          (page_start (mtpc_get_page_entry mt (some .table) (parent_range mt hdr brs).1
            (parent_range mt hdr brs).2).2
            (mtpc_get_page_entry mt (some .table) (parent_range mt hdr brs).1
              (parent_range mt hdr brs).2).1)
          (page_span (mtpc_get_page_entry mt (some .table) (parent_range mt hdr brs).1
            (parent_range mt hdr brs).2).2
            (mtpc_get_page_entry mt (some .table) (parent_range mt hdr brs).1
              (parent_range mt hdr brs).2).1) := by
  rw [locate_parent]
  simp only [bind, Except.bind, hbrs, udiv, hprs, if_false, pure, Except.pure, parent_range]
  generalize mtpc_get_page_entry mt (some mtpc_ref.table)
    (u64 (hdr_logical_address hdr / u64 (brs * mt.fanout) * u64 (brs * mt.fanout)))
    (u64 (u64 (hdr_logical_address hdr / u64 (brs * mt.fanout) * u64 (brs * mt.fanout))
      + u64 (brs * mt.fanout))) = g
  obtain ⟨ce, m1⟩ := g
  cases ce <;> rfl

theorem pin_views (mt : mapping_table_t) (b : Nat) (ce : Option Nat) :
    (pin mt b).block_of ce = mt.block_of ce ∧ page_span (pin mt b) ce = page_span mt ce
      ∧ page_start (pin mt b) ce = page_start mt ce ∧ (pin mt b).fanout = mt.fanout
      ∧ (pin mt b).lss = mt.lss := by
  cases ce with
  | none => exact ⟨rfl, rfl, rfl, rfl, rfl⟩
  | some e =>
    simp only [mapping_table_t.block_of, page_span, page_start, pin, mapping_table_t.set_entry,
      mtpc_entry_t.span, and_true]
    by_cases he : e = b
    · subst he
      simp only [if_true, and_self]
    · simp only [if_neg he, and_self]

/-- The decision of `is_mt_block_alive` when the page one level above is at
hand, in the cache of the table or as the root. -/
theorem alive_parent_at_hand (n : Nat) (mt : mapping_table_t) (addr hdr brs : Nat)
    (ce : Option Nat) (slot : Nat)
    (hnd : ¬ dead_by_header hdr) (hf : mt.fanout ≠ 0)
    (hbrs : level_range_size mt.fanout (hdr_level hdr) mt.npage_mappings_padded = .ok brs)
    (hb : brs ≠ 0) (hprs : u64 (brs * mt.fanout) ≠ 0)
    (hprobe : (mtpc_get_page_entry mt (some .table) (parent_range mt hdr brs).1
      (parent_range mt hdr brs).2).1 = ce)
    (hpin : ∀ y ∈ mt.page_cache.data, (mt.heap y).pin_count + 1 < 2 ^ 16)
    (hsize : page_span mt ce / mt.fanout = brs) (hc : page_span mt ce ≠ 0)
    (hslot : read_entry (mt.block_of ce)
      (covering_slot (hdr_logical_address hdr) (page_span mt ce) brs) = .ok slot)
    (hlev : (mt.block_of ce).level + 1 = hdr_level hdr) :
    is_mt_block_alive (n + 3) mt addr hdr
      = .ok (decide (addr = relocated mt.lss slot), mt) := by
  rw [is_mt_block_alive]
  have hnd' : ¬ (hdr_word32 hdr = UINT32_MAX ∨ hdr_type hdr = SEG_META_BLOCK
      ∨ (hdr_type hdr = MT_BLOCK ∧ hdr_level hdr = 0)) := hnd
  rw [if_neg hnd', locate_parent_unfold (n + 1) mt hdr addr brs none hbrs hprs]
  rcases probe_cases mt .table (parent_range mt hdr brs).1 (parent_range mt hdr brs).2 with
    h | ⟨b, hbm, h⟩
  · rw [h] at hprobe ⊢
    simp only at hprobe ⊢
    subst hprobe
    rw [descend_alive_here n mt hdr addr brs none _ _ slot hf hc hb hsize hslot hlev]
    rfl
  · rw [h] at hprobe ⊢
    simp only at hprobe ⊢
    subst hprobe
    obtain ⟨v1, v2, v3, v4, v5⟩ := pin_views mt b (some b)
    rw [v2, descend_alive_here n (pin mt b) hdr addr brs (some b) _ _ slot (by rw [v4]; exact hf)
      hc hb (by rw [v4]; exact hsize) (by rw [v1]; exact hslot) (by rw [v1]; exact hlev),
      unpin_after_pin mt b (hpin b hbm)]
    rfl

/-- Whatever the way down, a descent of `is_mt_block_alive` that returns has
ended in a page whose children have the range size of the block and whose
level is one less than that of the block, and its answer is whether the child
slot that covers the start of the block, mapped through the relocation
buffer, is the address of the block. -/
theorem descend_alive_result (hdr addr brs : Nat) :
    ∀ (fuel : Nat) (mt : mapping_table_t) (ce : Option Nat) (csr crs : Nat)
      (r : Bool × mapping_table_t),
      descend_to_parent fuel mt hdr addr none brs ce csr crs = .ok r →
      ∃ m ce' R slot k, R / m.fanout = brs
        ∧ read_entry (m.block_of ce') (covering_slot (hdr_logical_address hdr) R brs) = .ok slot
        ∧ (m.block_of ce').level + 1 = hdr_level hdr
        ∧ mtpc_unpin m ce' = .ok (k, r.2)
        ∧ r.1 = decide (addr = relocated r.2.lss slot) := by
  intro fuel
  induction fuel with
  | zero => intro mt ce csr crs r h; rw [descend_to_parent] at h; cases h
  | succ n ih =>
    intro mt ce csr crs r h
    rw [descend_to_parent] at h
    simp only [bind, Except.bind, pure, Except.pure, udiv, umod] at h
    by_cases hf : mt.fanout = 0
    · simp only [hf, if_true] at h; cases h
    simp only [hf, if_false] at h
    by_cases hc : crs = 0
    · simp only [hc, if_true] at h; cases h
    simp only [hc, if_false] at h
    by_cases hs : crs / mt.fanout = 0
    · simp only [hs, if_true] at h; cases h
    simp only [hs, if_false] at h
    cases hslot : read_entry (mt.block_of ce)
        (u32 (hdr_logical_address hdr % crs / (crs / mt.fanout))) with
    | error e => rw [hslot] at h; cases h
    | ok slot =>
      rw [hslot] at h
      simp only at h
      by_cases hb : brs = crs / mt.fanout
      · simp only [hb, if_true] at h
        by_cases hl : (mt.block_of ce).level + 1 = hdr_level hdr
        swap
        · simp only [hl, ne_eq, not_false_eq_true, if_true] at h; cases h
        simp only [hl, ne_eq, not_true_eq_false, if_false] at h
        cases hu : mtpc_unpin mt ce with
        | error e => rw [hu] at h; cases h
        | ok u =>
          rw [hu] at h
          simp only [Except.ok.injEq] at h
          subst h
          refine ⟨mt, ce, crs, slot, u.1, hb.symm, ?_, hl, hu, ?_⟩
          · unfold covering_slot
            rw [hb]
            exact hslot
          · simp only [relocated]
            try rfl
      · simp only [hb, if_false] at h
        repeat' split at h
        all_goals try cases h
        all_goals exact ih _ _ _ _ _ h

/-- The last step of the descent of `apply_reallocate`, in the page whose
children have the range size of the block. -/
theorem descend_apply_here (n : Nat) (mt : mapping_table_t) (hdr addr brs : Nat)
    (ce : Option Nat) (csr crs slot old new : Nat)
    (hf : mt.fanout ≠ 0) (hc : crs ≠ 0) (hb : brs ≠ 0) (hsub : crs / mt.fanout = brs)
    (hslot : read_entry (mt.block_of ce) (covering_slot (hdr_logical_address hdr) crs brs)
      = .ok slot) :
    descend_to_parent (n + 1) mt hdr addr (some (old, new)) brs ce csr crs
      = if slot = old then
          (write_slot mt ce (covering_slot (hdr_logical_address hdr) crs brs) new).bind
            (fun m => (mtpc_unpin (mtpc_mark_dirty m ce) ce).map (fun u => (false, u.2)))
        else (mtpc_unpin mt ce).map (fun u => (false, u.2)) := by
  rw [descend_to_parent]
  unfold covering_slot at hslot ⊢
  simp only [bind, Except.bind, pure, Except.pure, udiv, umod, hf, hc, hb, if_false, hsub, hslot,
    if_true, Except.map]

theorem read_entry_lt (b : flash_block_t) (i v : Nat) (h : read_entry b i = .ok v) :
    i < b.data.length := by
  unfold read_entry at h
  split at h
  · rename_i hg
    exact (List.get?_eq_some.mp hg).1
  · cases h

theorem rewrite_root (mt : mapping_table_t) (i slot new : Nat)
    (hslot : read_entry mt.root i = .ok slot) :
    (write_slot mt none i new).bind
        (fun m => (mtpc_unpin (mtpc_mark_dirty m none) none).map (fun u => (false, u.2)))
      = .ok (false, slot_rewritten mt none i new) := by
  have hlt := read_entry_lt _ _ _ hslot
  unfold write_slot write_entry
  simp only [hlt, if_true, bind, Except.bind, pure, Except.pure, mtpc_mark_dirty, mtpc_unpin,
    Except.map, slot_rewritten]

theorem rewrite_pinned (mt : mapping_table_t) (b i slot new : Nat)
    (hslot : read_entry (mt.heap b).value i = .ok slot)
    (hp : (mt.heap b).pin_count + 1 < 2 ^ 16) :
    (write_slot (pin mt b) (some b) i new).bind
        (fun m => (mtpc_unpin (mtpc_mark_dirty m (some b)) (some b)).map (fun u => (false, u.2)))
      = .ok (false, slot_rewritten mt (some b) i new) := by
  have hlt := read_entry_lt _ _ _ hslot
  have hu : u16 ((mt.heap b).pin_count + 1) = (mt.heap b).pin_count + 1 :=
    Nat.mod_eq_of_lt hp
  unfold write_slot write_entry
  simp only [pin, mapping_table_t.set_entry, if_true, hlt, bind, Except.bind, pure, Except.pure,
    mtpc_mark_dirty, mtpc_unpin, hu, Nat.add_sub_cancel, Nat.succ_pos, gt_iff_lt, Except.map,
    slot_rewritten, Except.ok.injEq, Prod.mk.injEq, true_and]
  congr 1
  funext j
  by_cases hj : j = b
  · simp only [hj, if_true]
  · simp only [hj, if_false]

theorem read_write_same (blk : flash_block_t) (i v : Nat) (h : i < blk.data.length) :
    read_entry { blk with data := blk.data.set i v } i = .ok v := by
  unfold read_entry
  simp only [List.get?_eq_getElem?, List.getElem?_set_self h]

theorem read_write_other (blk : flash_block_t) (i j v : Nat) (h : j ≠ i) :
    read_entry { blk with data := blk.data.set i v } j = read_entry blk j := by
  unfold read_entry
  simp only [List.get?_eq_getElem?, List.getElem?_set_ne (fun e => h e.symm)]

theorem slot_rewritten_spec (mt : mapping_table_t) (ce : Option Nat) (i v slot : Nat)
    (hslot : read_entry (mt.block_of ce) i = .ok slot) :
    read_entry ((slot_rewritten mt ce i v).block_of ce) i = .ok v
      ∧ (∀ j, j ≠ i →
          read_entry ((slot_rewritten mt ce i v).block_of ce) j = read_entry (mt.block_of ce) j)
      ∧ (∀ e, ce = some e → ((slot_rewritten mt ce i v).heap e).dirty = true)
      ∧ (∀ y, ce ≠ some y → (slot_rewritten mt ce i v).heap y = mt.heap y)
      ∧ (ce ≠ none → (slot_rewritten mt ce i v).root = mt.root)
      ∧ (slot_rewritten mt ce i v).lss = mt.lss
      ∧ (slot_rewritten mt ce i v).page_cache = mt.page_cache := by
  have hlt := read_entry_lt _ _ _ hslot
  cases ce with
  | none =>
    refine ⟨read_write_same _ _ _ hlt, fun j hj => read_write_other _ _ _ _ hj, ?_, ?_, ?_, rfl,
      rfl⟩
    · intro e he; cases he
    · intro y _; rfl
    · intro h; exact absurd rfl h
  | some e =>
    simp only [mapping_table_t.block_of] at hlt
    refine ⟨?_, ?_, ?_, ?_, fun _ => rfl, rfl, rfl⟩
    · simp only [slot_rewritten, mapping_table_t.block_of, mapping_table_t.set_entry, if_true]
      exact read_write_same _ _ _ hlt
    · intro j hj
      simp only [slot_rewritten, mapping_table_t.block_of, mapping_table_t.set_entry, if_true]
      exact read_write_other _ _ _ _ hj
    · intro e' he
      cases he
      simp only [slot_rewritten, mapping_table_t.set_entry, if_true]
    · intro y hy
      have : y ≠ e := fun h => hy (by rw [h])
      simp only [slot_rewritten, mapping_table_t.set_entry, if_neg this]

theorem dev_kr_flash_write (f : flash_t) (a : Nat) (b : flash_block_t) (len : Nat) (v : flash_t) :
    (flash_write f a b len = .ok v) = (returns (flash_write f a b len) v ∧ geo v = geo f) := by
  apply keep_intro
  intro h
  unfold flash_write at h
  repeat' split at h
  all_goals try cases h
  rfl

theorem dev_kr_flash_erase_segment (f : flash_t) (off : Nat) (r : Int × flash_t) :
    (flash_erase_segment f off = .ok r)
      = (returns (flash_erase_segment f off) r ∧ geo r.2 = geo f) := by
  apply keep_intro
  intro h
  unfold flash_erase_segment at h
  repeat' split at h
  all_goals try cases h
  all_goals rfl

theorem dev_kr_segment_metadata (l : lss_t) (off : Nat) (r : Int × lss_t) :
    (lss_write_segment_metadata l off = .ok r)
      = (returns (lss_write_segment_metadata l off) r ∧ ldev r.2 = ldev l) := by
  apply keep_intro
  intro h
  unfold lss_write_segment_metadata at h
  simp only at h
  repeat' split at h
  all_goals try cases h
  rename_i hw
  rw [dev_kr_flash_write] at hw
  simp only [ldev, hw.2]

theorem dev_kr_flush_entry (n : Nat) (ih : dev_frame n) (mt : mapping_table_t) (c : mtpc_ref) (entry : Nat) (ct : Bool)
    (r : Int × mapping_table_t) :
    (flush_entry n mt c entry ct = .ok r) = (returns (flush_entry n mt c entry ct) r ∧ dev r.2 = dev mt) :=
  keep_intro (ih.flush_entry mt c entry ct r)

theorem dev_kr_mtpc_insert_evict (n : Nat) (ih : dev_frame n) (mt : mapping_table_t) (c : mtpc_ref) (ct : Bool) (cand : Option Nat)
    (r : Nat × mapping_table_t) :
    (mtpc_insert_evict n mt c ct cand = .ok r) = (returns (mtpc_insert_evict n mt c ct cand) r ∧ dev r.2 = dev mt) :=
  keep_intro (ih.mtpc_insert_evict mt c ct cand r)

theorem dev_kr_mtpc_insert (n : Nat) (ih : dev_frame n) (mt : mapping_table_t) (c : mtpc_ref) (s e level : Nat) (parent : Option Nat) (ct : Bool)
    (r : Nat × mapping_table_t) :
    (mtpc_insert n mt c s e level parent ct = .ok r) = (returns (mtpc_insert n mt c s e level parent ct) r ∧ dev r.2 = dev mt) :=
  keep_intro (ih.mtpc_insert mt c s e level parent ct r)

theorem dev_kr_mtpc_acquire_from_storage (n : Nat) (ih : dev_frame n) (mt : mapping_table_t) (c : mtpc_ref) (s e sa : Nat) (parent : Option Nat) (ct : Bool)
    (r : Nat × mapping_table_t) :
    (mtpc_acquire_from_storage n mt c s e sa parent ct = .ok r) = (returns (mtpc_acquire_from_storage n mt c s e sa parent ct) r ∧ dev r.2 = dev mt) :=
  keep_intro (ih.mtpc_acquire_from_storage mt c s e sa parent ct r)

theorem dev_kr_mtpc_flush_all_level (n : Nat) (ih : dev_frame n) (mt : mapping_table_t) (c : mtpc_ref) (ct : Bool) (level i total : Nat)
    (r : Nat × mapping_table_t) :
    (mtpc_flush_all_level n mt c ct level i total = .ok r) = (returns (mtpc_flush_all_level n mt c ct level i total) r ∧ dev r.2 = dev mt) :=
  keep_intro (ih.mtpc_flush_all_level mt c ct level i total r)

theorem dev_kr_mtpc_flush_all_levels (n : Nat) (ih : dev_frame n) (mt : mapping_table_t) (c : mtpc_ref) (ct : Bool) (level total : Nat)
    (r : Nat × mapping_table_t) :
    (mtpc_flush_all_levels n mt c ct level total = .ok r) = (returns (mtpc_flush_all_levels n mt c ct level total) r ∧ dev r.2 = dev mt) :=
  keep_intro (ih.mtpc_flush_all_levels mt c ct level total r)

theorem dev_kr_mtpc_flush_all (n : Nat) (ih : dev_frame n) (mt : mapping_table_t) (c : mtpc_ref) (ct : Bool)
    (r : Int × mapping_table_t) :
    (mtpc_flush_all n mt c ct = .ok r) = (returns (mtpc_flush_all n mt c ct) r ∧ dev r.2 = dev mt) :=
  keep_intro (ih.mtpc_flush_all mt c ct r)

theorem dev_kr_descend_to_parent (n : Nat) (ih : dev_frame n) (mt : mapping_table_t) (bh ba : Nat) (ap : Option (Nat × Nat)) (brs : Nat) (ce : Option Nat) (csr crs : Nat)
    (r : Bool × mapping_table_t) :
    (descend_to_parent n mt bh ba ap brs ce csr crs = .ok r) = (returns (descend_to_parent n mt bh ba ap brs ce csr crs) r ∧ dev r.2 = dev mt) :=
  keep_intro (ih.descend_to_parent mt bh ba ap brs ce csr crs r)

theorem dev_kr_locate_parent (n : Nat) (ih : dev_frame n) (mt : mapping_table_t) (bh ba : Nat) (ap : Option (Nat × Nat))
    (r : Bool × mapping_table_t) :
    (locate_parent n mt bh ba ap = .ok r) = (returns (locate_parent n mt bh ba ap) r ∧ dev r.2 = dev mt) :=
  keep_intro (ih.locate_parent mt bh ba ap r)

theorem dev_kr_is_mt_block_alive (n : Nat) (ih : dev_frame n) (mt : mapping_table_t) (ba bh : Nat)
    (r : Bool × mapping_table_t) :
    (is_mt_block_alive n mt ba bh = .ok r) = (returns (is_mt_block_alive n mt ba bh) r ∧ dev r.2 = dev mt) :=
  keep_intro (ih.is_mt_block_alive mt ba bh r)

theorem dev_kr_apply_reallocate (n : Nat) (ih : dev_frame n) (mt : mapping_table_t) (bh old new : Nat)
    (r : Int × mapping_table_t) :
    (apply_reallocate n mt bh old new = .ok r) = (returns (apply_reallocate n mt bh old new) r ∧ dev r.2 = dev mt) :=
  keep_intro (ih.apply_reallocate mt bh old new r)

theorem dev_kr_lss_realloc_evict_loop (n : Nat) (ih : dev_frame n) (mt : mapping_table_t) (idx : Nat)
    (r : mapping_table_t) :
    (lss_realloc_evict_loop n mt idx = .ok r) = (returns (lss_realloc_evict_loop n mt idx) r ∧ dev r = dev mt) :=
  keep_intro (ih.lss_realloc_evict_loop mt idx r)

theorem dev_kr_lss_realloc_evict (n : Nat) (ih : dev_frame n) (mt : mapping_table_t) 
    (r : Int × mapping_table_t) :
    (lss_realloc_evict n mt = .ok r) = (returns (lss_realloc_evict n mt) r ∧ dev r.2 = dev mt) :=
  keep_intro (ih.lss_realloc_evict mt  r)

theorem dev_kr_lss_realloc_insert (n : Nat) (ih : dev_frame n) (mt : mapping_table_t) (bh old new : Nat)
    (r : Int × mapping_table_t) :
    (lss_realloc_insert n mt bh old new = .ok r) = (returns (lss_realloc_insert n mt bh old new) r ∧ dev r.2 = dev mt) :=
  keep_intro (ih.lss_realloc_insert mt bh old new r)

theorem dev_kr_is_mt_segment_fully_dead_loop (n : Nat) (ih : dev_frame n) (mt : mapping_table_t) (buf : Nat → flash_block_t) (ba bhdr ps np i : Nat)
    (r : Bool × mapping_table_t) :
    (is_mt_segment_fully_dead_loop n mt buf ba bhdr ps np i = .ok r) = (returns (is_mt_segment_fully_dead_loop n mt buf ba bhdr ps np i) r ∧ dev r.2 = dev mt) :=
  keep_intro (ih.is_mt_segment_fully_dead_loop mt buf ba bhdr ps np i r)

theorem dev_kr_is_mt_segment_fully_dead (n : Nat) (ih : dev_frame n) (mt : mapping_table_t) (ba : Nat)
    (r : Bool × mapping_table_t) :
    (is_mt_segment_fully_dead n mt ba = .ok r) = (returns (is_mt_segment_fully_dead n mt ba) r ∧ dev r.2 = dev mt) :=
  keep_intro (ih.is_mt_segment_fully_dead mt ba r)

theorem dev_kr_lss_debug_analyze_loop (n : Nat) (ih : dev_frame n) (mt : mapping_table_t) (bs nb i : Nat)
    (r : mapping_table_t) :
    (lss_debug_analyze_loop n mt bs nb i = .ok r) = (returns (lss_debug_analyze_loop n mt bs nb i) r ∧ dev r = dev mt) :=
  keep_intro (ih.lss_debug_analyze_loop mt bs nb i r)

theorem dev_kr_lss_debug_analyze (n : Nat) (ih : dev_frame n) (mt : mapping_table_t) 
    (r : Int × mapping_table_t) :
    (lss_debug_analyze n mt = .ok r) = (returns (lss_debug_analyze n mt) r ∧ dev r.2 = dev mt) :=
  keep_intro (ih.lss_debug_analyze mt  r)

theorem dev_kr_lss_clean_tail_block (n : Nat) (ih : dev_frame n) (mt : mapping_table_t) (tail : Nat)
    (r : Int × mapping_table_t) :
    (lss_clean_tail_block n mt tail = .ok r) = (returns (lss_clean_tail_block n mt tail) r ∧ dev r.2 = dev mt) :=
  keep_intro (ih.lss_clean_tail_block mt tail r)

theorem dev_kr_lss_write_clean (n : Nat) (ih : dev_frame n) (mt : mapping_table_t) (tries : Nat)
    (r : mapping_table_t) :
    (lss_write_clean n mt tries = .ok r) = (returns (lss_write_clean n mt tries) r ∧ dev r = dev mt) :=
  keep_intro (ih.lss_write_clean mt tries r)

theorem dev_kr_lss_write_rotate (n : Nat) (ih : dev_frame n) (mt : mapping_table_t) 
    (r : mapping_table_t) :
    (lss_write_rotate n mt = .ok r) = (returns (lss_write_rotate n mt) r ∧ dev r = dev mt) :=
  keep_intro (ih.lss_write_rotate mt  r)

theorem dev_kr_lss_write (n : Nat) (ih : dev_frame n) (mt : mapping_table_t) (data : buf_ptr) (len : Nat) (ct : Bool)
    (r : Nat × mapping_table_t) :
    (lss_write n mt data len ct = .ok r) = (returns (lss_write n mt data len ct) r ∧ dev r.2 = dev mt) :=
  keep_intro (ih.lss_write mt data len ct r)

theorem dev_step_flush_entry (n : Nat) (ih : dev_frame n) (mt : mapping_table_t) (c : mtpc_ref) (entry : Nat) (ct : Bool)
    (r : Int × mapping_table_t) (h : flush_entry (n + 1) mt c entry ct = .ok r) : dev r.2 = dev mt := by
  first | rw [flush_entry] at h | rw [flush_entry.eq_def] at h
  try simp only [bind, Except.bind, pure, Except.pure] at h
  repeat' split at h
  all_goals try cases h
  all_goals try simp only [dev_kr_flush_entry n ih, dev_kr_mtpc_insert_evict n ih, dev_kr_mtpc_insert n ih,
    dev_kr_mtpc_acquire_from_storage n ih, dev_kr_mtpc_flush_all_level n ih,
    dev_kr_mtpc_flush_all_levels n ih, dev_kr_mtpc_flush_all n ih, dev_kr_descend_to_parent n ih,
    dev_kr_locate_parent n ih, dev_kr_is_mt_block_alive n ih, dev_kr_apply_reallocate n ih,
    dev_kr_lss_realloc_evict_loop n ih, dev_kr_lss_realloc_evict n ih,
    dev_kr_lss_realloc_insert n ih, dev_kr_is_mt_segment_fully_dead_loop n ih,
    dev_kr_is_mt_segment_fully_dead n ih, dev_kr_lss_debug_analyze_loop n ih,
    dev_kr_lss_debug_analyze n ih, dev_kr_lss_clean_tail_block n ih, dev_kr_lss_write_clean n ih,
    dev_kr_lss_write_rotate n ih, dev_kr_lss_write n ih, lss_kr_cache_allocate_entry,
    lss_kr_unpin, lss_kr_write_slot, lss_kr_take_entry_ownership, lss_kr_insert_finish,
    lss_kr_insert_reuse, lss_kr_acquire_fill, dev_kr_flash_write, dev_kr_flash_erase_segment,
    dev_kr_segment_metadata] at *
  all_goals try simp_all only [lss_set_entry, lss_set_cache, lss_lru_remove, lss_lru_push_head, lss_lru_move_to_head,
    lss_pin, lss_mark_dirty, lss_cache_free_entry, lss_cache_allocate_entry, lss_get_page_entry,
    lss_search, dev, ldev, geo, Prod.mk.injEq, and_self, and_true, true_and]
  all_goals repeat' split
  all_goals simp_all only [lss_set_entry, lss_set_cache, lss_lru_remove, lss_lru_push_head, lss_lru_move_to_head,
    lss_pin, lss_mark_dirty, lss_cache_free_entry, lss_cache_allocate_entry, lss_get_page_entry,
    lss_search, dev, ldev, geo, Prod.mk.injEq, and_self, and_true, true_and]

theorem dev_step_mtpc_insert_evict (n : Nat) (ih : dev_frame n) (mt : mapping_table_t) (c : mtpc_ref) (ct : Bool) (cand : Option Nat)
    (r : Nat × mapping_table_t) (h : mtpc_insert_evict (n + 1) mt c ct cand = .ok r) : dev r.2 = dev mt := by
  first | rw [mtpc_insert_evict] at h | rw [mtpc_insert_evict.eq_def] at h
  try simp only [bind, Except.bind, pure, Except.pure] at h
  repeat' split at h
  all_goals try cases h
  all_goals try simp only [dev_kr_flush_entry n ih, dev_kr_mtpc_insert_evict n ih, dev_kr_mtpc_insert n ih,
    dev_kr_mtpc_acquire_from_storage n ih, dev_kr_mtpc_flush_all_level n ih,
    dev_kr_mtpc_flush_all_levels n ih, dev_kr_mtpc_flush_all n ih, dev_kr_descend_to_parent n ih,
    dev_kr_locate_parent n ih, dev_kr_is_mt_block_alive n ih, dev_kr_apply_reallocate n ih,
    dev_kr_lss_realloc_evict_loop n ih, dev_kr_lss_realloc_evict n ih,
    dev_kr_lss_realloc_insert n ih, dev_kr_is_mt_segment_fully_dead_loop n ih,
    dev_kr_is_mt_segment_fully_dead n ih, dev_kr_lss_debug_analyze_loop n ih,
    dev_kr_lss_debug_analyze n ih, dev_kr_lss_clean_tail_block n ih, dev_kr_lss_write_clean n ih,
    dev_kr_lss_write_rotate n ih, dev_kr_lss_write n ih, lss_kr_cache_allocate_entry,
    lss_kr_unpin, lss_kr_write_slot, lss_kr_take_entry_ownership, lss_kr_insert_finish,
    lss_kr_insert_reuse, lss_kr_acquire_fill, dev_kr_flash_write, dev_kr_flash_erase_segment,
    dev_kr_segment_metadata] at *
  all_goals try simp_all only [lss_set_entry, lss_set_cache, lss_lru_remove, lss_lru_push_head, lss_lru_move_to_head,
    lss_pin, lss_mark_dirty, lss_cache_free_entry, lss_cache_allocate_entry, lss_get_page_entry,
    lss_search, dev, ldev, geo, Prod.mk.injEq, and_self, and_true, true_and]
  all_goals repeat' split
  all_goals simp_all only [lss_set_entry, lss_set_cache, lss_lru_remove, lss_lru_push_head, lss_lru_move_to_head,
    lss_pin, lss_mark_dirty, lss_cache_free_entry, lss_cache_allocate_entry, lss_get_page_entry,
    lss_search, dev, ldev, geo, Prod.mk.injEq, and_self, and_true, true_and]

theorem dev_step_mtpc_insert (n : Nat) (ih : dev_frame n) (mt : mapping_table_t) (c : mtpc_ref) (s e level : Nat) (parent : Option Nat) (ct : Bool)
    (r : Nat × mapping_table_t) (h : mtpc_insert (n + 1) mt c s e level parent ct = .ok r) : dev r.2 = dev mt := by
  first | rw [mtpc_insert] at h | rw [mtpc_insert.eq_def] at h
  try simp only [bind, Except.bind, pure, Except.pure] at h
  repeat' split at h
  all_goals try cases h
  all_goals try simp only [dev_kr_flush_entry n ih, dev_kr_mtpc_insert_evict n ih, dev_kr_mtpc_insert n ih,
    dev_kr_mtpc_acquire_from_storage n ih, dev_kr_mtpc_flush_all_level n ih,
    dev_kr_mtpc_flush_all_levels n ih, dev_kr_mtpc_flush_all n ih, dev_kr_descend_to_parent n ih,
    dev_kr_locate_parent n ih, dev_kr_is_mt_block_alive n ih, dev_kr_apply_reallocate n ih,
    dev_kr_lss_realloc_evict_loop n ih, dev_kr_lss_realloc_evict n ih,
    dev_kr_lss_realloc_insert n ih, dev_kr_is_mt_segment_fully_dead_loop n ih,
    dev_kr_is_mt_segment_fully_dead n ih, dev_kr_lss_debug_analyze_loop n ih,
    dev_kr_lss_debug_analyze n ih, dev_kr_lss_clean_tail_block n ih, dev_kr_lss_write_clean n ih,
    dev_kr_lss_write_rotate n ih, dev_kr_lss_write n ih, lss_kr_cache_allocate_entry,
    lss_kr_unpin, lss_kr_write_slot, lss_kr_take_entry_ownership, lss_kr_insert_finish,
    lss_kr_insert_reuse, lss_kr_acquire_fill, dev_kr_flash_write, dev_kr_flash_erase_segment,
    dev_kr_segment_metadata] at *
  all_goals try simp_all only [lss_set_entry, lss_set_cache, lss_lru_remove, lss_lru_push_head, lss_lru_move_to_head,
    lss_pin, lss_mark_dirty, lss_cache_free_entry, lss_cache_allocate_entry, lss_get_page_entry,
    lss_search, dev, ldev, geo, Prod.mk.injEq, and_self, and_true, true_and]
  all_goals repeat' split
  all_goals simp_all only [lss_set_entry, lss_set_cache, lss_lru_remove, lss_lru_push_head, lss_lru_move_to_head,
    lss_pin, lss_mark_dirty, lss_cache_free_entry, lss_cache_allocate_entry, lss_get_page_entry,
    lss_search, dev, ldev, geo, Prod.mk.injEq, and_self, and_true, true_and]

theorem dev_step_mtpc_acquire_from_storage (n : Nat) (ih : dev_frame n) (mt : mapping_table_t) (c : mtpc_ref) (s e sa : Nat) (parent : Option Nat) (ct : Bool)
    (r : Nat × mapping_table_t) (h : mtpc_acquire_from_storage (n + 1) mt c s e sa parent ct = .ok r) : dev r.2 = dev mt := by
  first | rw [mtpc_acquire_from_storage] at h | rw [mtpc_acquire_from_storage.eq_def] at h
  try simp only [bind, Except.bind, pure, Except.pure] at h
  repeat' split at h
  all_goals try cases h
  all_goals try simp only [dev_kr_flush_entry n ih, dev_kr_mtpc_insert_evict n ih, dev_kr_mtpc_insert n ih,
    dev_kr_mtpc_acquire_from_storage n ih, dev_kr_mtpc_flush_all_level n ih,
    dev_kr_mtpc_flush_all_levels n ih, dev_kr_mtpc_flush_all n ih, dev_kr_descend_to_parent n ih,
    dev_kr_locate_parent n ih, dev_kr_is_mt_block_alive n ih, dev_kr_apply_reallocate n ih,
    dev_kr_lss_realloc_evict_loop n ih, dev_kr_lss_realloc_evict n ih,
    dev_kr_lss_realloc_insert n ih, dev_kr_is_mt_segment_fully_dead_loop n ih,
    dev_kr_is_mt_segment_fully_dead n ih, dev_kr_lss_debug_analyze_loop n ih,
    dev_kr_lss_debug_analyze n ih, dev_kr_lss_clean_tail_block n ih, dev_kr_lss_write_clean n ih,
    dev_kr_lss_write_rotate n ih, dev_kr_lss_write n ih, lss_kr_cache_allocate_entry,
    lss_kr_unpin, lss_kr_write_slot, lss_kr_take_entry_ownership, lss_kr_insert_finish,
    lss_kr_insert_reuse, lss_kr_acquire_fill, dev_kr_flash_write, dev_kr_flash_erase_segment,
    dev_kr_segment_metadata] at *
  all_goals try simp_all only [lss_set_entry, lss_set_cache, lss_lru_remove, lss_lru_push_head, lss_lru_move_to_head,
    lss_pin, lss_mark_dirty, lss_cache_free_entry, lss_cache_allocate_entry, lss_get_page_entry,
    lss_search, dev, ldev, geo, Prod.mk.injEq, and_self, and_true, true_and]
  all_goals repeat' split
  all_goals simp_all only [lss_set_entry, lss_set_cache, lss_lru_remove, lss_lru_push_head, lss_lru_move_to_head,
    lss_pin, lss_mark_dirty, lss_cache_free_entry, lss_cache_allocate_entry, lss_get_page_entry,
    lss_search, dev, ldev, geo, Prod.mk.injEq, and_self, and_true, true_and]

theorem dev_step_mtpc_flush_all_level (n : Nat) (ih : dev_frame n) (mt : mapping_table_t) (c : mtpc_ref) (ct : Bool) (level i total : Nat)
    (r : Nat × mapping_table_t) (h : mtpc_flush_all_level (n + 1) mt c ct level i total = .ok r) : dev r.2 = dev mt := by
  first | rw [mtpc_flush_all_level] at h | rw [mtpc_flush_all_level.eq_def] at h
  try simp only [bind, Except.bind, pure, Except.pure] at h
  repeat' split at h
  all_goals try cases h
  all_goals try simp only [dev_kr_flush_entry n ih, dev_kr_mtpc_insert_evict n ih, dev_kr_mtpc_insert n ih,
    dev_kr_mtpc_acquire_from_storage n ih, dev_kr_mtpc_flush_all_level n ih,
    dev_kr_mtpc_flush_all_levels n ih, dev_kr_mtpc_flush_all n ih, dev_kr_descend_to_parent n ih,
    dev_kr_locate_parent n ih, dev_kr_is_mt_block_alive n ih, dev_kr_apply_reallocate n ih,
    dev_kr_lss_realloc_evict_loop n ih, dev_kr_lss_realloc_evict n ih,
    dev_kr_lss_realloc_insert n ih, dev_kr_is_mt_segment_fully_dead_loop n ih,
    dev_kr_is_mt_segment_fully_dead n ih, dev_kr_lss_debug_analyze_loop n ih,
    dev_kr_lss_debug_analyze n ih, dev_kr_lss_clean_tail_block n ih, dev_kr_lss_write_clean n ih,
    dev_kr_lss_write_rotate n ih, dev_kr_lss_write n ih, lss_kr_cache_allocate_entry,
    lss_kr_unpin, lss_kr_write_slot, lss_kr_take_entry_ownership, lss_kr_insert_finish,
    lss_kr_insert_reuse, lss_kr_acquire_fill, dev_kr_flash_write, dev_kr_flash_erase_segment,
    dev_kr_segment_metadata] at *
  all_goals try simp_all only [lss_set_entry, lss_set_cache, lss_lru_remove, lss_lru_push_head, lss_lru_move_to_head,
    lss_pin, lss_mark_dirty, lss_cache_free_entry, lss_cache_allocate_entry, lss_get_page_entry,
    lss_search, dev, ldev, geo, Prod.mk.injEq, and_self, and_true, true_and]
  all_goals repeat' split
  all_goals simp_all only [lss_set_entry, lss_set_cache, lss_lru_remove, lss_lru_push_head, lss_lru_move_to_head,
    lss_pin, lss_mark_dirty, lss_cache_free_entry, lss_cache_allocate_entry, lss_get_page_entry,
    lss_search, dev, ldev, geo, Prod.mk.injEq, and_self, and_true, true_and]

theorem dev_step_mtpc_flush_all_levels (n : Nat) (ih : dev_frame n) (mt : mapping_table_t) (c : mtpc_ref) (ct : Bool) (level total : Nat)
    (r : Nat × mapping_table_t) (h : mtpc_flush_all_levels (n + 1) mt c ct level total = .ok r) : dev r.2 = dev mt := by
  first | rw [mtpc_flush_all_levels] at h | rw [mtpc_flush_all_levels.eq_def] at h
  try simp only [bind, Except.bind, pure, Except.pure] at h
  repeat' split at h
  all_goals try cases h
  all_goals try simp only [dev_kr_flush_entry n ih, dev_kr_mtpc_insert_evict n ih, dev_kr_mtpc_insert n ih,
    dev_kr_mtpc_acquire_from_storage n ih, dev_kr_mtpc_flush_all_level n ih,
    dev_kr_mtpc_flush_all_levels n ih, dev_kr_mtpc_flush_all n ih, dev_kr_descend_to_parent n ih,
    dev_kr_locate_parent n ih, dev_kr_is_mt_block_alive n ih, dev_kr_apply_reallocate n ih,
    dev_kr_lss_realloc_evict_loop n ih, dev_kr_lss_realloc_evict n ih,
    dev_kr_lss_realloc_insert n ih, dev_kr_is_mt_segment_fully_dead_loop n ih,
    dev_kr_is_mt_segment_fully_dead n ih, dev_kr_lss_debug_analyze_loop n ih,
    dev_kr_lss_debug_analyze n ih, dev_kr_lss_clean_tail_block n ih, dev_kr_lss_write_clean n ih,
    dev_kr_lss_write_rotate n ih, dev_kr_lss_write n ih, lss_kr_cache_allocate_entry,
    lss_kr_unpin, lss_kr_write_slot, lss_kr_take_entry_ownership, lss_kr_insert_finish,
    lss_kr_insert_reuse, lss_kr_acquire_fill, dev_kr_flash_write, dev_kr_flash_erase_segment,
    dev_kr_segment_metadata] at *
  all_goals try simp_all only [lss_set_entry, lss_set_cache, lss_lru_remove, lss_lru_push_head, lss_lru_move_to_head,
    lss_pin, lss_mark_dirty, lss_cache_free_entry, lss_cache_allocate_entry, lss_get_page_entry,
    lss_search, dev, ldev, geo, Prod.mk.injEq, and_self, and_true, true_and]
  all_goals repeat' split
  all_goals simp_all only [lss_set_entry, lss_set_cache, lss_lru_remove, lss_lru_push_head, lss_lru_move_to_head,
    lss_pin, lss_mark_dirty, lss_cache_free_entry, lss_cache_allocate_entry, lss_get_page_entry,
    lss_search, dev, ldev, geo, Prod.mk.injEq, and_self, and_true, true_and]

theorem dev_step_mtpc_flush_all (n : Nat) (ih : dev_frame n) (mt : mapping_table_t) (c : mtpc_ref) (ct : Bool)
    (r : Int × mapping_table_t) (h : mtpc_flush_all (n + 1) mt c ct = .ok r) : dev r.2 = dev mt := by
  first | rw [mtpc_flush_all] at h | rw [mtpc_flush_all.eq_def] at h
  try simp only [bind, Except.bind, pure, Except.pure] at h
  repeat' split at h
  all_goals try cases h
  all_goals try simp only [dev_kr_flush_entry n ih, dev_kr_mtpc_insert_evict n ih, dev_kr_mtpc_insert n ih,
    dev_kr_mtpc_acquire_from_storage n ih, dev_kr_mtpc_flush_all_level n ih,
    dev_kr_mtpc_flush_all_levels n ih, dev_kr_mtpc_flush_all n ih, dev_kr_descend_to_parent n ih,
    dev_kr_locate_parent n ih, dev_kr_is_mt_block_alive n ih, dev_kr_apply_reallocate n ih,
    dev_kr_lss_realloc_evict_loop n ih, dev_kr_lss_realloc_evict n ih,
    dev_kr_lss_realloc_insert n ih, dev_kr_is_mt_segment_fully_dead_loop n ih,
    dev_kr_is_mt_segment_fully_dead n ih, dev_kr_lss_debug_analyze_loop n ih,
    dev_kr_lss_debug_analyze n ih, dev_kr_lss_clean_tail_block n ih, dev_kr_lss_write_clean n ih,
    dev_kr_lss_write_rotate n ih, dev_kr_lss_write n ih, lss_kr_cache_allocate_entry,
    lss_kr_unpin, lss_kr_write_slot, lss_kr_take_entry_ownership, lss_kr_insert_finish,
    lss_kr_insert_reuse, lss_kr_acquire_fill, dev_kr_flash_write, dev_kr_flash_erase_segment,
    dev_kr_segment_metadata] at *
  all_goals try simp_all only [lss_set_entry, lss_set_cache, lss_lru_remove, lss_lru_push_head, lss_lru_move_to_head,
    lss_pin, lss_mark_dirty, lss_cache_free_entry, lss_cache_allocate_entry, lss_get_page_entry,
    lss_search, dev, ldev, geo, Prod.mk.injEq, and_self, and_true, true_and]
  all_goals repeat' split
  all_goals simp_all only [lss_set_entry, lss_set_cache, lss_lru_remove, lss_lru_push_head, lss_lru_move_to_head,
    lss_pin, lss_mark_dirty, lss_cache_free_entry, lss_cache_allocate_entry, lss_get_page_entry,
    lss_search, dev, ldev, geo, Prod.mk.injEq, and_self, and_true, true_and]

theorem dev_step_descend_to_parent (n : Nat) (ih : dev_frame n) (mt : mapping_table_t) (bh ba : Nat) (ap : Option (Nat × Nat)) (brs : Nat) (ce : Option Nat) (csr crs : Nat)
    (r : Bool × mapping_table_t) (h : descend_to_parent (n + 1) mt bh ba ap brs ce csr crs = .ok r) : dev r.2 = dev mt := by
  first | rw [descend_to_parent] at h | rw [descend_to_parent.eq_def] at h
  try simp only [bind, Except.bind, pure, Except.pure] at h
  repeat' split at h
  all_goals try cases h
  all_goals try simp only [dev_kr_flush_entry n ih, dev_kr_mtpc_insert_evict n ih, dev_kr_mtpc_insert n ih,
    dev_kr_mtpc_acquire_from_storage n ih, dev_kr_mtpc_flush_all_level n ih,
    dev_kr_mtpc_flush_all_levels n ih, dev_kr_mtpc_flush_all n ih, dev_kr_descend_to_parent n ih,
    dev_kr_locate_parent n ih, dev_kr_is_mt_block_alive n ih, dev_kr_apply_reallocate n ih,
    dev_kr_lss_realloc_evict_loop n ih, dev_kr_lss_realloc_evict n ih,
    dev_kr_lss_realloc_insert n ih, dev_kr_is_mt_segment_fully_dead_loop n ih,
    dev_kr_is_mt_segment_fully_dead n ih, dev_kr_lss_debug_analyze_loop n ih,
    dev_kr_lss_debug_analyze n ih, dev_kr_lss_clean_tail_block n ih, dev_kr_lss_write_clean n ih,
    dev_kr_lss_write_rotate n ih, dev_kr_lss_write n ih, lss_kr_cache_allocate_entry,
    lss_kr_unpin, lss_kr_write_slot, lss_kr_take_entry_ownership, lss_kr_insert_finish,
    lss_kr_insert_reuse, lss_kr_acquire_fill, dev_kr_flash_write, dev_kr_flash_erase_segment,
    dev_kr_segment_metadata] at *
  all_goals try simp_all only [lss_set_entry, lss_set_cache, lss_lru_remove, lss_lru_push_head, lss_lru_move_to_head,
    lss_pin, lss_mark_dirty, lss_cache_free_entry, lss_cache_allocate_entry, lss_get_page_entry,
    lss_search, dev, ldev, geo, Prod.mk.injEq, and_self, and_true, true_and]
  all_goals repeat' split
  all_goals simp_all only [lss_set_entry, lss_set_cache, lss_lru_remove, lss_lru_push_head, lss_lru_move_to_head,
    lss_pin, lss_mark_dirty, lss_cache_free_entry, lss_cache_allocate_entry, lss_get_page_entry,
    lss_search, dev, ldev, geo, Prod.mk.injEq, and_self, and_true, true_and]

theorem dev_step_locate_parent (n : Nat) (ih : dev_frame n) (mt : mapping_table_t) (bh ba : Nat) (ap : Option (Nat × Nat))
    (r : Bool × mapping_table_t) (h : locate_parent (n + 1) mt bh ba ap = .ok r) : dev r.2 = dev mt := by
  first | rw [locate_parent] at h | rw [locate_parent.eq_def] at h
  try simp only [bind, Except.bind, pure, Except.pure] at h
  repeat' split at h
  all_goals try cases h
  all_goals try simp only [dev_kr_flush_entry n ih, dev_kr_mtpc_insert_evict n ih, dev_kr_mtpc_insert n ih,
    dev_kr_mtpc_acquire_from_storage n ih, dev_kr_mtpc_flush_all_level n ih,
    dev_kr_mtpc_flush_all_levels n ih, dev_kr_mtpc_flush_all n ih, dev_kr_descend_to_parent n ih,
    dev_kr_locate_parent n ih, dev_kr_is_mt_block_alive n ih, dev_kr_apply_reallocate n ih,
    dev_kr_lss_realloc_evict_loop n ih, dev_kr_lss_realloc_evict n ih,
    dev_kr_lss_realloc_insert n ih, dev_kr_is_mt_segment_fully_dead_loop n ih,
    dev_kr_is_mt_segment_fully_dead n ih, dev_kr_lss_debug_analyze_loop n ih,
    dev_kr_lss_debug_analyze n ih, dev_kr_lss_clean_tail_block n ih, dev_kr_lss_write_clean n ih,
    dev_kr_lss_write_rotate n ih, dev_kr_lss_write n ih, lss_kr_cache_allocate_entry,
    lss_kr_unpin, lss_kr_write_slot, lss_kr_take_entry_ownership, lss_kr_insert_finish,
    lss_kr_insert_reuse, lss_kr_acquire_fill, dev_kr_flash_write, dev_kr_flash_erase_segment,
    dev_kr_segment_metadata] at *
  all_goals try simp_all only [lss_set_entry, lss_set_cache, lss_lru_remove, lss_lru_push_head, lss_lru_move_to_head,
    lss_pin, lss_mark_dirty, lss_cache_free_entry, lss_cache_allocate_entry, lss_get_page_entry,
    lss_search, dev, ldev, geo, Prod.mk.injEq, and_self, and_true, true_and]
  all_goals repeat' split
  all_goals simp_all only [lss_set_entry, lss_set_cache, lss_lru_remove, lss_lru_push_head, lss_lru_move_to_head,
    lss_pin, lss_mark_dirty, lss_cache_free_entry, lss_cache_allocate_entry, lss_get_page_entry,
    lss_search, dev, ldev, geo, Prod.mk.injEq, and_self, and_true, true_and]

theorem dev_step_is_mt_block_alive (n : Nat) (ih : dev_frame n) (mt : mapping_table_t) (ba bh : Nat)
    (r : Bool × mapping_table_t) (h : is_mt_block_alive (n + 1) mt ba bh = .ok r) : dev r.2 = dev mt := by
  first | rw [is_mt_block_alive] at h | rw [is_mt_block_alive.eq_def] at h
  try simp only [bind, Except.bind, pure, Except.pure] at h
  repeat' split at h
  all_goals try cases h
  all_goals try simp only [dev_kr_flush_entry n ih, dev_kr_mtpc_insert_evict n ih, dev_kr_mtpc_insert n ih,
    dev_kr_mtpc_acquire_from_storage n ih, dev_kr_mtpc_flush_all_level n ih,
    dev_kr_mtpc_flush_all_levels n ih, dev_kr_mtpc_flush_all n ih, dev_kr_descend_to_parent n ih,
    dev_kr_locate_parent n ih, dev_kr_is_mt_block_alive n ih, dev_kr_apply_reallocate n ih,
    dev_kr_lss_realloc_evict_loop n ih, dev_kr_lss_realloc_evict n ih,
    dev_kr_lss_realloc_insert n ih, dev_kr_is_mt_segment_fully_dead_loop n ih,
    dev_kr_is_mt_segment_fully_dead n ih, dev_kr_lss_debug_analyze_loop n ih,
    dev_kr_lss_debug_analyze n ih, dev_kr_lss_clean_tail_block n ih, dev_kr_lss_write_clean n ih,
    dev_kr_lss_write_rotate n ih, dev_kr_lss_write n ih, lss_kr_cache_allocate_entry,
    lss_kr_unpin, lss_kr_write_slot, lss_kr_take_entry_ownership, lss_kr_insert_finish,
    lss_kr_insert_reuse, lss_kr_acquire_fill, dev_kr_flash_write, dev_kr_flash_erase_segment,
    dev_kr_segment_metadata] at *
  all_goals try simp_all only [lss_set_entry, lss_set_cache, lss_lru_remove, lss_lru_push_head, lss_lru_move_to_head,
    lss_pin, lss_mark_dirty, lss_cache_free_entry, lss_cache_allocate_entry, lss_get_page_entry,
    lss_search, dev, ldev, geo, Prod.mk.injEq, and_self, and_true, true_and]
  all_goals repeat' split
  all_goals simp_all only [lss_set_entry, lss_set_cache, lss_lru_remove, lss_lru_push_head, lss_lru_move_to_head,
    lss_pin, lss_mark_dirty, lss_cache_free_entry, lss_cache_allocate_entry, lss_get_page_entry,
    lss_search, dev, ldev, geo, Prod.mk.injEq, and_self, and_true, true_and]

theorem dev_step_apply_reallocate (n : Nat) (ih : dev_frame n) (mt : mapping_table_t) (bh old new : Nat)
    (r : Int × mapping_table_t) (h : apply_reallocate (n + 1) mt bh old new = .ok r) : dev r.2 = dev mt := by
  first | rw [apply_reallocate] at h | rw [apply_reallocate.eq_def] at h
  try simp only [bind, Except.bind, pure, Except.pure] at h
  repeat' split at h
  all_goals try cases h
  all_goals try simp only [dev_kr_flush_entry n ih, dev_kr_mtpc_insert_evict n ih, dev_kr_mtpc_insert n ih,
    dev_kr_mtpc_acquire_from_storage n ih, dev_kr_mtpc_flush_all_level n ih,
    dev_kr_mtpc_flush_all_levels n ih, dev_kr_mtpc_flush_all n ih, dev_kr_descend_to_parent n ih,
    dev_kr_locate_parent n ih, dev_kr_is_mt_block_alive n ih, dev_kr_apply_reallocate n ih,
    dev_kr_lss_realloc_evict_loop n ih, dev_kr_lss_realloc_evict n ih,
    dev_kr_lss_realloc_insert n ih, dev_kr_is_mt_segment_fully_dead_loop n ih,
    dev_kr_is_mt_segment_fully_dead n ih, dev_kr_lss_debug_analyze_loop n ih,
    dev_kr_lss_debug_analyze n ih, dev_kr_lss_clean_tail_block n ih, dev_kr_lss_write_clean n ih,
    dev_kr_lss_write_rotate n ih, dev_kr_lss_write n ih, lss_kr_cache_allocate_entry,
    lss_kr_unpin, lss_kr_write_slot, lss_kr_take_entry_ownership, lss_kr_insert_finish,
    lss_kr_insert_reuse, lss_kr_acquire_fill, dev_kr_flash_write, dev_kr_flash_erase_segment,
    dev_kr_segment_metadata] at *
  all_goals try simp_all only [lss_set_entry, lss_set_cache, lss_lru_remove, lss_lru_push_head, lss_lru_move_to_head,
    lss_pin, lss_mark_dirty, lss_cache_free_entry, lss_cache_allocate_entry, lss_get_page_entry,
    lss_search, dev, ldev, geo, Prod.mk.injEq, and_self, and_true, true_and]
  all_goals repeat' split
  all_goals simp_all only [lss_set_entry, lss_set_cache, lss_lru_remove, lss_lru_push_head, lss_lru_move_to_head,
    lss_pin, lss_mark_dirty, lss_cache_free_entry, lss_cache_allocate_entry, lss_get_page_entry,
    lss_search, dev, ldev, geo, Prod.mk.injEq, and_self, and_true, true_and]

theorem dev_step_lss_realloc_evict_loop (n : Nat) (ih : dev_frame n) (mt : mapping_table_t) (idx : Nat)
    (r : mapping_table_t) (h : lss_realloc_evict_loop (n + 1) mt idx = .ok r) : dev r = dev mt := by
  first | rw [lss_realloc_evict_loop] at h | rw [lss_realloc_evict_loop.eq_def] at h
  try simp only [bind, Except.bind, pure, Except.pure] at h
  repeat' split at h
  all_goals try cases h
  all_goals try simp only [dev_kr_flush_entry n ih, dev_kr_mtpc_insert_evict n ih, dev_kr_mtpc_insert n ih,
    dev_kr_mtpc_acquire_from_storage n ih, dev_kr_mtpc_flush_all_level n ih,
    dev_kr_mtpc_flush_all_levels n ih, dev_kr_mtpc_flush_all n ih, dev_kr_descend_to_parent n ih,
    dev_kr_locate_parent n ih, dev_kr_is_mt_block_alive n ih, dev_kr_apply_reallocate n ih,
    dev_kr_lss_realloc_evict_loop n ih, dev_kr_lss_realloc_evict n ih,
    dev_kr_lss_realloc_insert n ih, dev_kr_is_mt_segment_fully_dead_loop n ih,
    dev_kr_is_mt_segment_fully_dead n ih, dev_kr_lss_debug_analyze_loop n ih,
    dev_kr_lss_debug_analyze n ih, dev_kr_lss_clean_tail_block n ih, dev_kr_lss_write_clean n ih,
    dev_kr_lss_write_rotate n ih, dev_kr_lss_write n ih, lss_kr_cache_allocate_entry,
    lss_kr_unpin, lss_kr_write_slot, lss_kr_take_entry_ownership, lss_kr_insert_finish,
    lss_kr_insert_reuse, lss_kr_acquire_fill, dev_kr_flash_write, dev_kr_flash_erase_segment,
    dev_kr_segment_metadata] at *
  all_goals try simp_all only [lss_set_entry, lss_set_cache, lss_lru_remove, lss_lru_push_head, lss_lru_move_to_head,
    lss_pin, lss_mark_dirty, lss_cache_free_entry, lss_cache_allocate_entry, lss_get_page_entry,
    lss_search, dev, ldev, geo, Prod.mk.injEq, and_self, and_true, true_and]
  all_goals repeat' split
  all_goals simp_all only [lss_set_entry, lss_set_cache, lss_lru_remove, lss_lru_push_head, lss_lru_move_to_head,
    lss_pin, lss_mark_dirty, lss_cache_free_entry, lss_cache_allocate_entry, lss_get_page_entry,
    lss_search, dev, ldev, geo, Prod.mk.injEq, and_self, and_true, true_and]

theorem dev_step_lss_realloc_evict (n : Nat) (ih : dev_frame n) (mt : mapping_table_t) 
    (r : Int × mapping_table_t) (h : lss_realloc_evict (n + 1) mt = .ok r) : dev r.2 = dev mt := by
  first | rw [lss_realloc_evict] at h | rw [lss_realloc_evict.eq_def] at h
  try simp only [bind, Except.bind, pure, Except.pure] at h
  repeat' split at h
  all_goals try cases h
  all_goals try simp only [dev_kr_flush_entry n ih, dev_kr_mtpc_insert_evict n ih, dev_kr_mtpc_insert n ih,
    dev_kr_mtpc_acquire_from_storage n ih, dev_kr_mtpc_flush_all_level n ih,
    dev_kr_mtpc_flush_all_levels n ih, dev_kr_mtpc_flush_all n ih, dev_kr_descend_to_parent n ih,
    dev_kr_locate_parent n ih, dev_kr_is_mt_block_alive n ih, dev_kr_apply_reallocate n ih,
    dev_kr_lss_realloc_evict_loop n ih, dev_kr_lss_realloc_evict n ih,
    dev_kr_lss_realloc_insert n ih, dev_kr_is_mt_segment_fully_dead_loop n ih,
    dev_kr_is_mt_segment_fully_dead n ih, dev_kr_lss_debug_analyze_loop n ih,
    dev_kr_lss_debug_analyze n ih, dev_kr_lss_clean_tail_block n ih, dev_kr_lss_write_clean n ih,
    dev_kr_lss_write_rotate n ih, dev_kr_lss_write n ih, lss_kr_cache_allocate_entry,
    lss_kr_unpin, lss_kr_write_slot, lss_kr_take_entry_ownership, lss_kr_insert_finish,
    lss_kr_insert_reuse, lss_kr_acquire_fill, dev_kr_flash_write, dev_kr_flash_erase_segment,
    dev_kr_segment_metadata] at *
  all_goals try simp_all only [lss_set_entry, lss_set_cache, lss_lru_remove, lss_lru_push_head, lss_lru_move_to_head,
    lss_pin, lss_mark_dirty, lss_cache_free_entry, lss_cache_allocate_entry, lss_get_page_entry,
    lss_search, dev, ldev, geo, Prod.mk.injEq, and_self, and_true, true_and]
  all_goals repeat' split
  all_goals simp_all only [lss_set_entry, lss_set_cache, lss_lru_remove, lss_lru_push_head, lss_lru_move_to_head,
    lss_pin, lss_mark_dirty, lss_cache_free_entry, lss_cache_allocate_entry, lss_get_page_entry,
    lss_search, dev, ldev, geo, Prod.mk.injEq, and_self, and_true, true_and]

theorem dev_step_lss_realloc_insert (n : Nat) (ih : dev_frame n) (mt : mapping_table_t) (bh old new : Nat)
    (r : Int × mapping_table_t) (h : lss_realloc_insert (n + 1) mt bh old new = .ok r) : dev r.2 = dev mt := by
  first | rw [lss_realloc_insert] at h | rw [lss_realloc_insert.eq_def] at h
  try simp only [bind, Except.bind, pure, Except.pure] at h
  repeat' split at h
  all_goals try cases h
  all_goals try simp only [dev_kr_flush_entry n ih, dev_kr_mtpc_insert_evict n ih, dev_kr_mtpc_insert n ih,
    dev_kr_mtpc_acquire_from_storage n ih, dev_kr_mtpc_flush_all_level n ih,
    dev_kr_mtpc_flush_all_levels n ih, dev_kr_mtpc_flush_all n ih, dev_kr_descend_to_parent n ih,
    dev_kr_locate_parent n ih, dev_kr_is_mt_block_alive n ih, dev_kr_apply_reallocate n ih,
    dev_kr_lss_realloc_evict_loop n ih, dev_kr_lss_realloc_evict n ih,
    dev_kr_lss_realloc_insert n ih, dev_kr_is_mt_segment_fully_dead_loop n ih,
    dev_kr_is_mt_segment_fully_dead n ih, dev_kr_lss_debug_analyze_loop n ih,
    dev_kr_lss_debug_analyze n ih, dev_kr_lss_clean_tail_block n ih, dev_kr_lss_write_clean n ih,
    dev_kr_lss_write_rotate n ih, dev_kr_lss_write n ih, lss_kr_cache_allocate_entry,
    lss_kr_unpin, lss_kr_write_slot, lss_kr_take_entry_ownership, lss_kr_insert_finish,
    lss_kr_insert_reuse, lss_kr_acquire_fill, dev_kr_flash_write, dev_kr_flash_erase_segment,
    dev_kr_segment_metadata] at *
  all_goals try simp_all only [lss_set_entry, lss_set_cache, lss_lru_remove, lss_lru_push_head, lss_lru_move_to_head,
    lss_pin, lss_mark_dirty, lss_cache_free_entry, lss_cache_allocate_entry, lss_get_page_entry,
    lss_search, dev, ldev, geo, Prod.mk.injEq, and_self, and_true, true_and]
  all_goals repeat' split
  all_goals simp_all only [lss_set_entry, lss_set_cache, lss_lru_remove, lss_lru_push_head, lss_lru_move_to_head,
    lss_pin, lss_mark_dirty, lss_cache_free_entry, lss_cache_allocate_entry, lss_get_page_entry,
    lss_search, dev, ldev, geo, Prod.mk.injEq, and_self, and_true, true_and]

theorem dev_step_is_mt_segment_fully_dead_loop (n : Nat) (ih : dev_frame n) (mt : mapping_table_t) (buf : Nat → flash_block_t) (ba bhdr ps np i : Nat)
    (r : Bool × mapping_table_t) (h : is_mt_segment_fully_dead_loop (n + 1) mt buf ba bhdr ps np i = .ok r) : dev r.2 = dev mt := by
  first | rw [is_mt_segment_fully_dead_loop] at h | rw [is_mt_segment_fully_dead_loop.eq_def] at h
  try simp only [bind, Except.bind, pure, Except.pure] at h
  repeat' split at h
  all_goals try cases h
  all_goals try simp only [dev_kr_flush_entry n ih, dev_kr_mtpc_insert_evict n ih, dev_kr_mtpc_insert n ih,
    dev_kr_mtpc_acquire_from_storage n ih, dev_kr_mtpc_flush_all_level n ih,
    dev_kr_mtpc_flush_all_levels n ih, dev_kr_mtpc_flush_all n ih, dev_kr_descend_to_parent n ih,
    dev_kr_locate_parent n ih, dev_kr_is_mt_block_alive n ih, dev_kr_apply_reallocate n ih,
    dev_kr_lss_realloc_evict_loop n ih, dev_kr_lss_realloc_evict n ih,
    dev_kr_lss_realloc_insert n ih, dev_kr_is_mt_segment_fully_dead_loop n ih,
    dev_kr_is_mt_segment_fully_dead n ih, dev_kr_lss_debug_analyze_loop n ih,
    dev_kr_lss_debug_analyze n ih, dev_kr_lss_clean_tail_block n ih, dev_kr_lss_write_clean n ih,
    dev_kr_lss_write_rotate n ih, dev_kr_lss_write n ih, lss_kr_cache_allocate_entry,
    lss_kr_unpin, lss_kr_write_slot, lss_kr_take_entry_ownership, lss_kr_insert_finish,
    lss_kr_insert_reuse, lss_kr_acquire_fill, dev_kr_flash_write, dev_kr_flash_erase_segment,
    dev_kr_segment_metadata] at *
  all_goals try simp_all only [lss_set_entry, lss_set_cache, lss_lru_remove, lss_lru_push_head, lss_lru_move_to_head,
    lss_pin, lss_mark_dirty, lss_cache_free_entry, lss_cache_allocate_entry, lss_get_page_entry,
    lss_search, dev, ldev, geo, Prod.mk.injEq, and_self, and_true, true_and]
  all_goals repeat' split
  all_goals simp_all only [lss_set_entry, lss_set_cache, lss_lru_remove, lss_lru_push_head, lss_lru_move_to_head,
    lss_pin, lss_mark_dirty, lss_cache_free_entry, lss_cache_allocate_entry, lss_get_page_entry,
    lss_search, dev, ldev, geo, Prod.mk.injEq, and_self, and_true, true_and]

theorem dev_step_is_mt_segment_fully_dead (n : Nat) (ih : dev_frame n) (mt : mapping_table_t) (ba : Nat)
    (r : Bool × mapping_table_t) (h : is_mt_segment_fully_dead (n + 1) mt ba = .ok r) : dev r.2 = dev mt := by
  first | rw [is_mt_segment_fully_dead] at h | rw [is_mt_segment_fully_dead.eq_def] at h
  try simp only [bind, Except.bind, pure, Except.pure] at h
  repeat' split at h
  all_goals try cases h
  all_goals try simp only [dev_kr_flush_entry n ih, dev_kr_mtpc_insert_evict n ih, dev_kr_mtpc_insert n ih,
    dev_kr_mtpc_acquire_from_storage n ih, dev_kr_mtpc_flush_all_level n ih,
    dev_kr_mtpc_flush_all_levels n ih, dev_kr_mtpc_flush_all n ih, dev_kr_descend_to_parent n ih,
    dev_kr_locate_parent n ih, dev_kr_is_mt_block_alive n ih, dev_kr_apply_reallocate n ih,
    dev_kr_lss_realloc_evict_loop n ih, dev_kr_lss_realloc_evict n ih,
    dev_kr_lss_realloc_insert n ih, dev_kr_is_mt_segment_fully_dead_loop n ih,
    dev_kr_is_mt_segment_fully_dead n ih, dev_kr_lss_debug_analyze_loop n ih,
    dev_kr_lss_debug_analyze n ih, dev_kr_lss_clean_tail_block n ih, dev_kr_lss_write_clean n ih,
    dev_kr_lss_write_rotate n ih, dev_kr_lss_write n ih, lss_kr_cache_allocate_entry,
    lss_kr_unpin, lss_kr_write_slot, lss_kr_take_entry_ownership, lss_kr_insert_finish,
    lss_kr_insert_reuse, lss_kr_acquire_fill, dev_kr_flash_write, dev_kr_flash_erase_segment,
    dev_kr_segment_metadata] at *
  all_goals try simp_all only [lss_set_entry, lss_set_cache, lss_lru_remove, lss_lru_push_head, lss_lru_move_to_head,
    lss_pin, lss_mark_dirty, lss_cache_free_entry, lss_cache_allocate_entry, lss_get_page_entry,
    lss_search, dev, ldev, geo, Prod.mk.injEq, and_self, and_true, true_and]
  all_goals repeat' split
  all_goals simp_all only [lss_set_entry, lss_set_cache, lss_lru_remove, lss_lru_push_head, lss_lru_move_to_head,
    lss_pin, lss_mark_dirty, lss_cache_free_entry, lss_cache_allocate_entry, lss_get_page_entry,
    lss_search, dev, ldev, geo, Prod.mk.injEq, and_self, and_true, true_and]

theorem dev_step_lss_debug_analyze_loop (n : Nat) (ih : dev_frame n) (mt : mapping_table_t) (bs nb i : Nat)
    (r : mapping_table_t) (h : lss_debug_analyze_loop (n + 1) mt bs nb i = .ok r) : dev r = dev mt := by
  first | rw [lss_debug_analyze_loop] at h | rw [lss_debug_analyze_loop.eq_def] at h
  try simp only [bind, Except.bind, pure, Except.pure] at h
  repeat' split at h
  all_goals try cases h
  all_goals try simp only [dev_kr_flush_entry n ih, dev_kr_mtpc_insert_evict n ih, dev_kr_mtpc_insert n ih,
    dev_kr_mtpc_acquire_from_storage n ih, dev_kr_mtpc_flush_all_level n ih,
    dev_kr_mtpc_flush_all_levels n ih, dev_kr_mtpc_flush_all n ih, dev_kr_descend_to_parent n ih,
    dev_kr_locate_parent n ih, dev_kr_is_mt_block_alive n ih, dev_kr_apply_reallocate n ih,
    dev_kr_lss_realloc_evict_loop n ih, dev_kr_lss_realloc_evict n ih,
    dev_kr_lss_realloc_insert n ih, dev_kr_is_mt_segment_fully_dead_loop n ih,
    dev_kr_is_mt_segment_fully_dead n ih, dev_kr_lss_debug_analyze_loop n ih,
    dev_kr_lss_debug_analyze n ih, dev_kr_lss_clean_tail_block n ih, dev_kr_lss_write_clean n ih,
    dev_kr_lss_write_rotate n ih, dev_kr_lss_write n ih, lss_kr_cache_allocate_entry,
    lss_kr_unpin, lss_kr_write_slot, lss_kr_take_entry_ownership, lss_kr_insert_finish,
    lss_kr_insert_reuse, lss_kr_acquire_fill, dev_kr_flash_write, dev_kr_flash_erase_segment,
    dev_kr_segment_metadata] at *
  all_goals try simp_all only [lss_set_entry, lss_set_cache, lss_lru_remove, lss_lru_push_head, lss_lru_move_to_head,
    lss_pin, lss_mark_dirty, lss_cache_free_entry, lss_cache_allocate_entry, lss_get_page_entry,
    lss_search, dev, ldev, geo, Prod.mk.injEq, and_self, and_true, true_and]
  all_goals repeat' split
  all_goals simp_all only [lss_set_entry, lss_set_cache, lss_lru_remove, lss_lru_push_head, lss_lru_move_to_head,
    lss_pin, lss_mark_dirty, lss_cache_free_entry, lss_cache_allocate_entry, lss_get_page_entry,
    lss_search, dev, ldev, geo, Prod.mk.injEq, and_self, and_true, true_and]

theorem dev_step_lss_debug_analyze (n : Nat) (ih : dev_frame n) (mt : mapping_table_t) 
    (r : Int × mapping_table_t) (h : lss_debug_analyze (n + 1) mt = .ok r) : dev r.2 = dev mt := by
  first | rw [lss_debug_analyze] at h | rw [lss_debug_analyze.eq_def] at h
  try simp only [bind, Except.bind, pure, Except.pure] at h
  repeat' split at h
  all_goals try cases h
  all_goals try simp only [dev_kr_flush_entry n ih, dev_kr_mtpc_insert_evict n ih, dev_kr_mtpc_insert n ih,
    dev_kr_mtpc_acquire_from_storage n ih, dev_kr_mtpc_flush_all_level n ih,
    dev_kr_mtpc_flush_all_levels n ih, dev_kr_mtpc_flush_all n ih, dev_kr_descend_to_parent n ih,
    dev_kr_locate_parent n ih, dev_kr_is_mt_block_alive n ih, dev_kr_apply_reallocate n ih,
    dev_kr_lss_realloc_evict_loop n ih, dev_kr_lss_realloc_evict n ih,
    dev_kr_lss_realloc_insert n ih, dev_kr_is_mt_segment_fully_dead_loop n ih,
    dev_kr_is_mt_segment_fully_dead n ih, dev_kr_lss_debug_analyze_loop n ih,
    dev_kr_lss_debug_analyze n ih, dev_kr_lss_clean_tail_block n ih, dev_kr_lss_write_clean n ih,
    dev_kr_lss_write_rotate n ih, dev_kr_lss_write n ih, lss_kr_cache_allocate_entry,
    lss_kr_unpin, lss_kr_write_slot, lss_kr_take_entry_ownership, lss_kr_insert_finish,
    lss_kr_insert_reuse, lss_kr_acquire_fill, dev_kr_flash_write, dev_kr_flash_erase_segment,
    dev_kr_segment_metadata] at *
  all_goals try simp_all only [lss_set_entry, lss_set_cache, lss_lru_remove, lss_lru_push_head, lss_lru_move_to_head,
    lss_pin, lss_mark_dirty, lss_cache_free_entry, lss_cache_allocate_entry, lss_get_page_entry,
    lss_search, dev, ldev, geo, Prod.mk.injEq, and_self, and_true, true_and]
  all_goals repeat' split
  all_goals simp_all only [lss_set_entry, lss_set_cache, lss_lru_remove, lss_lru_push_head, lss_lru_move_to_head,
    lss_pin, lss_mark_dirty, lss_cache_free_entry, lss_cache_allocate_entry, lss_get_page_entry,
    lss_search, dev, ldev, geo, Prod.mk.injEq, and_self, and_true, true_and]

theorem dev_step_lss_clean_tail_block (n : Nat) (ih : dev_frame n) (mt : mapping_table_t) (tail : Nat)
    (r : Int × mapping_table_t) (h : lss_clean_tail_block (n + 1) mt tail = .ok r) : dev r.2 = dev mt := by
  first | rw [lss_clean_tail_block] at h | rw [lss_clean_tail_block.eq_def] at h
  try simp only [bind, Except.bind, pure, Except.pure] at h
  repeat' split at h
  all_goals try cases h
  all_goals try simp only [dev_kr_flush_entry n ih, dev_kr_mtpc_insert_evict n ih, dev_kr_mtpc_insert n ih,
    dev_kr_mtpc_acquire_from_storage n ih, dev_kr_mtpc_flush_all_level n ih,
    dev_kr_mtpc_flush_all_levels n ih, dev_kr_mtpc_flush_all n ih, dev_kr_descend_to_parent n ih,
    dev_kr_locate_parent n ih, dev_kr_is_mt_block_alive n ih, dev_kr_apply_reallocate n ih,
    dev_kr_lss_realloc_evict_loop n ih, dev_kr_lss_realloc_evict n ih,
    dev_kr_lss_realloc_insert n ih, dev_kr_is_mt_segment_fully_dead_loop n ih,
    dev_kr_is_mt_segment_fully_dead n ih, dev_kr_lss_debug_analyze_loop n ih,
    dev_kr_lss_debug_analyze n ih, dev_kr_lss_clean_tail_block n ih, dev_kr_lss_write_clean n ih,
    dev_kr_lss_write_rotate n ih, dev_kr_lss_write n ih, lss_kr_cache_allocate_entry,
    lss_kr_unpin, lss_kr_write_slot, lss_kr_take_entry_ownership, lss_kr_insert_finish,
    lss_kr_insert_reuse, lss_kr_acquire_fill, dev_kr_flash_write, dev_kr_flash_erase_segment,
    dev_kr_segment_metadata] at *
  all_goals try simp_all only [lss_set_entry, lss_set_cache, lss_lru_remove, lss_lru_push_head, lss_lru_move_to_head,
    lss_pin, lss_mark_dirty, lss_cache_free_entry, lss_cache_allocate_entry, lss_get_page_entry,
    lss_search, dev, ldev, geo, Prod.mk.injEq, and_self, and_true, true_and]
  all_goals repeat' split
  all_goals simp_all only [lss_set_entry, lss_set_cache, lss_lru_remove, lss_lru_push_head, lss_lru_move_to_head,
    lss_pin, lss_mark_dirty, lss_cache_free_entry, lss_cache_allocate_entry, lss_get_page_entry,
    lss_search, dev, ldev, geo, Prod.mk.injEq, and_self, and_true, true_and]

theorem dev_step_lss_write_clean (n : Nat) (ih : dev_frame n) (mt : mapping_table_t) (tries : Nat)
    (r : mapping_table_t) (h : lss_write_clean (n + 1) mt tries = .ok r) : dev r = dev mt := by
  first | rw [lss_write_clean] at h | rw [lss_write_clean.eq_def] at h
  try simp only [bind, Except.bind, pure, Except.pure] at h
  repeat' split at h
  all_goals try cases h
  all_goals try simp only [dev_kr_flush_entry n ih, dev_kr_mtpc_insert_evict n ih, dev_kr_mtpc_insert n ih,
    dev_kr_mtpc_acquire_from_storage n ih, dev_kr_mtpc_flush_all_level n ih,
    dev_kr_mtpc_flush_all_levels n ih, dev_kr_mtpc_flush_all n ih, dev_kr_descend_to_parent n ih,
    dev_kr_locate_parent n ih, dev_kr_is_mt_block_alive n ih, dev_kr_apply_reallocate n ih,
    dev_kr_lss_realloc_evict_loop n ih, dev_kr_lss_realloc_evict n ih,
    dev_kr_lss_realloc_insert n ih, dev_kr_is_mt_segment_fully_dead_loop n ih,
    dev_kr_is_mt_segment_fully_dead n ih, dev_kr_lss_debug_analyze_loop n ih,
    dev_kr_lss_debug_analyze n ih, dev_kr_lss_clean_tail_block n ih, dev_kr_lss_write_clean n ih,
    dev_kr_lss_write_rotate n ih, dev_kr_lss_write n ih, lss_kr_cache_allocate_entry,
    lss_kr_unpin, lss_kr_write_slot, lss_kr_take_entry_ownership, lss_kr_insert_finish,
    lss_kr_insert_reuse, lss_kr_acquire_fill, dev_kr_flash_write, dev_kr_flash_erase_segment,
    dev_kr_segment_metadata] at *
  all_goals try simp_all only [lss_set_entry, lss_set_cache, lss_lru_remove, lss_lru_push_head, lss_lru_move_to_head,
    lss_pin, lss_mark_dirty, lss_cache_free_entry, lss_cache_allocate_entry, lss_get_page_entry,
    lss_search, dev, ldev, geo, Prod.mk.injEq, and_self, and_true, true_and]
  all_goals repeat' split
  all_goals simp_all only [lss_set_entry, lss_set_cache, lss_lru_remove, lss_lru_push_head, lss_lru_move_to_head,
    lss_pin, lss_mark_dirty, lss_cache_free_entry, lss_cache_allocate_entry, lss_get_page_entry,
    lss_search, dev, ldev, geo, Prod.mk.injEq, and_self, and_true, true_and]

theorem dev_step_lss_write_rotate (n : Nat) (ih : dev_frame n) (mt : mapping_table_t) 
    (r : mapping_table_t) (h : lss_write_rotate (n + 1) mt = .ok r) : dev r = dev mt := by
  first | rw [lss_write_rotate] at h | rw [lss_write_rotate.eq_def] at h
  try simp only [bind, Except.bind, pure, Except.pure] at h
  repeat' split at h
  all_goals try cases h
  all_goals try simp only [dev_kr_flush_entry n ih, dev_kr_mtpc_insert_evict n ih, dev_kr_mtpc_insert n ih,
    dev_kr_mtpc_acquire_from_storage n ih, dev_kr_mtpc_flush_all_level n ih,
    dev_kr_mtpc_flush_all_levels n ih, dev_kr_mtpc_flush_all n ih, dev_kr_descend_to_parent n ih,
    dev_kr_locate_parent n ih, dev_kr_is_mt_block_alive n ih, dev_kr_apply_reallocate n ih,
    dev_kr_lss_realloc_evict_loop n ih, dev_kr_lss_realloc_evict n ih,
    dev_kr_lss_realloc_insert n ih, dev_kr_is_mt_segment_fully_dead_loop n ih,
    dev_kr_is_mt_segment_fully_dead n ih, dev_kr_lss_debug_analyze_loop n ih,
    dev_kr_lss_debug_analyze n ih, dev_kr_lss_clean_tail_block n ih, dev_kr_lss_write_clean n ih,
    dev_kr_lss_write_rotate n ih, dev_kr_lss_write n ih, lss_kr_cache_allocate_entry,
    lss_kr_unpin, lss_kr_write_slot, lss_kr_take_entry_ownership, lss_kr_insert_finish,
    lss_kr_insert_reuse, lss_kr_acquire_fill, dev_kr_flash_write, dev_kr_flash_erase_segment,
    dev_kr_segment_metadata] at *
  all_goals try simp_all only [lss_set_entry, lss_set_cache, lss_lru_remove, lss_lru_push_head, lss_lru_move_to_head,
    lss_pin, lss_mark_dirty, lss_cache_free_entry, lss_cache_allocate_entry, lss_get_page_entry,
    lss_search, dev, ldev, geo, Prod.mk.injEq, and_self, and_true, true_and]
  all_goals repeat' split
  all_goals simp_all only [lss_set_entry, lss_set_cache, lss_lru_remove, lss_lru_push_head, lss_lru_move_to_head,
    lss_pin, lss_mark_dirty, lss_cache_free_entry, lss_cache_allocate_entry, lss_get_page_entry,
    lss_search, dev, ldev, geo, Prod.mk.injEq, and_self, and_true, true_and]

theorem dev_step_lss_write (n : Nat) (ih : dev_frame n) (mt : mapping_table_t) (data : buf_ptr) (len : Nat) (ct : Bool)
    (r : Nat × mapping_table_t) (h : lss_write (n + 1) mt data len ct = .ok r) : dev r.2 = dev mt := by
  first | rw [lss_write] at h | rw [lss_write.eq_def] at h
  try simp only [bind, Except.bind, pure, Except.pure] at h
  repeat' split at h
  all_goals try cases h
  all_goals try simp only [dev_kr_flush_entry n ih, dev_kr_mtpc_insert_evict n ih, dev_kr_mtpc_insert n ih,
    dev_kr_mtpc_acquire_from_storage n ih, dev_kr_mtpc_flush_all_level n ih,
    dev_kr_mtpc_flush_all_levels n ih, dev_kr_mtpc_flush_all n ih, dev_kr_descend_to_parent n ih,
    dev_kr_locate_parent n ih, dev_kr_is_mt_block_alive n ih, dev_kr_apply_reallocate n ih,
    dev_kr_lss_realloc_evict_loop n ih, dev_kr_lss_realloc_evict n ih,
    dev_kr_lss_realloc_insert n ih, dev_kr_is_mt_segment_fully_dead_loop n ih,
    dev_kr_is_mt_segment_fully_dead n ih, dev_kr_lss_debug_analyze_loop n ih,
    dev_kr_lss_debug_analyze n ih, dev_kr_lss_clean_tail_block n ih, dev_kr_lss_write_clean n ih,
    dev_kr_lss_write_rotate n ih, dev_kr_lss_write n ih, lss_kr_cache_allocate_entry,
    lss_kr_unpin, lss_kr_write_slot, lss_kr_take_entry_ownership, lss_kr_insert_finish,
    lss_kr_insert_reuse, lss_kr_acquire_fill, dev_kr_flash_write, dev_kr_flash_erase_segment,
    dev_kr_segment_metadata] at *
  all_goals try simp_all only [lss_set_entry, lss_set_cache, lss_lru_remove, lss_lru_push_head, lss_lru_move_to_head,
    lss_pin, lss_mark_dirty, lss_cache_free_entry, lss_cache_allocate_entry, lss_get_page_entry,
    lss_search, dev, ldev, geo, Prod.mk.injEq, and_self, and_true, true_and]
  all_goals repeat' split
  all_goals simp_all only [lss_set_entry, lss_set_cache, lss_lru_remove, lss_lru_push_head, lss_lru_move_to_head,
    lss_pin, lss_mark_dirty, lss_cache_free_entry, lss_cache_allocate_entry, lss_get_page_entry,
    lss_search, dev, ldev, geo, Prod.mk.injEq, and_self, and_true, true_and]

theorem dev_frame_all (n : Nat) : dev_frame n := by
  induction n with
  | zero =>
    constructor
    all_goals intros
    all_goals rename_i h
    · rw [flush_entry] at h; cases h
    · rw [mtpc_insert_evict] at h; cases h
    · rw [mtpc_insert] at h; cases h
    · rw [mtpc_acquire_from_storage] at h; cases h
    · rw [mtpc_flush_all_level] at h; cases h
    · rw [mtpc_flush_all_levels] at h; cases h
    · rw [mtpc_flush_all] at h; cases h
    · rw [descend_to_parent] at h; cases h
    · rw [locate_parent] at h; cases h
    · rw [is_mt_block_alive] at h; cases h
    · rw [apply_reallocate] at h; cases h
    · rw [lss_realloc_evict_loop] at h; cases h
    · rw [lss_realloc_evict] at h; cases h
    · rw [lss_realloc_insert] at h; cases h
    · rw [is_mt_segment_fully_dead_loop] at h; cases h
    · rw [is_mt_segment_fully_dead] at h; cases h
    · rw [lss_debug_analyze_loop] at h; cases h
    · rw [lss_debug_analyze] at h; cases h
    · rw [lss_clean_tail_block] at h; cases h
    · rw [lss_write_clean] at h; cases h
    · rw [lss_write_rotate] at h; cases h
    · rw [lss_write] at h; cases h
  | succ n ih =>
    exact ⟨dev_step_flush_entry n ih,
      dev_step_mtpc_insert_evict n ih,
      dev_step_mtpc_insert n ih,
      dev_step_mtpc_acquire_from_storage n ih,
      dev_step_mtpc_flush_all_level n ih,
      dev_step_mtpc_flush_all_levels n ih,
      dev_step_mtpc_flush_all n ih,
      dev_step_descend_to_parent n ih,
      dev_step_locate_parent n ih,
      dev_step_is_mt_block_alive n ih,
      dev_step_apply_reallocate n ih,
      dev_step_lss_realloc_evict_loop n ih,
      dev_step_lss_realloc_evict n ih,
      dev_step_lss_realloc_insert n ih,
      dev_step_is_mt_segment_fully_dead_loop n ih,
      dev_step_is_mt_segment_fully_dead n ih,
      dev_step_lss_debug_analyze_loop n ih,
      dev_step_lss_debug_analyze n ih,
      dev_step_lss_clean_tail_block n ih,
      dev_step_lss_write_clean n ih,
      dev_step_lss_write_rotate n ih,
      dev_step_lss_write n ih⟩

theorem insert_scan_cases (hdr t new : Nat) :
    ∀ (l : List lss_realloc_entry_t) (i p : Nat)
      (res : Option (List lss_realloc_entry_t) × Nat),
      lss_realloc_insert_scan hdr t new l i p = .ok res →
      (∃ l', res.1 = some l'
          ∧ l'.map (fun r => r.old_offset) = l.map (fun r => r.old_offset)
          ∧ ∃ r ∈ l, r.old_offset = t ∨ r.new_offset = t)
        ∨ (res.1 = none ∧ ∀ r ∈ l, r.old_offset ≠ t ∧ r.new_offset ≠ t) := by
  intro l
  induction l with
  | nil =>
    intro i p res h
    rw [lss_realloc_insert_scan] at h
    cases h
    exact Or.inr ⟨rfl, fun r hr => by cases hr⟩
  | cons r rest ih =>
    intro i p res h
    rw [lss_realloc_insert_scan] at h
    by_cases hm : r.old_offset = t ∨ r.new_offset = t
    · rw [if_pos hm] at h
      split at h
      · cases h
        exact Or.inl ⟨_, rfl, rfl, r, List.mem_cons_self _ _, hm⟩
      · cases h
    · rw [if_neg hm] at h
      simp only [bind, Except.bind, pure, Except.pure] at h
      cases hrec : lss_realloc_insert_scan hdr t new rest (i + 1)
          (if r.old_offset < t then i + 1 else p) with
      | error e => rw [hrec] at h; cases h
      | ok res' =>
        rw [hrec] at h
        simp only [Except.ok.injEq] at h
        subst h
        rcases ih _ _ _ hrec with ⟨l', h1, h2, x, hx, hxm⟩ | ⟨h1, h2⟩
        · left
          refine ⟨r :: l', by simp only [h1, Option.map], by simp only [List.map_cons, h2],
            x, List.mem_cons_of_mem _ hx, hxm⟩
        · right
          refine ⟨by simp only [h1, Option.map], ?_⟩
          intro x hx
          rcases List.mem_cons.mp hx with hx | hx
          · subst hx
            exact ⟨fun e => hm (Or.inl e), fun e => hm (Or.inr e)⟩
          · exact h2 x hx

theorem sorted_of_same_olds (l l' : List lss_realloc_entry_t)
    (h : l'.map (fun r => r.old_offset) = l.map (fun r => r.old_offset))
    (hs : sorted_by_old l) : sorted_by_old l' := by
  unfold sorted_by_old at hs ⊢
  have h1 : (l.map (fun r => r.old_offset)).Pairwise (fun a b => a < b) :=
    List.pairwise_map.mpr hs
  rw [← h] at h1
  exact List.pairwise_map.mp h1

/-- C34: on a relocation buffer that is strictly increasing in `old_offset`,
with at most `capacity` records and a capacity of at least 1, a call of
`lss_realloc_insert` that returns, returns 0 and leaves the buffer strictly
increasing in `old_offset`, with the same capacity and at most `capacity`
records.  If a record mentions the incoming `old_offset`, the number of
records is unchanged.  If no record mentions it and the buffer is full, the
buffer is drained and then holds exactly the new record.  If no record
mentions it and the buffer has room, the call returns and the buffer has one
record more. -/
theorem realloc_insert_keeps_buffer_sorted (n : Nat) (mt : mapping_table_t)
    (hdr old new : Nat) (r : Int × mapping_table_t)
    (hs : sorted_by_old mt.lss.realloc_list)
    (hcount : mt.lss.realloc_count ≤ mt.lss.realloc_capacity)
    (hcap : 1 ≤ mt.lss.realloc_capacity)
    (h : lss_realloc_insert n mt hdr old new = .ok r) :
    r.1 = 0 ∧ sorted_by_old r.2.lss.realloc_list
      ∧ r.2.lss.realloc_capacity = mt.lss.realloc_capacity
      ∧ r.2.lss.realloc_count ≤ r.2.lss.realloc_capacity
      ∧ ((∃ x ∈ mt.lss.realloc_list, x.old_offset = old ∨ x.new_offset = old) →
          r.2.lss.realloc_count = mt.lss.realloc_count)
      ∧ ((∀ x ∈ mt.lss.realloc_list, x.old_offset ≠ old ∧ x.new_offset ≠ old) →
          (mt.lss.realloc_capacity ≤ mt.lss.realloc_count →
            r.2.lss.realloc_list
              = [{ old_offset := old, new_offset := new, block_header := hdr }])
          ∧ (mt.lss.realloc_count < mt.lss.realloc_capacity →
              r.2.lss.realloc_count = mt.lss.realloc_count + 1
                ∧ ∀ k, ∃ r', lss_realloc_insert (k + 1) mt hdr old new = .ok r')) := by
  cases n with
  | zero => rw [lss_realloc_insert] at h; cases h
  | succ n =>
    rw [lss_realloc_insert] at h
    simp only [bind, Except.bind, pure, Except.pure] at h
    cases hscan : lss_realloc_insert_scan hdr old new mt.lss.realloc_list 0 0 with
    | error e => rw [hscan] at h; cases h
    | ok res =>
      rw [hscan] at h
      obtain ⟨res1, pos⟩ := res
      rcases insert_scan_cases hdr old new _ _ _ _ hscan with ⟨l', h1, h2, hx⟩ | ⟨h1, h2⟩
      · simp only at h1
        subst h1
        simp only [Except.ok.injEq] at h
        subst h
        have hlen : l'.length = mt.lss.realloc_list.length := by
          have := congrArg List.length h2
          simpa using this
        refine ⟨rfl, sorted_of_same_olds _ _ h2 hs, rfl, ?_, fun _ => ?_, fun hno => ?_⟩
        · simp only [lss_t.realloc_count, hlen]
          exact hcount
        · simp only [lss_t.realloc_count, hlen]
        · obtain ⟨x, hxm, hxo⟩ := hx
          have := hno x hxm
          rcases hxo with e | e
          · exact absurd e this.1
          · exact absurd e this.2
      · simp only at h1
        subst h1
        simp only at h
        by_cases hfull : mt.lss.realloc_count ≥ mt.lss.realloc_capacity
        · simp only [hfull, if_true] at h
          cases hev : lss_realloc_evict n mt with
          | error e => rw [hev] at h; cases h
          | ok ev =>
            rw [hev] at h
            have hd := (dev_frame_all n).lss_realloc_evict mt ev hev
            obtain ⟨e1, e2⟩ := lss_realloc_evict_list n mt ev hev
            simp only [dev, ldev, Prod.mk.injEq] at hd
            simp only [e1, ne_eq, not_true_eq_false, if_false, lss_t.realloc_count, e2,
              List.length_nil, ge_iff_le] at h
            split at h
            · cases h
            · simp only [Except.ok.injEq] at h
              subst h
              refine ⟨rfl, ?_, hd.1, ?_, fun hx => ?_, fun _ => ⟨fun _ => ?_, fun hlt => ?_⟩⟩
              · simp only [lss_realloc_insert_pos, List.take_nil, List.drop_nil, List.nil_append]
                exact List.pairwise_singleton _ _
              · simp only [lss_t.realloc_count, lss_realloc_insert_pos, List.take_nil,
                  List.drop_nil, List.nil_append, List.length_singleton, hd.1]
                exact hcap
              · obtain ⟨x, hxm, hxo⟩ := hx
                have := h2 x hxm
                rcases hxo with e | e
                · exact absurd e this.1
                · exact absurd e this.2
              · simp only [lss_realloc_insert_pos, List.take_nil, List.drop_nil, List.nil_append]
              · exact absurd hfull (by omega)
        · simp only [hfull, if_false] at h
          have hq : quiet old mt.lss := ⟨by
            simp only [lss_t.realloc_count] at hfull; omega, hs, h2⟩
          obtain ⟨k, hk, ht, hdp⟩ := realloc_insert_adds n mt hdr old new hq
          rw [lss_realloc_insert] at hk
          simp only [bind, Except.bind, pure, Except.pure, hscan, hfull, if_false] at hk
          rw [hk] at h
          simp only [Except.ok.injEq] at h
          subst h
          have hlen : (mt.lss.realloc_list.take k
              ++ ({ old_offset := old, new_offset := new, block_header := hdr }
                    : lss_realloc_entry_t) :: mt.lss.realloc_list.drop k).length
                = mt.lss.realloc_list.length + 1 := by
            simp only [List.length_append, List.length_cons, List.length_take,
              List.length_drop]
            omega
          refine ⟨rfl, ?_, rfl, ?_, fun hx => ?_, fun _ => ⟨fun hge => ?_, fun _ => ⟨?_, ?_⟩⟩⟩
          · exact sorted_insert _ k
              { old_offset := old, new_offset := new, block_header := hdr } hs ht hdp
          · simp only [lss_t.realloc_count, hlen]
            exact hq.1
          · obtain ⟨x, hxm, hxo⟩ := hx
            have := h2 x hxm
            rcases hxo with e | e
            · exact absurd e this.1
            · exact absurd e this.2
          · exact absurd hge hfull
          · simp only [lss_t.realloc_count, hlen]
          · intro j
            obtain ⟨k2, hk2, _, _⟩ := realloc_insert_adds j mt hdr old new hq
            exact ⟨_, hk2⟩

theorem realloc_insert_keeps_buffer_sorted_witness :
    sorted_by_old relocated_table.lss.realloc_list
      ∧ relocated_table.lss.realloc_count ≤ relocated_table.lss.realloc_capacity
      ∧ 1 ≤ relocated_table.lss.realloc_capacity
      ∧ outcome (lss_realloc_insert 1 relocated_table 516 64 320) = .ok 0
      ∧ (state_after (lss_realloc_insert 1 relocated_table 516 64 320)).lss.realloc_list.map
          (fun x => x.old_offset) = [64, 128]
      ∧ sorted_by_old
          (state_after (lss_realloc_insert 1 relocated_table 516 64 320)).lss.realloc_list :=
  ⟨by decide!, by decide!, by decide!, by decide!, by decide!,
    (realloc_insert_keeps_buffer_sorted 1 relocated_table 516 64 320
      (0, state_after (lss_realloc_insert 1 relocated_table 516 64 320))
      (by decide!) (by decide!) (by decide!) (ok_of_outcome _ _ (by decide!))).2.1⟩

/-- C39 (failing input): on the table `mapping_table_init(name, 2401, 64, 67,
true)` of an erased device of six segments of 4096 bytes, the 27 updates
`(350·j mod 2401, j + 1)` return `MAPPING_TABLE_OK` and leave 61 pages in the
cache of the table and the head at 128.  Then 61 successful calls of
`lss_write` of one block bring the head to 4032, the last block of segment 0.
The 62nd call rotates to segment 1 (SEG_META of sequence number 1), and
leaves the head at 8192, the start of segment 2, whose first block is erased:
the segment of the head has no SEG_META.  The 63rd call writes at 8192 with no
rotation: the head is 8256 in segment 2, the first block of segment 2 is a
page of the table and not a SEG_META, the greatest sequence number on the
device is that of segment 1, and `lss_load_root_and_seg_meta` stops at the
`assert` of line 142. -/
theorem head_reaches_unmarked_segment :
    segment_start_report 200
      = some (61,
          [128, 0, 128, 0, 2, 0, 3, 18446744073709551615, 3, 18446744073709551615,
            3, 18446744073709551615, 3, 18446744073709551615, 3, 18446744073709551615],
          [4032, 0, 4032, 0, 2, 0, 3, 18446744073709551615, 3, 18446744073709551615,
            3, 18446744073709551615, 3, 18446744073709551615, 3, 18446744073709551615],
          [8192, 2, 0, 1, 2, 0, 2, 1, 3, 18446744073709551615,
            3, 18446744073709551615, 3, 18446744073709551615, 3, 18446744073709551615],
          [8256, 2, 64, 1, 2, 0, 2, 1, 0, 7744,
            3, 18446744073709551615, 3, 18446744073709551615, 3, 18446744073709551615],
          142) := by
  decide!

end Flash
